import Mathlib

/-!
# PlanOut compiler: the jison-generated parser `planout_compiler.js`

A shallow embedding of `src/planout-editor/js/utils/planout_compiler.js`:
the lexer (`lexer.rules`, `lexer.performAction`, `next`, `lex`), the LR table
(`table`, `productions_`, `defaultActions`), the semantic actions
(`performAction`) and the driver loop of `parse`.

Modelling conventions.
* A JavaScript string is a `String`; the lexer input is its list of characters.
* The stacks `stack` and `vstack` are lists whose head is the top of the stack,
  so `$$[$0-k]` is the element of index `k` of `vstack`.
* `while (true)` in `parse` is a loop over a fuel argument; `none` means the fuel
  ran out, `some (.error e)` that the source throws, `some (.ok v)` that it returns `v`.
* Location tracking (`yylloc`, `lstack`, `matched`, `offset`) is only used to build
  the text of error messages and is left out; so are the error-recovery variables
  (`recovering`, `preErrorSymbol`), which stay at their initial values because
  `parseError` throws.
-/

namespace PlanOut

/-! ## JavaScript values -/

/-- Numbers. IEEE doubles are not interpreted: an integer constant below `2^53`
is kept as that integer, any other numeric constant is identified by its text. -/
inductive JSNum where
  | int (i : Int)
  | dec (lexeme : String)

/-- JavaScript values that the parser builds. An object is the list of its own
properties in insertion order. -/
inductive JSVal where
  | undefined
  | null
  | bool (b : Bool)
  | num (n : JSNum)
  | str (s : String)
  | arr (items : List JSVal)
  | obj (props : List (String × JSVal))

/-- A token as `lexer.lex` returns it: a number, or (rule 24) the matched text. -/
inductive Token where
  | num (n : Nat)
  | name (s : String)
  deriving DecidableEq

/-- Failures of `parse`: what the source throws. -/
inductive ParseError where
  /-- Thrown by `lexer.next`: "Lexical error on line (line+1). Unrecognized text." -/
  | lexError (line : Nat)
  /-- Thrown by `parse`: "Parse error on line (msgLine+1)"; `token`, `line` and
  `expected` are the fields of the hash handed to `parseError`. -/
  | syntaxError (msgLine : Nat) (token : Option Token) (line : Nat) (expected : List Nat)
  /-- Thrown by `JSON.parse` inside action 41. -/
  | jsonError
  /-- A path the table never takes (a value of the wrong shape reaching an action,
  a missing goto entry); its JavaScript behaviour is not modelled. -/
  | unmodelled

/-- Reading `o[k]` among the own properties of an object. -/
def getProp (props : List (String × JSVal)) (k : String) : JSVal :=
  match props with
  | [] => .undefined
  | (k1, v1) :: ps => if k1 = k then v1 else getProp ps k

/-- Writing `o[k] = v`: an existing key keeps its position, a new key goes last. -/
def setProp (props : List (String × JSVal)) (k : String) (v : JSVal) :
    List (String × JSVal) :=
  match props with
  | [] => [(k, v)]
  | (k1, v1) :: ps => if k1 = k then (k1, v) :: ps else (k1, v1) :: setProp ps k v

/-! ## Character classes of the regular expressions -/

def dquote : Char := Char.ofNat 34

def squote : Char := Char.ofNat 39

def backslash : Char := Char.ofNat 92

/-- Line terminators, the characters `.` does not match: `\n`, `\r`, U+2028, U+2029. -/
def isLineTerminator (c : Char) : Bool :=
  c.toNat = 10 || c.toNat = 13 || c.toNat = 0x2028 || c.toNat = 0x2029

/-- The class `\s`: tab, line feed, vertical tab, form feed, carriage return, space,
U+00A0, U+1680, U+2000 to U+200A, U+2028, U+2029, U+202F, U+205F, U+3000, U+FEFF. -/
def isSpace (c : Char) : Bool :=
  (9 ≤ c.toNat && c.toNat ≤ 13) || c.toNat = 32 || c.toNat = 0xa0 || c.toNat = 0x1680 ||
  (0x2000 ≤ c.toNat && c.toNat ≤ 0x200a) || c.toNat = 0x2028 || c.toNat = 0x2029 ||
  c.toNat = 0x202f || c.toNat = 0x205f || c.toNat = 0x3000 || c.toNat = 0xfeff

/-- The class `[a-zA-Z]`. -/
def isLetter (c : Char) : Bool :=
  (97 ≤ c.toNat && c.toNat ≤ 122) || (65 ≤ c.toNat && c.toNat ≤ 90)

/-- The class `[0-9]`. -/
def isDigit (c : Char) : Bool := 48 ≤ c.toNat && c.toNat ≤ 57

/-- The class `[a-zA-Z0-9_]`, also the word characters of `\b`. -/
def isWordChar (c : Char) : Bool := isLetter c || isDigit c || c.toNat = 95

/-- The assertion `\b` right after a word character: the next character, if any,
is not a word character. -/
def wordBoundary (s : List Char) : Bool :=
  match s with
  | [] => true
  | c :: _ => !isWordChar c

/-! ## `lexer.rules`

Each rule maps the remaining input to `match[0]`, the text matched at its start. -/

/-- `/^(?:#(.)*\n)/` -/
def rule0 (s : List Char) : Option (List Char) :=
  match s with
  | c :: t =>
    if c = '#' then
      let body := t.takeWhile (fun d => !isLineTerminator d)
      match t.drop body.length with
      | d :: _ => if d = '\n' then some (c :: body ++ [d]) else none
      | [] => none
    else none
  | [] => none

/-- `/^(?:\s+)/` -/
def rule1 (s : List Char) : Option (List Char) :=
  match s.takeWhile isSpace with
  | [] => none
  | m => some m

/-- A word followed by `\b`: rules 2, 3, 4, 6, 7, 8, 9. -/
def keywordRule (kw : String) (s : List Char) : Option (List Char) :=
  if kw.data.isPrefixOf s && wordBoundary (s.drop kw.data.length) then some kw.data else none

/-- A fixed text: rules 5, 14 to 23. -/
def textRule (t : String) (s : List Char) : Option (List Char) :=
  if t.data.isPrefixOf s then some t.data else none

/-- `/^(?:[a-zA-Z][a-zA-Z0-9_]*)/` -/
def rule10 (s : List Char) : Option (List Char) :=
  match s with
  | c :: t => if isLetter c then some (c :: t.takeWhile isWordChar) else none
  | [] => none

/-- The optional sign `[-+]?`. -/
def signOf (s : List Char) : List Char :=
  match s with
  | c :: _ => if c = '-' || c = '+' then [c] else []
  | [] => []

/-- `[0-9]*\.?[0-9]+` at the start of `s`, with the backtracking of the regular
expression: digits, a point and digits; or, when no digit follows the point (or
there is no point), the digits alone, of which there must be one at least. -/
def mantissaOf (s : List Char) : Option (List Char) :=
  let ds := s.takeWhile isDigit
  let digitsOnly := if ds.isEmpty then none else some ds
  match s.drop ds.length with
  | c :: t =>
    if c = '.' then
      match t.takeWhile isDigit with
      | [] => digitsOnly
      | fs => some (ds ++ c :: fs)
    else digitsOnly
  | [] => digitsOnly

/-- `([eE][-+]?[0-9]+)?` at the start of `s`. -/
def exponentOf (s : List Char) : List Char :=
  match s with
  | e :: t =>
    if e = 'e' || e = 'E' then
      match (t.drop (signOf t).length).takeWhile isDigit with
      | [] => []
      | ds => e :: signOf t ++ ds
    else []
  | [] => []

/-- `/^(?:[-+]?[0-9]*\.?[0-9]+([eE][-+]?[0-9]+)?)/` -/
def rule11 (s : List Char) : Option (List Char) :=
  let sg := signOf s
  match mantissaOf (s.drop sg.length) with
  | none => none
  | some m => some (sg ++ m ++ exponentOf (s.drop (sg.length + m.length)))

/-- `(\\.|[^\\"])*"`: the text after the opening quote, up to and with the
closing quote. -/
def stringTail (s : List Char) : Option (List Char) :=
  match s with
  | [] => none
  | c :: t =>
    if c = dquote then some [c]
    else if c = backslash then
      match t with
      | [] => none
      | d :: u => if isLineTerminator d then none else (stringTail u).map (fun m => c :: d :: m)
    else (stringTail t).map (fun m => c :: m)

/-- `/^(?:"(\\.|[^\\"])*")/` -/
def rule12 (s : List Char) : Option (List Char) :=
  match s with
  | c :: t => if c = dquote then (stringTail t).map (fun m => c :: m) else none
  | [] => none

/-- `/^(?:'[^\']*')/` -/
def rule13 (s : List Char) : Option (List Char) :=
  match s with
  | c :: t =>
    if c = squote then
      let body := t.takeWhile (fun d => d != squote)
      match t.drop body.length with
      | d :: _ => some (c :: body ++ [d])
      | [] => none
    else none
  | [] => none

/-- `/^(?:=|:|\[|\]|\(|\)|,|\{|\}|\+|%|\*|-|\/|%|>|<|!)/` -/
def rule24 (s : List Char) : Option (List Char) :=
  match s with
  | c :: _ =>
    if c = '=' || c = ':' || c = '[' || c = ']' || c = '(' || c = ')' || c = ',' ||
       c = '{' || c = '}' || c = '+' || c = '%' || c = '*' || c = '-' || c = '/' ||
       c = '>' || c = '<' || c = '!' then some [c] else none
  | [] => none

/-- The array `rules`, in order. -/
def rules : List (List Char → Option (List Char)) :=
  [rule0, rule1, keywordRule "true", keywordRule "false", keywordRule "null",
   textRule "@", keywordRule "switch", keywordRule "if", keywordRule "else",
   keywordRule "return", rule10, rule11, rule12, rule13, textRule "<-",
   textRule "||", textRule "&&", textRule "??", textRule "==", textRule ">=",
   textRule "<=", textRule "!=", textRule "=>", textRule ";", rule24]

/-! ## The lexer -/

/-- The fields of the lexer object that `next` reads and writes. -/
structure Lexer where
  _input : List Char
  yytext : JSVal
  yylineno : Nat
  done : Bool

/-- `setInput`. -/
def setInput (input : String) : Lexer :=
  { _input := input.data, yytext := .str "", yylineno := 0, done := false }

/-- The number of matches of `/(?:\r\n?|\n).*/g` in a text: its line breaks,
`\r\n` counting once. -/
def lineBreaks (s : List Char) : Nat :=
  match s with
  | [] => 0
  | [c] => if c = '\r' || c = '\n' then 1 else 0
  | c :: d :: t =>
    if c = '\r' && d = '\n' then lineBreaks t + 1
    else if c = '\r' || c = '\n' then lineBreaks (d :: t) + 1
    else lineBreaks (d :: t)

/-- The value of a run of decimal digits. -/
def digitsValue (ds : List Char) : Nat :=
  ds.foldl (fun n c => 10 * n + (c.toNat - 48)) 0

/-- `Number(text)` on a match of rule 11. -/
def Number (text : String) : JSNum :=
  let ds := text.data.drop (signOf text.data).length
  if ds.all isDigit && decide (digitsValue ds < 2 ^ 53) then
    if signOf text.data = ['-'] then .int (- (digitsValue ds : Int)) else .int (digitsValue ds)
  else .dec text

/-- `text.substr(1, text.length - 2)`. -/
def stripQuotes (text : String) : String :=
  String.mk ((text.data.drop 1).take (text.data.length - 2))

/-- The lexer's `performAction`: the token returned for a rule (`none` when the
action returns nothing) and the new `yytext`. -/
def lexerAction (rule : Nat) (text : String) : Option Token × JSVal :=
  match rule with
  | 0 => (none, .str text)
  | 1 => (none, .str text)
  | 2 => (some (.num 15), .str text)
  | 3 => (some (.num 16), .str text)
  | 4 => (some (.num 17), .str text)
  | 5 => (some (.num 27), .str text)
  | 6 => (some (.num 50), .str text)
  | 7 => (some (.num 52), .str text)
  | 8 => (some (.num 55), .str text)
  | 9 => (some (.num 54), .str text)
  | 10 => (some (.num 8), .str text)
  | 11 => (some (.num 26), .num (Number text))
  | 12 => (some (.num 26), .str (stripQuotes text))
  | 13 => (some (.num 26), .str (stripQuotes text))
  | 14 => (some (.num 11), .str text)
  | 15 => (some (.num 41), .str text)
  | 16 => (some (.num 43), .str text)
  | 17 => (some (.num 42), .str text)
  | 18 => (some (.num 33), .str text)
  | 19 => (some (.num 36), .str text)
  | 20 => (some (.num 35), .str text)
  | 21 => (some (.num 34), .str text)
  | 22 => (some (.num 57), .str text)
  | 23 => (some (.num 7), .str text)
  | 24 => (some (.name text), .str text)
  | _ => (none, .str text)

/-- The loop of `next` over the rules: the index and match of the first rule that
matches (`options.flex` is unset, so the loop stops at the first match). -/
def firstMatch (rs : List (List Char → Option (List Char))) (i : Nat) (s : List Char) :
    Option (Nat × List Char) :=
  match rs with
  | [] => none
  | r :: rest =>
    match r s with
    | some m => some (i, m)
    | none => firstMatch rest (i + 1) s

/-- `test_match`: consume the match, count its line breaks and run the action. -/
def test_match (l : Lexer) (m : List Char) (rule : Nat) : Option Token × Lexer :=
  let act := lexerAction rule (String.mk m)
  let input := l._input.drop m.length
  (act.1, { _input := input, yytext := act.2, yylineno := l.yylineno + lineBreaks m,
            done := l.done && input.isEmpty })

/-- `next`: the next match in the input. `.ok (none, _)` is the result `false`
of a rule that produces no token; the end of input is the token `EOF = 1`. -/
def next (l : Lexer) : Except ParseError (Option Token × Lexer) :=
  if l.done then .ok (some (.num 1), l)
  else
    let l1 : Lexer := { l with done := l._input.isEmpty, yytext := .str "" }
    match firstMatch rules 0 l1._input with
    | some (i, m) => .ok (test_match l1 m i)
    | none =>
      if l1._input.isEmpty then .ok (some (.num 1), l1)
      else .error (.lexError l1.yylineno)

/-- `lex`: call `next` until it returns a token. Every call that returns no token
consumes input, so `fuel` above the length of the input is never used up. -/
def lexLoop (fuel : Nat) (l : Lexer) : Option (Except ParseError (Token × Lexer)) :=
  match fuel with
  | 0 => none
  | n + 1 =>
    match next l with
    | .error e => some (.error e)
    | .ok (some t, l1) => some (.ok (t, l1))
    | .ok (none, l1) => lexLoop n l1

def Lexer.lex (l : Lexer) : Option (Except ParseError (Token × Lexer)) :=
  lexLoop (l._input.length + 1) l

/-! ## The parser tables -/

/-- `symbols_`, restricted to the texts rule 24 can return. -/
def symbols_ (name : String) : Option Nat :=
  [("=", 9), ("[", 18), ("]", 20), ("(", 21), (")", 23), ("\x7b", 24), ("\x7d", 25),
   ("%", 29), ("/", 30), (">", 31), ("<", 32), ("+", 37), ("-", 38), ("*", 39),
   ("!", 40), (",", 44), (":", 47)].lookup name

/-- The keys of `terminals_`. -/
def terminals_ : List Nat :=
  [2, 7, 8, 9, 11, 15, 16, 17, 18, 20, 21, 23, 24, 25, 26, 27, 29, 30, 31, 32, 33, 34,
   35, 36, 37, 38, 39, 40, 41, 42, 43, 44, 47, 50, 52, 54, 55, 57]

/-- `productions_`: the left-hand side and the length of each production; the
entry of index 0 is the placeholder `0` of the source. -/
def productions_ : List (Nat × Nat) :=
  [(0, 0), (3, 1), (4, 0), (4, 2), (5, 1), (5, 2), (5, 4), (5, 4), (6, 1), (6, 1), (6, 1),
   (10, 1), (10, 1), (10, 1), (10, 1), (10, 3), (10, 4), (10, 4), (10, 3), (10, 3), (10, 1),
   (10, 2), (10, 3), (10, 3), (10, 3), (10, 3), (10, 3), (10, 3), (10, 3), (10, 3), (10, 3),
   (10, 3), (10, 3), (10, 2), (10, 2), (10, 3), (10, 3), (10, 3), (19, 0), (19, 1), (19, 3),
   (28, 1), (28, 1), (28, 3), (28, 3), (45, 0), (45, 1), (45, 3), (46, 0), (46, 3), (46, 5),
   (22, 0), (22, 1), (22, 1), (48, 3), (48, 5), (49, 1), (49, 3), (12, 4), (13, 6), (14, 2),
   (53, 0), (53, 2), (53, 2), (51, 0), (51, 3), (56, 3)]

/-- An entry of `table`: an action array (`[1, s]` shift, `[2, p]` reduce, `[3]`
accept) or a goto state. -/
inductive Entry where
  | arr (a : List Nat)
  | num (n : Nat)

/-- A row of `table`: the entries of one state, the first binding of a key counting. -/
abbrev Row := List (Nat × Entry)

/-- The helper `o` of the generated code: `o(k, v, base)` binds every key of `k`
to `v` in `base`. -/
def o (k : List Nat) (v : Entry) (base : Row) : Row :=
  k.map (fun key => (key, v)) ++ base

def V0 : Entry := .arr [2, 2]

def V1 : Entry := .arr [1, 5]

def V2 : Entry := .arr [1, 9]

def V3 : Entry := .arr [1, 10]

def V4 : Entry := .arr [1, 11]

def V5 : List Nat := [1, 8, 25, 50, 52, 54]

def V6 : List Nat := [1, 7, 8, 25, 50, 52, 54]

def V7 : Entry := .arr [1, 18]

def V8 : Entry := .arr [1, 19]

def V9 : Entry := .arr [1, 20]

def Va : Entry := .arr [1, 21]

def Vb : Entry := .arr [1, 22]

def Vc : Entry := .arr [1, 24]

def Vd : Entry := .arr [1, 23]

def Ve : Entry := .arr [1, 25]

def Vf : Entry := .arr [1, 26]

def Vg : Entry := .arr [1, 27]

def Vh : Entry := .arr [1, 28]

def Vi : List Nat := [8, 15, 16, 17, 18, 21, 24, 25, 26, 27, 38, 40]

def Vj : Entry := .arr [1, 33]

def Vk : Entry := .arr [1, 34]

def Vl : Entry := .arr [1, 35]

def Vm : Entry := .arr [1, 36]

def Vn : Entry := .arr [1, 37]

def Vo : Entry := .arr [1, 38]

def Vp : Entry := .arr [1, 39]

def Vq : Entry := .arr [1, 40]

def Vr : Entry := .arr [1, 41]

def Vs : Entry := .arr [1, 42]

def Vt : Entry := .arr [1, 43]

def Vu : Entry := .arr [1, 44]

def Vv : Entry := .arr [1, 45]

def Vw : Entry := .arr [1, 46]

def Vx : Entry := .arr [1, 47]

def Vy : List Nat := [1, 7, 8, 18, 20, 23, 25, 29, 30, 31, 32, 33, 34, 35, 36, 37, 38, 39, 41, 42, 43, 44, 50, 52, 54, 55, 57]

def Vz : Entry := .arr [2, 11]

def VA : Entry := .arr [1, 48]

def VB : List Nat := [20, 44]

def VC : Entry := .arr [1, 54]

def VD : Entry := .arr [1, 56]

def VE : Entry := .arr [1, 57]

def VF : Entry := .arr [1, 55]

def VG : List Nat := [1, 7, 8, 18, 20, 23, 25, 29, 30, 31, 32, 33, 34, 35, 36, 37, 38, 39, 41, 42, 43, 44, 47, 50, 52, 54, 55, 57]

def VH : List Nat := [25, 44]

def VI : List Nat := [1, 7, 8, 20, 23, 25, 31, 32, 33, 34, 35, 36, 37, 38, 41, 42, 43, 44, 50, 52, 54, 55, 57]

def VJ : List Nat := [1, 7, 8, 20, 23, 25, 29, 30, 31, 32, 33, 34, 35, 36, 37, 38, 39, 41, 42, 43, 44, 50, 52, 54, 55, 57]

def VK : List Nat := [1, 7, 8, 20, 23, 25, 31, 32, 33, 34, 35, 36, 41, 42, 43, 44, 50, 52, 54, 55, 57]

def VL : List Nat := [1, 7, 8, 20, 23, 25, 41, 42, 43, 44, 50, 52, 54, 55, 57]

def VM : List Nat := [23, 44]

/-- `table`, as the source writes it. -/
def table : List Row := [
  o [1, 8, 50, 52, 54] V0 [(3, .num 1), (4, .num 2)],
  [(1, .arr [3])],
  [(1, .arr [2, 1]), (5, .num 3), (6, .num 4), (8, V1), (12, .num 6), (13, .num 7), (14, .num 8), (50, V2), (52, V3), (54, V4)],
  o V5 (.arr [2, 3]) [],
  o V5 (.arr [2, 4]) [(7, .arr [1, 12])],
  [(9, .arr [1, 13]), (11, .arr [1, 14])],
  o V6 (.arr [2, 8]) [],
  o V6 (.arr [2, 9]) [],
  o V6 (.arr [2, 10]) [],
  [(24, .arr [1, 15])],
  [(21, .arr [1, 16])],
  [(8, V7), (10, .num 17), (15, V8), (16, V9), (17, Va), (18, Vb), (21, Vc), (24, Vd), (26, Ve), (27, Vf), (38, Vg), (40, Vh)],
  o V5 (.arr [2, 5]) [],
  [(8, V7), (10, .num 29), (15, V8), (16, V9), (17, Va), (18, Vb), (21, Vc), (24, Vd), (26, Ve), (27, Vf), (38, Vg), (40, Vh)],
  [(8, V7), (10, .num 30), (15, V8), (16, V9), (17, Va), (18, Vb), (21, Vc), (24, Vd), (26, Ve), (27, Vf), (38, Vg), (40, Vh)],
  o Vi (.arr [2, 64]) [(51, .num 31)],
  [(8, V7), (10, .num 32), (15, V8), (16, V9), (17, Va), (18, Vb), (21, Vc), (24, Vd), (26, Ve), (27, Vf), (38, Vg), (40, Vh)],
  o V6 (.arr [2, 60]) [(18, Vj), (29, Vk), (30, Vl), (31, Vm), (32, Vn), (33, Vo), (34, Vp), (35, Vq), (36, Vr), (37, Vs), (38, Vt), (39, Vu), (41, Vv), (42, Vw), (43, Vx)],
  o Vy Vz [(21, VA)],
  o Vy (.arr [2, 12]) [],
  o Vy (.arr [2, 13]) [],
  o Vy (.arr [2, 14]) [],
  o VB (.arr [2, 38]) [(19, .num 49), (10, .num 50), (8, V7), (15, V8), (16, V9), (17, Va), (18, Vb), (21, Vc), (24, Vd), (26, Ve), (27, Vf), (38, Vg), (40, Vh)],
  o [8, 25, 50, 52, 54] V0 [(4, .num 51)],
  [(8, V7), (10, .num 52), (15, V8), (16, V9), (17, Va), (18, Vb), (21, Vc), (24, Vd), (26, Ve), (27, Vf), (38, Vg), (40, Vh)],
  o Vy (.arr [2, 20]) [],
  [(8, VC), (18, VD), (24, VE), (26, VF), (28, .num 53)],
  [(8, V7), (10, .num 58), (15, V8), (16, V9), (17, Va), (18, Vb), (21, Vc), (24, Vd), (26, Ve), (27, Vf), (38, Vg), (40, Vh)],
  [(8, V7), (10, .num 59), (15, V8), (16, V9), (17, Va), (18, Vb), (21, Vc), (24, Vd), (26, Ve), (27, Vf), (38, Vg), (40, Vh)],
  [(7, .arr [1, 60]), (18, Vj), (29, Vk), (30, Vl), (31, Vm), (32, Vn), (33, Vo), (34, Vp), (35, Vq), (36, Vr), (37, Vs), (38, Vt), (39, Vu), (41, Vv), (42, Vw), (43, Vx)],
  [(7, .arr [1, 61]), (18, Vj), (29, Vk), (30, Vl), (31, Vm), (32, Vn), (33, Vo), (34, Vp), (35, Vq), (36, Vr), (37, Vs), (38, Vt), (39, Vu), (41, Vv), (42, Vw), (43, Vx)],
  [(8, V7), (10, .num 64), (15, V8), (16, V9), (17, Va), (18, Vb), (21, Vc), (24, Vd), (25, .arr [1, 62]), (26, Ve), (27, Vf), (38, Vg), (40, Vh), (56, .num 63)],
  [(18, Vj), (23, .arr [1, 65]), (29, Vk), (30, Vl), (31, Vm), (32, Vn), (33, Vo), (34, Vp), (35, Vq), (36, Vr), (37, Vs), (38, Vt), (39, Vu), (41, Vv), (42, Vw), (43, Vx)],
  [(8, V7), (10, .num 66), (15, V8), (16, V9), (17, Va), (18, Vb), (21, Vc), (24, Vd), (26, Ve), (27, Vf), (38, Vg), (40, Vh)],
  [(8, V7), (10, .num 67), (15, V8), (16, V9), (17, Va), (18, Vb), (21, Vc), (24, Vd), (26, Ve), (27, Vf), (38, Vg), (40, Vh)],
  [(8, V7), (10, .num 68), (15, V8), (16, V9), (17, Va), (18, Vb), (21, Vc), (24, Vd), (26, Ve), (27, Vf), (38, Vg), (40, Vh)],
  [(8, V7), (10, .num 69), (15, V8), (16, V9), (17, Va), (18, Vb), (21, Vc), (24, Vd), (26, Ve), (27, Vf), (38, Vg), (40, Vh)],
  [(8, V7), (10, .num 70), (15, V8), (16, V9), (17, Va), (18, Vb), (21, Vc), (24, Vd), (26, Ve), (27, Vf), (38, Vg), (40, Vh)],
  [(8, V7), (10, .num 71), (15, V8), (16, V9), (17, Va), (18, Vb), (21, Vc), (24, Vd), (26, Ve), (27, Vf), (38, Vg), (40, Vh)],
  [(8, V7), (10, .num 72), (15, V8), (16, V9), (17, Va), (18, Vb), (21, Vc), (24, Vd), (26, Ve), (27, Vf), (38, Vg), (40, Vh)],
  [(8, V7), (10, .num 73), (15, V8), (16, V9), (17, Va), (18, Vb), (21, Vc), (24, Vd), (26, Ve), (27, Vf), (38, Vg), (40, Vh)],
  [(8, V7), (10, .num 74), (15, V8), (16, V9), (17, Va), (18, Vb), (21, Vc), (24, Vd), (26, Ve), (27, Vf), (38, Vg), (40, Vh)],
  [(8, V7), (10, .num 75), (15, V8), (16, V9), (17, Va), (18, Vb), (21, Vc), (24, Vd), (26, Ve), (27, Vf), (38, Vg), (40, Vh)],
  [(8, V7), (10, .num 76), (15, V8), (16, V9), (17, Va), (18, Vb), (21, Vc), (24, Vd), (26, Ve), (27, Vf), (38, Vg), (40, Vh)],
  [(8, V7), (10, .num 77), (15, V8), (16, V9), (17, Va), (18, Vb), (21, Vc), (24, Vd), (26, Ve), (27, Vf), (38, Vg), (40, Vh)],
  [(8, V7), (10, .num 78), (15, V8), (16, V9), (17, Va), (18, Vb), (21, Vc), (24, Vd), (26, Ve), (27, Vf), (38, Vg), (40, Vh)],
  [(8, V7), (10, .num 79), (15, V8), (16, V9), (17, Va), (18, Vb), (21, Vc), (24, Vd), (26, Ve), (27, Vf), (38, Vg), (40, Vh)],
  [(8, V7), (10, .num 80), (15, V8), (16, V9), (17, Va), (18, Vb), (21, Vc), (24, Vd), (26, Ve), (27, Vf), (38, Vg), (40, Vh)],
  [(8, .arr [1, 84]), (10, .num 85), (15, V8), (16, V9), (17, Va), (18, Vb), (21, Vc), (22, .num 81), (23, .arr [2, 51]), (24, Vd), (26, Ve), (27, Vf), (38, Vg), (40, Vh), (48, .num 82), (49, .num 83)],
  [(20, .arr [1, 86]), (44, .arr [1, 87])],
  o VB (.arr [2, 39]) [(18, Vj), (29, Vk), (30, Vl), (31, Vm), (32, Vn), (33, Vo), (34, Vp), (35, Vq), (36, Vr), (37, Vs), (38, Vt), (39, Vu), (41, Vv), (42, Vw), (43, Vx)],
  [(5, .num 3), (6, .num 4), (8, V1), (12, .num 6), (13, .num 7), (14, .num 8), (25, .arr [1, 88]), (50, V2), (52, V3), (54, V4)],
  [(18, Vj), (23, .arr [1, 89]), (29, Vk), (30, Vl), (31, Vm), (32, Vn), (33, Vo), (34, Vp), (35, Vq), (36, Vr), (37, Vs), (38, Vt), (39, Vu), (41, Vv), (42, Vw), (43, Vx)],
  o Vy (.arr [2, 21]) [],
  o VG (.arr [2, 41]) [],
  o VG (.arr [2, 42]) [],
  o VB (.arr [2, 45]) [(45, .num 90), (28, .num 91), (8, VC), (18, VD), (24, VE), (26, VF)],
  o VH (.arr [2, 48]) [(46, .num 92), (28, .num 93), (8, VC), (18, VD), (24, VE), (26, VF)],
  o VI (.arr [2, 33]) [(18, Vj), (29, Vk), (30, Vl), (39, Vu)],
  o [1, 7, 8, 20, 23, 25, 44, 50, 52, 54, 55, 57] (.arr [2, 34]) [(18, Vj), (29, Vk), (30, Vl), (31, Vm), (32, Vn), (33, Vo), (34, Vp), (35, Vq), (36, Vr), (37, Vs), (38, Vt), (39, Vu), (41, Vv), (42, Vw), (43, Vx)],
  o V5 (.arr [2, 6]) [],
  o V5 (.arr [2, 7]) [],
  o V6 (.arr [2, 58]) [],
  [(7, .arr [1, 94])],
  [(18, Vj), (29, Vk), (30, Vl), (31, Vm), (32, Vn), (33, Vo), (34, Vp), (35, Vq), (36, Vr), (37, Vs), (38, Vt), (39, Vu), (41, Vv), (42, Vw), (43, Vx), (57, .arr [1, 95])],
  [(8, V7), (10, .num 96), (15, V8), (16, V9), (17, Va), (18, Vb), (21, Vc), (24, Vd), (26, Ve), (27, Vf), (38, Vg), (40, Vh)],
  [(18, Vj), (20, .arr [1, 97]), (29, Vk), (30, Vl), (31, Vm), (32, Vn), (33, Vo), (34, Vp), (35, Vq), (36, Vr), (37, Vs), (38, Vt), (39, Vu), (41, Vv), (42, Vw), (43, Vx)],
  o VJ (.arr [2, 22]) [(18, Vj)],
  o VJ (.arr [2, 23]) [(18, Vj)],
  o VK (.arr [2, 24]) [(18, Vj), (29, Vk), (30, Vl), (37, Vs), (38, Vt), (39, Vu)],
  o VK (.arr [2, 25]) [(18, Vj), (29, Vk), (30, Vl), (37, Vs), (38, Vt), (39, Vu)],
  o VK (.arr [2, 26]) [(18, Vj), (29, Vk), (30, Vl), (37, Vs), (38, Vt), (39, Vu)],
  o VK (.arr [2, 27]) [(18, Vj), (29, Vk), (30, Vl), (37, Vs), (38, Vt), (39, Vu)],
  o VK (.arr [2, 28]) [(18, Vj), (29, Vk), (30, Vl), (37, Vs), (38, Vt), (39, Vu)],
  o VK (.arr [2, 29]) [(18, Vj), (29, Vk), (30, Vl), (37, Vs), (38, Vt), (39, Vu)],
  o VI (.arr [2, 30]) [(18, Vj), (29, Vk), (30, Vl), (39, Vu)],
  o VI (.arr [2, 31]) [(18, Vj), (29, Vk), (30, Vl), (39, Vu)],
  o VJ (.arr [2, 32]) [(18, Vj)],
  o VL (.arr [2, 35]) [(18, Vj), (29, Vk), (30, Vl), (31, Vm), (32, Vn), (33, Vo), (34, Vp), (35, Vq), (36, Vr), (37, Vs), (38, Vt), (39, Vu)],
  o VL (.arr [2, 36]) [(18, Vj), (29, Vk), (30, Vl), (31, Vm), (32, Vn), (33, Vo), (34, Vp), (35, Vq), (36, Vr), (37, Vs), (38, Vt), (39, Vu)],
  o VL (.arr [2, 37]) [(18, Vj), (29, Vk), (30, Vl), (31, Vm), (32, Vn), (33, Vo), (34, Vp), (35, Vq), (36, Vr), (37, Vs), (38, Vt), (39, Vu)],
  [(23, .arr [1, 98])],
  [(23, .arr [2, 52]), (44, .arr [1, 99])],
  [(23, .arr [2, 53]), (44, .arr [1, 100])],
  o [18, 23, 29, 30, 31, 32, 33, 34, 35, 36, 37, 38, 39, 41, 42, 43, 44] Vz [(9, .arr [1, 101]), (21, VA)],
  o VM (.arr [2, 56]) [(18, Vj), (29, Vk), (30, Vl), (31, Vm), (32, Vn), (33, Vo), (34, Vp), (35, Vq), (36, Vr), (37, Vs), (38, Vt), (39, Vu), (41, Vv), (42, Vw), (43, Vx)],
  o Vy (.arr [2, 15]) [],
  [(8, V7), (10, .num 102), (15, V8), (16, V9), (17, Va), (18, Vb), (21, Vc), (24, Vd), (26, Ve), (27, Vf), (38, Vg), (40, Vh)],
  o Vy (.arr [2, 18]) [],
  o Vy (.arr [2, 19]) [],
  [(20, .arr [1, 103]), (44, .arr [1, 104])],
  o VB (.arr [2, 46]) [],
  [(25, .arr [1, 105]), (44, .arr [1, 106])],
  [(47, .arr [1, 107])],
  o Vi (.arr [2, 65]) [],
  [(6, .num 108), (12, .num 6), (13, .num 7), (14, .num 8), (50, V2), (52, V3), (54, V4)],
  o V6 (.arr [2, 61]) [(53, .num 109), (18, Vj), (29, Vk), (30, Vl), (31, Vm), (32, Vn), (33, Vo), (34, Vp), (35, Vq), (36, Vr), (37, Vs), (38, Vt), (39, Vu), (41, Vv), (42, Vw), (43, Vx), (55, .arr [1, 110])],
  o Vy (.arr [2, 17]) [],
  o Vy (.arr [2, 16]) [],
  [(8, .arr [1, 111])],
  [(8, V7), (10, .num 112), (15, V8), (16, V9), (17, Va), (18, Vb), (21, Vc), (24, Vd), (26, Ve), (27, Vf), (38, Vg), (40, Vh)],
  [(8, V7), (10, .num 113), (15, V8), (16, V9), (17, Va), (18, Vb), (21, Vc), (24, Vd), (26, Ve), (27, Vf), (38, Vg), (40, Vh)],
  o VB (.arr [2, 40]) [(18, Vj), (29, Vk), (30, Vl), (31, Vm), (32, Vn), (33, Vo), (34, Vp), (35, Vq), (36, Vr), (37, Vs), (38, Vt), (39, Vu), (41, Vv), (42, Vw), (43, Vx)],
  o VG (.arr [2, 43]) [],
  [(8, VC), (18, VD), (24, VE), (26, VF), (28, .num 114)],
  o VG (.arr [2, 44]) [],
  [(8, VC), (18, VD), (24, VE), (26, VF), (28, .num 115)],
  [(8, VC), (18, VD), (24, VE), (26, VF), (28, .num 116)],
  [(7, .arr [2, 66])],
  o V6 (.arr [2, 59]) [],
  [(8, V7), (10, .num 118), (13, .num 117), (15, V8), (16, V9), (17, Va), (18, Vb), (21, Vc), (24, Vd), (26, Ve), (27, Vf), (38, Vg), (40, Vh), (52, V3)],
  [(9, .arr [1, 119])],
  o VM (.arr [2, 57]) [(18, Vj), (29, Vk), (30, Vl), (31, Vm), (32, Vn), (33, Vo), (34, Vp), (35, Vq), (36, Vr), (37, Vs), (38, Vt), (39, Vu), (41, Vv), (42, Vw), (43, Vx)],
  o VM (.arr [2, 54]) [(18, Vj), (29, Vk), (30, Vl), (31, Vm), (32, Vn), (33, Vo), (34, Vp), (35, Vq), (36, Vr), (37, Vs), (38, Vt), (39, Vu), (41, Vv), (42, Vw), (43, Vx)],
  o VB (.arr [2, 47]) [],
  [(47, .arr [1, 120])],
  o VH (.arr [2, 49]) [],
  o V6 (.arr [2, 62]) [],
  o V6 (.arr [2, 63]) [(18, Vj), (29, Vk), (30, Vl), (31, Vm), (32, Vn), (33, Vo), (34, Vp), (35, Vq), (36, Vr), (37, Vs), (38, Vt), (39, Vu), (41, Vv), (42, Vw), (43, Vx)],
  [(8, V7), (10, .num 121), (15, V8), (16, V9), (17, Va), (18, Vb), (21, Vc), (24, Vd), (26, Ve), (27, Vf), (38, Vg), (40, Vh)],
  [(8, VC), (18, VD), (24, VE), (26, VF), (28, .num 122)],
  o VM (.arr [2, 55]) [(18, Vj), (29, Vk), (30, Vl), (31, Vm), (32, Vn), (33, Vo), (34, Vp), (35, Vq), (36, Vr), (37, Vs), (38, Vt), (39, Vu), (41, Vv), (42, Vw), (43, Vx)],
  o VH (.arr [2, 50]) []
]

/-- `defaultActions`. -/
def defaultActions (state : Nat) : Option Entry :=
  if state = 108 then some (.arr [2, 66]) else none

/-- `table[state][symbol]`. -/
def tableEntry (state symbol : Nat) : Option Entry :=
  match table.get? state with
  | none => none
  | some row => row.lookup symbol

/-! ## Semantic actions -/

/-- `a.push(x)` on an array. -/
def push (a x : JSVal) : Except ParseError JSVal :=
  match a with
  | .arr items => .ok (.arr (items ++ [x]))
  | _ => .error .unmodelled

/-- The text of a value used as a property key, for the values whose conversion
is modelled: strings, integers, booleans, `null`, `undefined` and objects. -/
def keyText (key : JSVal) : Option String :=
  match key with
  | .str s => some s
  | .num (.int i) => some (toString i)
  | .bool true => some "true"
  | .bool false => some "false"
  | .null => some "null"
  | .undefined => some "undefined"
  | .obj _ => some "[object Object]"
  | _ => none

/-- `target[key] = v` on an object. -/
def setIndex (target key v : JSVal) : Except ParseError JSVal :=
  match target, keyText key with
  | .obj props, some k => .ok (.obj (setProp props k v))
  | _, _ => .error .unmodelled

/-- The word characters test on a whole text: `[a-zA-Z][a-zA-Z0-9_]*`. -/
def isWord (s : String) : Bool :=
  match s.data with
  | c :: t => isLetter c && t.all isWordChar
  | [] => false

/-- `JSON.parse(x)` for `x` the text of an `IDENTIFIER` token, the only argument
action 41 passes: among the texts `[a-zA-Z][a-zA-Z0-9_]*` the JSON grammar accepts
`true`, `false` and `null` only, and `JSON.parse` throws on the others. -/
def JSON_parse (x : JSVal) : Except ParseError JSVal :=
  match x with
  | .str s =>
    if s = "true" then .ok (.bool true)
    else if s = "false" then .ok (.bool false)
    else if s = "null" then .ok .null
    else if isWord s then .error .jsonError
    else .error .unmodelled
  | _ => .error .unmodelled

/-- Action 53: `if ($$[$0]["values"].length > 1) this.$ = $$[$0]; else
this.$ = {"value": $$[$0]["values"][0]}`. -/
def action53 (v0 : JSVal) : Except ParseError JSVal :=
  match v0 with
  | .obj props =>
    match getProp props "values" with
    | .arr items =>
      if items.length > 1 then .ok v0 else .ok (.obj [("value", items.getD 0 .undefined)])
    | _ => .error .unmodelled
  | _ => .error .unmodelled

/-- Action 57: `this.$ = $$[$0-2]; this.$["values"].push($$[$0])`. -/
def action57 (v2 v0 : JSVal) : Except ParseError JSVal :=
  match v2 with
  | .obj props =>
    match getProp props "values" with
    | .arr items => .ok (.obj (setProp props "values" (.arr (items ++ [v0]))))
    | _ => .error .unmodelled
  | _ => .error .unmodelled

/-- Action 16: `this.$ = $$[$0-1]; this.$["op"] = $$[$0-3]`. -/
def action16 (v3 v1 : JSVal) : Except ParseError JSVal :=
  match v1 with
  | .obj props => .ok (.obj (setProp props "op" v3))
  | _ => .error .unmodelled

/-- Action 59: `this.$ = {"op": "cond", "cond": [{"if": $$[$0-3], "then": $$[$0-1]}]};
if ($$[$0]["cond"]) this.$["cond"] = this.$["cond"].concat($$[$0]["cond"])`. -/
def action59 (v3 v1 v0 : JSVal) : Except ParseError JSVal :=
  let first : JSVal := .obj [("if", v3), ("then", v1)]
  match v0 with
  | .obj props =>
    match getProp props "cond" with
    | .undefined => .ok (.obj [("op", .str "cond"), ("cond", .arr [first])])
    | .arr more => .ok (.obj [("op", .str "cond"), ("cond", .arr (first :: more))])
    | _ => .error .unmodelled
  | _ => .error .unmodelled

/-- The parser's `performAction(…, yystate, $$, …)`: the value left in `this.$`
and, for action 1, the value it returns. `vstack` has its top first, so
`$$[$0-k]` is `v k`. -/
def performAction (yystate : Nat) (vstack : List JSVal) :
    Except ParseError (JSVal × Option JSVal) :=
  let v := fun k => vstack.getD k .undefined
  let set := fun (r : JSVal) => (Except.ok (r, none) : Except ParseError (JSVal × Option JSVal))
  let bin := fun (op : String) => set (.obj [("op", .str op), ("left", v 2), ("right", v 0)])
  let nary := fun (op : String) => set (.obj [("op", .str op), ("values", .arr [v 2, v 0])])
  match yystate with
  | 1 =>
    let r : JSVal := .obj [("op", .str "seq"), ("seq", v 0)]
    .ok (r, some r)
  | 2 | 38 | 45 | 64 => set (.arr [])
  | 3 => (push (v 1) (v 0)).bind set
  | 4 | 8 | 9 | 10 | 20 | 42 | 52 | 62 => set (v 0)
  | 5 | 19 | 43 | 44 => set (v 1)
  | 6 | 7 => set (.obj [("op", .str "set"), ("var", v 3), ("value", v 1)])
  | 11 => set (.obj [("op", .str "get"), ("var", v 0)])
  | 12 => set (.bool true)
  | 13 => set (.bool false)
  | 14 => set .null
  | 15 => set (.obj [("op", .str "array"), ("values", v 1)])
  | 16 => (action16 (v 3) (v 1)).bind set
  | 17 => set (.obj [("op", .str "index"), ("base", v 3), ("index", v 1)])
  | 18 => set (.obj [("op", .str "seq"), ("seq", v 1)])
  | 21 => set (.obj [("op", .str "literal"), ("value", v 0)])
  | 22 => bin "%"
  | 23 => bin "/"
  | 24 => bin ">"
  | 25 => bin "<"
  | 26 => bin "equals"
  | 27 => set (.obj [("op", .str "not"),
            ("value", .obj [("op", .str "equals"), ("left", v 2), ("right", v 0)])])
  | 28 => bin "<="
  | 29 => bin ">="
  | 30 => nary "sum"
  | 31 => set (.obj [("op", .str "sum"),
            ("values", .arr [v 2, .obj [("op", .str "negative"), ("value", v 0)]])])
  | 32 => nary "product"
  | 33 => set (.obj [("op", .str "negative"), ("value", v 0)])
  | 34 => set (.obj [("op", .str "not"), ("value", v 0)])
  | 35 => nary "or"
  | 36 => nary "coalesce"
  | 37 => nary "and"
  | 39 => set (.arr [v 0])
  | 40 | 47 => (push (v 2) (v 0)).bind set
  | 41 => (JSON_parse (v 0)).bind set
  | 46 => set (.arr [v 0])
  | 48 | 51 | 61 => set (.obj [])
  | 49 | 54 => (setIndex (.obj []) (v 2) (v 0)).bind set
  | 50 | 55 => (setIndex (v 4) (v 2) (v 0)).bind set
  | 53 => (action53 (v 0)).bind set
  | 56 => set (.obj [("values", .arr [v 0])])
  | 57 => (action57 (v 2) (v 0)).bind set
  | 58 => set (.obj [("op", .str "switch"), ("cases", v 1)])
  | 59 => (action59 (v 3) (v 1) (v 0)).bind set
  | 60 => set (.obj [("op", .str "return"), ("value", v 0)])
  | 63 => set (.obj [("op", .str "cond"),
            ("cond", .arr [.obj [("if", .bool true), ("then", v 0)]])])
  | 65 => (push (v 2) (v 1)).bind set
  | 66 => set (.obj [("op", .str "case"), ("condidion", v 2), ("result", v 0)])
  | _ => .error .unmodelled

/-! ## The driver `parse` -/

/-- The result of one turn of the loop: go on with new stacks, or return a value. -/
inductive Outcome where
  | next (stack : List Nat) (vstack : List JSVal)
  | ret (r : JSVal)

/-- `case 2` of the driver: reduce by production `p`. -/
def reduce (p : Nat) (stack : List Nat) (vstack : List JSVal) : Except ParseError Outcome :=
  match productions_.get? p with
  | none => .error .unmodelled
  | some (lhs, len) =>
    match performAction p vstack with
    | .error e => .error e
    | .ok (_, some r) => .ok (.ret r)
    | .ok (yyval, none) =>
      match stack.drop (2 * len) with
      | [] => .error .unmodelled
      | below :: rest =>
        match tableEntry below lhs with
        | some (.num newState) =>
          .ok (.next (newState :: lhs :: below :: rest) (yyval :: vstack.drop len))
        | _ => .error .unmodelled

/-- The keys of `table[state]` that are terminals above `TERROR`. -/
def expected (state : Nat) : List Nat :=
  terminals_.filter (fun t => decide (2 < t) && (tableEntry state t).isSome)

/-- The table lookup `table[state][symbol]` for a symbol as `lex` returns it: a
text that `symbols_` does not know has no entry. -/
def actionFor (state : Nat) (symbol : Token) : Option Entry :=
  match symbol with
  | .num n => tableEntry state n
  | .name _ => none

/-- The turn of the loop once `action` is known: `symbol` is the lookahead,
`yytext` and `line` the fields `lexer.yytext` and `lexer.yylineno`, `yylineno` the
parser variable of that name. The result also gives the new `symbol` and `yylineno`. -/
def perform (action : Option Entry) (stack : List Nat) (vstack : List JSVal)
    (symbol : Option Token) (yytext : JSVal) (line yylineno : Nat) :
    Except ParseError (Outcome × Option Token × Nat) :=
  match action with
  | some (.arr (1 :: rest)) =>
    match symbol, rest with
    | some (.num sym), newState :: _ =>
      .ok (.next (newState :: sym :: stack) (yytext :: vstack), none, line)
    | _, _ => .error .unmodelled
  | some (.arr (2 :: rest)) =>
    match rest with
    | p :: _ => (reduce p stack vstack).map (fun out => (out, symbol, yylineno))
    | [] => .error .unmodelled
  | some (.arr (3 :: _)) => .ok (.ret (.bool true), symbol, yylineno)
  | some (.arr (0 :: _)) | some (.arr []) | some (.num _) | none =>
    .error (.syntaxError yylineno symbol line (expected (stack.headD 0)))
  | some (.arr (_ :: _)) => .ok (.next stack vstack, symbol, yylineno)

/-- `symbols_[token] || token` in the function `lex` of `parse`. -/
def resolve (t : Token) : Token :=
  match t with
  | .num n => .num n
  | .name s =>
    match symbols_ s with
    | some n => .num n
    | none => .name s

/-- What `parse` uses of its lexer object: the method `lex` and the fields
`yytext` and `yylineno`. -/
structure LexerOps (σ : Type) where
  lex : σ → Option (Except ParseError (Token × σ))
  yytext : σ → JSVal
  yylineno : σ → Nat

/-- The local variables of `parse` that change in the loop, and the lexer. -/
structure Parser (σ : Type) where
  stack : List Nat
  vstack : List JSVal
  symbol : Option Token
  yylineno : Nat
  lexer : σ

/-- The end of a turn of the loop, from the result of `perform`. -/
def finish {σ : Type} (lexer : σ) (r : Except ParseError (Outcome × Option Token × Nat)) :
    Option (Except ParseError (Parser σ ⊕ JSVal)) :=
  match r with
  | .error e => some (.error e)
  | .ok (.ret v, _, _) => some (.ok (.inr v))
  | .ok (.next stack vstack, symbol, yylineno) =>
    some (.ok (.inl { stack := stack, vstack := vstack, symbol := symbol,
                      yylineno := yylineno, lexer := lexer }))

/-- One turn of `while (true)`. `none`: the lexer ran out of fuel. -/
def step {σ : Type} (ops : LexerOps σ) (p : Parser σ) :
    Option (Except ParseError (Parser σ ⊕ JSVal)) :=
  match p.stack with
  | [] => some (.error .unmodelled)
  | state :: _ =>
    match defaultActions state with
    | some action =>
      finish p.lexer (perform (some action) p.stack p.vstack p.symbol
        (ops.yytext p.lexer) (ops.yylineno p.lexer) p.yylineno)
    | none =>
      match p.symbol with
      | some symbol =>
        finish p.lexer (perform (actionFor state symbol) p.stack p.vstack (some symbol)
          (ops.yytext p.lexer) (ops.yylineno p.lexer) p.yylineno)
      | none =>
        match ops.lex p.lexer with
        | none => none
        | some (.error e) => some (.error e)
        | some (.ok (t, lexer)) =>
          finish lexer (perform (actionFor state (resolve t)) p.stack p.vstack
            (some (resolve t)) (ops.yytext lexer) (ops.yylineno lexer) p.yylineno)

/-- The loop of `parse`. -/
def parseLoop {σ : Type} (ops : LexerOps σ) (fuel : Nat) (p : Parser σ) :
    Option (Except ParseError JSVal) :=
  match fuel with
  | 0 => none
  | n + 1 =>
    match step ops p with
    | none => none
    | some (.error e) => some (.error e)
    | some (.ok (.inr r)) => some (.ok r)
    | some (.ok (.inl p1)) => parseLoop ops n p1

/-- The lexer object of the file. -/
def lexer : LexerOps Lexer :=
  { lex := Lexer.lex, yytext := Lexer.yytext, yylineno := Lexer.yylineno }

/-- The state of `parse` before the loop. -/
def initial {σ : Type} (lexer : σ) : Parser σ :=
  { stack := [0], vstack := [.null], symbol := none, yylineno := 0, lexer := lexer }

/-- `parser.parse(input)`. -/
def parse (fuel : Nat) (input : String) : Option (Except ParseError JSVal) :=
  parseLoop lexer fuel (initial (setInput input))

/-! ## Token streams

The driver reads its lexer through `lex`, `yytext` and `yylineno` only, so a run
of `parse` is determined by the stream of results of the successive calls of
`lex`. -/

/-- The results of the successive calls of `lex`: tokens with the `yytext` and
`yylineno` the lexer holds after each, ended by the end of input (which `lex`
returns again on every later call), by a lexical error, or by `stuck` when
`lexLoop` runs out of fuel. -/
inductive TokStream where
  | cons (t : Token) (yytext : JSVal) (yylineno : Nat) (rest : TokStream)
  | eof (yytext : JSVal) (yylineno : Nat)
  | fail (e : ParseError)
  | stuck

/-- A lexer that replays a token stream. -/
structure Replay where
  yytext : JSVal
  yylineno : Nat
  toks : TokStream

def Replay.lex (r : Replay) : Option (Except ParseError (Token × Replay)) :=
  match r.toks with
  | .cons t y n rest => some (.ok (t, { yytext := y, yylineno := n, toks := rest }))
  | .eof y n => some (.ok (.num 1, { yytext := y, yylineno := n, toks := .eof y n }))
  | .fail e => some (.error e)
  | .stuck => none

def replay : LexerOps Replay :=
  { lex := Replay.lex, yytext := Replay.yytext, yylineno := Replay.yylineno }

/-- The stream of the tokens of a lexer state. -/
def tokenizeLoop (fuel : Nat) (l : Lexer) : TokStream :=
  match fuel with
  | 0 => .stuck
  | n + 1 =>
    match l.lex with
    | none => .stuck
    | some (.error e) => .fail e
    | some (.ok (.num 1, l1)) => .eof l1.yytext l1.yylineno
    | some (.ok (t, l1)) => .cons t l1.yytext l1.yylineno (tokenizeLoop n l1)

def tokenize (l : Lexer) : TokStream := tokenizeLoop (l._input.length + 1) l

/-- Parsing a token stream. -/
def parseTokens (fuel : Nat) (toks : TokStream) : Option (Except ParseError JSVal) :=
  parseLoop replay fuel (initial { yytext := .str "", yylineno := 0, toks := toks })

/-- The replaying lexer a lexer state stands for. -/
def Lexer.toReplay (l : Lexer) : Replay :=
  { yytext := l.yytext, yylineno := l.yylineno, toks := tokenize l }

/-! ## A run of `parse` is a run over the token stream -/

/-- The parser state with its lexer replaced. -/
def Parser.mapLexer {σ τ : Type} (f : σ → τ) (p : Parser σ) : Parser τ :=
  { stack := p.stack, vstack := p.vstack, symbol := p.symbol, yylineno := p.yylineno,
    lexer := f p.lexer }

/-! ## Identifiers -/

/-- The words with a rule of their own ahead of rule 10. -/
def reserved : List String := ["true", "false", "null", "switch", "if", "else", "return"]

/-- A text `[a-zA-Z][a-zA-Z0-9_]*` that is not a reserved word: what the lexer
returns as an `IDENTIFIER` token. -/
def isIdentifier (a : String) : Bool := isWord a && !reserved.contains a

/-! ## Token streams of texts with identifiers in them -/

/-- A stream that starts with the given tokens. -/
def TokStream.prepend (ts : List (Token × JSVal × Nat)) (rest : TokStream) : TokStream :=
  match ts with
  | [] => rest
  | (t, y, n) :: more => .cons t y n (TokStream.prepend more rest)

/-- The next `k` tokens of a lexer state, and the state after them; the end of
input and errors are left to the state returned. -/
def lexMany (k : Nat) (l : Lexer) : List (Token × JSVal × Nat) × Lexer :=
  match k with
  | 0 => ([], l)
  | k + 1 =>
    match l.lex with
    | some (.ok (t, l1)) =>
      if t = .num 1 then ([], l)
      else ((t, l1.yytext, l1.yylineno) :: (lexMany k l1).1, (lexMany k l1).2)
    | _ => ([], l)

/-! ## The nodes of the tree

The objects `performAction` builds, named by their `op` tag. -/

namespace Ast

/-- Action 1 and 18: `{"op": "seq", "seq": children}`. -/
def seq (children : List JSVal) : JSVal := .obj [("op", .str "seq"), ("seq", .arr children)]

/-- Actions 6 and 7: `{"op": "set", "var": name, "value": value}`. -/
def set (name : String) (value : JSVal) : JSVal :=
  .obj [("op", .str "set"), ("var", .str name), ("value", value)]

/-- Action 11: `{"op": "get", "var": name}`. -/
def get (name : String) : JSVal := .obj [("op", .str "get"), ("var", .str name)]

/-- Actions 30, 32, 35, 36, 37: `{"op": op, "values": values}`. -/
def nary (op : String) (values : List JSVal) : JSVal :=
  .obj [("op", .str op), ("values", .arr values)]

/-- Actions 22 to 26, 28, 29: `{"op": op, "left": left, "right": right}`. -/
def binary (op : String) (left right : JSVal) : JSVal :=
  .obj [("op", .str op), ("left", left), ("right", right)]

/-- Actions 33, 34, 60: `{"op": op, "value": value}`. -/
def unary (op : String) (value : JSVal) : JSVal := .obj [("op", .str op), ("value", value)]

/-- Actions 59 and 63: `{"op": "cond", "cond": branches}`. -/
def cond (branches : List JSVal) : JSVal := .obj [("op", .str "cond"), ("cond", .arr branches)]

/-- A branch of a `cond` node: `{"if": guard, "then": consequence}`. -/
def branch (guard consequence : JSVal) : JSVal := .obj [("if", guard), ("then", consequence)]

/-- Action 58: `{"op": "switch", "cases": cases}`. -/
def switch (cases : List JSVal) : JSVal := .obj [("op", .str "switch"), ("cases", .arr cases)]

/-- Action 66: `{"op": "case", "condidion": guard, "result": result}`. -/
def case (guard result : JSVal) : JSVal :=
  .obj [("op", .str "case"), ("condidion", guard), ("result", result)]

/-- Action 16 on the arguments object `args`: the operator name is stored under
`op`, after the arguments when these have no key `op`. -/
def call (name : String) (args : List (String × JSVal)) : JSVal :=
  .obj (setProp args "op" (.str name))

/-- An integer constant, as rule 11 of the lexer decodes it. -/
def int (i : Int) : JSVal := .num (.int i)

end Ast

namespace Ast

/-- Action 15: `{"op": "array", "values": values}`. -/
def array (values : List JSVal) : JSVal := .obj [("op", .str "array"), ("values", .arr values)]

/-- Action 17: `{"op": "index", "base": base, "index": index}`. -/
def index (base index : JSVal) : JSVal :=
  .obj [("op", .str "index"), ("base", base), ("index", index)]

/-- Action 21: `{"op": "literal", "value": value}`. -/
def literal (value : JSVal) : JSVal := .obj [("op", .str "literal"), ("value", value)]

end Ast

/-! ## Numeric and string constants -/

/-- An unsigned integer literal: a non-empty run of digits. -/
def isNumeral (c : String) : Bool := !c.data.isEmpty && c.data.all isDigit

/-- What may follow an integer literal for rule 11 to match the literal alone:
the end of the input, or a character that is no digit, point or exponent mark. -/
def numeralBoundary (r : List Char) : Bool :=
  match r with
  | [] => true
  | c :: _ => !isDigit c && c != '.' && c != 'e' && c != 'E'

/-- The body of a double-quoted constant, as `(\\.|[^\\"])*` reads it: a
backslash takes the next character with it, which is no line terminator; no
other character is a double quote. -/
def isDoubleBody (b : List Char) : Bool :=
  match b with
  | [] => true
  | [c] => c != backslash && c != dquote
  | c :: d :: t =>
    if c = backslash then !isLineTerminator d && isDoubleBody t
    else c != dquote && isDoubleBody (d :: t)

/-- The body of a single-quoted constant: no single quote in it. -/
def isSingleBody (b : List Char) : Bool := b.all (fun c => c != squote)

/-! ## String constants -/

/-- `n` turns of the loop of `parse`, as long as it goes on. -/
def turns {σ : Type} (ops : LexerOps σ) (n : Nat) (p : Parser σ) :
    Option (Except ParseError (Parser σ ⊕ JSVal)) :=
  match n with
  | 0 => some (.ok (.inl p))
  | k + 1 =>
    match step ops p with
    | some (.ok (.inl p1)) => turns ops k p1
    | r => r

/-- A text without double quote, backslash or line terminator: the body of a
double-quoted constant written without escapes, on one line. -/
def isPlainText (b : String) : Bool :=
  b.data.all (fun c => !isLineTerminator c && c != dquote && c != backslash)

/-! ## Sequences of assignment statements -/

/-- The script of the assignment statements `v = c;` of a list of pairs `(v, c)`,
concatenated in order. -/
def assignments (ps : List (String × String)) : String :=
  match ps with
  | [] => ""
  | p :: rest => p.1 ++ " = " ++ p.2 ++ ";" ++ assignments rest

/-- The token stream of `assignments ps`. -/
def assignmentTokens (ps : List (String × String)) : TokStream :=
  match ps with
  | [] => .eof (.str "") 0
  | p :: rest =>
    .cons (.num 8) (.str p.1) 0 (.cons (.name "=") (.str "=") 0
      (.cons (.num 26) (.num (Number p.2)) 0 (.cons (.num 7) (.str ";") 0
        (assignmentTokens rest))))

/-- The `set` node of the statement `v = c;`. -/
def assignmentNode (p : String × String) : JSVal := Ast.set p.1 (.num (Number p.2))

/-! ## An unterminated string after lines of assignments -/

/-- The script of the lines `v = c;`, each ended by a line feed. -/
def assignmentLines (ps : List (String × String)) : String :=
  match ps with
  | [] => ""
  | p :: rest => p.1 ++ " = " ++ p.2 ++ ";\n" ++ assignmentLines rest

/-- The token stream of `assignmentLines ps ++ "x = \"abc;"` from line `n` on: the
tokens of the lines, then `x`, `=` and the lexical error. -/
def lineTokens (ps : List (String × String)) (n : Nat) : TokStream :=
  match ps with
  | [] => .cons (.num 8) (.str "x") n (.cons (.name "=") (.str "=") n (.fail (.lexError n)))
  | p :: rest =>
    .cons (.num 8) (.str p.1) n (.cons (.name "=") (.str "=") n
      (.cons (.num 26) (.num (Number p.2)) n (.cons (.num 7) (.str ";") n
        (lineTokens rest (n + 1)))))

/-! ## Chains of conditionals -/

/-- The end of a chain of conditionals: nothing, or ` else z`. -/
def chainEndText (z : Option String) : String :=
  match z with
  | none => ""
  | some z => " else " ++ z

/-- The text ` else if (c1) x1 … else if (cn) xn` for the pairs `(ci, xi)` of
`rest`, followed by the end of the chain. -/
def chainTail (rest : List (String × String)) (z : Option String) : String :=
  match rest with
  | [] => chainEndText z
  | p :: ps => " else if (" ++ p.1 ++ ") " ++ p.2 ++ chainTail ps z

/-- The script `if (c) x else if (c1) x1 … else if (cn) xn`, followed by the end
of the chain. -/
def ifChain (c x : String) (rest : List (String × String)) (z : Option String) : String :=
  "if (" ++ c ++ ") " ++ x ++ chainTail rest z

/-- The tokens of the end of a chain. -/
def chainEnd (z : Option String) : TokStream :=
  match z with
  | none => .eof (.str "") 0
  | some z => .cons (.num 55) (.str "else") 0 (.cons (.num 8) (.str z) 0 (.eof (.str "") 0))

/-- The tokens that follow the first consequence of a chain. -/
def chainRest (rest : List (String × String)) (z : Option String) : TokStream :=
  match rest with
  | [] => chainEnd z
  | p :: ps =>
    .cons (.num 55) (.str "else") 0 (.cons (.num 52) (.str "if") 0
      (.cons (.name "(") (.str "(") 0 (.cons (.num 8) (.str p.1) 0
        (.cons (.name ")") (.str ")") 0 (.cons (.num 8) (.str p.2) 0 (chainRest ps z))))))

/-- The tokens of `ifChain c x rest z`. -/
def ifChainTokens (c x : String) (rest : List (String × String)) (z : Option String) :
    TokStream :=
  .cons (.num 52) (.str "if") 0 (.cons (.name "(") (.str "(") 0 (.cons (.num 8) (.str c) 0
    (.cons (.name ")") (.str ")") 0 (.cons (.num 8) (.str x) 0 (chainRest rest z)))))

/-- The branch of the pair `(c, x)`. -/
def chainBranch (p : String × String) : JSVal := Ast.branch (Ast.get p.1) (Ast.get p.2)

/-- The branch of the end of a chain. -/
def chainEndBranches (z : Option String) : List JSVal :=
  match z with
  | none => []
  | some z => [Ast.branch (.bool true) (Ast.get z)]

/-- The number of turns of the loop from the shift of `if` to the reduction of
the chain. -/
def chainTurns (rest : List (String × String)) (z : Option String) : Nat :=
  match rest with
  | [] => match z with
    | none => 8
    | some _ => 11
  | _ :: ps => chainTurns ps z + 10

/-! ## The rules by first character

Each rule matches only at certain first characters. `clsCode` sorts the character
codes into classes, and `ruleClasses` lists the classes at which each rule can
match. -/

/-- The class of the code of a letter: one class for each first letter of a
reserved word, one for the other letters. -/
def letterCls (n : Nat) : Nat :=
  if n = 116 then 2
  else if n = 102 then 3
  else if n = 110 then 4
  else if n = 115 then 5
  else if n = 105 then 6
  else if n = 101 then 7
  else if n = 114 then 8
  else 9

/-- The class of the code of a character that is no `#`, white space or letter. -/
def otherCls (n : Nat) : Nat :=
  if n = 64 then 10
  else if (48 ≤ n ∧ n ≤ 57) ∨ n = 46 then 11
  else if n = 43 ∨ n = 45 then 12
  else if n = 34 then 13
  else if n = 39 then 14
  else if n = 60 then 15
  else if n = 124 then 16
  else if n = 38 then 17
  else if n = 63 then 18
  else if n = 61 then 19
  else if n = 62 then 20
  else if n = 33 then 21
  else if n = 59 then 22
  else if n = 58 ∨ n = 91 ∨ n = 93 ∨ n = 40 ∨ n = 41 ∨ n = 44 ∨ n = 123 ∨ n = 125 ∨ n = 37 ∨
      n = 42 ∨ n = 47 then 23
  else 24

/-- The class of a character code. -/
def clsCode (n : Nat) : Nat :=
  if n = 35 then 0
  else if (9 ≤ n ∧ n ≤ 13) ∨ n = 32 ∨ n = 0xa0 ∨ n = 0x1680 ∨ (0x2000 ≤ n ∧ n ≤ 0x200a) ∨
      n = 0x2028 ∨ n = 0x2029 ∨ n = 0x202f ∨ n = 0x205f ∨ n = 0x3000 ∨ n = 0xfeff then 1
  else if (97 ≤ n ∧ n ≤ 122) ∨ (65 ≤ n ∧ n ≤ 90) then letterCls n
  else otherCls n

/-- The class of a character. -/
def cls (h : Char) : Nat := clsCode h.toNat

/-- The classes of the first characters at which the rule of an index can match. -/
def ruleClasses (k : Nat) : List Nat :=
  match k with
  | 0 => [0]
  | 1 => [1]
  | 2 => [2]
  | 3 => [3]
  | 4 => [4]
  | 5 => [10]
  | 6 => [5]
  | 7 => [6]
  | 8 => [7]
  | 9 => [8]
  | 10 => [2, 3, 4, 5, 6, 7, 8, 9]
  | 11 => [11, 12]
  | 12 => [13]
  | 13 => [14]
  | 14 => [15]
  | 15 => [16]
  | 16 => [17]
  | 17 => [18]
  | 18 => [19]
  | 19 => [20]
  | 20 => [15]
  | 21 => [21]
  | 22 => [19]
  | 23 => [22]
  | 24 => [12, 15, 19, 20, 21, 23]
  | _ => []

/-- The length of the match of a rule that matches a fixed text (`0` for the
other rules). -/
def fixedLength (k : Nat) : Nat :=
  match k with
  | 2 => 4
  | 3 => 5
  | 4 => 4
  | 5 => 1
  | 6 => 6
  | 7 => 2
  | 8 => 4
  | 9 => 6
  | 14 | 15 | 16 | 17 | 18 | 19 | 20 | 21 | 22 => 2
  | 23 => 1
  | 24 => 1
  | _ => 0

/-- The rules `kw\b` before rule 10. -/
def isKeywordRule (k : Nat) : Bool := k = 2 || k = 3 || k = 4 || k = 6 || k = 7 || k = 8 || k = 9

/-- Why the match of rule `j` is no longer than the match of an earlier rule `i`
at the same position: the match of `j` has a fixed length that the match of `i`
reaches, or the two rules match at no common first character, or `i` is a word
rule and `j` the identifier rule. -/
def pairOK (i j : Nat) : Bool :=
  (decide (0 < fixedLength j) && decide (fixedLength j ≤ max 1 (fixedLength i))) ||
  (ruleClasses i).all (fun c => !(ruleClasses j).contains c) ||
  (isKeywordRule i && decide (j = 10))

/-- What a match of the rule of index `k` tells: the class of the first character,
the length of the match when it is fixed, and that the match is not empty. -/
def RuleFacts (k : Nat) (r : List Char → Option (List Char)) : Prop :=
  ∀ (h : Char) (t m : List Char), r (h :: t) = some m →
    cls h ∈ ruleClasses k ∧ (0 < fixedLength k → m.length = fixedLength k) ∧ 1 ≤ m.length

/-! ## Words and two-character operators -/

/-- The token of a word `[a-zA-Z][a-zA-Z0-9_]*`, as the specification gives it: the
token of the reserved word when the word is one of `true`, `false`, `null`,
`switch`, `if`, `else`, `return`, and `IDENTIFIER` otherwise. -/
def wordToken (w : String) : Token :=
  if w = "true" then .num 15
  else if w = "false" then .num 16
  else if w = "null" then .num 17
  else if w = "switch" then .num 50
  else if w = "if" then .num 52
  else if w = "else" then .num 55
  else if w = "return" then .num 54
  else .num 8

/-- The two-character operators and their tokens. -/
def twoCharOps : List (String × Nat) :=
  [("<-", 11), ("||", 41), ("&&", 43), ("??", 42), ("==", 33), (">=", 36), ("<=", 35),
   ("!=", 34), ("=>", 57)]

/-! ## Lexing a text with more text appended

The text appended starts with `#`, `;`, `,` or `)`, characters that continue no
token. -/

/-- The characters `#`, `;`, `,` and `)`. -/
def isBarrier (b : Char) : Bool := b = '#' || b = ';' || b = ',' || b = ')'

/-! ## The token stream of a text with more text appended -/

/-- The stream `st` with its end of input replaced by the stream `f n`, `n` the
line at the end of `st`. -/
def TokStream.bindEof (st : TokStream) (f : Nat → TokStream) : TokStream :=
  match st with
  | .cons t y n rest => .cons t y n (rest.bindEof f)
  | .eof _ n => f n
  | .fail e => .fail e
  | .stuck => .stuck

/-- The stream reaches the end of the input: the lexer fails on no part of the text. -/
def TokStream.endsEof (st : TokStream) : Bool :=
  match st with
  | .cons _ _ _ rest => rest.endsEof
  | .eof _ _ => true
  | .fail _ => false
  | .stuck => false

/-! ## Runs of the parser on related token streams -/

/-- The parser state with the end of its token stream replaced. -/
def graft (f : Nat → TokStream) (p : Parser Replay) : Parser Replay :=
  { p with lexer := { p.lexer with toks := p.lexer.toks.bindEof f } }

/-- The result of a turn with the end of the token stream replaced. -/
def graftResult (f : Nat → TokStream)
    (r : Option (Except ParseError (Parser Replay ⊕ JSVal))) :
    Option (Except ParseError (Parser Replay ⊕ JSVal)) :=
  match r with
  | some (.ok (.inl p)) => some (.ok (.inl (graft f p)))
  | other => other

/-- No token of the stream before its end is the end-of-input token. -/
def TokStream.noEofToken (st : TokStream) : Bool :=
  match st with
  | .cons t _ _ rest => (resolve t != .num 1) && rest.noEofToken
  | _ => true

/-- The stream is at its end. -/
def TokStream.isEof (st : TokStream) : Bool :=
  match st with
  | .eof _ _ => true
  | _ => false

/-- An action that ends the parse: the reduction by production 1, whose action
returns, or the accept action. -/
def isReturn (e : Entry) : Bool :=
  match e with
  | .arr (2 :: 1 :: _) => true
  | .arr (3 :: _) => true
  | _ => false

/-- A shift action. -/
def isShift (e : Entry) : Bool :=
  match e with
  | .arr (1 :: _) => true
  | _ => false

/-- In the table an action that ends the parse is on the end-of-input token only,
and no shift is. -/
def eofTableOK : Bool :=
  table.all (fun row => row.all (fun xe =>
    (!isReturn xe.2 || xe.1 == 1) && (!isShift xe.2 || xe.1 != 1)))

/-- The action and the lookahead of a turn of the loop, and the lexer after it
has read the lookahead if the turn had to read it. -/
def turn (p : Parser Replay) : Option (Except ParseError (Option Entry × Option Token × Replay)) :=
  match p.stack with
  | [] => some (.error .unmodelled)
  | state :: _ =>
    match defaultActions state with
    | some action => some (.ok (some action, p.symbol, p.lexer))
    | none =>
      match p.symbol with
      | some symbol => some (.ok (actionFor state symbol, some symbol, p.lexer))
      | none =>
        match p.lexer.lex with
        | none => none
        | some (.error e) => some (.error e)
        | some (.ok (t, lexer)) => some (.ok (actionFor state (resolve t), some (resolve t), lexer))

/-- What a turn does to the stacks and the lookahead, or `none` when it fails. -/
def outcomeOf (r : Except ParseError (Outcome × Option Token × Nat)) :
    Option (Outcome × Option Token) :=
  match r with
  | .ok (out, sym, _) => some (out, sym)
  | .error _ => none

/-- The action of a turn whose lookahead is known. -/
def actionAt (stack : List Nat) (sym : Token) : Option Entry :=
  match stack with
  | [] => none
  | state :: _ =>
    match defaultActions state with
    | some action => some action
    | none => actionFor state sym

/-- The lexer at the start of a text. -/
def lexerAt (s : List Char) (n : Nat) : Lexer :=
  { _input := s, yytext := .str "", yylineno := n, done := false }

/-! ## The final statement terminator -/

/-- The entry is the reduction by production `p`. -/
def isReduceBy (e : Option Entry) (p : Nat) : Bool :=
  match e with
  | some (.arr [2, q]) => q == p
  | _ => false

/-- The table on `;` and the end of input: a state that shifts `;` has no action
on the end of input, or it reduces by production 4 there and the state after the
shift reduces by production 5; a state that reduces on `;` has no action on the
end of input or the same reduction. -/
def semicolonTableOK : Bool :=
  table.all (fun row =>
    match row.lookup 7 with
    | none => true
    | some (.arr [1, s]) =>
      (row.lookup 1).isNone ||
        (isReduceBy (row.lookup 1) 4 && isReduceBy (tableEntry s 1) 5 && s != 108)
    | some (.arr [2, p]) => (row.lookup 1).isNone || isReduceBy (row.lookup 1) p
    | some _ => false)

/-! ## The node of the last statement -/

/-- The `op` of a node. -/
def opOf (v : JSVal) : JSVal :=
  match v with
  | .obj props => getProp props "op"
  | _ => .undefined

/-- The node of an expression statement: a `switch`, a `cond` or a `return` node. -/
def IsExprNode (v : JSVal) : Prop :=
  opOf v = .str "switch" ∨ opOf v = .str "cond" ∨ opOf v = .str "return"

/-- The states entered on `expression` (4 at statement level), `switch_expression`
(6), `if_expression` (7) and `return_expression` (8). -/
def isExprState (s : Nat) : Bool :=
  s == 4 || s == 6 || s == 7 || s == 8

/-- In a state of `isExprState` the value on top of the stack is the node of an
expression statement. -/
def exprTop (p : Parser Replay) : Prop :=
  ∀ s rest, p.stack = s :: rest → isExprState s = true →
    IsExprNode (p.vstack.getD 0 .undefined)

/-- The table around the states of `isExprState`: no shift enters them, state 4 is
entered on `expression` only, 6 on `switch_expression`, 7 on `if_expression` and
8 on `return_expression`, and the reductions by productions 8, 9 and 10 are in the
states 6, 7 and 8. -/
def exprStatesOK : Bool :=
  table.enum.all (fun sr => sr.2.all (fun xe =>
    match xe.2 with
    | .arr (1 :: ns :: _) => !isExprState ns
    | .arr (2 :: p :: _) =>
      (p != 8 || sr.1 == 6) && (p != 9 || sr.1 == 7) && (p != 10 || sr.1 == 8)
    | .num g =>
      (g != 4 || xe.1 == 6) && (g != 6 || xe.1 == 12) && (g != 7 || xe.1 == 13) &&
        (g != 8 || xe.1 == 14)
    | _ => true))

/-- The productions of `expression` are 8, 9 and 10, the one of `switch_expression`
is 58, of `if_expression` 59 and of `return_expression` 60. -/
def exprProductionsOK : Bool :=
  productions_.enum.all (fun ip =>
    (ip.2.1 != 12 || ip.1 == 58) && (ip.2.1 != 13 || ip.1 == 59) &&
      (ip.2.1 != 14 || ip.1 == 60) &&
      (ip.2.1 != 6 || ip.1 == 8 || ip.1 == 9 || ip.1 == 10))

/-! ## The end of a script: with and without the final `;` -/

/-- The entry is the shift to state `s`. -/
def isShiftTo (e : Entry) (s : Nat) : Bool :=
  match e with
  | .arr [1, t] => t == s
  | _ => false

/-- The table on `;`, state by state: state 4 shifts `;` to state 12 and reduces
by production 4 on the end of input; every other state that shifts `;` goes to
state 60, 61 or 94 and has no action on the end of input; a state that reduces
on `;` is state 108 or reduces by the same production on the end of input. -/
def finalSemicolonOK : Bool :=
  table.enum.all (fun sr =>
    match sr.2.lookup 7 with
    | none => true
    | some (.arr [1, s]) =>
      (sr.1 == 4 && isReduceBy (sr.2.lookup 1) 4 && s == 12) ||
        ((sr.2.lookup 1).isNone && (s == 60 || s == 61 || s == 94))
    | some (.arr [2, p]) => sr.1 == 108 || isReduceBy (sr.2.lookup 1) p
    | some _ => false)

/-- The gotos on `rule` lead to state 3, the gotos on `rules_list` to state 2 or
to state 51. -/
def statementGotosOK : Bool :=
  table.all (fun row => row.all (fun xe =>
    match xe.2 with
    | .num g => (xe.1 != 5 || g == 3) && (xe.1 != 4 || g == 2 || g == 51)
    | _ => true))

/-- The result `r` of a script without its final `;`, from the tree `A` of the
script with it: the last statement of `A` is an assignment and `r` is a syntax
error on the end of input, or the last statement is the node of an expression
statement and `r` is `A`. -/
def FinalResult (A : JSVal) (r : Option (Except ParseError JSVal)) : Prop :=
  ∃ l v, A = Ast.seq (l ++ [v]) ∧
    ((opOf v = .str "set" ∧
        ∃ m ln ex, r = some (.error (.syntaxError m (some (.num 1)) ln ex))) ∨
      (IsExprNode v ∧ r = some (.ok A)))

/-! ## The symbols and the values on the stacks

The table is the automaton of a grammar: every path into a state ends with the
same symbols, and a state reduces by a production only when those symbols are
its right-hand side. `stateSuffix` and `rhs` record the symbols; both are
checked against the table. -/

/-- The property `k` of a node. -/
def propOf (v : JSVal) (k : String) : JSVal :=
  match v with
  | .obj props => getProp props k
  | _ => .undefined

/-- The nodes of a tree: the tree itself, and the nodes of its property values
and of its array items. The payload of a `literal` node, its property `value`, is
data and not part of the tree. -/
inductive AstNode : JSVal → JSVal → Prop
  | self (a : JSVal) : AstNode a a
  | prop (n : JSVal) (props : List (String × JSVal)) (k : String) (v : JSVal) :
      (k, v) ∈ props → ¬ (getProp props "op" = .str "literal" ∧ k = "value") →
      AstNode n v → AstNode n (.obj props)
  | item (n : JSVal) (items : List JSVal) (v : JSVal) :
      v ∈ items → AstNode n v → AstNode n (.arr items)

/-- A branch of a `cond` node: an object `{"if": guard, "then": consequence}`. -/
def IsBranch (b : JSVal) : Prop :=
  ∃ g t, b = .obj [("if", g), ("then", t)]

/-- The tags of the nodes that the semantic actions build, the names of the
operators apart. -/
def nodeTags : List String :=
  ["seq", "set", "get", "array", "index", "literal", "%", "/", ">", "<", "equals", "not",
   "<=", ">=", "sum", "negative", "product", "or", "coalesce", "and", "switch", "case",
   "cond", "return"]

/-- What holds of every node of a tree of the parser: it has no `op`, or its `op`
is a tag of `nodeTags` or the name of an operator, an identifier; and when its
`op` is `cond` and its property `cond` is an array, the array is a list of
branches that is not empty. -/
def NodeOK (n : JSVal) : Prop :=
  (opOf n = .undefined ∨ ∃ w, opOf n = .str w ∧ (w ∈ nodeTags ∨ isIdentifier w = true)) ∧
    (opOf n = .str "cond" → ∀ bs, propOf n "cond" = .arr bs →
      bs ≠ [] ∧ ∀ b ∈ bs, IsBranch b)

/-- Every node of the tree is as `NodeOK` says. -/
def Good (v : JSVal) : Prop :=
  ∀ n, AstNode n v → NodeOK n

/-- The place of an expression in the second run: the state `hB` after `=` and
the state `gB` over the complete expression, the stacks `hB :: bB` and `vbB` after
`=`, and the delimiter that follows the expression: its token `tB`, its symbol
`kB`, its text `yB` and the stream `RB` after it. -/
structure Frame where
  hB : Nat
  gB : Nat
  kB : Nat
  bB : List Nat
  vbB : List JSVal
  tB : Token
  yB : JSVal
  RB : Nat → TokStream

/-- The state of the second run with the tree `v` of the expression on the stack
and the delimiter as the lookahead. -/
def Frame.target (F : Frame) (v : JSVal) (m nB : Nat) : Parser Replay :=
  { stack := F.gB :: 10 :: F.hB :: F.bB, vstack := v :: F.vbB, symbol := some (.num F.kB),
    yylineno := m, lexer := { yytext := F.yB, yylineno := nB, toks := F.RB nB } }

/-- A named argument: its name, the text of its expression and the tree of this
expression. -/
structure Arg where
  key : String
  text : String
  tree : JSVal

/-- The characters after an argument: the arguments to come, then `);`. -/
def restText : List Arg → List Char
  | [] => [')', ';']
  | a :: rest => ',' :: ' ' :: (a.key.data ++ '=' :: (a.text.data ++ restText rest))

theorem keywordRule_ne_nil (kw : String) (hkw : kw.data ≠ []) (s m : List Char)
    (h : keywordRule kw s = some m) : m ≠ [] := by
  unfold keywordRule at h
  split at h
  · cases h; exact hkw
  · cases h

theorem textRule_ne_nil (t : String) (ht : t.data ≠ []) (s m : List Char)
    (h : textRule t s = some m) : m ≠ [] := by
  unfold textRule at h
  split at h
  · cases h; exact ht
  · cases h

theorem rule0_ne_nil (s m : List Char) (h : rule0 s = some m) : m ≠ [] := by
  unfold rule0 at h
  split at h
  · split at h
    · simp only at h
      split at h
      · split at h
        · cases h; simp
        · cases h
      · cases h
    · cases h
  · cases h

theorem rule1_ne_nil (s m : List Char) (h : rule1 s = some m) : m ≠ [] := by
  unfold rule1 at h
  split at h
  · cases h
  · rename_i hne
    cases h
    intro h0
    exact hne h0

theorem rule10_ne_nil (s m : List Char) (h : rule10 s = some m) : m ≠ [] := by
  unfold rule10 at h
  split at h
  · split at h
    · cases h; simp
    · cases h
  · cases h

theorem mantissaOf_ne_nil (s m : List Char) (h : mantissaOf s = some m) : m ≠ [] := by
  unfold mantissaOf at h
  simp only at h
  have hd : ∀ m, (if (List.takeWhile isDigit s).isEmpty = true then none
      else some (List.takeWhile isDigit s)) = some m → m ≠ [] := by
    intro m hm
    split at hm
    · cases hm
    · rename_i hne
      cases hm
      intro h0
      apply hne
      simp [h0]
  split at h
  · split at h
    · split at h
      · exact hd m h
      · cases h; simp
    · exact hd m h
  · exact hd m h

theorem rule11_ne_nil (s m : List Char) (h : rule11 s = some m) : m ≠ [] := by
  unfold rule11 at h
  simp only at h
  split at h
  · cases h
  · rename_i m1 hm
    cases h
    have := mantissaOf_ne_nil _ _ hm
    simp [this]

theorem rule12_ne_nil (s m : List Char) (h : rule12 s = some m) : m ≠ [] := by
  unfold rule12 at h
  split at h
  · split at h
    · simp only [Option.map_eq_some'] at h
      obtain ⟨a, _, rfl⟩ := h
      simp
    · cases h
  · cases h

theorem rule13_ne_nil (s m : List Char) (h : rule13 s = some m) : m ≠ [] := by
  unfold rule13 at h
  split at h
  · split at h
    · simp only at h
      split at h
      · cases h; simp
      · cases h
    · cases h
  · cases h

theorem rule24_ne_nil (s m : List Char) (h : rule24 s = some m) : m ≠ [] := by
  unfold rule24 at h
  split at h
  · split at h
    · cases h; simp
    · cases h
  · cases h

theorem rules_ne_nil : ∀ r ∈ rules, ∀ s m, r s = some m → m ≠ [] := by
  intro r hr
  simp only [rules, List.mem_cons, List.mem_singleton, List.not_mem_nil, or_false] at hr
  rcases hr with h | h | h | h | h | h | h | h | h | h | h | h | h | h | h | h | h | h | h | h | h |
    h | h | h | h <;> subst h
  · exact rule0_ne_nil
  · exact rule1_ne_nil
  · exact keywordRule_ne_nil _ (by decide)
  · exact keywordRule_ne_nil _ (by decide)
  · exact keywordRule_ne_nil _ (by decide)
  · exact textRule_ne_nil _ (by decide)
  · exact keywordRule_ne_nil _ (by decide)
  · exact keywordRule_ne_nil _ (by decide)
  · exact keywordRule_ne_nil _ (by decide)
  · exact keywordRule_ne_nil _ (by decide)
  · exact rule10_ne_nil
  · exact rule11_ne_nil
  · exact rule12_ne_nil
  · exact rule13_ne_nil
  · exact textRule_ne_nil _ (by decide)
  · exact textRule_ne_nil _ (by decide)
  · exact textRule_ne_nil _ (by decide)
  · exact textRule_ne_nil _ (by decide)
  · exact textRule_ne_nil _ (by decide)
  · exact textRule_ne_nil _ (by decide)
  · exact textRule_ne_nil _ (by decide)
  · exact textRule_ne_nil _ (by decide)
  · exact textRule_ne_nil _ (by decide)
  · exact textRule_ne_nil _ (by decide)
  · exact rule24_ne_nil

theorem firstMatch_ne_nil (rs : List (List Char → Option (List Char)))
    (hrs : ∀ r ∈ rs, ∀ s m, r s = some m → m ≠ []) (i : Nat) (s : List Char) (j : Nat)
    (m : List Char) (h : firstMatch rs i s = some (j, m)) : m ≠ [] := by
  induction rs generalizing i with
  | nil => simp [firstMatch] at h
  | cons r rest ih =>
    unfold firstMatch at h
    split at h
    · rename_i m1 hm
      cases h
      exact hrs r (List.mem_cons_self _ _) s m hm
    · exact ih (fun r1 hr1 => hrs r1 (List.mem_cons_of_mem _ hr1)) _ h

theorem firstMatch_nil : firstMatch rules 0 [] = none := by rfl

/-- No action of the lexer returns the end-of-input token. -/
theorem lexerAction_ne_eof (rule : Nat) (text : String) :
    (lexerAction rule text).1 ≠ some (.num 1) := by
  unfold lexerAction
  split <;> simp

/-- A call of `next` either reports the end of the input and leaves the lexer in
a state where every later call does the same, or it consumes input. -/
theorem next_cases (l : Lexer) (r : Option Token) (l1 : Lexer) (h : next l = .ok (r, l1)) :
    (r = some (.num 1) ∧ l1.done = true) ∨
    (r ≠ some (.num 1) ∧ l1._input.length < l._input.length) := by
  unfold next at h
  split at h
  · rename_i hd
    cases h
    exact Or.inl ⟨rfl, hd⟩
  · simp only at h
    split at h
    · rename_i i m hm
      cases h
      right
      refine ⟨lexerAction_ne_eof _ _, ?_⟩
      have hne := firstMatch_ne_nil rules rules_ne_nil 0 _ _ _ hm
      have hin : l._input ≠ [] := by
        intro h0
        rw [h0, firstMatch_nil] at hm
        cases hm
      simp only [test_match, List.length_drop]
      have h1 : 0 < m.length := List.length_pos.mpr hne
      have h2 : 0 < l._input.length := List.length_pos.mpr hin
      omega
    · split at h
      · rename_i he
        cases h
        exact Or.inl ⟨rfl, he⟩
      · cases h

theorem next_done (l : Lexer) (h : l.done = true) : next l = .ok (some (.num 1), l) := by
  unfold next
  simp [h]

/-! ## `lex` never runs out of fuel -/

theorem lexLoop_done (n : Nat) (l : Lexer) (h : l.done = true) :
    lexLoop (n + 1) l = some (.ok (.num 1, l)) := by
  simp [lexLoop, next_done l h]

/-- With fuel above the length of the input, `lexLoop` returns, and its result
does not depend on the fuel. -/
theorem lexLoop_stable (n m : Nat) (l : Lexer) (hn : l._input.length < n)
    (hm : l._input.length < m) : lexLoop n l = lexLoop m l ∧ lexLoop n l ≠ none := by
  induction n generalizing m l with
  | zero => omega
  | succ n ih =>
    cases m with
    | zero => omega
    | succ m =>
      unfold lexLoop
      cases hnx : next l with
      | error e => simp
      | ok res =>
        obtain ⟨r, l1⟩ := res
        cases r with
        | some t => simp
        | none =>
          simp only
          have hc := next_cases l none l1 hnx
          rcases hc with ⟨h0, _⟩ | ⟨_, hlt⟩
          · cases h0
          · exact ih m l1 (by omega) (by omega)

theorem lex_ne_none (l : Lexer) : l.lex ≠ none :=
  (lexLoop_stable _ _ l (Nat.lt_succ_self _) (Nat.lt_succ_self _)).2

/-- A call of `next` that returns no token: `lex` goes on from the new state. -/
theorem lex_of_next_none (l l1 : Lexer) (h : next l = .ok (none, l1)) : l.lex = l1.lex := by
  have hlt : l1._input.length < l._input.length := by
    rcases next_cases l none l1 h with ⟨h0, _⟩ | ⟨_, hlt⟩
    · cases h0
    · exact hlt
  show lexLoop (l._input.length + 1) l = lexLoop (l1._input.length + 1) l1
  rw [lexLoop, h]
  exact (lexLoop_stable _ _ l1 hlt (Nat.lt_succ_self _)).1

/-- A call of `next` that returns a token: `lex` returns it. -/
theorem lex_of_next_some (l l1 : Lexer) (t : Token) (h : next l = .ok (some t, l1)) :
    l.lex = some (.ok (t, l1)) := by
  show lexLoop (l._input.length + 1) l = _
  rw [lexLoop, h]

theorem lex_of_next_error (l : Lexer) (e : ParseError) (h : next l = .error e) :
    l.lex = some (.error e) := by
  show lexLoop (l._input.length + 1) l = _
  rw [lexLoop, h]

/-- A call of `lex` either reports the end of the input, as will every later
call, or returns another token and consumes input. -/
theorem lexLoop_cases (n : Nat) (l : Lexer) (t : Token) (l1 : Lexer)
    (h : lexLoop n l = some (.ok (t, l1))) :
    (t = .num 1 ∧ l1.done = true) ∨ (t ≠ .num 1 ∧ l1._input.length < l._input.length) := by
  induction n generalizing l with
  | zero => simp [lexLoop] at h
  | succ n ih =>
    unfold lexLoop at h
    cases hnx : next l with
    | error e => rw [hnx] at h; cases h
    | ok res =>
      obtain ⟨r, l2⟩ := res
      rw [hnx] at h
      cases r with
      | some t1 =>
        simp only [Option.some.injEq, Except.ok.injEq, Prod.mk.injEq] at h
        obtain ⟨rfl, rfl⟩ := h
        rcases next_cases l _ _ hnx with ⟨h0, hd⟩ | ⟨h0, hlt⟩
        · left
          exact ⟨by simpa using h0, hd⟩
        · right
          exact ⟨by simpa using h0, hlt⟩
      | none =>
        simp only at h
        have hlt : l2._input.length < l._input.length := by
          rcases next_cases l none l2 hnx with ⟨h0, _⟩ | ⟨_, hlt⟩
          · cases h0
          · exact hlt
        rcases ih l2 h with ⟨h0, hd⟩ | ⟨h0, hlt2⟩
        · exact Or.inl ⟨h0, hd⟩
        · exact Or.inr ⟨h0, by omega⟩

theorem lex_cases (l : Lexer) (t : Token) (l1 : Lexer) (h : l.lex = some (.ok (t, l1))) :
    (t = .num 1 ∧ l1.done = true) ∨ (t ≠ .num 1 ∧ l1._input.length < l._input.length) :=
  lexLoop_cases _ l t l1 h

theorem lex_done (l : Lexer) (h : l.done = true) : l.lex = some (.ok (.num 1, l)) :=
  lexLoop_done _ l h

/-! ## The token stream of a lexer state -/

theorem tokenizeLoop_stable (n m : Nat) (l : Lexer) (hn : l._input.length < n)
    (hm : l._input.length < m) : tokenizeLoop n l = tokenizeLoop m l := by
  induction n generalizing m l with
  | zero => omega
  | succ n ih =>
    cases m with
    | zero => omega
    | succ m =>
      unfold tokenizeLoop
      cases hl : l.lex with
      | none => rfl
      | some res =>
        cases res with
        | error e => rfl
        | ok tl =>
          obtain ⟨t, l1⟩ := tl
          rcases lex_cases l t l1 hl with ⟨rfl, _⟩ | ⟨hne, hlt⟩
          · rfl
          · have h1 := ih m l1 (by omega) (by omega)
            split
            · rfl
            · rfl
            · rfl
            · rename_i heq
              simp only [Option.some.injEq, Except.ok.injEq, Prod.mk.injEq] at heq
              obtain ⟨rfl, rfl⟩ := heq
              rw [h1]

theorem tokenize_of_lex_error (l : Lexer) (e : ParseError) (h : l.lex = some (.error e)) :
    tokenize l = .fail e := by
  simp [tokenize, tokenizeLoop, h]

theorem tokenize_of_lex_eof (l l1 : Lexer) (h : l.lex = some (.ok (.num 1, l1))) :
    tokenize l = .eof l1.yytext l1.yylineno := by
  simp [tokenize, tokenizeLoop, h]

/-- A token other than the end of input heads the stream. -/
theorem tokenize_of_lex (l l1 : Lexer) (t : Token) (h : l.lex = some (.ok (t, l1)))
    (ht : t ≠ .num 1) : tokenize l = .cons t l1.yytext l1.yylineno (tokenize l1) := by
  have hlt : l1._input.length < l._input.length := by
    rcases lex_cases l t l1 h with ⟨h0, _⟩ | ⟨_, hlt⟩
    · exact absurd h0 ht
    · exact hlt
  have hs := tokenizeLoop_stable l._input.length (l1._input.length + 1) l1 hlt
    (Nat.lt_succ_self _)
  unfold tokenize
  rw [tokenizeLoop, h]
  split
  · rename_i heq; cases heq
  · rename_i heq; cases heq
  · rename_i heq
    simp only [Option.some.injEq, Except.ok.injEq, Prod.mk.injEq] at heq
    exact absurd heq.1 ht
  · rename_i heq
    simp only [Option.some.injEq, Except.ok.injEq, Prod.mk.injEq] at heq
    obtain ⟨rfl, rfl⟩ := heq
    rw [hs]

/-- Replaying the token stream of a lexer state does what the lexer does. -/
theorem replay_lex (l : Lexer) :
    (l.toReplay).lex = (l.lex).map (fun r => r.map (fun x => (x.1, x.2.toReplay))) := by
  cases hl : l.lex with
  | none => exact absurd hl (lex_ne_none l)
  | some res =>
    cases res with
    | error e =>
      simp [Lexer.toReplay, Replay.lex, tokenize_of_lex_error l e hl, Except.map]
    | ok tl =>
      obtain ⟨t, l1⟩ := tl
      rcases lex_cases l t l1 hl with ⟨rfl, hd⟩ | ⟨hne, _⟩
      · have h1 := tokenize_of_lex_eof l1 l1 (lex_done l1 hd)
        simp [Lexer.toReplay, Replay.lex, tokenize_of_lex_eof l l1 hl, Except.map, h1]
      · simp [Lexer.toReplay, Replay.lex, tokenize_of_lex l l1 t hl hne, Except.map]

theorem finish_mapLexer {σ τ : Type} (f : σ → τ) (l : σ)
    (r : Except ParseError (Outcome × Option Token × Nat)) :
    finish (f l) r = (finish l r).map (fun x => x.map (Sum.map (Parser.mapLexer f) id)) := by
  unfold finish
  cases r with
  | error e => rfl
  | ok x =>
    obtain ⟨out, s, n⟩ := x
    cases out <;> rfl

/-- Two lexers that return the same tokens and show the same `yytext` and
`yylineno` drive the parser through the same turns. -/
theorem step_mapLexer {σ τ : Type} (L : LexerOps σ) (M : LexerOps τ) (f : σ → τ)
    (hy : ∀ s, M.yytext (f s) = L.yytext s) (hn : ∀ s, M.yylineno (f s) = L.yylineno s)
    (hlex : ∀ s, M.lex (f s) = (L.lex s).map (fun r => r.map (fun x => (x.1, f x.2))))
    (p : Parser σ) :
    step M (p.mapLexer f) =
      (step L p).map (fun x => x.map (Sum.map (Parser.mapLexer f) id)) := by
  unfold step
  simp only [Parser.mapLexer]
  cases p.stack with
  | nil => rfl
  | cons state rest =>
    simp only
    cases defaultActions state with
    | some action => simp only [hy, hn, finish_mapLexer]
    | none =>
      simp only
      cases p.symbol with
      | some symbol => simp only [hy, hn, finish_mapLexer]
      | none =>
        simp only [hlex]
        cases L.lex p.lexer with
        | none => rfl
        | some res =>
          cases res with
          | error e => rfl
          | ok tl =>
            obtain ⟨t, l1⟩ := tl
            simp only [Option.map_some', Except.map, hy, hn, finish_mapLexer]

theorem parseLoop_mapLexer {σ τ : Type} (L : LexerOps σ) (M : LexerOps τ) (f : σ → τ)
    (hy : ∀ s, M.yytext (f s) = L.yytext s) (hn : ∀ s, M.yylineno (f s) = L.yylineno s)
    (hlex : ∀ s, M.lex (f s) = (L.lex s).map (fun r => r.map (fun x => (x.1, f x.2))))
    (fuel : Nat) (p : Parser σ) :
    parseLoop M fuel (p.mapLexer f) = parseLoop L fuel p := by
  induction fuel generalizing p with
  | zero => rfl
  | succ n ih =>
    unfold parseLoop
    rw [step_mapLexer L M f hy hn hlex p]
    cases step L p with
    | none => rfl
    | some res =>
      cases res with
      | error e => rfl
      | ok x =>
        cases x with
        | inl p1 => exact ih p1
        | inr r => rfl

/-- `parse` on a text is the driver run on the token stream of the text. -/
theorem parse_eq_parseTokens (fuel : Nat) (input : String) :
    parse fuel input = parseTokens fuel (tokenize (setInput input)) :=
  (parseLoop_mapLexer lexer replay Lexer.toReplay (fun _ => rfl) (fun _ => rfl) replay_lex
    fuel (initial (setInput input))).symm

/-- More fuel does not change a result. -/
theorem parseLoop_mono {σ : Type} (L : LexerOps σ) (n k : Nat) (p : Parser σ)
    (r : Except ParseError JSVal) (h : parseLoop L n p = some r) :
    parseLoop L (n + k) p = some r := by
  induction n generalizing p with
  | zero => simp [parseLoop] at h
  | succ n ih =>
    rw [Nat.add_right_comm]
    unfold parseLoop at h ⊢
    cases hs : step L p with
    | none => rw [hs] at h; cases h
    | some res =>
      rw [hs] at h
      cases res with
      | error e => exact h
      | ok x =>
        cases x with
        | inl p1 => exact ih p1 h
        | inr v => exact h

theorem parseTokens_mono (n k : Nat) (toks : TokStream) (r : Except ParseError JSVal)
    (h : parseTokens n toks = some r) : parseTokens (n + k) toks = some r :=
  parseLoop_mono replay n k _ r h

theorem parse_mono (n k : Nat) (input : String) (r : Except ParseError JSVal)
    (h : parse n input = some r) : parse (n + k) input = some r :=
  parseLoop_mono lexer n k _ r h

/-! ### Characters -/

theorem isLetter_isWordChar {c : Char} (h : isLetter c = true) : isWordChar c = true := by
  simp [isWordChar, h]

theorem isLetter_not_isSpace {c : Char} (h : isLetter c = true) : isSpace c = false := by
  simp only [isLetter, Bool.or_eq_true, Bool.and_eq_true, decide_eq_true_eq] at h
  simp only [isSpace, Bool.or_eq_false_iff, Bool.and_eq_false_iff, decide_eq_false_iff_not]
  omega

theorem isLetter_not_isDigit {c : Char} (h : isLetter c = true) : isDigit c = false := by
  simp only [isLetter, Bool.or_eq_true, Bool.and_eq_true, decide_eq_true_eq] at h
  simp only [isDigit, Bool.and_eq_false_iff, decide_eq_false_iff_not]
  omega

theorem ne_of_isLetter {c d : Char} (h : isLetter c = true) (hd : isLetter d = false) :
    c ≠ d := by
  rintro rfl
  rw [h] at hd
  cases hd

theorem ne_of_isWordChar {c d : Char} (h : isWordChar c = true) (hd : isWordChar d = false) :
    c ≠ d := by
  rintro rfl
  rw [h] at hd
  cases hd

theorem ne_of_isSpace {c d : Char} (h : isSpace c = true) (hd : isSpace d = false) :
    c ≠ d := by
  rintro rfl
  rw [h] at hd
  cases hd

/-! ### Lists -/

theorem takeWhile_append_all (p : Char → Bool) (t r : List Char) (ht : t.all p = true) :
    (t ++ r).takeWhile p = t ++ r.takeWhile p := by
  induction t with
  | nil => rfl
  | cons x t ih =>
    simp only [List.all_cons, Bool.and_eq_true] at ht
    simp [List.takeWhile, ht.1, ih ht.2]

theorem takeWhile_of_wordBoundary (r : List Char) (hr : wordBoundary r = true) :
    r.takeWhile isWordChar = [] := by
  cases r with
  | nil => rfl
  | cons c s =>
    simp only [wordBoundary, Bool.not_eq_true'] at hr
    simp [List.takeWhile, hr]

theorem lineBreaks_eq_zero (t : List Char) (h : ∀ x ∈ t, x ≠ '\r' ∧ x ≠ '\n') :
    lineBreaks t = 0 := by
  induction t with
  | nil => rfl
  | cons c t ih =>
    have h1 := h c (by simp)
    have h2 := ih (fun x hx => h x (List.mem_cons_of_mem _ hx))
    cases t with
    | nil => simp [lineBreaks, h1.1, h1.2]
    | cons d t1 =>
      rw [lineBreaks]
      simp [h1.1, h1.2, h2]

theorem isWordChar_not_break {x : Char} (h : isWordChar x = true) : x ≠ '\r' ∧ x ≠ '\n' :=
  ⟨ne_of_isWordChar h (by decide), ne_of_isWordChar h (by decide)⟩

/-- A word rule does not match at the start of a different word. -/
theorem keyword_no_match (k a r : List Char)
    (hk : ∀ x ∈ k, isWordChar x = true) (ha : ∀ x ∈ a, isWordChar x = true)
    (hr : wordBoundary r = true) (hne : k ≠ a) :
    (k.isPrefixOf (a ++ r) && wordBoundary ((a ++ r).drop k.length)) = false := by
  induction k generalizing a with
  | nil =>
    cases a with
    | nil => exact absurd rfl hne
    | cons y a1 => simp [wordBoundary, ha y (by simp)]
  | cons x k1 ih =>
    cases a with
    | nil =>
      cases r with
      | nil => simp [List.isPrefixOf]
      | cons c s =>
        simp only [wordBoundary, Bool.not_eq_true'] at hr
        have hx : x ≠ c := ne_of_isWordChar (hk x (by simp)) hr
        simp [List.isPrefixOf, hx]
    | cons y a1 =>
      by_cases hxy : x = y
      · subst hxy
        have hne1 : k1 ≠ a1 := fun h0 => hne (by rw [h0])
        have := ih a1 (fun z hz => hk z (List.mem_cons_of_mem _ hz))
          (fun z hz => ha z (List.mem_cons_of_mem _ hz)) hne1
        simpa [List.isPrefixOf] using this
      · simp [List.isPrefixOf, hxy]

theorem keywordRule_ident (kw : String) (a : String) (r : List Char)
    (hk : ∀ x ∈ kw.data, isWordChar x = true) (ha : ∀ x ∈ a.data, isWordChar x = true)
    (hr : wordBoundary r = true) (hne : a ≠ kw) :
    keywordRule kw (a.data ++ r) = none := by
  unfold keywordRule
  rw [keyword_no_match kw.data a.data r hk ha hr]
  · simp
  · intro h0
    apply hne
    cases a; cases kw
    simp only at h0
    rw [h0]

/-- The parts of an identifier: a letter, then word characters. -/
theorem isIdentifier_data (a : String) (ha : isIdentifier a = true) :
    ∃ h t, a.data = h :: t ∧ isLetter h = true ∧ t.all isWordChar = true := by
  simp only [isIdentifier, isWord, Bool.and_eq_true] at ha
  cases hd : a.data with
  | nil => rw [hd] at ha; simp at ha
  | cons h t =>
    rw [hd] at ha
    simp only [Bool.and_eq_true] at ha
    exact ⟨h, t, rfl, ha.1.1, ha.1.2⟩

theorem isIdentifier_wordChars (a : String) (ha : isIdentifier a = true) :
    ∀ x ∈ a.data, isWordChar x = true := by
  obtain ⟨h, t, hd, hh, ht⟩ := isIdentifier_data a ha
  rw [hd]
  intro x hx
  rcases List.mem_cons.mp hx with rfl | hx
  · exact isLetter_isWordChar hh
  · exact List.all_eq_true.mp ht x hx

theorem isIdentifier_not_reserved (a : String) (ha : isIdentifier a = true) :
    a ≠ "true" ∧ a ≠ "false" ∧ a ≠ "null" ∧ a ≠ "switch" ∧ a ≠ "if" ∧ a ≠ "else" ∧
      a ≠ "return" := by
  simp only [isIdentifier, reserved, Bool.and_eq_true, Bool.not_eq_true',
    List.contains_eq_any_beq, List.any_cons, List.any_nil, Bool.or_false,
    Bool.or_eq_false_iff, beq_eq_false_iff_ne, ne_eq] at ha
  obtain ⟨_, h1, h2, h3, h4, h5, h6, h7⟩ := ha
  exact ⟨h1, h2, h3, h4, h5, h6, h7⟩

/-! ### Lexing an identifier -/

/-- At an identifier followed by the end of the input or by a character that is
not a word character, `next` returns the token `IDENTIFIER` with the identifier
as `yytext`. -/
theorem next_ident (a : String) (ha : isIdentifier a = true) (r : List Char)
    (hr : wordBoundary r = true) (y : JSVal) (n : Nat) :
    next { _input := a.data ++ r, yytext := y, yylineno := n, done := false } =
      .ok (some (.num 8), { _input := r, yytext := .str a, yylineno := n, done := false }) := by
  have hw := isIdentifier_wordChars a ha
  obtain ⟨hn1, hn2, hn3, hn4, hn5, hn6, hn7⟩ := isIdentifier_not_reserved a ha
  have k1 := keywordRule_ident "true" a r (by decide) hw hr hn1
  have k2 := keywordRule_ident "false" a r (by decide) hw hr hn2
  have k3 := keywordRule_ident "null" a r (by decide) hw hr hn3
  have k4 := keywordRule_ident "switch" a r (by decide) hw hr hn4
  have k5 := keywordRule_ident "if" a r (by decide) hw hr hn5
  have k6 := keywordRule_ident "else" a r (by decide) hw hr hn6
  have k7 := keywordRule_ident "return" a r (by decide) hw hr hn7
  obtain ⟨h, t, hd, hh, ht⟩ := isIdentifier_data a ha
  have r0 : rule0 (a.data ++ r) = none := by
    rw [hd]
    simp [rule0, ne_of_isLetter hh (d := '#') (by decide)]
  have r1 : rule1 (a.data ++ r) = none := by
    rw [hd]
    simp [rule1, List.takeWhile, isLetter_not_isSpace hh]
  have r5 : textRule "@" (a.data ++ r) = none := by
    rw [hd]
    simp [textRule, List.isPrefixOf, (ne_of_isLetter hh (d := '@') (by decide)).symm]
  have r10 : rule10 (a.data ++ r) = some a.data := by
    rw [hd]
    simp [rule10, hh, takeWhile_append_all isWordChar t r ht, takeWhile_of_wordBoundary r hr]
  have hlb : lineBreaks a.data = 0 :=
    lineBreaks_eq_zero _ (fun x hx => isWordChar_not_break (hw x hx))
  have he : (a.data ++ r).isEmpty = false := by rw [hd]; rfl
  simp only [next, Bool.false_eq_true, ↓reduceIte, firstMatch, rules, r0, r1, k1, k2, k3, r5,
    k4, k5, k6, k7, r10, test_match, lexerAction, List.drop_left, hlb, Nat.add_zero, he,
    Bool.false_and]

theorem tokenize_lexMany (k : Nat) (l : Lexer) :
    tokenize l = TokStream.prepend (lexMany k l).1 (tokenize (lexMany k l).2) := by
  induction k generalizing l with
  | zero => rfl
  | succ k ih =>
    unfold lexMany
    cases hl : l.lex with
    | none => rfl
    | some res =>
      cases res with
      | error e => rfl
      | ok tl =>
        obtain ⟨t, l1⟩ := tl
        simp only
        split
        · rfl
        · rename_i hne
          rw [tokenize_of_lex l l1 t hl hne, ih l1]
          rfl

/-- The stream of a text from the tokens of a part that evaluates and the stream
of what follows. -/
theorem tokenize_chunk (k : Nat) {l l1 : Lexer} {ts : List (Token × JSVal × Nat)}
    {rest out : TokStream} (h : lexMany k l = (ts, l1)) (hrest : tokenize l1 = rest)
    (hout : TokStream.prepend ts rest = out) : tokenize l = out := by
  rw [tokenize_lexMany k l, h, hrest, hout]

theorem tokenize_eq_of_lex_eq (l l1 : Lexer) (h : l.lex = l1.lex) : tokenize l = tokenize l1 := by
  cases hl : l1.lex with
  | none => exact absurd hl (lex_ne_none l1)
  | some res =>
    cases res with
    | error e =>
      rw [tokenize_of_lex_error l e (h.trans hl), tokenize_of_lex_error l1 e hl]
    | ok tl =>
      obtain ⟨t, l2⟩ := tl
      by_cases ht : t = .num 1
      · subst ht
        rw [tokenize_of_lex_eof l l2 (h.trans hl), tokenize_of_lex_eof l1 l2 hl]
      · rw [tokenize_of_lex l l2 t (h.trans hl) ht, tokenize_of_lex l1 l2 t hl ht]

/-- The `yytext` left by the previous token does not matter to the next ones. -/
theorem tokenize_yytext (s : List Char) (y y1 : JSVal) (n : Nat) :
    tokenize { _input := s, yytext := y, yylineno := n, done := false } =
      tokenize { _input := s, yytext := y1, yylineno := n, done := false } := by
  apply tokenize_eq_of_lex_eq
  show lexLoop (s.length + 1) _ = lexLoop (s.length + 1) _
  rw [lexLoop, lexLoop]
  rfl

/-- One token of a text that evaluates, and the stream of what follows. -/
theorem tokenize_step (l l1 : Lexer) (t : Token) (h : l.lex = some (.ok (t, l1)))
    (ht : t ≠ .num 1) {rest : TokStream}
    (hrest : tokenize { _input := l1._input, yytext := .str "", yylineno := l1.yylineno,
                        done := false } = rest) (hd : l1.done = false) :
    tokenize l = .cons t l1.yytext l1.yylineno rest := by
  rw [tokenize_of_lex l l1 t h ht, ← hrest]
  obtain ⟨s, y, n, d⟩ := l1
  simp only at hd
  subst hd
  exact congrArg _ (tokenize_yytext _ _ _ _)

/-- An identifier followed by the end of the input or by a character that is not
a word character. -/
theorem tokenize_ident (a : String) (ha : isIdentifier a = true) {r : List Char}
    (hr : wordBoundary r = true) {y : JSVal} {n : Nat} {rest : TokStream}
    (hrest : tokenize { _input := r, yytext := .str "", yylineno := n, done := false } = rest) :
    tokenize { _input := a.data ++ r, yytext := y, yylineno := n, done := false } =
      .cons (.num 8) (.str a) n rest := by
  rw [tokenize_of_lex _ _ _ (lex_of_next_some _ _ _ (next_ident a ha r hr y n)) (by simp),
    ← hrest]
  exact congrArg _ (tokenize_yytext _ _ _ _)

/-- White space before a character that is not white space is skipped. -/
theorem next_space (w c : Char) (s : List Char) (hw : isSpace w = true)
    (hc : isSpace c = false) (y : JSVal) (n : Nat) :
    next { _input := w :: c :: s, yytext := y, yylineno := n, done := false } =
      .ok (none, { _input := c :: s, yytext := .str (String.mk [w]),
                   yylineno := n + lineBreaks [w], done := false }) := by
  have r0 : rule0 (w :: c :: s) = none := by
    simp [rule0, ne_of_isSpace hw (d := '#') (by decide)]
  have r1 : rule1 (w :: c :: s) = some [w] := by
    simp [rule1, List.takeWhile, hw, hc]
  simp only [next, Bool.false_eq_true, ↓reduceIte, firstMatch, rules, r0, r1, test_match,
    lexerAction, List.length_singleton, List.drop_succ_cons, List.drop_zero,
    List.isEmpty_cons, Bool.and_false]

/-- A space, then an identifier followed by the end of the input or by a
character that is not a word character. -/
theorem tokenize_space_ident (a : String) (ha : isIdentifier a = true) {r : List Char}
    (hr : wordBoundary r = true) {y : JSVal} {n : Nat} {rest : TokStream}
    (hrest : tokenize { _input := r, yytext := .str "", yylineno := n, done := false } = rest) :
    tokenize { _input := ' ' :: (a.data ++ r), yytext := y, yylineno := n, done := false } =
      .cons (.num 8) (.str a) n rest := by
  obtain ⟨h, t, hd, hh, _⟩ := isIdentifier_data a ha
  have hn : next (Lexer.mk (' ' :: (a.data ++ r)) y n false) =
      .ok (none, Lexer.mk (a.data ++ r) (.str (String.mk [' '])) n false) := by
    rw [hd]
    exact next_space ' ' h (t ++ r) (by decide) (isLetter_not_isSpace hh) y n
  rw [tokenize_eq_of_lex_eq _ _ (lex_of_next_none _ _ hn)]
  exact tokenize_ident a ha hr hrest

/-- At `!` followed by a letter, `next` returns the token `!`: rule 21 (`!=`)
does not match and rule 24 does. -/
theorem next_not_letter (h : Char) (s : List Char) (hh : isLetter h = true) (y : JSVal)
    (n : Nat) :
    next { _input := '!' :: h :: s, yytext := y, yylineno := n, done := false } =
      .ok (some (.name "!"), { _input := h :: s, yytext := .str "!", yylineno := n,
                               done := false }) := by
  have r0 : rule0 ('!' :: h :: s) = none := rfl
  have r1 : rule1 ('!' :: h :: s) = none := rfl
  have r2 : keywordRule "true" ('!' :: h :: s) = none := rfl
  have r3 : keywordRule "false" ('!' :: h :: s) = none := rfl
  have r4 : keywordRule "null" ('!' :: h :: s) = none := rfl
  have r5 : textRule "@" ('!' :: h :: s) = none := rfl
  have r6 : keywordRule "switch" ('!' :: h :: s) = none := rfl
  have r7 : keywordRule "if" ('!' :: h :: s) = none := rfl
  have r8 : keywordRule "else" ('!' :: h :: s) = none := rfl
  have r9 : keywordRule "return" ('!' :: h :: s) = none := rfl
  have r10 : rule10 ('!' :: h :: s) = none := rfl
  have r11 : rule11 ('!' :: h :: s) = none := rfl
  have r12 : rule12 ('!' :: h :: s) = none := rfl
  have r13 : rule13 ('!' :: h :: s) = none := rfl
  have r14 : textRule "<-" ('!' :: h :: s) = none := rfl
  have r15 : textRule "||" ('!' :: h :: s) = none := rfl
  have r16 : textRule "&&" ('!' :: h :: s) = none := rfl
  have r17 : textRule "??" ('!' :: h :: s) = none := rfl
  have r18 : textRule "==" ('!' :: h :: s) = none := rfl
  have r19 : textRule ">=" ('!' :: h :: s) = none := rfl
  have r20 : textRule "<=" ('!' :: h :: s) = none := rfl
  have r21 : textRule "!=" ('!' :: h :: s) = none := by
    have hne : ('=' == h) = false := by
      simpa using (ne_of_isLetter hh (d := '=') (by decide)).symm
    simp [textRule, List.isPrefixOf, hne]
  have r22 : textRule "=>" ('!' :: h :: s) = none := rfl
  have r23 : textRule ";" ('!' :: h :: s) = none := rfl
  have r24 : rule24 ('!' :: h :: s) = some ['!'] := rfl
  simp only [next, Bool.false_eq_true, ↓reduceIte, firstMatch, rules, r0, r1, r2, r3, r4, r5,
    r6, r7, r8, r9, r10, r11, r12, r13, r14, r15, r16, r17, r18, r19, r20, r21, r22, r23, r24,
    test_match, List.isEmpty_cons, Bool.false_and]
  rfl

/-- The operator `!` right before an identifier. -/
theorem tokenize_not_ident (a : String) (ha : isIdentifier a = true) {r : List Char}
    (hr : wordBoundary r = true) {y : JSVal} {n : Nat} {rest : TokStream}
    (hrest : tokenize { _input := r, yytext := .str "", yylineno := n, done := false } = rest) :
    tokenize { _input := '!' :: (a.data ++ r), yytext := y, yylineno := n, done := false } =
      .cons (.name "!") (.str "!") n (.cons (.num 8) (.str a) n rest) := by
  obtain ⟨h, t, hd, hh, _⟩ := isIdentifier_data a ha
  have hn : next (Lexer.mk ('!' :: (a.data ++ r)) y n false) =
      .ok (some (.name "!"), Lexer.mk (a.data ++ r) (.str "!") n false) := by
    rw [hd]
    exact next_not_letter h (t ++ r) hh y n
  rw [tokenize_of_lex _ _ _ (lex_of_next_some _ _ _ hn) (by simp)]
  exact congrArg _ (tokenize_ident a ha hr hrest)

/-- A space, then the operator `!` right before an identifier. -/
theorem tokenize_space_not_ident (a : String) (ha : isIdentifier a = true) {r : List Char}
    (hr : wordBoundary r = true) {y : JSVal} {n : Nat} {rest : TokStream}
    (hrest : tokenize { _input := r, yytext := .str "", yylineno := n, done := false } = rest) :
    tokenize { _input := ' ' :: '!' :: (a.data ++ r), yytext := y, yylineno := n,
               done := false } =
      .cons (.name "!") (.str "!") n (.cons (.num 8) (.str a) n rest) := by
  have hn := next_space ' ' '!' (a.data ++ r) (by decide) (by decide) y n
  rw [tokenize_eq_of_lex_eq _ _ (lex_of_next_none _ _ hn)]
  exact tokenize_not_ident a ha hr hrest

/-! ## Token streams of the scripts of the claims -/

theorem tokens_fold_plus (a b c : String) (ha : isIdentifier a = true) (hb : isIdentifier b = true) (hc : isIdentifier c = true) :
    tokenize (setInput ("x = " ++ a ++ " + " ++ b ++ " + " ++ c ++ ";")) =
      .cons (.num 8) (.str "x") 0 (.cons (.name "=") (.str "=") 0 (.cons (.num 8) (.str a) 0 (.cons (.name "+") (.str "+") 0 (.cons (.num 8) (.str b) 0 (.cons (.name "+") (.str "+") 0 (.cons (.num 8) (.str c) 0 (.cons (.num 7) (.str ";") 0 (.eof (.str "") 0)))))))) := by
  have hS : ("x = " ++ a ++ " + " ++ b ++ " + " ++ c ++ ";").data =
      'x' :: ' ' :: '=' :: ' ' :: (a.data ++ ' ' :: '+' :: ' ' :: (b.data ++ ' ' :: '+' :: ' ' :: (c.data ++ [';']))) := by
    simp [String.data_append]
  unfold setInput
  rw [hS]
  refine tokenize_step _ (Lexer.mk (' ' :: '=' :: ' ' :: (a.data ++ ' ' :: '+' :: ' ' :: (b.data ++ ' ' :: '+' :: ' ' :: (c.data ++ [';'])))) (.str "x") 0 false) (.num 8) (by rfl) (by decide) ?_ rfl
  refine tokenize_step _ (Lexer.mk (' ' :: (a.data ++ ' ' :: '+' :: ' ' :: (b.data ++ ' ' :: '+' :: ' ' :: (c.data ++ [';'])))) (.str "=") 0 false) (.name "=") (by rfl) (by decide) ?_ rfl
  refine tokenize_space_ident a ha (by rfl) ?_
  refine tokenize_step _ (Lexer.mk (' ' :: (b.data ++ ' ' :: '+' :: ' ' :: (c.data ++ [';']))) (.str "+") 0 false) (.name "+") (by rfl) (by decide) ?_ rfl
  refine tokenize_space_ident b hb (by rfl) ?_
  refine tokenize_step _ (Lexer.mk (' ' :: (c.data ++ [';'])) (.str "+") 0 false) (.name "+") (by rfl) (by decide) ?_ rfl
  refine tokenize_space_ident c hc (by rfl) ?_
  refine tokenize_step _ (Lexer.mk ([]) (.str ";") 0 false) (.num 7) (by rfl) (by decide) ?_ rfl
  rfl

theorem tokens_fold_times (a b c : String) (ha : isIdentifier a = true) (hb : isIdentifier b = true) (hc : isIdentifier c = true) :
    tokenize (setInput ("x = " ++ a ++ " * " ++ b ++ " * " ++ c ++ ";")) =
      .cons (.num 8) (.str "x") 0 (.cons (.name "=") (.str "=") 0 (.cons (.num 8) (.str a) 0 (.cons (.name "*") (.str "*") 0 (.cons (.num 8) (.str b) 0 (.cons (.name "*") (.str "*") 0 (.cons (.num 8) (.str c) 0 (.cons (.num 7) (.str ";") 0 (.eof (.str "") 0)))))))) := by
  have hS : ("x = " ++ a ++ " * " ++ b ++ " * " ++ c ++ ";").data =
      'x' :: ' ' :: '=' :: ' ' :: (a.data ++ ' ' :: '*' :: ' ' :: (b.data ++ ' ' :: '*' :: ' ' :: (c.data ++ [';']))) := by
    simp [String.data_append]
  unfold setInput
  rw [hS]
  refine tokenize_step _ (Lexer.mk (' ' :: '=' :: ' ' :: (a.data ++ ' ' :: '*' :: ' ' :: (b.data ++ ' ' :: '*' :: ' ' :: (c.data ++ [';'])))) (.str "x") 0 false) (.num 8) (by rfl) (by decide) ?_ rfl
  refine tokenize_step _ (Lexer.mk (' ' :: (a.data ++ ' ' :: '*' :: ' ' :: (b.data ++ ' ' :: '*' :: ' ' :: (c.data ++ [';'])))) (.str "=") 0 false) (.name "=") (by rfl) (by decide) ?_ rfl
  refine tokenize_space_ident a ha (by rfl) ?_
  refine tokenize_step _ (Lexer.mk (' ' :: (b.data ++ ' ' :: '*' :: ' ' :: (c.data ++ [';']))) (.str "*") 0 false) (.name "*") (by rfl) (by decide) ?_ rfl
  refine tokenize_space_ident b hb (by rfl) ?_
  refine tokenize_step _ (Lexer.mk (' ' :: (c.data ++ [';'])) (.str "*") 0 false) (.name "*") (by rfl) (by decide) ?_ rfl
  refine tokenize_space_ident c hc (by rfl) ?_
  refine tokenize_step _ (Lexer.mk ([]) (.str ";") 0 false) (.num 7) (by rfl) (by decide) ?_ rfl
  rfl

theorem tokens_fold_and (a b c : String) (ha : isIdentifier a = true) (hb : isIdentifier b = true) (hc : isIdentifier c = true) :
    tokenize (setInput ("x = " ++ a ++ " && " ++ b ++ " && " ++ c ++ ";")) =
      .cons (.num 8) (.str "x") 0 (.cons (.name "=") (.str "=") 0 (.cons (.num 8) (.str a) 0 (.cons (.num 43) (.str "&&") 0 (.cons (.num 8) (.str b) 0 (.cons (.num 43) (.str "&&") 0 (.cons (.num 8) (.str c) 0 (.cons (.num 7) (.str ";") 0 (.eof (.str "") 0)))))))) := by
  have hS : ("x = " ++ a ++ " && " ++ b ++ " && " ++ c ++ ";").data =
      'x' :: ' ' :: '=' :: ' ' :: (a.data ++ ' ' :: '&' :: '&' :: ' ' :: (b.data ++ ' ' :: '&' :: '&' :: ' ' :: (c.data ++ [';']))) := by
    simp [String.data_append]
  unfold setInput
  rw [hS]
  refine tokenize_step _ (Lexer.mk (' ' :: '=' :: ' ' :: (a.data ++ ' ' :: '&' :: '&' :: ' ' :: (b.data ++ ' ' :: '&' :: '&' :: ' ' :: (c.data ++ [';'])))) (.str "x") 0 false) (.num 8) (by rfl) (by decide) ?_ rfl
  refine tokenize_step _ (Lexer.mk (' ' :: (a.data ++ ' ' :: '&' :: '&' :: ' ' :: (b.data ++ ' ' :: '&' :: '&' :: ' ' :: (c.data ++ [';'])))) (.str "=") 0 false) (.name "=") (by rfl) (by decide) ?_ rfl
  refine tokenize_space_ident a ha (by rfl) ?_
  refine tokenize_step _ (Lexer.mk (' ' :: (b.data ++ ' ' :: '&' :: '&' :: ' ' :: (c.data ++ [';']))) (.str "&&") 0 false) (.num 43) (by rfl) (by decide) ?_ rfl
  refine tokenize_space_ident b hb (by rfl) ?_
  refine tokenize_step _ (Lexer.mk (' ' :: (c.data ++ [';'])) (.str "&&") 0 false) (.num 43) (by rfl) (by decide) ?_ rfl
  refine tokenize_space_ident c hc (by rfl) ?_
  refine tokenize_step _ (Lexer.mk ([]) (.str ";") 0 false) (.num 7) (by rfl) (by decide) ?_ rfl
  rfl

theorem tokens_fold_or (a b c : String) (ha : isIdentifier a = true) (hb : isIdentifier b = true) (hc : isIdentifier c = true) :
    tokenize (setInput ("x = " ++ a ++ " || " ++ b ++ " || " ++ c ++ ";")) =
      .cons (.num 8) (.str "x") 0 (.cons (.name "=") (.str "=") 0 (.cons (.num 8) (.str a) 0 (.cons (.num 41) (.str "||") 0 (.cons (.num 8) (.str b) 0 (.cons (.num 41) (.str "||") 0 (.cons (.num 8) (.str c) 0 (.cons (.num 7) (.str ";") 0 (.eof (.str "") 0)))))))) := by
  have hS : ("x = " ++ a ++ " || " ++ b ++ " || " ++ c ++ ";").data =
      'x' :: ' ' :: '=' :: ' ' :: (a.data ++ ' ' :: '|' :: '|' :: ' ' :: (b.data ++ ' ' :: '|' :: '|' :: ' ' :: (c.data ++ [';']))) := by
    simp [String.data_append]
  unfold setInput
  rw [hS]
  refine tokenize_step _ (Lexer.mk (' ' :: '=' :: ' ' :: (a.data ++ ' ' :: '|' :: '|' :: ' ' :: (b.data ++ ' ' :: '|' :: '|' :: ' ' :: (c.data ++ [';'])))) (.str "x") 0 false) (.num 8) (by rfl) (by decide) ?_ rfl
  refine tokenize_step _ (Lexer.mk (' ' :: (a.data ++ ' ' :: '|' :: '|' :: ' ' :: (b.data ++ ' ' :: '|' :: '|' :: ' ' :: (c.data ++ [';'])))) (.str "=") 0 false) (.name "=") (by rfl) (by decide) ?_ rfl
  refine tokenize_space_ident a ha (by rfl) ?_
  refine tokenize_step _ (Lexer.mk (' ' :: (b.data ++ ' ' :: '|' :: '|' :: ' ' :: (c.data ++ [';']))) (.str "||") 0 false) (.num 41) (by rfl) (by decide) ?_ rfl
  refine tokenize_space_ident b hb (by rfl) ?_
  refine tokenize_step _ (Lexer.mk (' ' :: (c.data ++ [';'])) (.str "||") 0 false) (.num 41) (by rfl) (by decide) ?_ rfl
  refine tokenize_space_ident c hc (by rfl) ?_
  refine tokenize_step _ (Lexer.mk ([]) (.str ";") 0 false) (.num 7) (by rfl) (by decide) ?_ rfl
  rfl

theorem tokens_fold_coalesce (a b c : String) (ha : isIdentifier a = true) (hb : isIdentifier b = true) (hc : isIdentifier c = true) :
    tokenize (setInput ("x = " ++ a ++ " ?? " ++ b ++ " ?? " ++ c ++ ";")) =
      .cons (.num 8) (.str "x") 0 (.cons (.name "=") (.str "=") 0 (.cons (.num 8) (.str a) 0 (.cons (.num 42) (.str "??") 0 (.cons (.num 8) (.str b) 0 (.cons (.num 42) (.str "??") 0 (.cons (.num 8) (.str c) 0 (.cons (.num 7) (.str ";") 0 (.eof (.str "") 0)))))))) := by
  have hS : ("x = " ++ a ++ " ?? " ++ b ++ " ?? " ++ c ++ ";").data =
      'x' :: ' ' :: '=' :: ' ' :: (a.data ++ ' ' :: '?' :: '?' :: ' ' :: (b.data ++ ' ' :: '?' :: '?' :: ' ' :: (c.data ++ [';']))) := by
    simp [String.data_append]
  unfold setInput
  rw [hS]
  refine tokenize_step _ (Lexer.mk (' ' :: '=' :: ' ' :: (a.data ++ ' ' :: '?' :: '?' :: ' ' :: (b.data ++ ' ' :: '?' :: '?' :: ' ' :: (c.data ++ [';'])))) (.str "x") 0 false) (.num 8) (by rfl) (by decide) ?_ rfl
  refine tokenize_step _ (Lexer.mk (' ' :: (a.data ++ ' ' :: '?' :: '?' :: ' ' :: (b.data ++ ' ' :: '?' :: '?' :: ' ' :: (c.data ++ [';'])))) (.str "=") 0 false) (.name "=") (by rfl) (by decide) ?_ rfl
  refine tokenize_space_ident a ha (by rfl) ?_
  refine tokenize_step _ (Lexer.mk (' ' :: (b.data ++ ' ' :: '?' :: '?' :: ' ' :: (c.data ++ [';']))) (.str "??") 0 false) (.num 42) (by rfl) (by decide) ?_ rfl
  refine tokenize_space_ident b hb (by rfl) ?_
  refine tokenize_step _ (Lexer.mk (' ' :: (c.data ++ [';'])) (.str "??") 0 false) (.num 42) (by rfl) (by decide) ?_ rfl
  refine tokenize_space_ident c hc (by rfl) ?_
  refine tokenize_step _ (Lexer.mk ([]) (.str ";") 0 false) (.num 7) (by rfl) (by decide) ?_ rfl
  rfl

theorem tokens_or_and (a b c : String) (ha : isIdentifier a = true) (hb : isIdentifier b = true) (hc : isIdentifier c = true) :
    tokenize (setInput ("x = " ++ a ++ " || " ++ b ++ " && " ++ c ++ ";")) =
      .cons (.num 8) (.str "x") 0 (.cons (.name "=") (.str "=") 0 (.cons (.num 8) (.str a) 0 (.cons (.num 41) (.str "||") 0 (.cons (.num 8) (.str b) 0 (.cons (.num 43) (.str "&&") 0 (.cons (.num 8) (.str c) 0 (.cons (.num 7) (.str ";") 0 (.eof (.str "") 0)))))))) := by
  have hS : ("x = " ++ a ++ " || " ++ b ++ " && " ++ c ++ ";").data =
      'x' :: ' ' :: '=' :: ' ' :: (a.data ++ ' ' :: '|' :: '|' :: ' ' :: (b.data ++ ' ' :: '&' :: '&' :: ' ' :: (c.data ++ [';']))) := by
    simp [String.data_append]
  unfold setInput
  rw [hS]
  refine tokenize_step _ (Lexer.mk (' ' :: '=' :: ' ' :: (a.data ++ ' ' :: '|' :: '|' :: ' ' :: (b.data ++ ' ' :: '&' :: '&' :: ' ' :: (c.data ++ [';'])))) (.str "x") 0 false) (.num 8) (by rfl) (by decide) ?_ rfl
  refine tokenize_step _ (Lexer.mk (' ' :: (a.data ++ ' ' :: '|' :: '|' :: ' ' :: (b.data ++ ' ' :: '&' :: '&' :: ' ' :: (c.data ++ [';'])))) (.str "=") 0 false) (.name "=") (by rfl) (by decide) ?_ rfl
  refine tokenize_space_ident a ha (by rfl) ?_
  refine tokenize_step _ (Lexer.mk (' ' :: (b.data ++ ' ' :: '&' :: '&' :: ' ' :: (c.data ++ [';']))) (.str "||") 0 false) (.num 41) (by rfl) (by decide) ?_ rfl
  refine tokenize_space_ident b hb (by rfl) ?_
  refine tokenize_step _ (Lexer.mk (' ' :: (c.data ++ [';'])) (.str "&&") 0 false) (.num 43) (by rfl) (by decide) ?_ rfl
  refine tokenize_space_ident c hc (by rfl) ?_
  refine tokenize_step _ (Lexer.mk ([]) (.str ";") 0 false) (.num 7) (by rfl) (by decide) ?_ rfl
  rfl

theorem tokens_coalesce_and (a b c : String) (ha : isIdentifier a = true) (hb : isIdentifier b = true) (hc : isIdentifier c = true) :
    tokenize (setInput ("x = " ++ a ++ " ?? " ++ b ++ " && " ++ c ++ ";")) =
      .cons (.num 8) (.str "x") 0 (.cons (.name "=") (.str "=") 0 (.cons (.num 8) (.str a) 0 (.cons (.num 42) (.str "??") 0 (.cons (.num 8) (.str b) 0 (.cons (.num 43) (.str "&&") 0 (.cons (.num 8) (.str c) 0 (.cons (.num 7) (.str ";") 0 (.eof (.str "") 0)))))))) := by
  have hS : ("x = " ++ a ++ " ?? " ++ b ++ " && " ++ c ++ ";").data =
      'x' :: ' ' :: '=' :: ' ' :: (a.data ++ ' ' :: '?' :: '?' :: ' ' :: (b.data ++ ' ' :: '&' :: '&' :: ' ' :: (c.data ++ [';']))) := by
    simp [String.data_append]
  unfold setInput
  rw [hS]
  refine tokenize_step _ (Lexer.mk (' ' :: '=' :: ' ' :: (a.data ++ ' ' :: '?' :: '?' :: ' ' :: (b.data ++ ' ' :: '&' :: '&' :: ' ' :: (c.data ++ [';'])))) (.str "x") 0 false) (.num 8) (by rfl) (by decide) ?_ rfl
  refine tokenize_step _ (Lexer.mk (' ' :: (a.data ++ ' ' :: '?' :: '?' :: ' ' :: (b.data ++ ' ' :: '&' :: '&' :: ' ' :: (c.data ++ [';'])))) (.str "=") 0 false) (.name "=") (by rfl) (by decide) ?_ rfl
  refine tokenize_space_ident a ha (by rfl) ?_
  refine tokenize_step _ (Lexer.mk (' ' :: (b.data ++ ' ' :: '&' :: '&' :: ' ' :: (c.data ++ [';']))) (.str "??") 0 false) (.num 42) (by rfl) (by decide) ?_ rfl
  refine tokenize_space_ident b hb (by rfl) ?_
  refine tokenize_step _ (Lexer.mk (' ' :: (c.data ++ [';'])) (.str "&&") 0 false) (.num 43) (by rfl) (by decide) ?_ rfl
  refine tokenize_space_ident c hc (by rfl) ?_
  refine tokenize_step _ (Lexer.mk ([]) (.str ";") 0 false) (.num 7) (by rfl) (by decide) ?_ rfl
  rfl

theorem tokens_eq_lt (a b c : String) (ha : isIdentifier a = true) (hb : isIdentifier b = true) (hc : isIdentifier c = true) :
    tokenize (setInput ("x = " ++ a ++ " == " ++ b ++ " < " ++ c ++ ";")) =
      .cons (.num 8) (.str "x") 0 (.cons (.name "=") (.str "=") 0 (.cons (.num 8) (.str a) 0 (.cons (.num 33) (.str "==") 0 (.cons (.num 8) (.str b) 0 (.cons (.name "<") (.str "<") 0 (.cons (.num 8) (.str c) 0 (.cons (.num 7) (.str ";") 0 (.eof (.str "") 0)))))))) := by
  have hS : ("x = " ++ a ++ " == " ++ b ++ " < " ++ c ++ ";").data =
      'x' :: ' ' :: '=' :: ' ' :: (a.data ++ ' ' :: '=' :: '=' :: ' ' :: (b.data ++ ' ' :: '<' :: ' ' :: (c.data ++ [';']))) := by
    simp [String.data_append]
  unfold setInput
  rw [hS]
  refine tokenize_step _ (Lexer.mk (' ' :: '=' :: ' ' :: (a.data ++ ' ' :: '=' :: '=' :: ' ' :: (b.data ++ ' ' :: '<' :: ' ' :: (c.data ++ [';'])))) (.str "x") 0 false) (.num 8) (by rfl) (by decide) ?_ rfl
  refine tokenize_step _ (Lexer.mk (' ' :: (a.data ++ ' ' :: '=' :: '=' :: ' ' :: (b.data ++ ' ' :: '<' :: ' ' :: (c.data ++ [';'])))) (.str "=") 0 false) (.name "=") (by rfl) (by decide) ?_ rfl
  refine tokenize_space_ident a ha (by rfl) ?_
  refine tokenize_step _ (Lexer.mk (' ' :: (b.data ++ ' ' :: '<' :: ' ' :: (c.data ++ [';']))) (.str "==") 0 false) (.num 33) (by rfl) (by decide) ?_ rfl
  refine tokenize_space_ident b hb (by rfl) ?_
  refine tokenize_step _ (Lexer.mk (' ' :: (c.data ++ [';'])) (.str "<") 0 false) (.name "<") (by rfl) (by decide) ?_ rfl
  refine tokenize_space_ident c hc (by rfl) ?_
  refine tokenize_step _ (Lexer.mk ([]) (.str ";") 0 false) (.num 7) (by rfl) (by decide) ?_ rfl
  rfl

theorem tokens_neq_gte (a b c : String) (ha : isIdentifier a = true) (hb : isIdentifier b = true) (hc : isIdentifier c = true) :
    tokenize (setInput ("x = " ++ a ++ " != " ++ b ++ " >= " ++ c ++ ";")) =
      .cons (.num 8) (.str "x") 0 (.cons (.name "=") (.str "=") 0 (.cons (.num 8) (.str a) 0 (.cons (.num 34) (.str "!=") 0 (.cons (.num 8) (.str b) 0 (.cons (.num 36) (.str ">=") 0 (.cons (.num 8) (.str c) 0 (.cons (.num 7) (.str ";") 0 (.eof (.str "") 0)))))))) := by
  have hS : ("x = " ++ a ++ " != " ++ b ++ " >= " ++ c ++ ";").data =
      'x' :: ' ' :: '=' :: ' ' :: (a.data ++ ' ' :: '!' :: '=' :: ' ' :: (b.data ++ ' ' :: '>' :: '=' :: ' ' :: (c.data ++ [';']))) := by
    simp [String.data_append]
  unfold setInput
  rw [hS]
  refine tokenize_step _ (Lexer.mk (' ' :: '=' :: ' ' :: (a.data ++ ' ' :: '!' :: '=' :: ' ' :: (b.data ++ ' ' :: '>' :: '=' :: ' ' :: (c.data ++ [';'])))) (.str "x") 0 false) (.num 8) (by rfl) (by decide) ?_ rfl
  refine tokenize_step _ (Lexer.mk (' ' :: (a.data ++ ' ' :: '!' :: '=' :: ' ' :: (b.data ++ ' ' :: '>' :: '=' :: ' ' :: (c.data ++ [';'])))) (.str "=") 0 false) (.name "=") (by rfl) (by decide) ?_ rfl
  refine tokenize_space_ident a ha (by rfl) ?_
  refine tokenize_step _ (Lexer.mk (' ' :: (b.data ++ ' ' :: '>' :: '=' :: ' ' :: (c.data ++ [';']))) (.str "!=") 0 false) (.num 34) (by rfl) (by decide) ?_ rfl
  refine tokenize_space_ident b hb (by rfl) ?_
  refine tokenize_step _ (Lexer.mk (' ' :: (c.data ++ [';'])) (.str ">=") 0 false) (.num 36) (by rfl) (by decide) ?_ rfl
  refine tokenize_space_ident c hc (by rfl) ?_
  refine tokenize_step _ (Lexer.mk ([]) (.str ";") 0 false) (.num 7) (by rfl) (by decide) ?_ rfl
  rfl

theorem tokens_not_and (a b : String) (ha : isIdentifier a = true) (hb : isIdentifier b = true) :
    tokenize (setInput ("x = !" ++ a ++ " && " ++ b ++ ";")) =
      .cons (.num 8) (.str "x") 0 (.cons (.name "=") (.str "=") 0 (.cons (.name "!") (.str "!") 0 (.cons (.num 8) (.str a) 0 (.cons (.num 43) (.str "&&") 0 (.cons (.num 8) (.str b) 0 (.cons (.num 7) (.str ";") 0 (.eof (.str "") 0))))))) := by
  have hS : ("x = !" ++ a ++ " && " ++ b ++ ";").data =
      'x' :: ' ' :: '=' :: ' ' :: '!' :: (a.data ++ ' ' :: '&' :: '&' :: ' ' :: (b.data ++ [';'])) := by
    simp [String.data_append]
  unfold setInput
  rw [hS]
  refine tokenize_step _ (Lexer.mk (' ' :: '=' :: ' ' :: '!' :: (a.data ++ ' ' :: '&' :: '&' :: ' ' :: (b.data ++ [';']))) (.str "x") 0 false) (.num 8) (by rfl) (by decide) ?_ rfl
  refine tokenize_step _ (Lexer.mk (' ' :: '!' :: (a.data ++ ' ' :: '&' :: '&' :: ' ' :: (b.data ++ [';']))) (.str "=") 0 false) (.name "=") (by rfl) (by decide) ?_ rfl
  refine tokenize_space_not_ident a ha (by rfl) ?_
  refine tokenize_step _ (Lexer.mk (' ' :: (b.data ++ [';'])) (.str "&&") 0 false) (.num 43) (by rfl) (by decide) ?_ rfl
  refine tokenize_space_ident b hb (by rfl) ?_
  refine tokenize_step _ (Lexer.mk ([]) (.str ";") 0 false) (.num 7) (by rfl) (by decide) ?_ rfl
  rfl

theorem tokens_not_eq (a b : String) (ha : isIdentifier a = true) (hb : isIdentifier b = true) :
    tokenize (setInput ("x = !" ++ a ++ " == " ++ b ++ ";")) =
      .cons (.num 8) (.str "x") 0 (.cons (.name "=") (.str "=") 0 (.cons (.name "!") (.str "!") 0 (.cons (.num 8) (.str a) 0 (.cons (.num 33) (.str "==") 0 (.cons (.num 8) (.str b) 0 (.cons (.num 7) (.str ";") 0 (.eof (.str "") 0))))))) := by
  have hS : ("x = !" ++ a ++ " == " ++ b ++ ";").data =
      'x' :: ' ' :: '=' :: ' ' :: '!' :: (a.data ++ ' ' :: '=' :: '=' :: ' ' :: (b.data ++ [';'])) := by
    simp [String.data_append]
  unfold setInput
  rw [hS]
  refine tokenize_step _ (Lexer.mk (' ' :: '=' :: ' ' :: '!' :: (a.data ++ ' ' :: '=' :: '=' :: ' ' :: (b.data ++ [';']))) (.str "x") 0 false) (.num 8) (by rfl) (by decide) ?_ rfl
  refine tokenize_step _ (Lexer.mk (' ' :: '!' :: (a.data ++ ' ' :: '=' :: '=' :: ' ' :: (b.data ++ [';']))) (.str "=") 0 false) (.name "=") (by rfl) (by decide) ?_ rfl
  refine tokenize_space_not_ident a ha (by rfl) ?_
  refine tokenize_step _ (Lexer.mk (' ' :: (b.data ++ [';'])) (.str "==") 0 false) (.num 33) (by rfl) (by decide) ?_ rfl
  refine tokenize_space_ident b hb (by rfl) ?_
  refine tokenize_step _ (Lexer.mk ([]) (.str ";") 0 false) (.num 7) (by rfl) (by decide) ?_ rfl
  rfl

theorem tokens_neg_times (a b : String) (ha : isIdentifier a = true) (hb : isIdentifier b = true) :
    tokenize (setInput ("x = - " ++ a ++ " * " ++ b ++ ";")) =
      .cons (.num 8) (.str "x") 0 (.cons (.name "=") (.str "=") 0 (.cons (.name "-") (.str "-") 0 (.cons (.num 8) (.str a) 0 (.cons (.name "*") (.str "*") 0 (.cons (.num 8) (.str b) 0 (.cons (.num 7) (.str ";") 0 (.eof (.str "") 0))))))) := by
  have hS : ("x = - " ++ a ++ " * " ++ b ++ ";").data =
      'x' :: ' ' :: '=' :: ' ' :: '-' :: ' ' :: (a.data ++ ' ' :: '*' :: ' ' :: (b.data ++ [';'])) := by
    simp [String.data_append]
  unfold setInput
  rw [hS]
  refine tokenize_step _ (Lexer.mk (' ' :: '=' :: ' ' :: '-' :: ' ' :: (a.data ++ ' ' :: '*' :: ' ' :: (b.data ++ [';']))) (.str "x") 0 false) (.num 8) (by rfl) (by decide) ?_ rfl
  refine tokenize_step _ (Lexer.mk (' ' :: '-' :: ' ' :: (a.data ++ ' ' :: '*' :: ' ' :: (b.data ++ [';']))) (.str "=") 0 false) (.name "=") (by rfl) (by decide) ?_ rfl
  refine tokenize_step _ (Lexer.mk (' ' :: (a.data ++ ' ' :: '*' :: ' ' :: (b.data ++ [';']))) (.str "-") 0 false) (.name "-") (by rfl) (by decide) ?_ rfl
  refine tokenize_space_ident a ha (by rfl) ?_
  refine tokenize_step _ (Lexer.mk (' ' :: (b.data ++ [';'])) (.str "*") 0 false) (.name "*") (by rfl) (by decide) ?_ rfl
  refine tokenize_space_ident b hb (by rfl) ?_
  refine tokenize_step _ (Lexer.mk ([]) (.str ";") 0 false) (.num 7) (by rfl) (by decide) ?_ rfl
  rfl

theorem tokens_call_stmt (f a : String) (hf : isIdentifier f = true) (ha : isIdentifier a = true) :
    tokenize (setInput (f ++ "(" ++ a ++ ");")) =
      .cons (.num 8) (.str f) 0 (.cons (.name "(") (.str "(") 0 (.cons (.num 8) (.str a) 0 (.cons (.name ")") (.str ")") 0 (.cons (.num 7) (.str ";") 0 (.eof (.str "") 0))))) := by
  have hS : (f ++ "(" ++ a ++ ");").data =
      f.data ++ '(' :: (a.data ++ [')', ';']) := by
    simp [String.data_append]
  unfold setInput
  rw [hS]
  refine tokenize_ident f hf (by rfl) ?_
  refine tokenize_step _ (Lexer.mk ((a.data ++ [')', ';'])) (.str "(") 0 false) (.name "(") (by rfl) (by decide) ?_ rfl
  refine tokenize_ident a ha (by rfl) ?_
  refine tokenize_step _ (Lexer.mk ([';']) (.str ")") 0 false) (.name ")") (by rfl) (by decide) ?_ rfl
  refine tokenize_step _ (Lexer.mk ([]) (.str ";") 0 false) (.num 7) (by rfl) (by decide) ?_ rfl
  rfl

theorem tokens_sum_stmt (a : String) (ha : isIdentifier a = true) :
    tokenize (setInput (a ++ " + 1;")) =
      .cons (.num 8) (.str a) 0 (.cons (.name "+") (.str "+") 0 (.cons (.num 26) (.num (.int 1)) 0 (.cons (.num 7) (.str ";") 0 (.eof (.str "") 0)))) := by
  have hS : (a ++ " + 1;").data =
      a.data ++ [' ', '+', ' ', '1', ';'] := by
    simp [String.data_append]
  unfold setInput
  rw [hS]
  refine tokenize_ident a ha (by rfl) ?_
  refine tokenize_step _ (Lexer.mk ([' ', '1', ';']) (.str "+") 0 false) (.name "+") (by rfl) (by decide) ?_ rfl
  refine tokenize_step _ (Lexer.mk ([';']) (.num (.int 1)) 0 false) (.num 26) (by rfl) (by decide) ?_ rfl
  refine tokenize_step _ (Lexer.mk ([]) (.str ";") 0 false) (.num 7) (by rfl) (by decide) ?_ rfl
  rfl

theorem tokens_return_call (f a : String) (hf : isIdentifier f = true) (ha : isIdentifier a = true) :
    tokenize (setInput ("return " ++ f ++ "(" ++ a ++ ");")) =
      .cons (.num 54) (.str "return") 0 (.cons (.num 8) (.str f) 0 (.cons (.name "(") (.str "(") 0 (.cons (.num 8) (.str a) 0 (.cons (.name ")") (.str ")") 0 (.cons (.num 7) (.str ";") 0 (.eof (.str "") 0)))))) := by
  have hS : ("return " ++ f ++ "(" ++ a ++ ");").data =
      'r' :: 'e' :: 't' :: 'u' :: 'r' :: 'n' :: ' ' :: (f.data ++ '(' :: (a.data ++ [')', ';'])) := by
    simp [String.data_append]
  unfold setInput
  rw [hS]
  refine tokenize_step _ (Lexer.mk (' ' :: (f.data ++ '(' :: (a.data ++ [')', ';']))) (.str "return") 0 false) (.num 54) (by rfl) (by decide) ?_ rfl
  refine tokenize_space_ident f hf (by rfl) ?_
  refine tokenize_step _ (Lexer.mk ((a.data ++ [')', ';'])) (.str "(") 0 false) (.name "(") (by rfl) (by decide) ?_ rfl
  refine tokenize_ident a ha (by rfl) ?_
  refine tokenize_step _ (Lexer.mk ([';']) (.str ")") 0 false) (.name ")") (by rfl) (by decide) ?_ rfl
  refine tokenize_step _ (Lexer.mk ([]) (.str ";") 0 false) (.num 7) (by rfl) (by decide) ?_ rfl
  rfl

theorem tokens_return_sum (a : String) (ha : isIdentifier a = true) :
    tokenize (setInput ("return " ++ a ++ " + 1;")) =
      .cons (.num 54) (.str "return") 0 (.cons (.num 8) (.str a) 0 (.cons (.name "+") (.str "+") 0 (.cons (.num 26) (.num (.int 1)) 0 (.cons (.num 7) (.str ";") 0 (.eof (.str "") 0))))) := by
  have hS : ("return " ++ a ++ " + 1;").data =
      'r' :: 'e' :: 't' :: 'u' :: 'r' :: 'n' :: ' ' :: (a.data ++ [' ', '+', ' ', '1', ';']) := by
    simp [String.data_append]
  unfold setInput
  rw [hS]
  refine tokenize_step _ (Lexer.mk (' ' :: (a.data ++ [' ', '+', ' ', '1', ';'])) (.str "return") 0 false) (.num 54) (by rfl) (by decide) ?_ rfl
  refine tokenize_space_ident a ha (by rfl) ?_
  refine tokenize_step _ (Lexer.mk ([' ', '1', ';']) (.str "+") 0 false) (.name "+") (by rfl) (by decide) ?_ rfl
  refine tokenize_step _ (Lexer.mk ([';']) (.num (.int 1)) 0 false) (.num 26) (by rfl) (by decide) ?_ rfl
  refine tokenize_step _ (Lexer.mk ([]) (.str ";") 0 false) (.num 7) (by rfl) (by decide) ?_ rfl
  rfl

/-! ## Parses of the scripts of the claims -/

theorem parse_fold_plus (a b c : String) (ha : isIdentifier a = true) (hb : isIdentifier b = true) (hc : isIdentifier c = true) (k : Nat) :
    parse (k + 64) ("x = " ++ a ++ " + " ++ b ++ " + " ++ c ++ ";") =
      some (.ok (Ast.seq [Ast.set "x" (Ast.nary "sum" [Ast.nary "sum" [Ast.get a, Ast.get b], Ast.get c])])) := by
  rw [parse_eq_parseTokens, tokens_fold_plus a b c ha hb hc, Nat.add_comm]
  exact parseTokens_mono 64 k _ _ (by rfl)

theorem parse_fold_times (a b c : String) (ha : isIdentifier a = true) (hb : isIdentifier b = true) (hc : isIdentifier c = true) (k : Nat) :
    parse (k + 64) ("x = " ++ a ++ " * " ++ b ++ " * " ++ c ++ ";") =
      some (.ok (Ast.seq [Ast.set "x" (Ast.nary "product" [Ast.nary "product" [Ast.get a, Ast.get b], Ast.get c])])) := by
  rw [parse_eq_parseTokens, tokens_fold_times a b c ha hb hc, Nat.add_comm]
  exact parseTokens_mono 64 k _ _ (by rfl)

theorem parse_fold_and (a b c : String) (ha : isIdentifier a = true) (hb : isIdentifier b = true) (hc : isIdentifier c = true) (k : Nat) :
    parse (k + 64) ("x = " ++ a ++ " && " ++ b ++ " && " ++ c ++ ";") =
      some (.ok (Ast.seq [Ast.set "x" (Ast.nary "and" [Ast.nary "and" [Ast.get a, Ast.get b], Ast.get c])])) := by
  rw [parse_eq_parseTokens, tokens_fold_and a b c ha hb hc, Nat.add_comm]
  exact parseTokens_mono 64 k _ _ (by rfl)

theorem parse_fold_or (a b c : String) (ha : isIdentifier a = true) (hb : isIdentifier b = true) (hc : isIdentifier c = true) (k : Nat) :
    parse (k + 64) ("x = " ++ a ++ " || " ++ b ++ " || " ++ c ++ ";") =
      some (.ok (Ast.seq [Ast.set "x" (Ast.nary "or" [Ast.nary "or" [Ast.get a, Ast.get b], Ast.get c])])) := by
  rw [parse_eq_parseTokens, tokens_fold_or a b c ha hb hc, Nat.add_comm]
  exact parseTokens_mono 64 k _ _ (by rfl)

theorem parse_fold_coalesce (a b c : String) (ha : isIdentifier a = true) (hb : isIdentifier b = true) (hc : isIdentifier c = true) (k : Nat) :
    parse (k + 64) ("x = " ++ a ++ " ?? " ++ b ++ " ?? " ++ c ++ ";") =
      some (.ok (Ast.seq [Ast.set "x" (Ast.nary "coalesce" [Ast.nary "coalesce" [Ast.get a, Ast.get b], Ast.get c])])) := by
  rw [parse_eq_parseTokens, tokens_fold_coalesce a b c ha hb hc, Nat.add_comm]
  exact parseTokens_mono 64 k _ _ (by rfl)

theorem parse_or_and (a b c : String) (ha : isIdentifier a = true) (hb : isIdentifier b = true) (hc : isIdentifier c = true) (k : Nat) :
    parse (k + 64) ("x = " ++ a ++ " || " ++ b ++ " && " ++ c ++ ";") =
      some (.ok (Ast.seq [Ast.set "x" (Ast.nary "and" [Ast.nary "or" [Ast.get a, Ast.get b], Ast.get c])])) := by
  rw [parse_eq_parseTokens, tokens_or_and a b c ha hb hc, Nat.add_comm]
  exact parseTokens_mono 64 k _ _ (by rfl)

theorem parse_coalesce_and (a b c : String) (ha : isIdentifier a = true) (hb : isIdentifier b = true) (hc : isIdentifier c = true) (k : Nat) :
    parse (k + 64) ("x = " ++ a ++ " ?? " ++ b ++ " && " ++ c ++ ";") =
      some (.ok (Ast.seq [Ast.set "x" (Ast.nary "and" [Ast.nary "coalesce" [Ast.get a, Ast.get b], Ast.get c])])) := by
  rw [parse_eq_parseTokens, tokens_coalesce_and a b c ha hb hc, Nat.add_comm]
  exact parseTokens_mono 64 k _ _ (by rfl)

theorem parse_eq_lt (a b c : String) (ha : isIdentifier a = true) (hb : isIdentifier b = true) (hc : isIdentifier c = true) (k : Nat) :
    parse (k + 64) ("x = " ++ a ++ " == " ++ b ++ " < " ++ c ++ ";") =
      some (.ok (Ast.seq [Ast.set "x" (Ast.binary "<" (Ast.binary "equals" (Ast.get a) (Ast.get b)) (Ast.get c))])) := by
  rw [parse_eq_parseTokens, tokens_eq_lt a b c ha hb hc, Nat.add_comm]
  exact parseTokens_mono 64 k _ _ (by rfl)

theorem parse_neq_gte (a b c : String) (ha : isIdentifier a = true) (hb : isIdentifier b = true) (hc : isIdentifier c = true) (k : Nat) :
    parse (k + 64) ("x = " ++ a ++ " != " ++ b ++ " >= " ++ c ++ ";") =
      some (.ok (Ast.seq [Ast.set "x" (Ast.binary ">=" (Ast.unary "not" (Ast.binary "equals" (Ast.get a) (Ast.get b))) (Ast.get c))])) := by
  rw [parse_eq_parseTokens, tokens_neq_gte a b c ha hb hc, Nat.add_comm]
  exact parseTokens_mono 64 k _ _ (by rfl)

theorem parse_not_and (a b : String) (ha : isIdentifier a = true) (hb : isIdentifier b = true) (k : Nat) :
    parse (k + 64) ("x = !" ++ a ++ " && " ++ b ++ ";") =
      some (.ok (Ast.seq [Ast.set "x" (Ast.unary "not" (Ast.nary "and" [Ast.get a, Ast.get b]))])) := by
  rw [parse_eq_parseTokens, tokens_not_and a b ha hb, Nat.add_comm]
  exact parseTokens_mono 64 k _ _ (by rfl)

theorem parse_not_eq (a b : String) (ha : isIdentifier a = true) (hb : isIdentifier b = true) (k : Nat) :
    parse (k + 64) ("x = !" ++ a ++ " == " ++ b ++ ";") =
      some (.ok (Ast.seq [Ast.set "x" (Ast.unary "not" (Ast.binary "equals" (Ast.get a) (Ast.get b)))])) := by
  rw [parse_eq_parseTokens, tokens_not_eq a b ha hb, Nat.add_comm]
  exact parseTokens_mono 64 k _ _ (by rfl)

theorem parse_neg_times (a b : String) (ha : isIdentifier a = true) (hb : isIdentifier b = true) (k : Nat) :
    parse (k + 64) ("x = - " ++ a ++ " * " ++ b ++ ";") =
      some (.ok (Ast.seq [Ast.set "x" (Ast.unary "negative" (Ast.nary "product" [Ast.get a, Ast.get b]))])) := by
  rw [parse_eq_parseTokens, tokens_neg_times a b ha hb, Nat.add_comm]
  exact parseTokens_mono 64 k _ _ (by rfl)

theorem parse_call_stmt (f a : String) (hf : isIdentifier f = true) (ha : isIdentifier a = true) (k : Nat) :
    parse (k + 64) (f ++ "(" ++ a ++ ");") =
      some (.error (.syntaxError 0 (some (.num 21)) 0 [9, 11])) := by
  rw [parse_eq_parseTokens, tokens_call_stmt f a hf ha, Nat.add_comm]
  exact parseTokens_mono 64 k _ _ (by rfl)

theorem parse_sum_stmt (a : String) (ha : isIdentifier a = true) (k : Nat) :
    parse (k + 64) (a ++ " + 1;") =
      some (.error (.syntaxError 0 (some (.num 37)) 0 [9, 11])) := by
  rw [parse_eq_parseTokens, tokens_sum_stmt a ha, Nat.add_comm]
  exact parseTokens_mono 64 k _ _ (by rfl)

theorem parse_return_call (f a : String) (hf : isIdentifier f = true) (ha : isIdentifier a = true) (k : Nat) :
    parse (k + 64) ("return " ++ f ++ "(" ++ a ++ ");") =
      some (.ok (Ast.seq [Ast.unary "return" (Ast.call f [("value", Ast.get a)])])) := by
  rw [parse_eq_parseTokens, tokens_return_call f a hf ha, Nat.add_comm]
  exact parseTokens_mono 64 k _ _ (by rfl)

theorem parse_return_sum (a : String) (ha : isIdentifier a = true) (k : Nat) :
    parse (k + 64) ("return " ++ a ++ " + 1;") =
      some (.ok (Ast.seq [Ast.unary "return" (Ast.nary "sum" [Ast.get a, Ast.int 1])])) := by
  rw [parse_eq_parseTokens, tokens_return_sum a ha, Nat.add_comm]
  exact parseTokens_mono 64 k _ _ (by rfl)

/-! ## The claims -/

/-- C1, counterexample: `x = a + b + c;` parses to a `sum` whose first value is
itself a `sum`, not to one `sum` with the three values `[a, b, c]`. -/
theorem C1_counterexample :
    parse 64 "x = a + b + c;" =
      some (.ok (Ast.seq [Ast.set "x"
        (Ast.nary "sum" [Ast.nary "sum" [Ast.get "a", Ast.get "b"], Ast.get "c"])])) ∧
    parse 64 "x = a + b + c;" ≠
      some (.ok (Ast.seq [Ast.set "x" (Ast.nary "sum" [Ast.get "a", Ast.get "b", Ast.get "c"])])) := by
  have h : parse 64 "x = a + b + c;" =
      some (.ok (Ast.seq [Ast.set "x"
        (Ast.nary "sum" [Ast.nary "sum" [Ast.get "a", Ast.get "b"], Ast.get "c"])])) := by rfl
  refine ⟨h, ?_⟩
  rw [h]
  simp [Ast.seq, Ast.set, Ast.nary, Ast.get]

/-- C1, amended: a repeated variadic operator folds pairwise to the left, each
application building a two-element node of its own: for identifiers `a`, `b`, `c`,
`x = a + b + c;` yields `sum [sum [a, b], c]`, and likewise for `*`, `&&`, `||`
and `??`. -/
theorem C1_fold_nests (a b c : String) (ha : isIdentifier a = true)
    (hb : isIdentifier b = true) (hc : isIdentifier c = true) (k : Nat) :
    parse (k + 64) ("x = " ++ a ++ " + " ++ b ++ " + " ++ c ++ ";") =
      some (.ok (Ast.seq [Ast.set "x"
        (Ast.nary "sum" [Ast.nary "sum" [Ast.get a, Ast.get b], Ast.get c])])) ∧
    parse (k + 64) ("x = " ++ a ++ " * " ++ b ++ " * " ++ c ++ ";") =
      some (.ok (Ast.seq [Ast.set "x"
        (Ast.nary "product" [Ast.nary "product" [Ast.get a, Ast.get b], Ast.get c])])) ∧
    parse (k + 64) ("x = " ++ a ++ " && " ++ b ++ " && " ++ c ++ ";") =
      some (.ok (Ast.seq [Ast.set "x"
        (Ast.nary "and" [Ast.nary "and" [Ast.get a, Ast.get b], Ast.get c])])) ∧
    parse (k + 64) ("x = " ++ a ++ " || " ++ b ++ " || " ++ c ++ ";") =
      some (.ok (Ast.seq [Ast.set "x"
        (Ast.nary "or" [Ast.nary "or" [Ast.get a, Ast.get b], Ast.get c])])) ∧
    parse (k + 64) ("x = " ++ a ++ " ?? " ++ b ++ " ?? " ++ c ++ ";") =
      some (.ok (Ast.seq [Ast.set "x"
        (Ast.nary "coalesce" [Ast.nary "coalesce" [Ast.get a, Ast.get b], Ast.get c])])) :=
  ⟨parse_fold_plus a b c ha hb hc k, parse_fold_times a b c ha hb hc k,
    parse_fold_and a b c ha hb hc k, parse_fold_or a b c ha hb hc k,
    parse_fold_coalesce a b c ha hb hc k⟩

/-- C1, witness: the amended claim at the identifiers `a`, `b`, `c`. -/
theorem C1_fold_nests_witness :
    isIdentifier "a" = true ∧ isIdentifier "b" = true ∧ isIdentifier "c" = true ∧
    parse (0 + 64) ("x = " ++ "a" ++ " + " ++ "b" ++ " + " ++ "c" ++ ";") =
      some (.ok (Ast.seq [Ast.set "x"
        (Ast.nary "sum" [Ast.nary "sum" [Ast.get "a", Ast.get "b"], Ast.get "c"])])) :=
  ⟨by decide, by decide, by decide,
    (C1_fold_nests "a" "b" "c" (by decide) (by decide) (by decide) 0).1⟩

/-- C2, counterexample: in `x = a || b && c;` the `and` node is the parent of
the `or` node, not its right operand. -/
theorem C2_counterexample :
    parse 64 "x = a || b && c;" =
      some (.ok (Ast.seq [Ast.set "x"
        (Ast.nary "and" [Ast.nary "or" [Ast.get "a", Ast.get "b"], Ast.get "c"])])) ∧
    parse 64 "x = a || b && c;" ≠
      some (.ok (Ast.seq [Ast.set "x"
        (Ast.nary "or" [Ast.get "a", Ast.nary "and" [Ast.get "b", Ast.get "c"]])])) := by
  have h : parse 64 "x = a || b && c;" =
      some (.ok (Ast.seq [Ast.set "x"
        (Ast.nary "and" [Ast.nary "or" [Ast.get "a", Ast.get "b"], Ast.get "c"])])) := by rfl
  refine ⟨h, ?_⟩
  rw [h]
  simp [Ast.seq, Ast.set, Ast.nary, Ast.get]

/-- C2, amended: `&&`, `||` and `??` bind equally and associate to the left: for
identifiers `a`, `b`, `c`, `x = a || b && c;` yields `and [or [a, b], c]` and
`x = a ?? b && c;` yields `and [coalesce [a, b], c]`. -/
theorem C2_and_or_same_level (a b c : String) (ha : isIdentifier a = true)
    (hb : isIdentifier b = true) (hc : isIdentifier c = true) (k : Nat) :
    parse (k + 64) ("x = " ++ a ++ " || " ++ b ++ " && " ++ c ++ ";") =
      some (.ok (Ast.seq [Ast.set "x"
        (Ast.nary "and" [Ast.nary "or" [Ast.get a, Ast.get b], Ast.get c])])) ∧
    parse (k + 64) ("x = " ++ a ++ " ?? " ++ b ++ " && " ++ c ++ ";") =
      some (.ok (Ast.seq [Ast.set "x"
        (Ast.nary "and" [Ast.nary "coalesce" [Ast.get a, Ast.get b], Ast.get c])])) :=
  ⟨parse_or_and a b c ha hb hc k, parse_coalesce_and a b c ha hb hc k⟩

/-- C2, witness: the amended claim at the identifiers `a`, `b`, `c`. -/
theorem C2_and_or_same_level_witness :
    isIdentifier "a" = true ∧ isIdentifier "b" = true ∧ isIdentifier "c" = true ∧
    parse (0 + 64) ("x = " ++ "a" ++ " || " ++ "b" ++ " && " ++ "c" ++ ";") =
      some (.ok (Ast.seq [Ast.set "x"
        (Ast.nary "and" [Ast.nary "or" [Ast.get "a", Ast.get "b"], Ast.get "c"])])) :=
  ⟨by decide, by decide, by decide,
    (C2_and_or_same_level "a" "b" "c" (by decide) (by decide) (by decide) 0).1⟩

/-- C3, counterexample: `x = a == b < c;` parses to `<` applied to the `equals`
node and `c`, not to `equals` applied to `a` and the `<` node. -/
theorem C3_counterexample :
    parse 64 "x = a == b < c;" =
      some (.ok (Ast.seq [Ast.set "x"
        (Ast.binary "<" (Ast.binary "equals" (Ast.get "a") (Ast.get "b")) (Ast.get "c"))])) ∧
    parse 64 "x = a == b < c;" ≠
      some (.ok (Ast.seq [Ast.set "x"
        (Ast.binary "equals" (Ast.get "a") (Ast.binary "<" (Ast.get "b") (Ast.get "c")))])) := by
  have h : parse 64 "x = a == b < c;" =
      some (.ok (Ast.seq [Ast.set "x"
        (Ast.binary "<" (Ast.binary "equals" (Ast.get "a") (Ast.get "b")) (Ast.get "c"))])) := by
    rfl
  refine ⟨h, ?_⟩
  rw [h]
  simp [Ast.seq, Ast.set, Ast.binary, Ast.get]

/-- C3, amended: the relational and the equality operators bind equally and
associate to the left: for identifiers `a`, `b`, `c`, `x = a == b < c;` yields
`<` of `equals a b` and `c`, and `x = a != b >= c;` yields `>=` of
`not (equals a b)` and `c`. -/
theorem C3_comparisons_same_level (a b c : String) (ha : isIdentifier a = true)
    (hb : isIdentifier b = true) (hc : isIdentifier c = true) (k : Nat) :
    parse (k + 64) ("x = " ++ a ++ " == " ++ b ++ " < " ++ c ++ ";") =
      some (.ok (Ast.seq [Ast.set "x"
        (Ast.binary "<" (Ast.binary "equals" (Ast.get a) (Ast.get b)) (Ast.get c))])) ∧
    parse (k + 64) ("x = " ++ a ++ " != " ++ b ++ " >= " ++ c ++ ";") =
      some (.ok (Ast.seq [Ast.set "x"
        (Ast.binary ">=" (Ast.unary "not" (Ast.binary "equals" (Ast.get a) (Ast.get b)))
          (Ast.get c))])) :=
  ⟨parse_eq_lt a b c ha hb hc k, parse_neq_gte a b c ha hb hc k⟩

/-- C3, witness: the amended claim at the identifiers `a`, `b`, `c`. -/
theorem C3_comparisons_same_level_witness :
    isIdentifier "a" = true ∧ isIdentifier "b" = true ∧ isIdentifier "c" = true ∧
    parse (0 + 64) ("x = " ++ "a" ++ " == " ++ "b" ++ " < " ++ "c" ++ ";") =
      some (.ok (Ast.seq [Ast.set "x"
        (Ast.binary "<" (Ast.binary "equals" (Ast.get "a") (Ast.get "b")) (Ast.get "c"))])) :=
  ⟨by decide, by decide, by decide,
    (C3_comparisons_same_level "a" "b" "c" (by decide) (by decide) (by decide) 0).1⟩

/-- C4, counterexample: in `x = !a && b;` the `not` node is applied to the whole
`and` node, not to `a` alone. -/
theorem C4_counterexample :
    parse 64 "x = !a && b;" =
      some (.ok (Ast.seq [Ast.set "x"
        (Ast.unary "not" (Ast.nary "and" [Ast.get "a", Ast.get "b"]))])) ∧
    parse 64 "x = !a && b;" ≠
      some (.ok (Ast.seq [Ast.set "x"
        (Ast.nary "and" [Ast.unary "not" (Ast.get "a"), Ast.get "b"])])) := by
  have h : parse 64 "x = !a && b;" =
      some (.ok (Ast.seq [Ast.set "x"
        (Ast.unary "not" (Ast.nary "and" [Ast.get "a", Ast.get "b"]))])) := by rfl
  refine ⟨h, ?_⟩
  rw [h]
  simp [Ast.seq, Ast.set, Ast.nary, Ast.unary, Ast.get]

/-- C4, amended: prefix `!` binds looser than every binary operator and prefix
`-` looser than the multiplicative ones: for identifiers `a`, `b`, `x = !a && b;`
yields `not (and [a, b])`, `x = !a == b;` yields `not (equals a b)` and
`x = - a * b;` yields `negative (product [a, b])`. -/
theorem C4_prefix_operators_loose (a b : String) (ha : isIdentifier a = true)
    (hb : isIdentifier b = true) (k : Nat) :
    parse (k + 64) ("x = !" ++ a ++ " && " ++ b ++ ";") =
      some (.ok (Ast.seq [Ast.set "x"
        (Ast.unary "not" (Ast.nary "and" [Ast.get a, Ast.get b]))])) ∧
    parse (k + 64) ("x = !" ++ a ++ " == " ++ b ++ ";") =
      some (.ok (Ast.seq [Ast.set "x"
        (Ast.unary "not" (Ast.binary "equals" (Ast.get a) (Ast.get b)))])) ∧
    parse (k + 64) ("x = - " ++ a ++ " * " ++ b ++ ";") =
      some (.ok (Ast.seq [Ast.set "x"
        (Ast.unary "negative" (Ast.nary "product" [Ast.get a, Ast.get b]))])) :=
  ⟨parse_not_and a b ha hb k, parse_not_eq a b ha hb k, parse_neg_times a b ha hb k⟩

/-- C4, witness: the amended claim at the identifiers `a`, `b`. -/
theorem C4_prefix_operators_loose_witness :
    isIdentifier "a" = true ∧ isIdentifier "b" = true ∧
    parse (0 + 64) ("x = !" ++ "a" ++ " && " ++ "b" ++ ";") =
      some (.ok (Ast.seq [Ast.set "x"
        (Ast.unary "not" (Ast.nary "and" [Ast.get "a", Ast.get "b"]))])) :=
  ⟨by decide, by decide,
    (C4_prefix_operators_loose "a" "b" (by decide) (by decide) 0).1⟩

/-- C7, counterexample: the script written with `then` does not parse: `then`
is lexed as an identifier and taken as the consequence, and the `else` after the
next identifier is a syntax error. -/
theorem C7_counterexample :
    parse 64 "if (c1) then x else if (c2) then y else z" =
      some (.error (.syntaxError 0 (some (.num 55)) 0 [9, 11])) := by
  rfl

/-- C7, amended: the grammar has no `then` word, the consequence follows the `)`
directly, and `if (c1) x else if (c2) y else z` yields a root `seq` whose single
child is one `cond` node with three ordered branches, the last guarded by `true`. -/
theorem C7_conditional_flattening (k : Nat) :
    parse (k + 64) "if (c1) x else if (c2) y else z" =
      some (.ok (Ast.seq [Ast.cond [Ast.branch (Ast.get "c1") (Ast.get "x"),
        Ast.branch (Ast.get "c2") (Ast.get "y"), Ast.branch (.bool true) (Ast.get "z")]])) := by
  rw [Nat.add_comm]
  exact parse_mono 64 k _ _ (by rfl)

/-- C8, counterexample: the script written with `case` and `:` does not parse:
`case` is lexed as an identifier and the `true` after it is a syntax error. -/
theorem C8_counterexample :
    parse 64 "switch \x7b case true: 1 case false: 2 \x7d" =
      some (.error (.syntaxError 0 (some (.num 15)) 0
        [7, 8, 18, 20, 21, 23, 25, 29, 30, 31, 32, 33, 34, 35, 36, 37, 38, 39, 41, 42, 43, 44,
         50, 52, 54, 55, 57])) := by
  rfl

/-- C8, amended: a case is written `guard => expression;`, its result being a
switch, if or return expression, and `switch { true => return 1; false => return 2; }`
yields a root `seq` whose single child is a `switch` node with two ordered cases,
guards `true` and `false`, results `return 1` and `return 2`. -/
theorem C8_switch_cases (k : Nat) :
    parse (k + 64) "switch \x7b true => return 1; false => return 2; \x7d" =
      some (.ok (Ast.seq [Ast.switch
        [Ast.case (.bool true) (Ast.unary "return" (Ast.int 1)),
         Ast.case (.bool false) (Ast.unary "return" (Ast.int 2))]])) := by
  rw [Nat.add_comm]
  exact parse_mono 64 k _ _ (by rfl)

/-- C9, counterexample: the scripts `f(a);` and `a + 1;` do not parse: after the
leading identifier only `=` or `<-` is accepted. -/
theorem C9_counterexample :
    parse 64 "f(a);" = some (.error (.syntaxError 0 (some (.num 21)) 0 [9, 11])) ∧
    parse 64 "a + 1;" = some (.error (.syntaxError 0 (some (.num 37)) 0 [9, 11])) :=
  ⟨by rfl, by rfl⟩

/-- C9, amended: a bare operator call or sum is not a statement; the expressions
accepted as statements are switch, if and return expressions. For identifiers `f`
and `a`, `f(a);` and `a + 1;` are syntax errors at the token after the leading
identifier, and `return f(a);` and `return a + 1;` yield a root `seq` whose single
child is the `return` node of the call, respectively of the sum. -/
theorem C9_expression_statements (f a : String) (hf : isIdentifier f = true)
    (ha : isIdentifier a = true) (k : Nat) :
    parse (k + 64) (f ++ "(" ++ a ++ ");") =
      some (.error (.syntaxError 0 (some (.num 21)) 0 [9, 11])) ∧
    parse (k + 64) (a ++ " + 1;") =
      some (.error (.syntaxError 0 (some (.num 37)) 0 [9, 11])) ∧
    parse (k + 64) ("return " ++ f ++ "(" ++ a ++ ");") =
      some (.ok (Ast.seq [Ast.unary "return" (Ast.call f [("value", Ast.get a)])])) ∧
    parse (k + 64) ("return " ++ a ++ " + 1;") =
      some (.ok (Ast.seq [Ast.unary "return" (Ast.nary "sum" [Ast.get a, Ast.int 1])])) :=
  ⟨parse_call_stmt f a hf ha k, parse_sum_stmt a ha k, parse_return_call f a hf ha k,
    parse_return_sum a ha k⟩

/-- C9, witness: the amended claim at the operator name `f` and the identifier `a`. -/
theorem C9_expression_statements_witness :
    isIdentifier "f" = true ∧ isIdentifier "a" = true ∧
    parse (0 + 64) ("return " ++ "f" ++ "(" ++ "a" ++ ");") =
      some (.ok (Ast.seq [Ast.unary "return" (Ast.call "f" [("value", Ast.get "a")])])) :=
  ⟨by decide, by decide,
    (C9_expression_statements "f" "a" (by decide) (by decide) 0).2.2.1⟩

theorem tokens_sum_product (a b c : String) (ha : isIdentifier a = true) (hb : isIdentifier b = true) (hc : isIdentifier c = true) :
    tokenize (setInput ("x = " ++ a ++ " + " ++ b ++ " * " ++ c ++ ";")) =
      .cons (.num 8) (.str "x") 0 (.cons (.name "=") (.str "=") 0 (.cons (.num 8) (.str a) 0 (.cons (.name "+") (.str "+") 0 (.cons (.num 8) (.str b) 0 (.cons (.name "*") (.str "*") 0 (.cons (.num 8) (.str c) 0 (.cons (.num 7) (.str ";") 0 (.eof (.str "") 0)))))))) := by
  have hS : ("x = " ++ a ++ " + " ++ b ++ " * " ++ c ++ ";").data =
      'x' :: ' ' :: '=' :: ' ' :: (a.data ++ ' ' :: '+' :: ' ' :: (b.data ++ ' ' :: '*' :: ' ' :: (c.data ++ [';']))) := by
    simp [String.data_append]
  unfold setInput
  rw [hS]
  refine tokenize_step _ (Lexer.mk (' ' :: '=' :: ' ' :: (a.data ++ ' ' :: '+' :: ' ' :: (b.data ++ ' ' :: '*' :: ' ' :: (c.data ++ [';'])))) (.str "x") 0 false) (.num 8) (by rfl) (by decide) ?_ rfl
  refine tokenize_step _ (Lexer.mk (' ' :: (a.data ++ ' ' :: '+' :: ' ' :: (b.data ++ ' ' :: '*' :: ' ' :: (c.data ++ [';'])))) (.str "=") 0 false) (.name "=") (by rfl) (by decide) ?_ rfl
  refine tokenize_space_ident a ha (by rfl) ?_
  refine tokenize_step _ (Lexer.mk (' ' :: (b.data ++ ' ' :: '*' :: ' ' :: (c.data ++ [';']))) (.str "+") 0 false) (.name "+") (by rfl) (by decide) ?_ rfl
  refine tokenize_space_ident b hb (by rfl) ?_
  refine tokenize_step _ (Lexer.mk (' ' :: (c.data ++ [';'])) (.str "*") 0 false) (.name "*") (by rfl) (by decide) ?_ rfl
  refine tokenize_space_ident c hc (by rfl) ?_
  refine tokenize_step _ (Lexer.mk ([]) (.str ";") 0 false) (.num 7) (by rfl) (by decide) ?_ rfl
  rfl

theorem tokens_product_sum (a b c : String) (ha : isIdentifier a = true) (hb : isIdentifier b = true) (hc : isIdentifier c = true) :
    tokenize (setInput ("x = " ++ a ++ " * " ++ b ++ " + " ++ c ++ ";")) =
      .cons (.num 8) (.str "x") 0 (.cons (.name "=") (.str "=") 0 (.cons (.num 8) (.str a) 0 (.cons (.name "*") (.str "*") 0 (.cons (.num 8) (.str b) 0 (.cons (.name "+") (.str "+") 0 (.cons (.num 8) (.str c) 0 (.cons (.num 7) (.str ";") 0 (.eof (.str "") 0)))))))) := by
  have hS : ("x = " ++ a ++ " * " ++ b ++ " + " ++ c ++ ";").data =
      'x' :: ' ' :: '=' :: ' ' :: (a.data ++ ' ' :: '*' :: ' ' :: (b.data ++ ' ' :: '+' :: ' ' :: (c.data ++ [';']))) := by
    simp [String.data_append]
  unfold setInput
  rw [hS]
  refine tokenize_step _ (Lexer.mk (' ' :: '=' :: ' ' :: (a.data ++ ' ' :: '*' :: ' ' :: (b.data ++ ' ' :: '+' :: ' ' :: (c.data ++ [';'])))) (.str "x") 0 false) (.num 8) (by rfl) (by decide) ?_ rfl
  refine tokenize_step _ (Lexer.mk (' ' :: (a.data ++ ' ' :: '*' :: ' ' :: (b.data ++ ' ' :: '+' :: ' ' :: (c.data ++ [';'])))) (.str "=") 0 false) (.name "=") (by rfl) (by decide) ?_ rfl
  refine tokenize_space_ident a ha (by rfl) ?_
  refine tokenize_step _ (Lexer.mk (' ' :: (b.data ++ ' ' :: '+' :: ' ' :: (c.data ++ [';']))) (.str "*") 0 false) (.name "*") (by rfl) (by decide) ?_ rfl
  refine tokenize_space_ident b hb (by rfl) ?_
  refine tokenize_step _ (Lexer.mk (' ' :: (c.data ++ [';'])) (.str "+") 0 false) (.name "+") (by rfl) (by decide) ?_ rfl
  refine tokenize_space_ident c hc (by rfl) ?_
  refine tokenize_step _ (Lexer.mk ([]) (.str ";") 0 false) (.num 7) (by rfl) (by decide) ?_ rfl
  rfl

theorem tokens_minus_div (a b c : String) (ha : isIdentifier a = true) (hb : isIdentifier b = true) (hc : isIdentifier c = true) :
    tokenize (setInput ("x = " ++ a ++ " - " ++ b ++ " / " ++ c ++ ";")) =
      .cons (.num 8) (.str "x") 0 (.cons (.name "=") (.str "=") 0 (.cons (.num 8) (.str a) 0 (.cons (.name "-") (.str "-") 0 (.cons (.num 8) (.str b) 0 (.cons (.name "/") (.str "/") 0 (.cons (.num 8) (.str c) 0 (.cons (.num 7) (.str ";") 0 (.eof (.str "") 0)))))))) := by
  have hS : ("x = " ++ a ++ " - " ++ b ++ " / " ++ c ++ ";").data =
      'x' :: ' ' :: '=' :: ' ' :: (a.data ++ ' ' :: '-' :: ' ' :: (b.data ++ ' ' :: '/' :: ' ' :: (c.data ++ [';']))) := by
    simp [String.data_append]
  unfold setInput
  rw [hS]
  refine tokenize_step _ (Lexer.mk (' ' :: '=' :: ' ' :: (a.data ++ ' ' :: '-' :: ' ' :: (b.data ++ ' ' :: '/' :: ' ' :: (c.data ++ [';'])))) (.str "x") 0 false) (.num 8) (by rfl) (by decide) ?_ rfl
  refine tokenize_step _ (Lexer.mk (' ' :: (a.data ++ ' ' :: '-' :: ' ' :: (b.data ++ ' ' :: '/' :: ' ' :: (c.data ++ [';'])))) (.str "=") 0 false) (.name "=") (by rfl) (by decide) ?_ rfl
  refine tokenize_space_ident a ha (by rfl) ?_
  refine tokenize_step _ (Lexer.mk (' ' :: (b.data ++ ' ' :: '/' :: ' ' :: (c.data ++ [';']))) (.str "-") 0 false) (.name "-") (by rfl) (by decide) ?_ rfl
  refine tokenize_space_ident b hb (by rfl) ?_
  refine tokenize_step _ (Lexer.mk (' ' :: (c.data ++ [';'])) (.str "/") 0 false) (.name "/") (by rfl) (by decide) ?_ rfl
  refine tokenize_space_ident c hc (by rfl) ?_
  refine tokenize_step _ (Lexer.mk ([]) (.str ";") 0 false) (.num 7) (by rfl) (by decide) ?_ rfl
  rfl

theorem tokens_neg_index (a i : String) (ha : isIdentifier a = true) (hi : isIdentifier i = true) :
    tokenize (setInput ("x = - " ++ a ++ "[" ++ i ++ "];")) =
      .cons (.num 8) (.str "x") 0 (.cons (.name "=") (.str "=") 0 (.cons (.name "-") (.str "-") 0 (.cons (.num 8) (.str a) 0 (.cons (.name "[") (.str "[") 0 (.cons (.num 8) (.str i) 0 (.cons (.name "]") (.str "]") 0 (.cons (.num 7) (.str ";") 0 (.eof (.str "") 0)))))))) := by
  have hS : ("x = - " ++ a ++ "[" ++ i ++ "];").data =
      'x' :: ' ' :: '=' :: ' ' :: '-' :: ' ' :: (a.data ++ '[' :: (i.data ++ [']', ';'])) := by
    simp [String.data_append]
  unfold setInput
  rw [hS]
  refine tokenize_step _ (Lexer.mk (' ' :: '=' :: ' ' :: '-' :: ' ' :: (a.data ++ '[' :: (i.data ++ [']', ';']))) (.str "x") 0 false) (.num 8) (by rfl) (by decide) ?_ rfl
  refine tokenize_step _ (Lexer.mk (' ' :: '-' :: ' ' :: (a.data ++ '[' :: (i.data ++ [']', ';']))) (.str "=") 0 false) (.name "=") (by rfl) (by decide) ?_ rfl
  refine tokenize_step _ (Lexer.mk (' ' :: (a.data ++ '[' :: (i.data ++ [']', ';']))) (.str "-") 0 false) (.name "-") (by rfl) (by decide) ?_ rfl
  refine tokenize_space_ident a ha (by rfl) ?_
  refine tokenize_step _ (Lexer.mk ((i.data ++ [']', ';'])) (.str "[") 0 false) (.name "[") (by rfl) (by decide) ?_ rfl
  refine tokenize_ident i hi (by rfl) ?_
  refine tokenize_step _ (Lexer.mk ([';']) (.str "]") 0 false) (.name "]") (by rfl) (by decide) ?_ rfl
  refine tokenize_step _ (Lexer.mk ([]) (.str ";") 0 false) (.num 7) (by rfl) (by decide) ?_ rfl
  rfl

theorem tokens_times_index (a b i : String) (ha : isIdentifier a = true) (hb : isIdentifier b = true) (hi : isIdentifier i = true) :
    tokenize (setInput ("x = " ++ a ++ " * " ++ b ++ "[" ++ i ++ "];")) =
      .cons (.num 8) (.str "x") 0 (.cons (.name "=") (.str "=") 0 (.cons (.num 8) (.str a) 0 (.cons (.name "*") (.str "*") 0 (.cons (.num 8) (.str b) 0 (.cons (.name "[") (.str "[") 0 (.cons (.num 8) (.str i) 0 (.cons (.name "]") (.str "]") 0 (.cons (.num 7) (.str ";") 0 (.eof (.str "") 0))))))))) := by
  have hS : ("x = " ++ a ++ " * " ++ b ++ "[" ++ i ++ "];").data =
      'x' :: ' ' :: '=' :: ' ' :: (a.data ++ ' ' :: '*' :: ' ' :: (b.data ++ '[' :: (i.data ++ [']', ';']))) := by
    simp [String.data_append]
  unfold setInput
  rw [hS]
  refine tokenize_step _ (Lexer.mk (' ' :: '=' :: ' ' :: (a.data ++ ' ' :: '*' :: ' ' :: (b.data ++ '[' :: (i.data ++ [']', ';'])))) (.str "x") 0 false) (.num 8) (by rfl) (by decide) ?_ rfl
  refine tokenize_step _ (Lexer.mk (' ' :: (a.data ++ ' ' :: '*' :: ' ' :: (b.data ++ '[' :: (i.data ++ [']', ';'])))) (.str "=") 0 false) (.name "=") (by rfl) (by decide) ?_ rfl
  refine tokenize_space_ident a ha (by rfl) ?_
  refine tokenize_step _ (Lexer.mk (' ' :: (b.data ++ '[' :: (i.data ++ [']', ';']))) (.str "*") 0 false) (.name "*") (by rfl) (by decide) ?_ rfl
  refine tokenize_space_ident b hb (by rfl) ?_
  refine tokenize_step _ (Lexer.mk ((i.data ++ [']', ';'])) (.str "[") 0 false) (.name "[") (by rfl) (by decide) ?_ rfl
  refine tokenize_ident i hi (by rfl) ?_
  refine tokenize_step _ (Lexer.mk ([';']) (.str "]") 0 false) (.name "]") (by rfl) (by decide) ?_ rfl
  refine tokenize_step _ (Lexer.mk ([]) (.str ";") 0 false) (.num 7) (by rfl) (by decide) ?_ rfl
  rfl

theorem parse_sum_product (a b c : String) (ha : isIdentifier a = true) (hb : isIdentifier b = true) (hc : isIdentifier c = true) (k : Nat) :
    parse (k + 64) ("x = " ++ a ++ " + " ++ b ++ " * " ++ c ++ ";") =
      some (.ok (Ast.seq [Ast.set "x" (Ast.nary "sum" [Ast.get a, Ast.nary "product" [Ast.get b, Ast.get c]])])) := by
  rw [parse_eq_parseTokens, tokens_sum_product a b c ha hb hc, Nat.add_comm]
  exact parseTokens_mono 64 k _ _ (by rfl)

theorem parse_product_sum (a b c : String) (ha : isIdentifier a = true) (hb : isIdentifier b = true) (hc : isIdentifier c = true) (k : Nat) :
    parse (k + 64) ("x = " ++ a ++ " * " ++ b ++ " + " ++ c ++ ";") =
      some (.ok (Ast.seq [Ast.set "x" (Ast.nary "sum" [Ast.nary "product" [Ast.get a, Ast.get b], Ast.get c])])) := by
  rw [parse_eq_parseTokens, tokens_product_sum a b c ha hb hc, Nat.add_comm]
  exact parseTokens_mono 64 k _ _ (by rfl)

theorem parse_minus_div (a b c : String) (ha : isIdentifier a = true) (hb : isIdentifier b = true) (hc : isIdentifier c = true) (k : Nat) :
    parse (k + 64) ("x = " ++ a ++ " - " ++ b ++ " / " ++ c ++ ";") =
      some (.ok (Ast.seq [Ast.set "x" (Ast.nary "sum" [Ast.get a, Ast.unary "negative" (Ast.binary "/" (Ast.get b) (Ast.get c))])])) := by
  rw [parse_eq_parseTokens, tokens_minus_div a b c ha hb hc, Nat.add_comm]
  exact parseTokens_mono 64 k _ _ (by rfl)

theorem parse_neg_index (a i : String) (ha : isIdentifier a = true) (hi : isIdentifier i = true) (k : Nat) :
    parse (k + 64) ("x = - " ++ a ++ "[" ++ i ++ "];") =
      some (.ok (Ast.seq [Ast.set "x" (Ast.unary "negative" (Ast.index (Ast.get a) (Ast.get i)))])) := by
  rw [parse_eq_parseTokens, tokens_neg_index a i ha hi, Nat.add_comm]
  exact parseTokens_mono 64 k _ _ (by rfl)

theorem parse_times_index (a b i : String) (ha : isIdentifier a = true) (hb : isIdentifier b = true) (hi : isIdentifier i = true) (k : Nat) :
    parse (k + 64) ("x = " ++ a ++ " * " ++ b ++ "[" ++ i ++ "];") =
      some (.ok (Ast.seq [Ast.set "x" (Ast.nary "product" [Ast.get a, Ast.index (Ast.get b) (Ast.get i)])])) := by
  rw [parse_eq_parseTokens, tokens_times_index a b i ha hb hi, Nat.add_comm]
  exact parseTokens_mono 64 k _ _ (by rfl)

/-! ## Claims C18 and C19 -/

/-- C18: the multiplicative operators bind tighter than the additive ones on
either side: for identifiers `a`, `b`, `c`, `x = a + b * c;` yields
`sum [a, product [b, c]]`, `x = a * b + c;` yields `sum [product [a, b], c]` and
`x = a - b / c;` yields `sum [a, negative (b / c)]`. -/
theorem C18_multiplicative_tighter (a b c : String) (ha : isIdentifier a = true)
    (hb : isIdentifier b = true) (hc : isIdentifier c = true) (k : Nat) :
    parse (k + 64) ("x = " ++ a ++ " + " ++ b ++ " * " ++ c ++ ";") =
      some (.ok (Ast.seq [Ast.set "x"
        (Ast.nary "sum" [Ast.get a, Ast.nary "product" [Ast.get b, Ast.get c]])])) ∧
    parse (k + 64) ("x = " ++ a ++ " * " ++ b ++ " + " ++ c ++ ";") =
      some (.ok (Ast.seq [Ast.set "x"
        (Ast.nary "sum" [Ast.nary "product" [Ast.get a, Ast.get b], Ast.get c])])) ∧
    parse (k + 64) ("x = " ++ a ++ " - " ++ b ++ " / " ++ c ++ ";") =
      some (.ok (Ast.seq [Ast.set "x"
        (Ast.nary "sum" [Ast.get a,
          Ast.unary "negative" (Ast.binary "/" (Ast.get b) (Ast.get c))])])) :=
  ⟨parse_sum_product a b c ha hb hc k, parse_product_sum a b c ha hb hc k,
    parse_minus_div a b c ha hb hc k⟩

/-- C18, witness: the claim at the identifiers `a`, `b`, `c`. -/
theorem C18_multiplicative_tighter_witness :
    isIdentifier "a" = true ∧ isIdentifier "b" = true ∧ isIdentifier "c" = true ∧
    parse (0 + 64) ("x = " ++ "a" ++ " + " ++ "b" ++ " * " ++ "c" ++ ";") =
      some (.ok (Ast.seq [Ast.set "x"
        (Ast.nary "sum" [Ast.get "a", Ast.nary "product" [Ast.get "b", Ast.get "c"]])])) :=
  ⟨by decide, by decide, by decide,
    (C18_multiplicative_tighter "a" "b" "c" (by decide) (by decide) (by decide) 0).1⟩

/-- C19: postfix indexing binds tighter than the prefix and the binary operators:
for identifiers `a`, `b`, `i`, `x = - a[i];` yields `negative (index a i)` and
`x = a * b[i];` yields `product [a, index b i]`; and `a = [1,2,3]; b = a[1];`
yields two `set` nodes, the second with value `index (get a) 1`. -/
theorem C19_index_tightest (a b i : String) (ha : isIdentifier a = true)
    (hb : isIdentifier b = true) (hi : isIdentifier i = true) (k : Nat) :
    parse (k + 64) ("x = - " ++ a ++ "[" ++ i ++ "];") =
      some (.ok (Ast.seq [Ast.set "x" (Ast.unary "negative" (Ast.index (Ast.get a) (Ast.get i)))])) ∧
    parse (k + 64) ("x = " ++ a ++ " * " ++ b ++ "[" ++ i ++ "];") =
      some (.ok (Ast.seq [Ast.set "x"
        (Ast.nary "product" [Ast.get a, Ast.index (Ast.get b) (Ast.get i)])])) ∧
    parse (k + 64) "a = [1,2,3]; b = a[1];" =
      some (.ok (Ast.seq [Ast.set "a" (Ast.array [Ast.int 1, Ast.int 2, Ast.int 3]),
        Ast.set "b" (Ast.index (Ast.get "a") (Ast.int 1))])) := by
  refine ⟨parse_neg_index a i ha hi k, parse_times_index a b i ha hb hi k, ?_⟩
  rw [Nat.add_comm]
  exact parse_mono 64 k _ _ (by rfl)

/-- C19, witness: the claim at the identifiers `a`, `b`, `i`. -/
theorem C19_index_tightest_witness :
    isIdentifier "a" = true ∧ isIdentifier "b" = true ∧ isIdentifier "i" = true ∧
    parse (0 + 64) ("x = - " ++ "a" ++ "[" ++ "i" ++ "];") =
      some (.ok (Ast.seq [Ast.set "x"
        (Ast.unary "negative" (Ast.index (Ast.get "a") (Ast.get "i")))])) :=
  ⟨by decide, by decide, by decide,
    (C19_index_tightest "a" "b" "i" (by decide) (by decide) (by decide) 0).1⟩

theorem keywordRule_head (kw : String) (k0 : Char) (ks : List Char) (hkw : kw.data = k0 :: ks)
    (d : Char) (s : List Char) (h : k0 ≠ d) : keywordRule kw (d :: s) = none := by
  simp [keywordRule, hkw, List.isPrefixOf, h]

theorem textRule_head (t : String) (k0 : Char) (ks : List Char) (ht : t.data = k0 :: ks)
    (d : Char) (s : List Char) (h : k0 ≠ d) : textRule t (d :: s) = none := by
  simp [textRule, ht, List.isPrefixOf, h]

theorem ne_of_isDigit {c d : Char} (h : isDigit c = true) (hd : isDigit d = false) : c ≠ d := by
  rintro rfl
  rw [h] at hd
  cases hd

theorem isDigit_not_isSpace {c : Char} (h : isDigit c = true) : isSpace c = false := by
  simp only [isDigit, Bool.and_eq_true, decide_eq_true_eq] at h
  simp only [isSpace, Bool.or_eq_false_iff, Bool.and_eq_false_iff, decide_eq_false_iff_not]
  omega

theorem isDigit_not_isLetter {c : Char} (h : isDigit c = true) : isLetter c = false := by
  simp only [isDigit, Bool.and_eq_true, decide_eq_true_eq] at h
  simp only [isLetter, Bool.or_eq_false_iff, Bool.and_eq_false_iff, decide_eq_false_iff_not]
  omega

theorem takeWhile_isDigit_boundary (r : List Char) (hr : numeralBoundary r = true) :
    r.takeWhile isDigit = [] := by
  cases r with
  | nil => rfl
  | cons c s =>
    simp only [numeralBoundary, Bool.and_eq_true, Bool.not_eq_true'] at hr
    simp [List.takeWhile, hr.1.1.1]

theorem isNumeral_data (c : String) (hc : isNumeral c = true) :
    ∃ d t, c.data = d :: t ∧ isDigit d = true ∧ t.all isDigit = true := by
  simp only [isNumeral, Bool.and_eq_true, Bool.not_eq_true'] at hc
  cases hd : c.data with
  | nil => rw [hd] at hc; simp at hc
  | cons d t =>
    rw [hd] at hc
    simp only [List.all_cons, Bool.and_eq_true] at hc
    exact ⟨d, t, rfl, hc.2.1, hc.2.2⟩

/-- `[0-9]*\.?[0-9]+` on an integer literal at its boundary. -/
theorem mantissaOf_numeral (c : String) (hc : isNumeral c = true) (r : List Char)
    (hr : numeralBoundary r = true) : mantissaOf (c.data ++ r) = some c.data := by
  have hall : c.data.all isDigit = true := by
    simp only [isNumeral, Bool.and_eq_true] at hc
    exact hc.2
  have hne : c.data.isEmpty = false := by
    simp only [isNumeral, Bool.and_eq_true, Bool.not_eq_true'] at hc
    exact hc.1
  have htw : (c.data ++ r).takeWhile isDigit = c.data := by
    rw [takeWhile_append_all isDigit c.data r hall, takeWhile_isDigit_boundary r hr,
      List.append_nil]
  unfold mantissaOf
  simp only [htw, List.drop_left, hne, Bool.false_eq_true, ↓reduceIte]
  cases r with
  | nil => rfl
  | cons x s =>
    simp only [numeralBoundary, Bool.and_eq_true, Bool.not_eq_true', bne_iff_ne, ne_eq] at hr
    simp [hr.1.1.2]

theorem exponentOf_boundary (r : List Char) (hr : numeralBoundary r = true) :
    exponentOf r = [] := by
  cases r with
  | nil => rfl
  | cons x s =>
    simp only [numeralBoundary, Bool.and_eq_true, Bool.not_eq_true', bne_iff_ne, ne_eq] at hr
    simp [exponentOf, hr.1.2, hr.2]

theorem isDigit_not_break {x : Char} (h : isDigit x = true) : x ≠ '\r' ∧ x ≠ '\n' :=
  ⟨ne_of_isDigit h (by decide), ne_of_isDigit h (by decide)⟩

/-- At an integer literal at its boundary, `next` returns the token `CONST` with
the number as `yytext`. -/
theorem next_numeral (c : String) (hc : isNumeral c = true) (r : List Char)
    (hr : numeralBoundary r = true) (y : JSVal) (n : Nat) :
    next { _input := c.data ++ r, yytext := y, yylineno := n, done := false } =
      .ok (some (.num 26),
        { _input := r, yytext := .num (Number c), yylineno := n, done := false }) := by
  obtain ⟨d, t, hd, hdig, ht⟩ := isNumeral_data c hc
  have hne : ∀ x, isDigit x = false → d ≠ x := fun x hx => ne_of_isDigit hdig hx
  have r0 : rule0 (c.data ++ r) = none := by
    rw [hd]; simp [rule0, hne '#' (by decide)]
  have r1 : rule1 (c.data ++ r) = none := by
    rw [hd]; simp [rule1, List.takeWhile, isDigit_not_isSpace hdig]
  have k1 : keywordRule "true" (c.data ++ r) = none := by
    rw [hd]; exact keywordRule_head _ 't' _ rfl _ _ (hne 't' (by decide)).symm
  have k2 : keywordRule "false" (c.data ++ r) = none := by
    rw [hd]; exact keywordRule_head _ 'f' _ rfl _ _ (hne 'f' (by decide)).symm
  have k3 : keywordRule "null" (c.data ++ r) = none := by
    rw [hd]; exact keywordRule_head _ 'n' _ rfl _ _ (hne 'n' (by decide)).symm
  have r5 : textRule "@" (c.data ++ r) = none := by
    rw [hd]; exact textRule_head _ '@' _ rfl _ _ (hne '@' (by decide)).symm
  have k4 : keywordRule "switch" (c.data ++ r) = none := by
    rw [hd]; exact keywordRule_head _ 's' _ rfl _ _ (hne 's' (by decide)).symm
  have k5 : keywordRule "if" (c.data ++ r) = none := by
    rw [hd]; exact keywordRule_head _ 'i' _ rfl _ _ (hne 'i' (by decide)).symm
  have k6 : keywordRule "else" (c.data ++ r) = none := by
    rw [hd]; exact keywordRule_head _ 'e' _ rfl _ _ (hne 'e' (by decide)).symm
  have k7 : keywordRule "return" (c.data ++ r) = none := by
    rw [hd]; exact keywordRule_head _ 'r' _ rfl _ _ (hne 'r' (by decide)).symm
  have r10 : rule10 (c.data ++ r) = none := by
    rw [hd]; simp [rule10, isDigit_not_isLetter hdig]
  have hsign : signOf (c.data ++ r) = [] := by
    rw [hd]; simp [signOf, hne '-' (by decide), hne '+' (by decide)]
  have r11 : rule11 (c.data ++ r) = some c.data := by
    unfold rule11
    simp only [hsign, List.length_nil, List.drop_zero, mantissaOf_numeral c hc r hr,
      Nat.zero_add, List.drop_left, exponentOf_boundary r hr, List.nil_append, List.append_nil]
  have hlb : lineBreaks c.data = 0 :=
    lineBreaks_eq_zero _ (fun x hx => isDigit_not_break (by
      simp only [isNumeral, Bool.and_eq_true] at hc
      exact List.all_eq_true.mp hc.2 x hx))
  have he : (c.data ++ r).isEmpty = false := by rw [hd]; rfl
  simp only [next, Bool.false_eq_true, ↓reduceIte, firstMatch, rules, r0, r1, k1, k2, k3, r5,
    k4, k5, k6, k7, r10, r11, test_match, lexerAction, List.drop_left, hlb, Nat.add_zero, he,
    Bool.false_and]

/-- At `-` followed directly by an integer literal, `next` returns one `CONST`
token for the signed number: rule 11 takes the sign. -/
theorem next_minus_numeral (c : String) (hc : isNumeral c = true) (r : List Char)
    (hr : numeralBoundary r = true) (y : JSVal) (n : Nat) :
    next { _input := '-' :: (c.data ++ r), yytext := y, yylineno := n, done := false } =
      .ok (some (.num 26),
        { _input := r, yytext := .num (Number ("-" ++ c)), yylineno := n, done := false }) := by
  have r0 : rule0 ('-' :: (c.data ++ r)) = none := rfl
  have r1 : rule1 ('-' :: (c.data ++ r)) = none := rfl
  have k1 : keywordRule "true" ('-' :: (c.data ++ r)) = none := rfl
  have k2 : keywordRule "false" ('-' :: (c.data ++ r)) = none := rfl
  have k3 : keywordRule "null" ('-' :: (c.data ++ r)) = none := rfl
  have r5 : textRule "@" ('-' :: (c.data ++ r)) = none := rfl
  have k4 : keywordRule "switch" ('-' :: (c.data ++ r)) = none := rfl
  have k5 : keywordRule "if" ('-' :: (c.data ++ r)) = none := rfl
  have k6 : keywordRule "else" ('-' :: (c.data ++ r)) = none := rfl
  have k7 : keywordRule "return" ('-' :: (c.data ++ r)) = none := rfl
  have r10 : rule10 ('-' :: (c.data ++ r)) = none := rfl
  have r11 : rule11 ('-' :: (c.data ++ r)) = some ('-' :: c.data) := by
    unfold rule11
    have hs : signOf ('-' :: (c.data ++ r)) = ['-'] := rfl
    simp only [hs, List.length_singleton, List.drop_succ_cons, List.drop_zero,
      mantissaOf_numeral c hc r hr, List.singleton_append, List.cons_append]
    have hdrop : List.drop (1 + c.data.length) ('-' :: (c.data ++ r)) = r := by
      rw [Nat.add_comm]
      simp
    rw [hdrop, exponentOf_boundary r hr, List.append_nil, List.nil_append]
  have hlb : lineBreaks ('-' :: c.data) = 0 :=
    lineBreaks_eq_zero _ (fun x hx => by
      rcases List.mem_cons.mp hx with rfl | hx
      · exact ⟨by decide, by decide⟩
      · exact isDigit_not_break (by
          simp only [isNumeral, Bool.and_eq_true] at hc
          exact List.all_eq_true.mp hc.2 x hx))
  have hdrop2 : List.drop ('-' :: c.data).length ('-' :: (c.data ++ r)) = r := by simp
  simp only [next, Bool.false_eq_true, ↓reduceIte, firstMatch, rules, r0, r1, k1, k2, k3, r5,
    k4, k5, k6, k7, r10, r11, test_match, lexerAction, hdrop2, hlb, Nat.add_zero,
    List.isEmpty_cons, Bool.false_and]
  rfl

/-- At `+` followed directly by an integer literal, `next` returns one `CONST`
token for the signed number: rule 11 takes the sign. -/
theorem next_plus_numeral (c : String) (hc : isNumeral c = true) (r : List Char)
    (hr : numeralBoundary r = true) (y : JSVal) (n : Nat) :
    next { _input := '+' :: (c.data ++ r), yytext := y, yylineno := n, done := false } =
      .ok (some (.num 26),
        { _input := r, yytext := .num (Number ("+" ++ c)), yylineno := n, done := false }) := by
  have r0 : rule0 ('+' :: (c.data ++ r)) = none := rfl
  have r1 : rule1 ('+' :: (c.data ++ r)) = none := rfl
  have k1 : keywordRule "true" ('+' :: (c.data ++ r)) = none := rfl
  have k2 : keywordRule "false" ('+' :: (c.data ++ r)) = none := rfl
  have k3 : keywordRule "null" ('+' :: (c.data ++ r)) = none := rfl
  have r5 : textRule "@" ('+' :: (c.data ++ r)) = none := rfl
  have k4 : keywordRule "switch" ('+' :: (c.data ++ r)) = none := rfl
  have k5 : keywordRule "if" ('+' :: (c.data ++ r)) = none := rfl
  have k6 : keywordRule "else" ('+' :: (c.data ++ r)) = none := rfl
  have k7 : keywordRule "return" ('+' :: (c.data ++ r)) = none := rfl
  have r10 : rule10 ('+' :: (c.data ++ r)) = none := rfl
  have r11 : rule11 ('+' :: (c.data ++ r)) = some ('+' :: c.data) := by
    unfold rule11
    have hs : signOf ('+' :: (c.data ++ r)) = ['+'] := rfl
    simp only [hs, List.length_singleton, List.drop_succ_cons, List.drop_zero,
      mantissaOf_numeral c hc r hr, List.singleton_append, List.cons_append]
    have hdrop : List.drop (1 + c.data.length) ('+' :: (c.data ++ r)) = r := by
      rw [Nat.add_comm]
      simp
    rw [hdrop, exponentOf_boundary r hr, List.append_nil, List.nil_append]
  have hlb : lineBreaks ('+' :: c.data) = 0 :=
    lineBreaks_eq_zero _ (fun x hx => by
      rcases List.mem_cons.mp hx with rfl | hx
      · exact ⟨by decide, by decide⟩
      · exact isDigit_not_break (by
          simp only [isNumeral, Bool.and_eq_true] at hc
          exact List.all_eq_true.mp hc.2 x hx))
  have hdrop2 : List.drop ('+' :: c.data).length ('+' :: (c.data ++ r)) = r := by simp
  simp only [next, Bool.false_eq_true, ↓reduceIte, firstMatch, rules, r0, r1, k1, k2, k3, r5,
    k4, k5, k6, k7, r10, r11, test_match, lexerAction, hdrop2, hlb, Nat.add_zero,
    List.isEmpty_cons, Bool.false_and]
  rfl

/-- An integer literal at its boundary. -/
theorem tokenize_numeral (c : String) (hc : isNumeral c = true) {r : List Char}
    (hr : numeralBoundary r = true) {y : JSVal} {n : Nat} {rest : TokStream}
    (hrest : tokenize { _input := r, yytext := .str "", yylineno := n, done := false } = rest) :
    tokenize { _input := c.data ++ r, yytext := y, yylineno := n, done := false } =
      .cons (.num 26) (.num (Number c)) n rest := by
  rw [tokenize_of_lex _ _ _ (lex_of_next_some _ _ _ (next_numeral c hc r hr y n)) (by simp),
    ← hrest]
  exact congrArg _ (tokenize_yytext _ _ _ _)

/-- A space, then an integer literal at its boundary. -/
theorem tokenize_space_numeral (c : String) (hc : isNumeral c = true) {r : List Char}
    (hr : numeralBoundary r = true) {y : JSVal} {n : Nat} {rest : TokStream}
    (hrest : tokenize { _input := r, yytext := .str "", yylineno := n, done := false } = rest) :
    tokenize { _input := ' ' :: (c.data ++ r), yytext := y, yylineno := n, done := false } =
      .cons (.num 26) (.num (Number c)) n rest := by
  obtain ⟨d, t, hd, hdig, _⟩ := isNumeral_data c hc
  have hn : next (Lexer.mk (' ' :: (c.data ++ r)) y n false) =
      .ok (none, Lexer.mk (c.data ++ r) (.str (String.mk [' '])) n false) := by
    rw [hd]
    exact next_space ' ' d (t ++ r) (by decide) (isDigit_not_isSpace hdig) y n
  rw [tokenize_eq_of_lex_eq _ _ (lex_of_next_none _ _ hn)]
  exact tokenize_numeral c hc hr hrest

/-- The sign `-` right before an integer literal. -/
theorem tokenize_minus_numeral (c : String) (hc : isNumeral c = true) {r : List Char}
    (hr : numeralBoundary r = true) {y : JSVal} {n : Nat} {rest : TokStream}
    (hrest : tokenize { _input := r, yytext := .str "", yylineno := n, done := false } = rest) :
    tokenize { _input := '-' :: (c.data ++ r), yytext := y, yylineno := n, done := false } =
      .cons (.num 26) (.num (Number ("-" ++ c))) n rest := by
  rw [tokenize_of_lex _ _ _ (lex_of_next_some _ _ _ (next_minus_numeral c hc r hr y n))
    (by simp), ← hrest]
  exact congrArg _ (tokenize_yytext _ _ _ _)

theorem stringTail_quote (r : List Char) : stringTail (dquote :: r) = some [dquote] := by
  rw [stringTail.eq_def]
  simp

theorem stringTail_escape (d : Char) (hd : isLineTerminator d = false) (t : List Char) :
    stringTail (backslash :: d :: t) = (stringTail t).map (fun m => backslash :: d :: m) := by
  rw [stringTail]
  have hne : backslash ≠ dquote := by decide
  simp [hne, hd]

theorem stringTail_plain (c : Char) (h1 : c ≠ dquote) (h2 : c ≠ backslash) (t : List Char) :
    stringTail (c :: t) = (stringTail t).map (fun m => c :: m) := by
  rw [stringTail.eq_def]
  simp [h1, h2]

theorem stringTail_body (n : Nat) : ∀ (b : List Char), b.length ≤ n → isDoubleBody b = true →
    ∀ r : List Char, stringTail (b ++ dquote :: r) = some (b ++ [dquote]) := by
  induction n using Nat.strong_induction_on with
  | _ n ih =>
    intro b hlen hb r
    rcases b with _ | ⟨c, _ | ⟨d, t⟩⟩
    · exact stringTail_quote r
    · simp only [isDoubleBody, Bool.and_eq_true, bne_iff_ne, ne_eq] at hb
      rw [List.singleton_append, stringTail_plain c hb.2 hb.1, stringTail_quote]
      rfl
    · unfold isDoubleBody at hb
      simp only [List.length_cons] at hlen
      by_cases hc : c = backslash
      · simp only [hc, ↓reduceIte, Bool.and_eq_true, Bool.not_eq_true'] at hb
        have := ih (n - 2) (by omega) t (by omega) hb.2 r
        rw [hc, List.cons_append, List.cons_append, stringTail_escape d hb.1, this]
        rfl
      · simp only [hc, ↓reduceIte, Bool.and_eq_true, bne_iff_ne, ne_eq] at hb
        have := ih (n - 1) (by omega) (d :: t) (by simp only [List.length_cons]; omega) hb.2 r
        rw [List.cons_append, stringTail_plain c hb.1 hc, this]
        rfl

/-- At a double-quoted constant, `next` returns the token `CONST` with the text
between the quotes as `yytext`, backslashes included. -/
theorem next_dstring (b : List Char) (hb : isDoubleBody b = true) (r : List Char)
    (y : JSVal) (n : Nat) :
    next { _input := dquote :: (b ++ dquote :: r), yytext := y, yylineno := n, done := false } =
      .ok (some (.num 26),
        { _input := r, yytext := .str (String.mk b),
          yylineno := n + lineBreaks (dquote :: (b ++ [dquote])), done := false }) := by
  have r0 : rule0 (dquote :: (b ++ dquote :: r)) = none := rfl
  have r1 : rule1 (dquote :: (b ++ dquote :: r)) = none := rfl
  have k1 : keywordRule "true" (dquote :: (b ++ dquote :: r)) = none := rfl
  have k2 : keywordRule "false" (dquote :: (b ++ dquote :: r)) = none := rfl
  have k3 : keywordRule "null" (dquote :: (b ++ dquote :: r)) = none := rfl
  have r5 : textRule "@" (dquote :: (b ++ dquote :: r)) = none := rfl
  have k4 : keywordRule "switch" (dquote :: (b ++ dquote :: r)) = none := rfl
  have k5 : keywordRule "if" (dquote :: (b ++ dquote :: r)) = none := rfl
  have k6 : keywordRule "else" (dquote :: (b ++ dquote :: r)) = none := rfl
  have k7 : keywordRule "return" (dquote :: (b ++ dquote :: r)) = none := rfl
  have r10 : rule10 (dquote :: (b ++ dquote :: r)) = none := rfl
  have r11 : rule11 (dquote :: (b ++ dquote :: r)) = none := rfl
  have r12 : rule12 (dquote :: (b ++ dquote :: r)) = some (dquote :: (b ++ [dquote])) := by
    simp [rule12, stringTail_body b.length b (Nat.le_refl _) hb r]
  have hdrop : List.drop (dquote :: (b ++ [dquote])).length (dquote :: (b ++ dquote :: r)) = r := by
    have : dquote :: (b ++ dquote :: r) = (dquote :: (b ++ [dquote])) ++ r := by simp
    rw [this, List.drop_left]
  have hstrip : stripQuotes (String.mk (dquote :: (b ++ [dquote]))) = String.mk b := by
    simp [stripQuotes]
  simp only [next, Bool.false_eq_true, ↓reduceIte, firstMatch, rules, r0, r1, k1, k2, k3, r5,
    k4, k5, k6, k7, r10, r11, r12, test_match, lexerAction, hdrop, hstrip,
    List.isEmpty_cons, Bool.false_and]

theorem takeWhile_single (b : List Char) (hb : isSingleBody b = true) (r : List Char) :
    (b ++ squote :: r).takeWhile (fun d => d != squote) = b := by
  induction b with
  | nil => simp [List.takeWhile]
  | cons c t ih =>
    simp only [isSingleBody, List.all_cons, Bool.and_eq_true] at hb
    have h2 := ih (by simpa [isSingleBody] using hb.2)
    rw [List.cons_append, List.takeWhile_cons, if_pos hb.1, h2]

/-- At a single-quoted constant, `next` returns the token `CONST` with the text
between the quotes as `yytext`. -/
theorem next_sstring (b : List Char) (hb : isSingleBody b = true) (r : List Char)
    (y : JSVal) (n : Nat) :
    next { _input := squote :: (b ++ squote :: r), yytext := y, yylineno := n, done := false } =
      .ok (some (.num 26),
        { _input := r, yytext := .str (String.mk b),
          yylineno := n + lineBreaks (squote :: (b ++ [squote])), done := false }) := by
  have r0 : rule0 (squote :: (b ++ squote :: r)) = none := rfl
  have r1 : rule1 (squote :: (b ++ squote :: r)) = none := rfl
  have k1 : keywordRule "true" (squote :: (b ++ squote :: r)) = none := rfl
  have k2 : keywordRule "false" (squote :: (b ++ squote :: r)) = none := rfl
  have k3 : keywordRule "null" (squote :: (b ++ squote :: r)) = none := rfl
  have r5 : textRule "@" (squote :: (b ++ squote :: r)) = none := rfl
  have k4 : keywordRule "switch" (squote :: (b ++ squote :: r)) = none := rfl
  have k5 : keywordRule "if" (squote :: (b ++ squote :: r)) = none := rfl
  have k6 : keywordRule "else" (squote :: (b ++ squote :: r)) = none := rfl
  have k7 : keywordRule "return" (squote :: (b ++ squote :: r)) = none := rfl
  have r10 : rule10 (squote :: (b ++ squote :: r)) = none := rfl
  have r11 : rule11 (squote :: (b ++ squote :: r)) = none := rfl
  have r12 : rule12 (squote :: (b ++ squote :: r)) = none := rfl
  have r13 : rule13 (squote :: (b ++ squote :: r)) = some (squote :: (b ++ [squote])) := by
    simp [rule13, takeWhile_single b hb r]
  have hdrop : List.drop (squote :: (b ++ [squote])).length (squote :: (b ++ squote :: r)) = r := by
    have : squote :: (b ++ squote :: r) = (squote :: (b ++ [squote])) ++ r := by simp
    rw [this, List.drop_left]
  have hstrip : stripQuotes (String.mk (squote :: (b ++ [squote]))) = String.mk b := by
    simp [stripQuotes]
  simp only [next, Bool.false_eq_true, ↓reduceIte, firstMatch, rules, r0, r1, k1, k2, k3, r5,
    k4, k5, k6, k7, r10, r11, r12, r13, test_match, lexerAction, hdrop, hstrip,
    List.isEmpty_cons, Bool.false_and]

theorem isPlainText_body (b : List Char)
    (hb : b.all (fun c => !isLineTerminator c && c != dquote && c != backslash) = true) :
    isDoubleBody b = true := by
  induction b with
  | nil => rfl
  | cons c t ih =>
    simp only [List.all_cons, Bool.and_eq_true, Bool.not_eq_true', bne_iff_ne, ne_eq] at hb
    have h2 := ih (by simpa using hb.2)
    cases t with
    | nil => simp [isDoubleBody, hb.1.1.2, hb.1.2]
    | cons d u =>
      unfold isDoubleBody
      simp [hb.1.2, hb.1.1.2, h2]

theorem isPlainText_lineBreaks (b : String) (hb : isPlainText b = true) :
    lineBreaks (dquote :: (b.data ++ [dquote])) = 0 := by
  apply lineBreaks_eq_zero
  intro x hx
  simp only [List.mem_cons, List.mem_append, List.mem_singleton, List.not_mem_nil,
    or_false] at hx
  have hq : dquote ≠ '\r' ∧ dquote ≠ '\n' := ⟨by decide, by decide⟩
  rcases hx with rfl | hx | rfl
  · exact hq
  · have := List.all_eq_true.mp hb x hx
    simp only [Bool.and_eq_true, Bool.not_eq_true'] at this
    have hl := this.1.1
    constructor
    · rintro rfl
      revert hl
      decide
    · rintro rfl
      revert hl
      decide
  · exact hq

/-- A double-quoted constant with a plain body. -/
theorem tokenize_dstring (b : String) (hb : isPlainText b = true) {r : List Char}
    {y : JSVal} {n : Nat} {rest : TokStream}
    (hrest : tokenize { _input := r, yytext := .str "", yylineno := n, done := false } = rest) :
    tokenize { _input := dquote :: (b.data ++ dquote :: r), yytext := y, yylineno := n,
               done := false } =
      .cons (.num 26) (.str b) n rest := by
  have hn := next_dstring b.data (isPlainText_body b.data hb) r y n
  rw [isPlainText_lineBreaks b hb] at hn
  rw [tokenize_of_lex _ _ _ (lex_of_next_some _ _ _ hn) (by simp), ← hrest]
  exact congrArg _ (tokenize_yytext _ _ _ _)

/-- A space, then a double-quoted constant with a plain body. -/
theorem tokenize_space_dstring (b : String) (hb : isPlainText b = true) {r : List Char}
    {y : JSVal} {n : Nat} {rest : TokStream}
    (hrest : tokenize { _input := r, yytext := .str "", yylineno := n, done := false } = rest) :
    tokenize { _input := ' ' :: dquote :: (b.data ++ dquote :: r), yytext := y, yylineno := n,
               done := false } =
      .cons (.num 26) (.str b) n rest := by
  have hn : next (Lexer.mk (' ' :: dquote :: (b.data ++ dquote :: r)) y n false) =
      .ok (none, Lexer.mk (dquote :: (b.data ++ dquote :: r)) (.str (String.mk [' '])) n false) :=
    next_space ' ' dquote (b.data ++ dquote :: r) (by decide) (by decide) y n
  rw [tokenize_eq_of_lex_eq _ _ (lex_of_next_none _ _ hn)]
  exact tokenize_dstring b hb hrest

/-- The token `@`, whatever follows. -/
theorem next_at (r : List Char) (y : JSVal) (n : Nat) :
    next { _input := '@' :: r, yytext := y, yylineno := n, done := false } =
      .ok (some (.num 27), { _input := r, yytext := .str "@", yylineno := n, done := false }) := by
  have r0 : rule0 ('@' :: r) = none := rfl
  have r1 : rule1 ('@' :: r) = none := rfl
  have k1 : keywordRule "true" ('@' :: r) = none := rfl
  have k2 : keywordRule "false" ('@' :: r) = none := rfl
  have k3 : keywordRule "null" ('@' :: r) = none := rfl
  have r5 : textRule "@" ('@' :: r) = some ['@'] := by
    simp [textRule, List.isPrefixOf]
  simp only [next, Bool.false_eq_true, ↓reduceIte, firstMatch, rules, r0, r1, k1, k2, k3, r5,
    test_match, lexerAction, List.length_singleton, List.drop_succ_cons, List.drop_zero,
    List.isEmpty_cons, Bool.false_and]
  rfl

/-- The token `;`, whatever follows. -/
theorem next_semicolon (r : List Char) (y : JSVal) (n : Nat) :
    next { _input := ';' :: r, yytext := y, yylineno := n, done := false } =
      .ok (some (.num 7), { _input := r, yytext := .str ";", yylineno := n, done := false }) := by
  have r0 : rule0 (';' :: r) = none := rfl
  have r1 : rule1 (';' :: r) = none := rfl
  have k1 : keywordRule "true" (';' :: r) = none := rfl
  have k2 : keywordRule "false" (';' :: r) = none := rfl
  have k3 : keywordRule "null" (';' :: r) = none := rfl
  have r5 : textRule "@" (';' :: r) = none := rfl
  have k4 : keywordRule "switch" (';' :: r) = none := rfl
  have k5 : keywordRule "if" (';' :: r) = none := rfl
  have k6 : keywordRule "else" (';' :: r) = none := rfl
  have k7 : keywordRule "return" (';' :: r) = none := rfl
  have r10 : rule10 (';' :: r) = none := rfl
  have r11 : rule11 (';' :: r) = none := rfl
  have r12 : rule12 (';' :: r) = none := rfl
  have r13 : rule13 (';' :: r) = none := rfl
  have t14 : textRule "<-" (';' :: r) = none := rfl
  have t15 : textRule "||" (';' :: r) = none := rfl
  have t16 : textRule "&&" (';' :: r) = none := rfl
  have t17 : textRule "??" (';' :: r) = none := rfl
  have t18 : textRule "==" (';' :: r) = none := rfl
  have t19 : textRule ">=" (';' :: r) = none := rfl
  have t20 : textRule "<=" (';' :: r) = none := rfl
  have t21 : textRule "!=" (';' :: r) = none := rfl
  have t22 : textRule "=>" (';' :: r) = none := rfl
  have t23 : textRule ";" (';' :: r) = some [';'] := by
    simp [textRule, List.isPrefixOf]
  simp only [next, Bool.false_eq_true, ↓reduceIte, firstMatch, rules, r0, r1, k1, k2, k3, r5,
    k4, k5, k6, k7, r10, r11, r12, r13, t14, t15, t16, t17, t18, t19, t20, t21, t22, t23,
    test_match, lexerAction, List.length_singleton, List.drop_succ_cons, List.drop_zero,
    List.isEmpty_cons, Bool.false_and]
  rfl

/-- The token `@` and the stream of what follows. -/
theorem tokenize_at {r : List Char} {y : JSVal} {n : Nat} {rest : TokStream}
    (hrest : tokenize { _input := r, yytext := .str "", yylineno := n, done := false } = rest) :
    tokenize { _input := '@' :: r, yytext := y, yylineno := n, done := false } =
      .cons (.num 27) (.str "@") n rest := by
  rw [tokenize_of_lex _ _ _ (lex_of_next_some _ _ _ (next_at r y n)) (by simp), ← hrest]
  exact congrArg _ (tokenize_yytext _ _ _ _)

/-- A space, the token `@` and the stream of what follows. -/
theorem tokenize_space_at {r : List Char} {y : JSVal} {n : Nat} {rest : TokStream}
    (hrest : tokenize { _input := r, yytext := .str "", yylineno := n, done := false } = rest) :
    tokenize { _input := ' ' :: '@' :: r, yytext := y, yylineno := n, done := false } =
      .cons (.num 27) (.str "@") n rest := by
  have hn : next (Lexer.mk (' ' :: '@' :: r) y n false) =
      .ok (none, Lexer.mk ('@' :: r) (.str (String.mk [' '])) n false) :=
    next_space ' ' '@' r (by decide) (by decide) y n
  rw [tokenize_eq_of_lex_eq _ _ (lex_of_next_none _ _ hn)]
  exact tokenize_at hrest

/-- The token `;` and the stream of what follows. -/
theorem tokenize_semicolon {r : List Char} {y : JSVal} {n : Nat} {rest : TokStream}
    (hrest : tokenize { _input := r, yytext := .str "", yylineno := n, done := false } = rest) :
    tokenize { _input := ';' :: r, yytext := y, yylineno := n, done := false } =
      .cons (.num 7) (.str ";") n rest := by
  rw [tokenize_of_lex _ _ _ (lex_of_next_some _ _ _ (next_semicolon r y n)) (by simp), ← hrest]
  exact congrArg _ (tokenize_yytext _ _ _ _)

/-! ## Runs of the loop -/

theorem parseLoop_turns {σ : Type} (ops : LexerOps σ) (j : Nat) :
    ∀ (p p1 : Parser σ), turns ops j p = some (.ok (.inl p1)) →
      ∀ n, parseLoop ops (j + n) p = parseLoop ops n p1 := by
  induction j with
  | zero =>
    intro p p1 h n
    simp only [turns, Option.some.injEq, Except.ok.injEq, Sum.inl.injEq] at h
    rw [Nat.zero_add, h]
  | succ j ih =>
    intro p p1 h n
    rw [Nat.add_right_comm, parseLoop]
    unfold turns at h
    cases hs : step ops p with
    | none => rw [hs] at h; cases h
    | some res =>
      cases res with
      | error e => rw [hs] at h; cases h
      | ok v =>
        cases v with
        | inr r => rw [hs] at h; cases h
        | inl p2 =>
          rw [hs] at h
          exact ih p2 p1 h n

theorem parseLoop_turns_error {σ : Type} (ops : LexerOps σ) (j : Nat) :
    ∀ (p : Parser σ) (e : ParseError), turns ops j p = some (.error e) →
      ∀ n, parseLoop ops (j + n) p = some (.error e) := by
  induction j with
  | zero => intro p e h; cases h
  | succ j ih =>
    intro p e h n
    rw [Nat.add_right_comm, parseLoop]
    unfold turns at h
    cases hs : step ops p with
    | none => rw [hs] at h; cases h
    | some res =>
      cases res with
      | error e1 =>
        rw [hs] at h
        simp only [Option.some.injEq, Except.error.injEq] at h
        rw [h]
      | ok v =>
        cases v with
        | inr r => rw [hs] at h; cases h
        | inl p2 =>
          rw [hs] at h
          exact ih p2 e h n

theorem parseLoop_turns_ok {σ : Type} (ops : LexerOps σ) (j : Nat) :
    ∀ (p : Parser σ) (r : JSVal), turns ops j p = some (.ok (.inr r)) →
      ∀ n, parseLoop ops (j + n) p = some (.ok r) := by
  induction j with
  | zero => intro p e h; cases h
  | succ j ih =>
    intro p r h n
    rw [Nat.add_right_comm, parseLoop]
    unfold turns at h
    cases hs : step ops p with
    | none => rw [hs] at h; cases h
    | some res =>
      cases res with
      | error e1 => rw [hs] at h; cases h
      | ok v =>
        cases v with
        | inr r1 =>
          rw [hs] at h
          simp only [Option.some.injEq, Except.ok.injEq, Sum.inr.injEq] at h
          rw [h]
        | inl p2 =>
          rw [hs] at h
          exact ih p2 r h n

/-! ## `JSON.parse` on an identifier -/

theorem JSON_parse_ident (w : String) (hw : isIdentifier w = true) :
    JSON_parse (.str w) = .error .jsonError := by
  have hr := isIdentifier_not_reserved w hw
  simp only [isIdentifier, Bool.and_eq_true] at hw
  simp [JSON_parse, hr.1, hr.2.1, hr.2.2.1, hw.1]

/-- A turn that reads a token on which the state reduces by production 41
(`json → IDENTIFIER`) ends the parse when `JSON.parse` throws. -/
theorem step_json_error {σ : Type} (ops : LexerOps σ) (p : Parser σ) (state : Nat)
    (rest : List Nat) (t : Token) (lx : σ) (v : JSVal) (vs : List JSVal) (e : ParseError)
    (hstack : p.stack = state :: rest) (hd : defaultActions state = none)
    (hsym : p.symbol = none) (hlex : ops.lex p.lexer = some (.ok (t, lx)))
    (ha : actionFor state (resolve t) = some (.arr [2, 41]))
    (hv : p.vstack = v :: vs) (hj : JSON_parse v = .error e) :
    step ops p = some (.error e) := by
  have hp : productions_.get? 41 = some (28, 1) := by decide
  have hperf : performAction 41 (v :: vs) = .error e := by
    show (JSON_parse v).bind _ = .error e
    rw [hj]
    rfl
  have hred : reduce 41 (state :: rest) (v :: vs) = .error e := by
    unfold reduce
    rw [hp]
    simp only [hperf]
  unfold step
  rw [hstack]
  simp only [hd, hsym, hlex, ha, hv, perform, hred]
  rfl

theorem isWordChar_plain {c : Char} (h : isWordChar c = true) :
    (!isLineTerminator c && c != dquote && c != backslash) = true := by
  have h1 : c ≠ dquote := ne_of_isWordChar h (by decide)
  have h2 : c ≠ backslash := ne_of_isWordChar h (by decide)
  have h3 : isLineTerminator c = false := by
    simp only [isWordChar, isLetter, isDigit, Bool.or_eq_true, Bool.and_eq_true,
      decide_eq_true_eq] at h
    simp only [isLineTerminator, Bool.or_eq_false_iff, decide_eq_false_iff_not]
    omega
  simp [h1, h2, h3]

theorem isIdentifier_isPlainText (a : String) (ha : isIdentifier a = true) :
    isPlainText a = true :=
  List.all_eq_true.mpr (fun x hx => isWordChar_plain (isIdentifier_wordChars a ha x hx))

theorem setProp_new (k1 k2 : String) (v1 v2 : JSVal) (h : k1 ≠ k2) :
    setProp [(k1, v1)] k2 v2 = [(k1, v1), (k2, v2)] := by
  simp [setProp, h]

theorem tokens_json_ident (w : String) (hw : isIdentifier w = true) :
    tokenize (setInput ("x = @" ++ w ++ ";")) =
      .cons (.num 8) (.str "x") 0 (.cons (.name "=") (.str "=") 0 (.cons (.num 27) (.str "@") 0 (.cons (.num 8) (.str w) 0 (.cons (.num 7) (.str ";") 0 (.eof (.str "") 0))))) := by
  have hS : ("x = @" ++ w ++ ";").data =
      'x' :: ' ' :: '=' :: ' ' :: '@' :: (w.data ++ [';']) := by
    simp [String.data_append]
  unfold setInput
  rw [hS]
  refine tokenize_step _ (Lexer.mk (' ' :: '=' :: ' ' :: '@' :: (w.data ++ [';'])) (.str "x") 0 false) (.num 8) (by rfl) (by decide) ?_ rfl
  refine tokenize_step _ (Lexer.mk (' ' :: '@' :: (w.data ++ [';'])) (.str "=") 0 false) (.name "=") (by rfl) (by decide) ?_ rfl
  refine tokenize_space_at ?_
  refine tokenize_ident w hw (by rfl) ?_
  refine tokenize_step _ (Lexer.mk ([]) (.str ";") 0 false) (.num 7) (by rfl) (by decide) ?_ rfl
  rfl

theorem parse_json_ident (w : String) (hw : isIdentifier w = true) (k : Nat) :
    parse (k + 64) ("x = @" ++ w ++ ";") =
      some (.error .jsonError) := by
  rw [parse_eq_parseTokens, tokens_json_ident w hw]
  unfold parseTokens
  rw [show k + 64 = 5 + ((k + 58) + 1) by omega,
    parseLoop_turns replay 5 _
      (Parser.mk [54, 8, 26, 27, 13, 9, 5, 8, 2, 4, 0] [(.str w), (.str "@"), (.str "="), (.str "x"), (.arr []), .null] none 0 (Replay.mk (.str w) 0 (.cons (.num 7) (.str ";") 0 (.eof (.str "") 0))))
      (by rfl) _, parseLoop,
    step_json_error replay
      (Parser.mk [54, 8, 26, 27, 13, 9, 5, 8, 2, 4, 0] [(.str w), (.str "@"), (.str "="), (.str "x"), (.arr []), .null] none 0 (Replay.mk (.str w) 0 (.cons (.num 7) (.str ";") 0 (.eof (.str "") 0))))
      54 _ _ _ (.str w) _ .jsonError rfl rfl rfl rfl rfl rfl
      (JSON_parse_ident w hw)]

theorem tokens_json_map_idents (a v b u : String) (ha : isIdentifier a = true) (hv : isNumeral v = true) (hb : isIdentifier b = true) (hu : isNumeral u = true) :
    tokenize (setInput ("x = @\x7b" ++ a ++ ": " ++ v ++ ", " ++ b ++ ": " ++ u ++ "\x7d;")) =
      .cons (.num 8) (.str "x") 0 (.cons (.name "=") (.str "=") 0 (.cons (.num 27) (.str "@") 0 (.cons (.name "\x7b") (.str "\x7b") 0 (.cons (.num 8) (.str a) 0 (.cons (.name ":") (.str ":") 0 (.cons (.num 26) (.num (Number v)) 0 (.cons (.name ",") (.str ",") 0 (.cons (.num 8) (.str b) 0 (.cons (.name ":") (.str ":") 0 (.cons (.num 26) (.num (Number u)) 0 (.cons (.name "\x7d") (.str "\x7d") 0 (.cons (.num 7) (.str ";") 0 (.eof (.str "") 0))))))))))))) := by
  have hS : ("x = @\x7b" ++ a ++ ": " ++ v ++ ", " ++ b ++ ": " ++ u ++ "\x7d;").data =
      'x' :: ' ' :: '=' :: ' ' :: '@' :: (Char.ofNat 123) :: (a.data ++ ':' :: ' ' :: (v.data ++ ',' :: ' ' :: (b.data ++ ':' :: ' ' :: (u.data ++ [(Char.ofNat 125), ';'])))) := by
    simp [String.data_append]
  unfold setInput
  rw [hS]
  refine tokenize_step _ (Lexer.mk (' ' :: '=' :: ' ' :: '@' :: (Char.ofNat 123) :: (a.data ++ ':' :: ' ' :: (v.data ++ ',' :: ' ' :: (b.data ++ ':' :: ' ' :: (u.data ++ [(Char.ofNat 125), ';']))))) (.str "x") 0 false) (.num 8) (by rfl) (by decide) ?_ rfl
  refine tokenize_step _ (Lexer.mk (' ' :: '@' :: (Char.ofNat 123) :: (a.data ++ ':' :: ' ' :: (v.data ++ ',' :: ' ' :: (b.data ++ ':' :: ' ' :: (u.data ++ [(Char.ofNat 125), ';']))))) (.str "=") 0 false) (.name "=") (by rfl) (by decide) ?_ rfl
  refine tokenize_step _ (Lexer.mk ((Char.ofNat 123) :: (a.data ++ ':' :: ' ' :: (v.data ++ ',' :: ' ' :: (b.data ++ ':' :: ' ' :: (u.data ++ [(Char.ofNat 125), ';']))))) (.str "@") 0 false) (.num 27) (by rfl) (by decide) ?_ rfl
  refine tokenize_step _ (Lexer.mk ((a.data ++ ':' :: ' ' :: (v.data ++ ',' :: ' ' :: (b.data ++ ':' :: ' ' :: (u.data ++ [(Char.ofNat 125), ';']))))) (.str "\x7b") 0 false) (.name "\x7b") (by rfl) (by decide) ?_ rfl
  refine tokenize_ident a ha (by rfl) ?_
  refine tokenize_step _ (Lexer.mk (' ' :: (v.data ++ ',' :: ' ' :: (b.data ++ ':' :: ' ' :: (u.data ++ [(Char.ofNat 125), ';'])))) (.str ":") 0 false) (.name ":") (by rfl) (by decide) ?_ rfl
  refine tokenize_space_numeral v hv (by rfl) ?_
  refine tokenize_step _ (Lexer.mk (' ' :: (b.data ++ ':' :: ' ' :: (u.data ++ [(Char.ofNat 125), ';']))) (.str ",") 0 false) (.name ",") (by rfl) (by decide) ?_ rfl
  refine tokenize_space_ident b hb (by rfl) ?_
  refine tokenize_step _ (Lexer.mk (' ' :: (u.data ++ [(Char.ofNat 125), ';'])) (.str ":") 0 false) (.name ":") (by rfl) (by decide) ?_ rfl
  refine tokenize_space_numeral u hu (by rfl) ?_
  refine tokenize_step _ (Lexer.mk ([';']) (.str "\x7d") 0 false) (.name "\x7d") (by rfl) (by decide) ?_ rfl
  refine tokenize_step _ (Lexer.mk ([]) (.str ";") 0 false) (.num 7) (by rfl) (by decide) ?_ rfl
  rfl

theorem parse_json_map_idents (a v b u : String) (ha : isIdentifier a = true) (hv : isNumeral v = true) (hb : isIdentifier b = true) (hu : isNumeral u = true) (k : Nat) :
    parse (k + 64) ("x = @\x7b" ++ a ++ ": " ++ v ++ ", " ++ b ++ ": " ++ u ++ "\x7d;") =
      some (.error .jsonError) := by
  rw [parse_eq_parseTokens, tokens_json_map_idents a v b u ha hv hb hu]
  unfold parseTokens
  rw [show k + 64 = 6 + ((k + 57) + 1) by omega,
    parseLoop_turns replay 6 _
      (Parser.mk [54, 8, 57, 24, 26, 27, 13, 9, 5, 8, 2, 4, 0] [(.str a), (.str "\x7b"), (.str "@"), (.str "="), (.str "x"), (.arr []), .null] none 0 (Replay.mk (.str a) 0 (.cons (.name ":") (.str ":") 0 (.cons (.num 26) (.num (Number v)) 0 (.cons (.name ",") (.str ",") 0 (.cons (.num 8) (.str b) 0 (.cons (.name ":") (.str ":") 0 (.cons (.num 26) (.num (Number u)) 0 (.cons (.name "\x7d") (.str "\x7d") 0 (.cons (.num 7) (.str ";") 0 (.eof (.str "") 0)))))))))))
      (by rfl) _, parseLoop,
    step_json_error replay
      (Parser.mk [54, 8, 57, 24, 26, 27, 13, 9, 5, 8, 2, 4, 0] [(.str a), (.str "\x7b"), (.str "@"), (.str "="), (.str "x"), (.arr []), .null] none 0 (Replay.mk (.str a) 0 (.cons (.name ":") (.str ":") 0 (.cons (.num 26) (.num (Number v)) 0 (.cons (.name ",") (.str ",") 0 (.cons (.num 8) (.str b) 0 (.cons (.name ":") (.str ":") 0 (.cons (.num 26) (.num (Number u)) 0 (.cons (.name "\x7d") (.str "\x7d") 0 (.cons (.num 7) (.str ";") 0 (.eof (.str "") 0)))))))))))
      54 _ _ _ (.str a) _ .jsonError rfl rfl rfl rfl rfl rfl
      (JSON_parse_ident a ha)]

theorem tokens_minus_tight (a n : String) (ha : isIdentifier a = true) (hn : isNumeral n = true) :
    tokenize (setInput ("x = " ++ a ++ "-" ++ n ++ ";")) =
      .cons (.num 8) (.str "x") 0 (.cons (.name "=") (.str "=") 0 (.cons (.num 8) (.str a) 0 (.cons (.num 26) (.num (Number ("-" ++ n))) 0 (.cons (.num 7) (.str ";") 0 (.eof (.str "") 0))))) := by
  have hS : ("x = " ++ a ++ "-" ++ n ++ ";").data =
      'x' :: ' ' :: '=' :: ' ' :: (a.data ++ '-' :: (n.data ++ [';'])) := by
    simp [String.data_append]
  unfold setInput
  rw [hS]
  refine tokenize_step _ (Lexer.mk (' ' :: '=' :: ' ' :: (a.data ++ '-' :: (n.data ++ [';']))) (.str "x") 0 false) (.num 8) (by rfl) (by decide) ?_ rfl
  refine tokenize_step _ (Lexer.mk (' ' :: (a.data ++ '-' :: (n.data ++ [';']))) (.str "=") 0 false) (.name "=") (by rfl) (by decide) ?_ rfl
  refine tokenize_space_ident a ha (by rfl) ?_
  refine tokenize_minus_numeral n hn (by rfl) ?_
  refine tokenize_step _ (Lexer.mk ([]) (.str ";") 0 false) (.num 7) (by rfl) (by decide) ?_ rfl
  rfl

theorem parse_minus_tight (a n : String) (ha : isIdentifier a = true) (hn : isNumeral n = true) (k : Nat) :
    parse (k + 64) ("x = " ++ a ++ "-" ++ n ++ ";") =
      some (.error (.syntaxError 0 (some (.num 26)) 0 [7, 8, 18, 20, 21, 23, 25, 29, 30, 31, 32, 33, 34, 35, 36, 37, 38, 39, 41, 42, 43, 44, 50, 52, 54, 55, 57])) := by
  rw [parse_eq_parseTokens, tokens_minus_tight a n ha hn, Nat.add_comm]
  exact parseTokens_mono 64 k _ _ (by rfl)

theorem tokens_minus_spaced (a n : String) (ha : isIdentifier a = true) (hn : isNumeral n = true) :
    tokenize (setInput ("x = " ++ a ++ " - " ++ n ++ ";")) =
      .cons (.num 8) (.str "x") 0 (.cons (.name "=") (.str "=") 0 (.cons (.num 8) (.str a) 0 (.cons (.name "-") (.str "-") 0 (.cons (.num 26) (.num (Number n)) 0 (.cons (.num 7) (.str ";") 0 (.eof (.str "") 0)))))) := by
  have hS : ("x = " ++ a ++ " - " ++ n ++ ";").data =
      'x' :: ' ' :: '=' :: ' ' :: (a.data ++ ' ' :: '-' :: ' ' :: (n.data ++ [';'])) := by
    simp [String.data_append]
  unfold setInput
  rw [hS]
  refine tokenize_step _ (Lexer.mk (' ' :: '=' :: ' ' :: (a.data ++ ' ' :: '-' :: ' ' :: (n.data ++ [';']))) (.str "x") 0 false) (.num 8) (by rfl) (by decide) ?_ rfl
  refine tokenize_step _ (Lexer.mk (' ' :: (a.data ++ ' ' :: '-' :: ' ' :: (n.data ++ [';']))) (.str "=") 0 false) (.name "=") (by rfl) (by decide) ?_ rfl
  refine tokenize_space_ident a ha (by rfl) ?_
  refine tokenize_step _ (Lexer.mk (' ' :: (n.data ++ [';'])) (.str "-") 0 false) (.name "-") (by rfl) (by decide) ?_ rfl
  refine tokenize_space_numeral n hn (by rfl) ?_
  refine tokenize_step _ (Lexer.mk ([]) (.str ";") 0 false) (.num 7) (by rfl) (by decide) ?_ rfl
  rfl

theorem parse_minus_spaced (a n : String) (ha : isIdentifier a = true) (hn : isNumeral n = true) (k : Nat) :
    parse (k + 64) ("x = " ++ a ++ " - " ++ n ++ ";") =
      some (.ok (Ast.seq [Ast.set "x" (Ast.nary "sum" [Ast.get a, Ast.unary "negative" (.num (Number n))])])) := by
  rw [parse_eq_parseTokens, tokens_minus_spaced a n ha hn, Nat.add_comm]
  exact parseTokens_mono 64 k _ _ (by rfl)

theorem tokens_json_string (b : String) (hb : isPlainText b = true) :
    tokenize (setInput ("x = @\"" ++ b ++ "\";")) =
      .cons (.num 8) (.str "x") 0 (.cons (.name "=") (.str "=") 0 (.cons (.num 27) (.str "@") 0 (.cons (.num 26) (.str b) 0 (.cons (.num 7) (.str ";") 0 (.eof (.str "") 0))))) := by
  have hS : ("x = @\"" ++ b ++ "\";").data =
      'x' :: ' ' :: '=' :: ' ' :: '@' :: dquote :: (b.data ++ [dquote, ';']) := by
    simp [String.data_append]
    rfl
  unfold setInput
  rw [hS]
  refine tokenize_step _ (Lexer.mk (' ' :: '=' :: ' ' :: '@' :: dquote :: (b.data ++ [dquote, ';'])) (.str "x") 0 false) (.num 8) (by rfl) (by decide) ?_ rfl
  refine tokenize_step _ (Lexer.mk (' ' :: '@' :: dquote :: (b.data ++ [dquote, ';'])) (.str "=") 0 false) (.name "=") (by rfl) (by decide) ?_ rfl
  refine tokenize_step _ (Lexer.mk (dquote :: (b.data ++ [dquote, ';'])) (.str "@") 0 false) (.num 27) (by rfl) (by decide) ?_ rfl
  refine tokenize_dstring b hb ?_
  refine tokenize_step _ (Lexer.mk ([]) (.str ";") 0 false) (.num 7) (by rfl) (by decide) ?_ rfl
  rfl

theorem parse_json_string (b : String) (hb : isPlainText b = true) (k : Nat) :
    parse (k + 64) ("x = @\"" ++ b ++ "\";") =
      some (.ok (Ast.seq [Ast.set "x" (Ast.literal (.str b))])) := by
  rw [parse_eq_parseTokens, tokens_json_string b hb, Nat.add_comm]
  exact parseTokens_mono 64 k _ _ (by rfl)

theorem tokens_json_numeral (n : String) (hn : isNumeral n = true) :
    tokenize (setInput ("x = @" ++ n ++ ";")) =
      .cons (.num 8) (.str "x") 0 (.cons (.name "=") (.str "=") 0 (.cons (.num 27) (.str "@") 0 (.cons (.num 26) (.num (Number n)) 0 (.cons (.num 7) (.str ";") 0 (.eof (.str "") 0))))) := by
  have hS : ("x = @" ++ n ++ ";").data =
      'x' :: ' ' :: '=' :: ' ' :: '@' :: (n.data ++ [';']) := by
    simp [String.data_append]
  unfold setInput
  rw [hS]
  refine tokenize_step _ (Lexer.mk (' ' :: '=' :: ' ' :: '@' :: (n.data ++ [';'])) (.str "x") 0 false) (.num 8) (by rfl) (by decide) ?_ rfl
  refine tokenize_step _ (Lexer.mk (' ' :: '@' :: (n.data ++ [';'])) (.str "=") 0 false) (.name "=") (by rfl) (by decide) ?_ rfl
  refine tokenize_space_at ?_
  refine tokenize_numeral n hn (by rfl) ?_
  refine tokenize_step _ (Lexer.mk ([]) (.str ";") 0 false) (.num 7) (by rfl) (by decide) ?_ rfl
  rfl

theorem parse_json_numeral (n : String) (hn : isNumeral n = true) (k : Nat) :
    parse (k + 64) ("x = @" ++ n ++ ";") =
      some (.ok (Ast.seq [Ast.set "x" (Ast.literal (.num (Number n)))])) := by
  rw [parse_eq_parseTokens, tokens_json_numeral n hn, Nat.add_comm]
  exact parseTokens_mono 64 k _ _ (by rfl)

theorem tokens_json_map_strings (a v b u : String) (ha : isPlainText a = true) (hv : isNumeral v = true) (hb : isPlainText b = true) (hu : isNumeral u = true) :
    tokenize (setInput ("x = @\x7b\"" ++ a ++ "\": " ++ v ++ ", \"" ++ b ++ "\": " ++ u ++ "\x7d;")) =
      .cons (.num 8) (.str "x") 0 (.cons (.name "=") (.str "=") 0 (.cons (.num 27) (.str "@") 0 (.cons (.name "\x7b") (.str "\x7b") 0 (.cons (.num 26) (.str a) 0 (.cons (.name ":") (.str ":") 0 (.cons (.num 26) (.num (Number v)) 0 (.cons (.name ",") (.str ",") 0 (.cons (.num 26) (.str b) 0 (.cons (.name ":") (.str ":") 0 (.cons (.num 26) (.num (Number u)) 0 (.cons (.name "\x7d") (.str "\x7d") 0 (.cons (.num 7) (.str ";") 0 (.eof (.str "") 0))))))))))))) := by
  have hS : ("x = @\x7b\"" ++ a ++ "\": " ++ v ++ ", \"" ++ b ++ "\": " ++ u ++ "\x7d;").data =
      'x' :: ' ' :: '=' :: ' ' :: '@' :: (Char.ofNat 123) :: dquote :: (a.data ++ dquote :: ':' :: ' ' :: (v.data ++ ',' :: ' ' :: dquote :: (b.data ++ dquote :: ':' :: ' ' :: (u.data ++ [(Char.ofNat 125), ';'])))) := by
    simp [String.data_append]
    rfl
  unfold setInput
  rw [hS]
  refine tokenize_step _ (Lexer.mk (' ' :: '=' :: ' ' :: '@' :: (Char.ofNat 123) :: dquote :: (a.data ++ dquote :: ':' :: ' ' :: (v.data ++ ',' :: ' ' :: dquote :: (b.data ++ dquote :: ':' :: ' ' :: (u.data ++ [(Char.ofNat 125), ';']))))) (.str "x") 0 false) (.num 8) (by rfl) (by decide) ?_ rfl
  refine tokenize_step _ (Lexer.mk (' ' :: '@' :: (Char.ofNat 123) :: dquote :: (a.data ++ dquote :: ':' :: ' ' :: (v.data ++ ',' :: ' ' :: dquote :: (b.data ++ dquote :: ':' :: ' ' :: (u.data ++ [(Char.ofNat 125), ';']))))) (.str "=") 0 false) (.name "=") (by rfl) (by decide) ?_ rfl
  refine tokenize_step _ (Lexer.mk ((Char.ofNat 123) :: dquote :: (a.data ++ dquote :: ':' :: ' ' :: (v.data ++ ',' :: ' ' :: dquote :: (b.data ++ dquote :: ':' :: ' ' :: (u.data ++ [(Char.ofNat 125), ';']))))) (.str "@") 0 false) (.num 27) (by rfl) (by decide) ?_ rfl
  refine tokenize_step _ (Lexer.mk (dquote :: (a.data ++ dquote :: ':' :: ' ' :: (v.data ++ ',' :: ' ' :: dquote :: (b.data ++ dquote :: ':' :: ' ' :: (u.data ++ [(Char.ofNat 125), ';']))))) (.str "\x7b") 0 false) (.name "\x7b") (by rfl) (by decide) ?_ rfl
  refine tokenize_dstring a ha ?_
  refine tokenize_step _ (Lexer.mk (' ' :: (v.data ++ ',' :: ' ' :: dquote :: (b.data ++ dquote :: ':' :: ' ' :: (u.data ++ [(Char.ofNat 125), ';'])))) (.str ":") 0 false) (.name ":") (by rfl) (by decide) ?_ rfl
  refine tokenize_space_numeral v hv (by rfl) ?_
  refine tokenize_step _ (Lexer.mk (' ' :: dquote :: (b.data ++ dquote :: ':' :: ' ' :: (u.data ++ [(Char.ofNat 125), ';']))) (.str ",") 0 false) (.name ",") (by rfl) (by decide) ?_ rfl
  refine tokenize_space_dstring b hb ?_
  refine tokenize_step _ (Lexer.mk (' ' :: (u.data ++ [(Char.ofNat 125), ';'])) (.str ":") 0 false) (.name ":") (by rfl) (by decide) ?_ rfl
  refine tokenize_space_numeral u hu (by rfl) ?_
  refine tokenize_step _ (Lexer.mk ([';']) (.str "\x7d") 0 false) (.name "\x7d") (by rfl) (by decide) ?_ rfl
  refine tokenize_step _ (Lexer.mk ([]) (.str ";") 0 false) (.num 7) (by rfl) (by decide) ?_ rfl
  rfl

theorem parse_json_map_strings (a v b u : String) (ha : isPlainText a = true) (hv : isNumeral v = true) (hb : isPlainText b = true) (hu : isNumeral u = true) (k : Nat) :
    parse (k + 64) ("x = @\x7b\"" ++ a ++ "\": " ++ v ++ ", \"" ++ b ++ "\": " ++ u ++ "\x7d;") =
      some (.ok (Ast.seq [Ast.set "x" (Ast.literal (.obj (setProp [(a, .num (Number v))] b (.num (Number u)))))])) := by
  rw [parse_eq_parseTokens, tokens_json_map_strings a v b u ha hv hb hu, Nat.add_comm]
  exact parseTokens_mono 64 k _ _ (by rfl)

/-! ## Claims C13 to C16 and C25 -/

/-- C13, counterexample: the double-quoted constant written `"a\"b"` decodes to
the 4-character text `a\"b`, the backslash kept: the lexer strips the quotes and
resolves no escape, and `x = "a\"b";` binds `x` to that text, not to the
3-character text `a"b`. -/
theorem C13_counterexample :
    next (setInput "\"a\\\"b\"") =
      .ok (some (.num 26),
        { _input := [], yytext := .str "a\\\"b", yylineno := 0, done := false }) ∧
    ("a\\\"b").length = 4 ∧
    parse 64 "x = \"a\\\"b\";" = some (.ok (Ast.seq [Ast.set "x" (.str "a\\\"b")])) ∧
    parse 64 "x = \"a\\\"b\";" ≠ some (.ok (Ast.seq [Ast.set "x" (.str "a\"b")])) := by
  have h : parse 64 "x = \"a\\\"b\";" =
      some (.ok (Ast.seq [Ast.set "x" (.str "a\\\"b")])) := by rfl
  refine ⟨by rfl, by rfl, h, ?_⟩
  rw [h]
  simp [Ast.seq, Ast.set]

/-- C13, amended: a string constant decodes to its inner text with the quotes
stripped and every backslash left as a literal character, in both forms. For a
body `b` that `(\\.|[^\\"])*` matches, the lexer at `"b"` returns `CONST` with
`yytext` the text `b`; for a body `b` without single quote, the lexer at `'b'`
returns `CONST` with `yytext` the text `b`. -/
theorem C13_string_constants (b : List Char) (r : List Char) (y : JSVal) (n : Nat) :
    (isDoubleBody b = true →
      next { _input := dquote :: (b ++ dquote :: r), yytext := y, yylineno := n,
             done := false } =
        .ok (some (.num 26),
          { _input := r, yytext := .str (String.mk b),
            yylineno := n + lineBreaks (dquote :: (b ++ [dquote])), done := false })) ∧
    (isSingleBody b = true →
      next { _input := squote :: (b ++ squote :: r), yytext := y, yylineno := n,
             done := false } =
        .ok (some (.num 26),
          { _input := r, yytext := .str (String.mk b),
            yylineno := n + lineBreaks (squote :: (b ++ [squote])), done := false })) :=
  ⟨fun hb => next_dstring b hb r y n, fun hb => next_sstring b hb r y n⟩

/-- C13, witness: the amended claim at the body `a\"b` between double quotes and
at the body `a\b` between single quotes. -/
theorem C13_string_constants_witness :
    isDoubleBody ['a', backslash, dquote, 'b'] = true ∧
    isSingleBody ['a', backslash, 'b'] = true ∧
    next { _input := dquote :: (['a', backslash, dquote, 'b'] ++ dquote :: [';']),
           yytext := .str "", yylineno := 0, done := false } =
      .ok (some (.num 26),
        { _input := [';'], yytext := .str (String.mk ['a', backslash, dquote, 'b']),
          yylineno := 0 + lineBreaks (dquote :: (['a', backslash, dquote, 'b'] ++ [dquote])),
          done := false }) ∧
    next { _input := squote :: (['a', backslash, 'b'] ++ squote :: [';']),
           yytext := .str "", yylineno := 0, done := false } =
      .ok (some (.num 26),
        { _input := [';'], yytext := .str (String.mk ['a', backslash, 'b']),
          yylineno := 0 + lineBreaks (squote :: (['a', backslash, 'b'] ++ [squote])),
          done := false }) :=
  ⟨by decide, by decide,
    (C13_string_constants ['a', backslash, dquote, 'b'] [';'] (.str "") 0).1 (by decide),
    (C13_string_constants ['a', backslash, 'b'] [';'] (.str "") 0).2 (by decide)⟩

/-- C14, counterexample: `x = @foo;` does not parse: `JSON.parse` throws on the
text `foo`, so no literal node with the value `"foo"` is produced. -/
theorem C14_counterexample :
    isIdentifier "foo" = true ∧
    parse 64 "x = @foo;" = some (.error .jsonError) ∧
    parse 64 "x = @foo;" ≠ some (.ok (Ast.seq [Ast.set "x" (Ast.literal (.str "foo"))])) := by
  have h : parse 64 "x = @foo;" = some (.error .jsonError) := by rfl
  refine ⟨by decide, h, ?_⟩
  rw [h]
  simp

/-- C14, amended: a bare identifier is not accepted as an embedded literal: for
every identifier `w`, parsing `x = @w;` fails, the text of the identifier being
handed to `JSON.parse`, which throws on it. -/
theorem C14_bare_identifier_rejected (w : String) (hw : isIdentifier w = true) (k : Nat) :
    parse (k + 64) ("x = @" ++ w ++ ";") = some (.error .jsonError) :=
  parse_json_ident w hw k

/-- C14, witness: the amended claim at the identifier `foo`. -/
theorem C14_bare_identifier_rejected_witness :
    isIdentifier "foo" = true ∧
    parse (0 + 64) ("x = @" ++ "foo" ++ ";") = some (.error .jsonError) :=
  ⟨by decide, C14_bare_identifier_rejected "foo" (by decide) 0⟩

/-- C15, counterexample: `x = @{k1: 1, k2: 2};` does not parse: the key `k1` is
a `json` value, an identifier that `JSON.parse` rejects. -/
theorem C15_counterexample :
    isIdentifier "k1" = true ∧ isIdentifier "k2" = true ∧
    parse 64 "x = @\x7bk1: 1, k2: 2\x7d;" = some (.error .jsonError) ∧
    parse 64 "x = @\x7bk1: 1, k2: 2\x7d;" ≠
      some (.ok (Ast.seq [Ast.set "x"
        (Ast.literal (.obj [("k1", Ast.int 1), ("k2", Ast.int 2)]))])) := by
  have h : parse 64 "x = @\x7bk1: 1, k2: 2\x7d;" = some (.error .jsonError) := by rfl
  refine ⟨by decide, by decide, h, ?_⟩
  rw [h]
  simp

/-- C15, amended: the keys of an embedded literal map are `json` values, so an
unquoted key is rejected and a key is written as a string constant. For distinct
identifiers `k1`, `k2` and unsigned integer constants `v1`, `v2`, parsing
`x = @{k1: v1, k2: v2};` fails in `JSON.parse`, parsing
`x = @{"k1": v1, "k2": v2};` yields the literal node of the map `k1 ↦ v1`,
`k2 ↦ v2`, and `x = @{};` yields the literal node of the empty map. -/
theorem C15_map_keys (k1 k2 v1 v2 : String) (h1 : isIdentifier k1 = true)
    (h2 : isIdentifier k2 = true) (hv1 : isNumeral v1 = true) (hv2 : isNumeral v2 = true)
    (hne : k1 ≠ k2) (k : Nat) :
    parse (k + 64) ("x = @\x7b" ++ k1 ++ ": " ++ v1 ++ ", " ++ k2 ++ ": " ++ v2 ++ "\x7d;") =
      some (.error .jsonError) ∧
    parse (k + 64)
        ("x = @\x7b\"" ++ k1 ++ "\": " ++ v1 ++ ", \"" ++ k2 ++ "\": " ++ v2 ++ "\x7d;") =
      some (.ok (Ast.seq [Ast.set "x"
        (Ast.literal (.obj [(k1, .num (Number v1)), (k2, .num (Number v2))]))])) ∧
    parse (k + 64) "x = @\x7b\x7d;" =
      some (.ok (Ast.seq [Ast.set "x" (Ast.literal (.obj []))])) := by
  refine ⟨parse_json_map_idents k1 v1 k2 v2 h1 hv1 h2 hv2 k, ?_, ?_⟩
  · rw [parse_json_map_strings k1 v1 k2 v2 (isIdentifier_isPlainText k1 h1) hv1
      (isIdentifier_isPlainText k2 h2) hv2 k, setProp_new k1 k2 _ _ hne]
  · rw [Nat.add_comm]
    exact parse_mono 64 k _ _ (by rfl)

/-- C15, witness: the amended claim at the keys `k1`, `k2` and the constants
`1`, `2`. -/
theorem C15_map_keys_witness :
    isIdentifier "k1" = true ∧ isIdentifier "k2" = true ∧ isNumeral "1" = true ∧
    isNumeral "2" = true ∧ "k1" ≠ "k2" ∧
    parse (0 + 64)
        ("x = @\x7b\"" ++ "k1" ++ "\": " ++ "1" ++ ", \"" ++ "k2" ++ "\": " ++ "2" ++ "\x7d;") =
      some (.ok (Ast.seq [Ast.set "x"
        (Ast.literal (.obj [("k1", .num (Number "1")), ("k2", .num (Number "2"))]))])) :=
  ⟨by decide, by decide, by decide, by decide, by decide,
    (C15_map_keys "k1" "k2" "1" "2" (by decide) (by decide) (by decide) (by decide)
      (by decide) 0).2.1⟩

/-- C16, counterexample: `x = @"abc";` parses and yields the literal node of the
text `abc`: production 42 (`json → CONST`) passes the constant through, and no
second JSON decode is applied to it. -/
theorem C16_counterexample :
    parse 64 "x = @\"abc\";" =
      some (.ok (Ast.seq [Ast.set "x" (Ast.literal (.str "abc"))])) :=
  by rfl

/-- C16, amended: a scalar constant in embedded-literal position is taken as
lexed, with no second decode: for every text `b` without double quote, backslash
or line terminator, `x = @"b";` parses and yields the literal node of the text
`b`, and for every unsigned integer constant `n`, `x = @n;` yields the literal
node of the number `n`. -/
theorem C16_scalar_constants (b n : String) (hb : isPlainText b = true)
    (hn : isNumeral n = true) (k : Nat) :
    parse (k + 64) ("x = @\"" ++ b ++ "\";") =
      some (.ok (Ast.seq [Ast.set "x" (Ast.literal (.str b))])) ∧
    parse (k + 64) ("x = @" ++ n ++ ";") =
      some (.ok (Ast.seq [Ast.set "x" (Ast.literal (.num (Number n)))])) :=
  ⟨parse_json_string b hb k, parse_json_numeral n hn k⟩

/-- C16, witness: the amended claim at the text `abc` and the constant `5`. -/
theorem C16_scalar_constants_witness :
    isPlainText "abc" = true ∧ isNumeral "5" = true ∧
    parse (0 + 64) ("x = @\"" ++ "abc" ++ "\";") =
      some (.ok (Ast.seq [Ast.set "x" (Ast.literal (.str "abc"))])) ∧
    parse (0 + 64) ("x = @" ++ "5" ++ ";") =
      some (.ok (Ast.seq [Ast.set "x" (Ast.literal (.num (Number "5")))])) :=
  ⟨by decide, by decide, C16_scalar_constants "abc" "5" (by decide) (by decide) 0⟩

/-- C25: a sign directly before an integer literal is lexed into the constant:
for every unsigned integer literal `n`, the lexer at `-n` and at `+n` returns one
`CONST` token of the signed number. So for every identifier `a`, `x = a-n;` is a
syntax error at that `CONST` token, while `x = a - n;` parses and binds `x` to
`sum [a, negative n]`. -/
theorem C25_sign_capture (a n : String) (ha : isIdentifier a = true)
    (hn : isNumeral n = true) (k : Nat) :
    (∀ (r : List Char) (y : JSVal) (l : Nat), numeralBoundary r = true →
      next { _input := '-' :: (n.data ++ r), yytext := y, yylineno := l, done := false } =
        .ok (some (.num 26),
          { _input := r, yytext := .num (Number ("-" ++ n)), yylineno := l, done := false }) ∧
      next { _input := '+' :: (n.data ++ r), yytext := y, yylineno := l, done := false } =
        .ok (some (.num 26),
          { _input := r, yytext := .num (Number ("+" ++ n)), yylineno := l, done := false })) ∧
    parse (k + 64) ("x = " ++ a ++ "-" ++ n ++ ";") =
      some (.error (.syntaxError 0 (some (.num 26)) 0
        [7, 8, 18, 20, 21, 23, 25, 29, 30, 31, 32, 33, 34, 35, 36, 37, 38, 39, 41, 42, 43, 44,
          50, 52, 54, 55, 57])) ∧
    parse (k + 64) ("x = " ++ a ++ " - " ++ n ++ ";") =
      some (.ok (Ast.seq [Ast.set "x"
        (Ast.nary "sum" [Ast.get a, Ast.unary "negative" (.num (Number n))])])) :=
  ⟨fun r y l hr => ⟨next_minus_numeral n hn r hr y l, next_plus_numeral n hn r hr y l⟩,
    parse_minus_tight a n ha hn k, parse_minus_spaced a n ha hn k⟩

/-- C25, witness: the claim at the identifier `a` and the literal `1`. -/
theorem C25_sign_capture_witness :
    isIdentifier "a" = true ∧ isNumeral "1" = true ∧
    parse (0 + 64) ("x = " ++ "a" ++ "-" ++ "1" ++ ";") =
      some (.error (.syntaxError 0 (some (.num 26)) 0
        [7, 8, 18, 20, 21, 23, 25, 29, 30, 31, 32, 33, 34, 35, 36, 37, 38, 39, 41, 42, 43, 44,
          50, 52, 54, 55, 57])) ∧
    parse (0 + 64) ("x = " ++ "a" ++ " - " ++ "1" ++ ";") =
      some (.ok (Ast.seq [Ast.set "x"
        (Ast.nary "sum" [Ast.get "a", Ast.unary "negative" (.num (Number "1"))])])) :=
  ⟨by decide, by decide, (C25_sign_capture "a" "1" (by decide) (by decide) 0).2⟩

theorem turns_add {σ : Type} (ops : LexerOps σ) (j : Nat) :
    ∀ (p p1 : Parser σ), turns ops j p = some (.ok (.inl p1)) →
      ∀ n, turns ops (j + n) p = turns ops n p1 := by
  induction j with
  | zero =>
    intro p p1 h n
    simp only [turns, Option.some.injEq, Except.ok.injEq, Sum.inl.injEq] at h
    rw [Nat.zero_add, h]
  | succ j ih =>
    intro p p1 h n
    rw [Nat.add_right_comm]
    unfold turns at h
    cases hs : step ops p with
    | none => rw [hs] at h; cases h
    | some res =>
      cases res with
      | error e => rw [hs] at h; cases h
      | ok v =>
        cases v with
        | inr r => rw [hs] at h; cases h
        | inl p2 =>
          rw [hs] at h
          have h1 : turns ops (j + n + 1) p = turns ops (j + n) p2 := by
            rw [turns, hs]
          rw [h1]
          exact ih p2 p1 h n

theorem tokens_assignments (ps : List (String × String))
    (h : ∀ p ∈ ps, isIdentifier p.1 = true ∧ isNumeral p.2 = true) :
    ∀ y : JSVal, tokenize { _input := (assignments ps).data, yytext := y, yylineno := 0,
                            done := false } = assignmentTokens ps := by
  induction ps with
  | nil => intro y; rfl
  | cons p rest ih =>
    intro y
    have hp := h p (List.mem_cons_self _ _)
    have hrest := ih (fun q hq => h q (List.mem_cons_of_mem _ hq))
    have hS : (assignments (p :: rest)).data =
        p.1.data ++ ' ' :: '=' :: ' ' :: (p.2.data ++ ';' :: (assignments rest).data) := by
      simp [assignments, String.data_append]
    rw [hS]
    unfold assignmentTokens
    refine tokenize_ident p.1 hp.1 (by rfl) ?_
    refine tokenize_step _
      (Lexer.mk (' ' :: (p.2.data ++ ';' :: (assignments rest).data)) (.str "=") 0 false)
      (.name "=") (by rfl) (by decide) ?_ rfl
    refine tokenize_space_numeral p.2 hp.2 (by rfl) ?_
    refine tokenize_semicolon ?_
    exact hrest _

/-- The loop of `parse` at the start of a statement `v = c;`, the statements
before it reduced to the list `ch`: the statements that follow are appended. -/
theorem parse_assignments_loop (ps : List (String × String)) :
    ∀ (ch : List JSVal) (v : String) (c : JSVal) (k : Nat),
      parseLoop replay (k + (7 * ps.length + 8))
        (Parser.mk [2, 4, 0] [.arr ch, .null] (some (.num 8)) 0
          (Replay.mk (.str v) 0 (.cons (.name "=") (.str "=") 0
            (.cons (.num 26) c 0 (.cons (.num 7) (.str ";") 0 (assignmentTokens ps)))))) =
        some (.ok (Ast.seq (ch ++ Ast.set v c :: ps.map assignmentNode))) := by
  induction ps with
  | nil =>
    intro ch v c k
    rw [show k + (7 * ([] : List (String × String)).length + 8) = 8 + k by simp; omega]
    exact parseLoop_turns_ok replay 8 _ _ (by rfl) k
  | cons p rest ih =>
    intro ch v c k
    rw [show k + (7 * (p :: rest).length + 8) = 7 + (k + (7 * rest.length + 8)) by
      simp only [List.length_cons]; omega]
    rw [parseLoop_turns replay 7 _
      (Parser.mk [2, 4, 0] [.arr (ch ++ [Ast.set v c]), .null] (some (.num 8)) 0
        (Replay.mk (.str p.1) 0 (.cons (.name "=") (.str "=") 0
          (.cons (.num 26) (.num (Number p.2)) 0 (.cons (.num 7) (.str ";") 0
            (assignmentTokens rest)))))) (by rfl) _]
    rw [ih (ch ++ [Ast.set v c]) p.1 (.num (Number p.2)) k]
    simp [assignmentNode]

theorem parseTokens_assignments (ps : List (String × String)) (k : Nat) :
    parseTokens (k + (7 * ps.length + 2)) (assignmentTokens ps) =
      some (.ok (Ast.seq (ps.map assignmentNode))) := by
  cases ps with
  | nil =>
    rw [show k + (7 * ([] : List (String × String)).length + 2) = 2 + k by simp; omega]
    exact parseLoop_turns_ok replay 2 _ _ (by rfl) k
  | cons p rest =>
    rw [show k + (7 * (p :: rest).length + 2) = 1 + (k + (7 * rest.length + 8)) by
      simp only [List.length_cons]; omega]
    unfold parseTokens
    rw [parseLoop_turns replay 1 _
      (Parser.mk [2, 4, 0] [.arr [], .null] (some (.num 8)) 0
        (Replay.mk (.str p.1) 0 (.cons (.name "=") (.str "=") 0
          (.cons (.num 26) (.num (Number p.2)) 0 (.cons (.num 7) (.str ";") 0
            (assignmentTokens rest)))))) (by rfl) _]
    rw [parse_assignments_loop rest [] p.1 (.num (Number p.2)) k]
    simp [assignmentNode]

theorem parse_assignments (ps : List (String × String))
    (h : ∀ p ∈ ps, isIdentifier p.1 = true ∧ isNumeral p.2 = true) (k : Nat) :
    parse (k + (7 * ps.length + 2)) (assignments ps) =
      some (.ok (Ast.seq (ps.map assignmentNode))) := by
  rw [parse_eq_parseTokens]
  unfold setInput
  rw [tokens_assignments ps h]
  exact parseTokens_assignments ps k

/-- A line feed before a character that is no white space is skipped, and counted. -/
theorem tokenize_newline (c : Char) (s : List Char) (hc : isSpace c = false) (y : JSVal)
    (n : Nat) :
    tokenize { _input := '\n' :: c :: s, yytext := y, yylineno := n, done := false } =
      tokenize { _input := c :: s, yytext := .str "", yylineno := n + 1, done := false } := by
  have hn : next (Lexer.mk ('\n' :: c :: s) y n false) =
      .ok (none, Lexer.mk (c :: s) (.str (String.mk ['\n'])) (n + lineBreaks ['\n']) false) :=
    next_space '\n' c s (by decide) hc y n
  rw [tokenize_eq_of_lex_eq _ _ (lex_of_next_none _ _ hn)]
  exact tokenize_yytext _ _ _ _

theorem lineTokens_head (ps : List (String × String)) (n : Nat) :
    ∃ v tail, lineTokens ps n = .cons (.num 8) (.str v) n tail := by
  cases ps with
  | nil => exact ⟨_, _, rfl⟩
  | cons p rest => exact ⟨_, _, rfl⟩

theorem lines_head (ps : List (String × String))
    (h : ∀ p ∈ ps, isIdentifier p.1 = true ∧ isNumeral p.2 = true) :
    ∃ c s, (assignmentLines ps ++ "x = \"abc;").data = c :: s ∧ isSpace c = false := by
  cases ps with
  | nil => exact ⟨'x', _, rfl, by decide⟩
  | cons p rest =>
    obtain ⟨c, t, hd, hl, _⟩ := isIdentifier_data p.1 (h p (List.mem_cons_self _ _)).1
    refine ⟨c, t ++ (" = " ++ p.2 ++ ";\n" ++ assignmentLines rest ++ "x = \"abc;").data, ?_,
      isLetter_not_isSpace hl⟩
    simp [assignmentLines, String.data_append, hd]

theorem tokens_lines (ps : List (String × String))
    (h : ∀ p ∈ ps, isIdentifier p.1 = true ∧ isNumeral p.2 = true) :
    ∀ (y : JSVal) (n : Nat),
      tokenize { _input := (assignmentLines ps ++ "x = \"abc;").data, yytext := y,
                 yylineno := n, done := false } = lineTokens ps n := by
  induction ps with
  | nil => intro y n; rfl
  | cons p rest ih =>
    intro y n
    have hp := h p (List.mem_cons_self _ _)
    have hr : ∀ q ∈ rest, isIdentifier q.1 = true ∧ isNumeral q.2 = true :=
      fun q hq => h q (List.mem_cons_of_mem _ hq)
    have hS : (assignmentLines (p :: rest) ++ "x = \"abc;").data =
        p.1.data ++ ' ' :: '=' :: ' ' ::
          (p.2.data ++ ';' :: '\n' :: (assignmentLines rest ++ "x = \"abc;").data) := by
      simp [assignmentLines, String.data_append]
    rw [hS]
    unfold lineTokens
    refine tokenize_ident p.1 hp.1 (by rfl) ?_
    refine tokenize_step _
      (Lexer.mk (' ' :: (p.2.data ++ ';' :: '\n' :: (assignmentLines rest ++ "x = \"abc;").data))
        (.str "=") n false)
      (.name "=") (by rfl) (by decide) ?_ rfl
    refine tokenize_space_numeral p.2 hp.2 (by rfl) ?_
    refine tokenize_semicolon ?_
    obtain ⟨c, s, hcs, hc⟩ := lines_head rest hr
    rw [hcs, tokenize_newline c s hc, ← hcs]
    exact ih hr _ _

/-- The loop of `parse` at the start of a line: after the lines of `ps` the lexer
fails on the opening quote, on line `n + ps.length`. -/
theorem parse_lines_loop (ps : List (String × String)) :
    ∀ (ch : List JSVal) (m n : Nat) (v : String) (tail : TokStream) (k : Nat),
      lineTokens ps n = .cons (.num 8) (.str v) n tail →
      parseLoop replay (k + (7 * ps.length + 3))
        (Parser.mk [2, 4, 0] [.arr ch, .null] (some (.num 8)) m (Replay.mk (.str v) n tail)) =
        some (.error (.lexError (n + ps.length))) := by
  induction ps with
  | nil =>
    intro ch m n v tail k h
    simp only [lineTokens, TokStream.cons.injEq, JSVal.str.injEq, true_and] at h
    obtain ⟨hv, ht⟩ := h
    subst hv
    subst ht
    rw [show k + (7 * ([] : List (String × String)).length + 3) = 3 + k by simp; omega]
    exact parseLoop_turns_error replay 3 _ _ (by rfl) k
  | cons p rest ih =>
    intro ch m n v tail k h
    simp only [lineTokens, TokStream.cons.injEq, JSVal.str.injEq, true_and] at h
    obtain ⟨hv, ht⟩ := h
    subst hv
    subst ht
    obtain ⟨v1, tail1, h1⟩ := lineTokens_head rest (n + 1)
    rw [h1]
    rw [show k + (7 * (p :: rest).length + 3) = 7 + (k + (7 * rest.length + 3)) by
      simp only [List.length_cons]; omega]
    rw [parseLoop_turns replay 7 _
      (Parser.mk [2, 4, 0] [.arr (ch ++ [Ast.set p.1 (.num (Number p.2))]), .null]
        (some (.num 8)) n (Replay.mk (.str v1) (n + 1) tail1)) (by rfl) _]
    rw [ih _ n (n + 1) v1 tail1 k h1]
    simp only [List.length_cons]
    congr 3
    omega

theorem parse_lines (ps : List (String × String))
    (h : ∀ p ∈ ps, isIdentifier p.1 = true ∧ isNumeral p.2 = true) (k : Nat) :
    parse (k + (7 * ps.length + 4)) (assignmentLines ps ++ "x = \"abc;") =
      some (.error (.lexError ps.length)) := by
  rw [parse_eq_parseTokens]
  unfold setInput
  rw [tokens_lines ps h]
  obtain ⟨v, tail, hv⟩ := lineTokens_head ps 0
  unfold parseTokens
  rw [hv, show k + (7 * ps.length + 4) = 1 + (k + (7 * ps.length + 3)) by omega]
  rw [parseLoop_turns replay 1 _
    (Parser.mk [2, 4, 0] [.arr [], .null] (some (.num 8)) 0 (Replay.mk (.str v) 0 tail))
    (by rfl) _]
  rw [parse_lines_loop ps [] 0 0 v tail k hv, Nat.zero_add]

/-- A turn that reduces: the lookahead is known, the state has a reduction on it,
and the state that the popped symbols uncover has a goto on the left-hand side. -/
theorem step_reduce {σ : Type} (ops : LexerOps σ) (p : Parser σ) (q : Nat) (rest : List Nat)
    (t : Token) (prod lhs len : Nat) (val : JSVal) (below : Nat) (rest2 : List Nat) (g : Nat)
    (hstack : p.stack = q :: rest) (hd : defaultActions q = none) (hsym : p.symbol = some t)
    (ha : actionFor q t = some (.arr [2, prod]))
    (hp : productions_.get? prod = some (lhs, len))
    (hperf : performAction prod p.vstack = .ok (val, none))
    (hdrop : (q :: rest).drop (2 * len) = below :: rest2)
    (hg : tableEntry below lhs = some (.num g)) :
    step ops p = some (.ok (.inl { stack := g :: lhs :: below :: rest2,
                                   vstack := val :: p.vstack.drop len, symbol := some t,
                                   yylineno := p.yylineno, lexer := p.lexer })) := by
  have hred : reduce prod (q :: rest) p.vstack =
      .ok (.next (g :: lhs :: below :: rest2) (val :: p.vstack.drop len)) := by
    unfold reduce
    rw [hp]
    simp only [hperf, hdrop, hg]
  unfold step
  rw [hstack]
  simp only [hd, hsym, ha, perform, hred]
  rfl

theorem turns_one {σ : Type} (ops : LexerOps σ) (p p1 : Parser σ)
    (h : step ops p = some (.ok (.inl p1))) : turns ops 1 p = some (.ok (.inl p1)) := by
  unfold turns
  rw [h]
  rfl

/-- The reduction of `if ( c ) x optional_else` at the end of the input. -/
theorem step_if_reduce (s0 : Nat) (S0 : List Nat) (VS : List JSVal) (c x : String)
    (v0 r : JSVal) (g : Nat) (hg : tableEntry s0 13 = some (.num g))
    (hr : action59 (Ast.get c) (Ast.get x) v0 = .ok r) :
    turns replay 1
      (Parser.mk (109 :: 53 :: 96 :: 10 :: 65 :: 23 :: 32 :: 10 :: 16 :: 21 :: 10 :: 52 :: s0 :: S0)
        (v0 :: Ast.get x :: .str ")" :: Ast.get c :: .str "(" :: .str "if" :: VS) (some (.num 1)) 0 (Replay.mk (.str "") 0 (.eof (.str "") 0))) =
      some (.ok (.inl (Parser.mk (g :: 13 :: s0 :: S0) (r :: VS) (some (.num 1)) 0
        (Replay.mk (.str "") 0 (.eof (.str "") 0))))) := by
  apply turns_one
  have hperf : performAction 59 (v0 :: Ast.get x :: .str ")" :: Ast.get c :: .str "(" :: .str "if" :: VS) = .ok (r, none) := by
    show (action59 (Ast.get c) (Ast.get x) v0).bind _ = _
    rw [hr]
    rfl
  exact step_reduce replay _ 109 _ (.num 1) 59 13 6 r s0 S0 g rfl rfl rfl rfl (by decide)
    hperf rfl hg

/-- From the shift of `if` to the reduction of the chain, in any state with a
goto on `if_expression`. -/
theorem turns_chain (z : Option String) (rest : List (String × String)) :
    ∀ (c x : String) (s0 : Nat) (S0 : List Nat) (VS : List JSVal) (g : Nat),
      tableEntry s0 13 = some (.num g) →
      turns replay (chainTurns rest z)
        (Parser.mk (10 :: 52 :: s0 :: S0) (.str "if" :: VS) none 0
          (Replay.mk (.str "if") 0 (.cons (.name "(") (.str "(") 0 (.cons (.num 8) (.str c) 0
            (.cons (.name ")") (.str ")") 0 (.cons (.num 8) (.str x) 0 (chainRest rest z))))))) =
        some (.ok (.inl (Parser.mk (g :: 13 :: s0 :: S0)
          (Ast.cond (Ast.branch (Ast.get c) (Ast.get x) ::
            (rest.map chainBranch ++ chainEndBranches z)) :: VS)
          (some (.num 1)) 0 (Replay.mk (.str "") 0 (.eof (.str "") 0))))) := by
  induction rest with
  | nil =>
    intro c x s0 S0 VS g hg
    cases z with
    | none =>
      show turns replay (7 + 1) _ = _
      rw [turns_add replay 7 _
        (Parser.mk (109 :: 53 :: 96 :: 10 :: 65 :: 23 :: 32 :: 10 :: 16 :: 21 :: 10 :: 52 :: s0 :: S0)
          (.obj [] :: Ast.get x :: .str ")" :: Ast.get c :: .str "(" :: .str "if" :: VS) (some (.num 1)) 0 (Replay.mk (.str "") 0 (.eof (.str "") 0))) (by rfl) 1]
      exact step_if_reduce s0 S0 VS c x _ _ g hg rfl
    | some z =>
      show turns replay (10 + 1) _ = _
      rw [turns_add replay 10 _
        (Parser.mk (109 :: 53 :: 96 :: 10 :: 65 :: 23 :: 32 :: 10 :: 16 :: 21 :: 10 :: 52 :: s0 :: S0)
          (Ast.cond [Ast.branch (.bool true) (Ast.get z)] :: Ast.get x :: .str ")" :: Ast.get c :: .str "(" :: .str "if" :: VS) (some (.num 1)) 0
          (Replay.mk (.str "") 0 (.eof (.str "") 0))) (by rfl) 1]
      exact step_if_reduce s0 S0 VS c x _ _ g hg rfl
  | cons p ps ih =>
    intro c x s0 S0 VS g hg
    show turns replay (chainTurns ps z + 10) _ = _
    rw [show chainTurns ps z + 10 = 8 + (chainTurns ps z + (1 + 1)) by omega]
    rw [turns_add replay 8 _
      (Parser.mk (10 :: 52 :: 110 :: 55 :: 96 :: 10 :: 65 :: 23 :: 32 :: 10 :: 16 :: 21 :: 10 :: 52 :: s0 :: S0)
        (.str "if" :: .str "else" :: Ast.get x :: .str ")" :: Ast.get c :: .str "(" :: .str "if" :: VS) none 0
        (Replay.mk (.str "if") 0 (.cons (.name "(") (.str "(") 0
          (.cons (.num 8) (.str p.1) 0 (.cons (.name ")") (.str ")") 0
            (.cons (.num 8) (.str p.2) 0 (chainRest ps z))))))) (by rfl) _]
    rw [turns_add replay (chainTurns ps z) _ _
      (ih p.1 p.2 110 (55 :: 96 :: 10 :: 65 :: 23 :: 32 :: 10 :: 16 :: 21 :: 10 :: 52 :: s0 :: S0) (.str "else" :: Ast.get x :: .str ")" :: Ast.get c :: .str "(" :: .str "if" :: VS) 117 (by rfl)) _]
    rw [turns_add replay 1 _
      (Parser.mk (109 :: 53 :: 96 :: 10 :: 65 :: 23 :: 32 :: 10 :: 16 :: 21 :: 10 :: 52 :: s0 :: S0)
        (Ast.cond (Ast.branch (Ast.get p.1) (Ast.get p.2) ::
            (ps.map chainBranch ++ chainEndBranches z)) :: Ast.get x :: .str ")" :: Ast.get c :: .str "(" :: .str "if" :: VS) (some (.num 1)) 0
        (Replay.mk (.str "") 0 (.eof (.str "") 0))) (by rfl) 1]
    exact step_if_reduce s0 S0 VS c x _ _ g hg rfl

theorem parseTokens_chain (c x : String) (rest : List (String × String)) (z : Option String)
    (k : Nat) :
    parseTokens (k + (chainTurns rest z + 6)) (ifChainTokens c x rest z) =
      some (.ok (Ast.seq [Ast.cond (Ast.branch (Ast.get c) (Ast.get x) ::
        (rest.map chainBranch ++ chainEndBranches z))])) := by
  unfold parseTokens ifChainTokens
  rw [show k + (chainTurns rest z + 6) = 2 + (chainTurns rest z + (4 + k)) by omega]
  rw [parseLoop_turns replay 2 _
    (Parser.mk (10 :: 52 :: 2 :: [4, 0]) (.str "if" :: [.arr [], .null]) none 0
      (Replay.mk (.str "if") 0 (.cons (.name "(") (.str "(") 0 (.cons (.num 8) (.str c) 0
        (.cons (.name ")") (.str ")") 0 (.cons (.num 8) (.str x) 0 (chainRest rest z)))))))
    (by rfl) _]
  rw [parseLoop_turns replay (chainTurns rest z) _ _
    (turns_chain z rest c x 2 [4, 0] [.arr [], .null] 7 (by rfl)) _]
  exact parseLoop_turns_ok replay 4 _ _ (by rfl) k

theorem chainTail_boundary (rest : List (String × String)) (z : Option String) :
    wordBoundary (chainTail rest z).data = true := by
  cases rest with
  | nil =>
    cases z with
    | none => rfl
    | some z =>
      have h : (chainTail [] (some z)).data = ' ' :: 'e' :: 'l' :: 's' :: 'e' :: ' ' :: z.data := by
        simp [chainTail, chainEndText, String.data_append]
      rw [h]
      rfl
  | cons p ps =>
    have h : (chainTail (p :: ps) z).data =
        ' ' :: ("else if (" ++ p.1 ++ ") " ++ p.2 ++ chainTail ps z).data := by
      simp [chainTail, String.data_append]
    rw [h]
    rfl

theorem tokens_chainTail (z : Option String) (hz : ∀ w, z = some w → isIdentifier w = true)
    (rest : List (String × String))
    (h : ∀ p ∈ rest, isIdentifier p.1 = true ∧ isIdentifier p.2 = true) :
    ∀ y : JSVal, tokenize { _input := (chainTail rest z).data, yytext := y, yylineno := 0,
                            done := false } = chainRest rest z := by
  induction rest with
  | nil =>
    intro y
    cases z with
    | none => rfl
    | some z =>
      have hS : (chainTail [] (some z)).data =
          ' ' :: 'e' :: 'l' :: 's' :: 'e' :: ' ' :: (z.data ++ []) := by
        simp [chainTail, chainEndText, String.data_append]
      rw [hS]
      unfold chainRest chainEnd
      refine tokenize_step _ (Lexer.mk (' ' :: (z.data ++ [])) (.str "else") 0 false) (.num 55)
        (by rfl) (by decide) ?_ rfl
      refine tokenize_space_ident z (hz z rfl) (by rfl) ?_
      rfl
  | cons p ps ih =>
    intro y
    have hp := h p (List.mem_cons_self _ _)
    have hrest := ih (fun q hq => h q (List.mem_cons_of_mem _ hq))
    have hS : (chainTail (p :: ps) z).data =
        ' ' :: 'e' :: 'l' :: 's' :: 'e' :: ' ' :: 'i' :: 'f' :: ' ' :: '(' ::
          (p.1.data ++ ')' :: ' ' :: (p.2.data ++ (chainTail ps z).data)) := by
      simp [chainTail, String.data_append]
    rw [hS]
    unfold chainRest
    refine tokenize_step _
      (Lexer.mk (' ' :: 'i' :: 'f' :: ' ' :: '(' ::
        (p.1.data ++ ')' :: ' ' :: (p.2.data ++ (chainTail ps z).data))) (.str "else") 0 false)
      (.num 55) (by rfl) (by decide) ?_ rfl
    refine tokenize_step _
      (Lexer.mk (' ' :: '(' :: (p.1.data ++ ')' :: ' ' :: (p.2.data ++ (chainTail ps z).data)))
        (.str "if") 0 false)
      (.num 52) (by rfl) (by decide) ?_ rfl
    refine tokenize_step _
      (Lexer.mk (p.1.data ++ ')' :: ' ' :: (p.2.data ++ (chainTail ps z).data))
        (.str "(") 0 false)
      (.name "(") (by rfl) (by decide) ?_ rfl
    refine tokenize_ident p.1 hp.1 (by rfl) ?_
    refine tokenize_step _
      (Lexer.mk (' ' :: (p.2.data ++ (chainTail ps z).data)) (.str ")") 0 false)
      (.name ")") (by rfl) (by decide) ?_ rfl
    refine tokenize_space_ident p.2 hp.2 (chainTail_boundary ps z) ?_
    exact hrest _

theorem tokens_ifChain (c x : String) (hc : isIdentifier c = true) (hx : isIdentifier x = true)
    (rest : List (String × String))
    (h : ∀ p ∈ rest, isIdentifier p.1 = true ∧ isIdentifier p.2 = true)
    (z : Option String) (hz : ∀ w, z = some w → isIdentifier w = true) :
    tokenize (setInput (ifChain c x rest z)) = ifChainTokens c x rest z := by
  have hS : (ifChain c x rest z).data =
      'i' :: 'f' :: ' ' :: '(' :: (c.data ++ ')' :: ' ' :: (x.data ++ (chainTail rest z).data)) := by
    simp [ifChain, String.data_append]
  unfold setInput ifChainTokens
  rw [hS]
  refine tokenize_step _
    (Lexer.mk (' ' :: '(' :: (c.data ++ ')' :: ' ' :: (x.data ++ (chainTail rest z).data)))
      (.str "if") 0 false)
    (.num 52) (by rfl) (by decide) ?_ rfl
  refine tokenize_step _
    (Lexer.mk (c.data ++ ')' :: ' ' :: (x.data ++ (chainTail rest z).data)) (.str "(") 0 false)
    (.name "(") (by rfl) (by decide) ?_ rfl
  refine tokenize_ident c hc (by rfl) ?_
  refine tokenize_step _
    (Lexer.mk (' ' :: (x.data ++ (chainTail rest z).data)) (.str ")") 0 false)
    (.name ")") (by rfl) (by decide) ?_ rfl
  refine tokenize_space_ident x hx (chainTail_boundary rest z) ?_
  exact tokens_chainTail z hz rest h _

theorem parse_ifChain (c x : String) (hc : isIdentifier c = true) (hx : isIdentifier x = true)
    (rest : List (String × String))
    (h : ∀ p ∈ rest, isIdentifier p.1 = true ∧ isIdentifier p.2 = true)
    (z : Option String) (hz : ∀ w, z = some w → isIdentifier w = true) (k : Nat) :
    parse (k + (chainTurns rest z + 6)) (ifChain c x rest z) =
      some (.ok (Ast.seq [Ast.cond (Ast.branch (Ast.get c) (Ast.get x) ::
        (rest.map chainBranch ++ chainEndBranches z))])) := by
  rw [parse_eq_parseTokens, tokens_ifChain c x hc hx rest h z hz]
  exact parseTokens_chain c x rest z k

/-! ## Claims C17, C20 and C24 -/

theorem chainTurns_eq (rest : List (String × String)) (z : Option String) :
    chainTurns rest z + 6 + (if z.isSome then 0 else 3) = 10 * rest.length + 17 := by
  induction rest with
  | nil => cases z <;> rfl
  | cons p ps ih =>
    simp only [chainTurns, List.length_cons]
    omega

/-- C17: the root of a parse is a `seq` node whose children are the statements in
source order: for every list of `n ≥ 0` assignment statements `v = c;` (`v` an
identifier, `c` an unsigned integer constant) concatenated in order, `parse`
returns the root `seq` whose children are the `n` `set` nodes binding each `v` to
its `c`, in order. In particular the empty script yields a root `seq` with no
child and `x = 5;` yields the root `seq` of the single child `set x 5`. -/
theorem C17_statement_order (ps : List (String × String))
    (h : ∀ p ∈ ps, isIdentifier p.1 = true ∧ isNumeral p.2 = true) (k : Nat) :
    parse (k + (7 * ps.length + 2)) (assignments ps) =
      some (.ok (Ast.seq (ps.map (fun p => Ast.set p.1 (.num (Number p.2)))))) ∧
    (ps.map (fun p => Ast.set p.1 (.num (Number p.2)))).length = ps.length ∧
    parse (k + 2) "" = some (.ok (Ast.seq [])) ∧
    parse (k + 9) "x = 5;" = some (.ok (Ast.seq [Ast.set "x" (Ast.int 5)])) := by
  refine ⟨parse_assignments ps h k, List.length_map _ _, ?_, ?_⟩
  · exact parse_assignments [] (fun p hp => absurd hp (List.not_mem_nil p)) k
  · exact parse_assignments [("x", "5")] (by decide) k

/-- C17, witness: the claim at the statements `x = 5;` and `y = 7;`. -/
theorem C17_statement_order_witness :
    (∀ p ∈ [("x", "5"), ("y", "7")], isIdentifier p.1 = true ∧ isNumeral p.2 = true) ∧
    parse (0 + (7 * [("x", "5"), ("y", "7")].length + 2)) (assignments [("x", "5"), ("y", "7")]) =
      some (.ok (Ast.seq
        ([("x", "5"), ("y", "7")].map (fun p => Ast.set p.1 (.num (Number p.2)))))) :=
  ⟨by decide, (C17_statement_order [("x", "5"), ("y", "7")] (by decide) 0).1⟩

/-- C20: an unterminated string is a lexical error at its starting line: for
every `k ≥ 0` and every `k` lines `v = c;` (`v` an identifier, `c` an unsigned
integer constant), each ended by a line feed, followed by `x = "abc;`, `parse`
fails with the lexical error whose line is `k`, the 0-based line of the opening
quote, and returns no tree. -/
theorem C20_unterminated_string (ps : List (String × String))
    (h : ∀ p ∈ ps, isIdentifier p.1 = true ∧ isNumeral p.2 = true) (k : Nat) :
    parse (k + (7 * ps.length + 4)) (assignmentLines ps ++ "x = \"abc;") =
      some (.error (.lexError ps.length)) :=
  parse_lines ps h k

/-- C20, witness: the claim at the two lines `a = 1;` and `b = 2;`. -/
theorem C20_unterminated_string_witness :
    (∀ p ∈ [("a", "1"), ("b", "2")], isIdentifier p.1 = true ∧ isNumeral p.2 = true) ∧
    parse (0 + (7 * [("a", "1"), ("b", "2")].length + 4))
        (assignmentLines [("a", "1"), ("b", "2")] ++ "x = \"abc;") =
      some (.error (.lexError [("a", "1"), ("b", "2")].length)) :=
  ⟨by decide, C20_unterminated_string [("a", "1"), ("b", "2")] (by decide) 0⟩

/-- C24: chains of conditionals are flattened: for identifiers `c`, `x`, the
pairs of identifiers `(ci, xi)` of `rest` and an identifier `z`, the script
`if (c) x else if (c1) x1 … else if (cn) xn else z` parses to the root `seq`
whose single child is one `cond` node, its list made of the entries
`{if: c, then: x}`, `{if: ci, then: xi}` in source order and last
`{if: true, then: z}`; the script without the final `else z` yields the same
list without the last entry, so a lone `if (c) x` yields one guarded entry. -/
theorem C24_conditional_chain (c x z : String) (rest : List (String × String))
    (hc : isIdentifier c = true) (hx : isIdentifier x = true) (hz : isIdentifier z = true)
    (h : ∀ p ∈ rest, isIdentifier p.1 = true ∧ isIdentifier p.2 = true) (k : Nat) :
    parse (k + (10 * rest.length + 17)) (ifChain c x rest (some z)) =
      some (.ok (Ast.seq [Ast.cond (Ast.branch (Ast.get c) (Ast.get x) ::
        (rest.map (fun p => Ast.branch (Ast.get p.1) (Ast.get p.2)) ++
          [Ast.branch (.bool true) (Ast.get z)]))])) ∧
    parse (k + (10 * rest.length + 17)) (ifChain c x rest none) =
      some (.ok (Ast.seq [Ast.cond (Ast.branch (Ast.get c) (Ast.get x) ::
        rest.map (fun p => Ast.branch (Ast.get p.1) (Ast.get p.2)))])) ∧
    (Ast.branch (Ast.get c) (Ast.get x) ::
        (rest.map (fun p => Ast.branch (Ast.get p.1) (Ast.get p.2)) ++
          [Ast.branch (.bool true) (Ast.get z)])).length = rest.length + 1 + 1 := by
  refine ⟨?_, ?_, by simp⟩
  · have h1 := parse_ifChain c x hc hx rest h (some z)
      (fun w hw => by cases hw; exact hz) k
    have h2 := chainTurns_eq rest (some z)
    simp only [Option.isSome_some, ↓reduceIte, Nat.add_zero] at h2
    rw [h2] at h1
    exact h1
  · have h1 := parse_ifChain c x hc hx rest h none (fun w hw => by cases hw) (k + 3)
    have h2 := chainTurns_eq rest none
    simp only [Option.isSome_none, Bool.false_eq_true, ↓reduceIte] at h2
    rw [show k + 3 + (chainTurns rest none + 6) = k + (chainTurns rest none + 6 + 3) by omega,
      h2] at h1
    simpa [chainEndBranches, chainBranch] using h1

/-- C24, witness: the claim at the chain
`if (a) b else if (c) d else z`. -/
theorem C24_conditional_chain_witness :
    isIdentifier "a" = true ∧ isIdentifier "b" = true ∧ isIdentifier "z" = true ∧
    (∀ p ∈ [("c", "d")], isIdentifier p.1 = true ∧ isIdentifier p.2 = true) ∧
    parse (0 + (10 * [("c", "d")].length + 17)) (ifChain "a" "b" [("c", "d")] (some "z")) =
      some (.ok (Ast.seq [Ast.cond (Ast.branch (Ast.get "a") (Ast.get "b") ::
        ([("c", "d")].map (fun p => Ast.branch (Ast.get p.1) (Ast.get p.2)) ++
          [Ast.branch (.bool true) (Ast.get "z")]))])) :=
  ⟨by decide, by decide, by decide, by decide,
    (C24_conditional_chain "a" "b" "z" [("c", "d")] (by decide) (by decide) (by decide)
      (by decide) 0).1⟩

theorem pairOK_all : ∀ i < 25, ∀ j < 25, i < j → pairOK i j = true := by decide

theorem keywordRule_some (kw : String) (s m : List Char) (h : keywordRule kw s = some m) :
    kw.data.isPrefixOf s = true ∧ wordBoundary (s.drop kw.data.length) = true ∧ m = kw.data := by
  unfold keywordRule at h
  split at h
  · rename_i hc
    simp only [Bool.and_eq_true] at hc
    cases h
    exact ⟨hc.1, hc.2, rfl⟩
  · cases h

theorem textRule_some (t : String) (s m : List Char) (h : textRule t s = some m) :
    t.data.isPrefixOf s = true ∧ m = t.data := by
  unfold textRule at h
  split at h
  · rename_i hc
    cases h
    exact ⟨hc, rfl⟩
  · cases h

theorem isPrefixOf_head (a h : Char) (as t : List Char)
    (hp : (a :: as).isPrefixOf (h :: t) = true) : h = a := by
  simp only [List.isPrefixOf, Bool.and_eq_true, beq_iff_eq] at hp
  exact hp.1.symm

theorem cls_space (h : Char) (hs : isSpace h = true) : cls h = 1 := by
  simp only [isSpace, Bool.or_eq_true, Bool.and_eq_true, decide_eq_true_eq] at hs
  unfold cls clsCode
  rw [if_neg, if_pos]
  all_goals omega

theorem cls_letter (h : Char) (hl : isLetter h = true) :
    cls h ∈ [2, 3, 4, 5, 6, 7, 8, 9] := by
  simp only [isLetter, Bool.or_eq_true, Bool.and_eq_true, decide_eq_true_eq] at hl
  unfold cls clsCode
  rw [if_neg, if_neg, if_pos]
  · unfold letterCls
    split_ifs <;> simp
  all_goals omega

theorem cls_digit (h : Char) (hd : isDigit h = true) : cls h = 11 := by
  simp only [isDigit, Bool.and_eq_true, decide_eq_true_eq] at hd
  unfold cls clsCode
  rw [if_neg, if_neg, if_neg]
  · unfold otherCls
    rw [if_neg, if_pos]
    all_goals omega
  all_goals omega

theorem rule0_head (h : Char) (t m : List Char) (hm : rule0 (h :: t) = some m) : cls h = 0 := by
  unfold rule0 at hm
  simp only at hm
  split at hm
  · rename_i hc
    rw [hc]
    rfl
  · cases hm

theorem rule1_head (h : Char) (t m : List Char) (hm : rule1 (h :: t) = some m) : cls h = 1 := by
  apply cls_space
  by_contra hs
  simp only [Bool.not_eq_true] at hs
  simp [rule1, List.takeWhile, hs] at hm

theorem rule10_head (h : Char) (t m : List Char) (hm : rule10 (h :: t) = some m) :
    isLetter h = true ∧ m = h :: t.takeWhile isWordChar := by
  unfold rule10 at hm
  simp only at hm
  split at hm
  · rename_i hc
    cases hm
    exact ⟨hc, rfl⟩
  · cases hm

theorem mantissaOf_head (h : Char) (t m : List Char) (hm : mantissaOf (h :: t) = some m) :
    isDigit h = true ∨ h = '.' := by
  by_cases hd : isDigit h = true
  · exact Or.inl hd
  · right
    simp only [Bool.not_eq_true] at hd
    unfold mantissaOf at hm
    simp only [List.takeWhile, hd, List.length_nil, List.drop_zero, List.isEmpty_nil,
      ↓reduceIte] at hm
    split at hm
    · rename_i hc
      exact hc
    · cases hm

theorem rule11_head (h : Char) (t m : List Char) (hm : rule11 (h :: t) = some m) :
    cls h ∈ [11, 12] := by
  by_cases hs : h = '-' ∨ h = '+'
  · rcases hs with rfl | rfl
    · simp; right; rfl
    · simp; right; rfl
  · have hsign : signOf (h :: t) = [] := by
      simp only [not_or] at hs
      simp [signOf, hs.1, hs.2]
    unfold rule11 at hm
    simp only [hsign, List.length_nil, List.drop_zero] at hm
    cases hman : mantissaOf (h :: t) with
    | none => rw [hman] at hm; cases hm
    | some m1 =>
      rcases mantissaOf_head h t m1 hman with hd | rfl
      · rw [cls_digit h hd]; simp
      · simp; left; rfl

theorem rule12_head (h : Char) (t m : List Char) (hm : rule12 (h :: t) = some m) :
    cls h = 13 := by
  unfold rule12 at hm
  simp only at hm
  split at hm
  · rename_i hc
    rw [hc]
    rfl
  · cases hm

theorem rule13_head (h : Char) (t m : List Char) (hm : rule13 (h :: t) = some m) :
    cls h = 14 := by
  unfold rule13 at hm
  simp only at hm
  split at hm
  · rename_i hc
    rw [hc]
    rfl
  · cases hm

theorem rule24_head (h : Char) (t m : List Char) (hm : rule24 (h :: t) = some m) :
    cls h ∈ [12, 15, 19, 20, 21, 23] ∧ m = [h] := by
  unfold rule24 at hm
  simp only at hm
  split at hm
  · rename_i hc
    cases hm
    refine ⟨?_, rfl⟩
    simp only [Bool.or_eq_true, decide_eq_true_eq] at hc
    rcases hc with ((((((((((((((((rfl | rfl) | rfl) | rfl) | rfl) | rfl) | rfl) | rfl) | rfl) |
      rfl) | rfl) | rfl) | rfl) | rfl) | rfl) | rfl) | rfl) <;> decide
  · cases hm

theorem keywordRule_head_cls (kw : String) (k0 : Char) (ks : List Char)
    (hkw : kw.data = k0 :: ks) (h : Char) (t m : List Char)
    (hm : keywordRule kw (h :: t) = some m) : cls h = cls k0 ∧ m.length = kw.data.length := by
  obtain ⟨hp, _, rfl⟩ := keywordRule_some kw _ _ hm
  rw [hkw] at hp
  rw [isPrefixOf_head k0 h ks t hp]
  exact ⟨rfl, rfl⟩

theorem textRule_head_cls (tx : String) (k0 : Char) (ks : List Char)
    (hkw : tx.data = k0 :: ks) (h : Char) (t m : List Char)
    (hm : textRule tx (h :: t) = some m) : cls h = cls k0 ∧ m.length = tx.data.length := by
  obtain ⟨hp, rfl⟩ := textRule_some tx _ _ hm
  rw [hkw] at hp
  rw [isPrefixOf_head k0 h ks t hp]
  exact ⟨rfl, rfl⟩

theorem rules_length : rules.length = 25 := rfl

theorem rules_facts : ∀ (k : Nat) (r : List Char → Option (List Char)),
    rules.get? k = some r → RuleFacts k r := by
  intro k r hk
  match k, hk with
  | 0, hk =>
    simp only [rules, List.get?, Option.some.injEq] at hk
    subst hk
    intro h t m hm
    exact ⟨by rw [rule0_head h t m hm]; decide, fun h0 => absurd h0 (by decide),
      List.length_pos.mpr (rule0_ne_nil _ _ hm)⟩
  | 1, hk =>
    simp only [rules, List.get?, Option.some.injEq] at hk
    subst hk
    intro h t m hm
    exact ⟨by rw [rule1_head h t m hm]; decide, fun h0 => absurd h0 (by decide),
      List.length_pos.mpr (rule1_ne_nil _ _ hm)⟩
  | 2, hk =>
    simp only [rules, List.get?, Option.some.injEq] at hk
    subst hk
    intro h t m hm
    obtain ⟨hc, hl⟩ := keywordRule_head_cls "true" 't' _ rfl h t m hm
    exact ⟨by rw [hc]; decide, fun _ => hl, by rw [hl]; decide⟩
  | 3, hk =>
    simp only [rules, List.get?, Option.some.injEq] at hk
    subst hk
    intro h t m hm
    obtain ⟨hc, hl⟩ := keywordRule_head_cls "false" 'f' _ rfl h t m hm
    exact ⟨by rw [hc]; decide, fun _ => hl, by rw [hl]; decide⟩
  | 4, hk =>
    simp only [rules, List.get?, Option.some.injEq] at hk
    subst hk
    intro h t m hm
    obtain ⟨hc, hl⟩ := keywordRule_head_cls "null" 'n' _ rfl h t m hm
    exact ⟨by rw [hc]; decide, fun _ => hl, by rw [hl]; decide⟩
  | 5, hk =>
    simp only [rules, List.get?, Option.some.injEq] at hk
    subst hk
    intro h t m hm
    obtain ⟨hc, hl⟩ := textRule_head_cls "@" '@' _ rfl h t m hm
    exact ⟨by rw [hc]; decide, fun _ => hl, by rw [hl]; decide⟩
  | 6, hk =>
    simp only [rules, List.get?, Option.some.injEq] at hk
    subst hk
    intro h t m hm
    obtain ⟨hc, hl⟩ := keywordRule_head_cls "switch" 's' _ rfl h t m hm
    exact ⟨by rw [hc]; decide, fun _ => hl, by rw [hl]; decide⟩
  | 7, hk =>
    simp only [rules, List.get?, Option.some.injEq] at hk
    subst hk
    intro h t m hm
    obtain ⟨hc, hl⟩ := keywordRule_head_cls "if" 'i' _ rfl h t m hm
    exact ⟨by rw [hc]; decide, fun _ => hl, by rw [hl]; decide⟩
  | 8, hk =>
    simp only [rules, List.get?, Option.some.injEq] at hk
    subst hk
    intro h t m hm
    obtain ⟨hc, hl⟩ := keywordRule_head_cls "else" 'e' _ rfl h t m hm
    exact ⟨by rw [hc]; decide, fun _ => hl, by rw [hl]; decide⟩
  | 9, hk =>
    simp only [rules, List.get?, Option.some.injEq] at hk
    subst hk
    intro h t m hm
    obtain ⟨hc, hl⟩ := keywordRule_head_cls "return" 'r' _ rfl h t m hm
    exact ⟨by rw [hc]; decide, fun _ => hl, by rw [hl]; decide⟩
  | 10, hk =>
    simp only [rules, List.get?, Option.some.injEq] at hk
    subst hk
    intro h t m hm
    exact ⟨cls_letter h (rule10_head h t m hm).1, fun h0 => absurd h0 (by decide),
      List.length_pos.mpr (rule10_ne_nil _ _ hm)⟩
  | 11, hk =>
    simp only [rules, List.get?, Option.some.injEq] at hk
    subst hk
    intro h t m hm
    exact ⟨rule11_head h t m hm, fun h0 => absurd h0 (by decide),
      List.length_pos.mpr (rule11_ne_nil _ _ hm)⟩
  | 12, hk =>
    simp only [rules, List.get?, Option.some.injEq] at hk
    subst hk
    intro h t m hm
    exact ⟨by rw [rule12_head h t m hm]; decide, fun h0 => absurd h0 (by decide),
      List.length_pos.mpr (rule12_ne_nil _ _ hm)⟩
  | 13, hk =>
    simp only [rules, List.get?, Option.some.injEq] at hk
    subst hk
    intro h t m hm
    exact ⟨by rw [rule13_head h t m hm]; decide, fun h0 => absurd h0 (by decide),
      List.length_pos.mpr (rule13_ne_nil _ _ hm)⟩
  | 14, hk =>
    simp only [rules, List.get?, Option.some.injEq] at hk
    subst hk
    intro h t m hm
    obtain ⟨hc, hl⟩ := textRule_head_cls "<-" '<' _ rfl h t m hm
    exact ⟨by rw [hc]; decide, fun _ => hl, by rw [hl]; decide⟩
  | 15, hk =>
    simp only [rules, List.get?, Option.some.injEq] at hk
    subst hk
    intro h t m hm
    obtain ⟨hc, hl⟩ := textRule_head_cls "||" '|' _ rfl h t m hm
    exact ⟨by rw [hc]; decide, fun _ => hl, by rw [hl]; decide⟩
  | 16, hk =>
    simp only [rules, List.get?, Option.some.injEq] at hk
    subst hk
    intro h t m hm
    obtain ⟨hc, hl⟩ := textRule_head_cls "&&" '&' _ rfl h t m hm
    exact ⟨by rw [hc]; decide, fun _ => hl, by rw [hl]; decide⟩
  | 17, hk =>
    simp only [rules, List.get?, Option.some.injEq] at hk
    subst hk
    intro h t m hm
    obtain ⟨hc, hl⟩ := textRule_head_cls "??" '?' _ rfl h t m hm
    exact ⟨by rw [hc]; decide, fun _ => hl, by rw [hl]; decide⟩
  | 18, hk =>
    simp only [rules, List.get?, Option.some.injEq] at hk
    subst hk
    intro h t m hm
    obtain ⟨hc, hl⟩ := textRule_head_cls "==" '=' _ rfl h t m hm
    exact ⟨by rw [hc]; decide, fun _ => hl, by rw [hl]; decide⟩
  | 19, hk =>
    simp only [rules, List.get?, Option.some.injEq] at hk
    subst hk
    intro h t m hm
    obtain ⟨hc, hl⟩ := textRule_head_cls ">=" '>' _ rfl h t m hm
    exact ⟨by rw [hc]; decide, fun _ => hl, by rw [hl]; decide⟩
  | 20, hk =>
    simp only [rules, List.get?, Option.some.injEq] at hk
    subst hk
    intro h t m hm
    obtain ⟨hc, hl⟩ := textRule_head_cls "<=" '<' _ rfl h t m hm
    exact ⟨by rw [hc]; decide, fun _ => hl, by rw [hl]; decide⟩
  | 21, hk =>
    simp only [rules, List.get?, Option.some.injEq] at hk
    subst hk
    intro h t m hm
    obtain ⟨hc, hl⟩ := textRule_head_cls "!=" '!' _ rfl h t m hm
    exact ⟨by rw [hc]; decide, fun _ => hl, by rw [hl]; decide⟩
  | 22, hk =>
    simp only [rules, List.get?, Option.some.injEq] at hk
    subst hk
    intro h t m hm
    obtain ⟨hc, hl⟩ := textRule_head_cls "=>" '=' _ rfl h t m hm
    exact ⟨by rw [hc]; decide, fun _ => hl, by rw [hl]; decide⟩
  | 23, hk =>
    simp only [rules, List.get?, Option.some.injEq] at hk
    subst hk
    intro h t m hm
    obtain ⟨hc, hl⟩ := textRule_head_cls ";" ';' _ rfl h t m hm
    exact ⟨by rw [hc]; decide, fun _ => hl, by rw [hl]; decide⟩
  | 24, hk =>
    simp only [rules, List.get?, Option.some.injEq] at hk
    subst hk
    intro h t m hm
    obtain ⟨hc, hl⟩ := rule24_head h t m hm
    exact ⟨hc, fun _ => by rw [hl]; rfl, by rw [hl]; exact Nat.le_refl 1⟩
  | n + 25, hk =>
    exact absurd hk (by simp [rules])

theorem firstMatch_spec (rs : List (List Char → Option (List Char))) :
    ∀ (i0 i : Nat) (s m : List Char), firstMatch rs i0 s = some (i, m) →
      i0 ≤ i ∧ ∃ r, rs.get? (i - i0) = some r ∧ r s = some m ∧
        ∀ k, k < i - i0 → ∀ r1, rs.get? k = some r1 → r1 s = none := by
  induction rs with
  | nil => intro i0 i s m h; cases h
  | cons r0 rest ih =>
    intro i0 i s m h
    unfold firstMatch at h
    cases hr : r0 s with
    | some m0 =>
      rw [hr] at h
      simp only [Option.some.injEq, Prod.mk.injEq] at h
      obtain ⟨rfl, rfl⟩ := h
      refine ⟨Nat.le_refl _, r0, by simp, hr, ?_⟩
      intro k hk
      simp at hk
    | none =>
      rw [hr] at h
      obtain ⟨hle, r, hget, hm, hbefore⟩ := ih (i0 + 1) i s m h
      refine ⟨by omega, r, ?_, hm, ?_⟩
      · rw [show i - i0 = (i - (i0 + 1)) + 1 by omega]
        exact hget
      · intro k hk r1 hr1
        cases k with
        | zero =>
          simp only [List.get?, Option.some.injEq] at hr1
          rw [← hr1]
          exact hr
        | succ k => exact hbefore k (by omega) r1 hr1

theorem takeWhile_append_le (p : Char → Bool) (a r : List Char) (hr : r.takeWhile p = []) :
    ((a ++ r).takeWhile p).length ≤ a.length := by
  induction a with
  | nil => simp [hr]
  | cons c t ih =>
    rw [List.cons_append, List.takeWhile_cons]
    split
    · simp only [List.length_cons]
      omega
    · simp

/-- Where a word rule matches, the identifier rule matches no more than the word. -/
theorem keyword_identifier_length (kw : String) (s m m1 : List Char)
    (hk : keywordRule kw s = some m) (h10 : rule10 s = some m1) : m1.length ≤ m.length := by
  obtain ⟨hp, hb, rfl⟩ := keywordRule_some kw s m hk
  obtain ⟨r, rfl⟩ := List.isPrefixOf_iff_prefix.mp hp
  rw [List.drop_left] at hb
  cases hs : kw.data ++ r with
  | nil => rw [hs] at h10; cases h10
  | cons h t =>
    rw [hs] at h10
    obtain ⟨hl, rfl⟩ := rule10_head h t m1 h10
    have h1 : h :: t.takeWhile isWordChar = (h :: t).takeWhile isWordChar := by
      rw [List.takeWhile_cons, if_pos (isLetter_isWordChar hl)]
    rw [h1, ← hs]
    exact takeWhile_append_le isWordChar kw.data r (takeWhile_of_wordBoundary r hb)

theorem keywordRule_of_index (i : Nat) (r : List Char → Option (List Char))
    (hi : rules.get? i = some r) (hk : isKeywordRule i = true) : ∃ kw, r = keywordRule kw := by
  simp only [isKeywordRule, Bool.or_eq_true, decide_eq_true_eq] at hk
  rcases hk with (((((rfl | rfl) | rfl) | rfl) | rfl) | rfl) | rfl <;>
    · simp only [rules, List.get?, Option.some.injEq] at hi
      exact ⟨_, hi.symm⟩

/-- The rule that `next` selects, the first that matches, has a match at least as
long as the match of every rule that matches at the same position. -/
theorem firstMatch_longest (s : List Char) (i : Nat) (m : List Char)
    (h : firstMatch rules 0 s = some (i, m)) :
    ∀ (j : Nat) (r : List Char → Option (List Char)) (m1 : List Char),
      rules.get? j = some r → r s = some m1 → m1.length ≤ m.length := by
  intro j r m1 hj hm1
  obtain ⟨_, ri, hi, hmi, hbefore⟩ := firstMatch_spec rules 0 i s m h
  simp only [Nat.sub_zero] at hi hbefore
  have hi25 : i < 25 := by
    have := List.get?_eq_some.mp hi
    obtain ⟨hlt, _⟩ := this
    exact hlt
  have hj25 : j < 25 := by
    have := List.get?_eq_some.mp hj
    obtain ⟨hlt, _⟩ := this
    exact hlt
  rcases Nat.lt_trichotomy j i with hlt | heq | hgt
  · rw [hbefore j hlt r hj] at hm1
    cases hm1
  · subst heq
    rw [hi] at hj
    cases hj
    rw [hmi] at hm1
    cases hm1
    exact Nat.le_refl _
  · cases s with
    | nil =>
      have := firstMatch_nil
      rw [h] at this
      cases this
    | cons c t =>
      obtain ⟨hci, _, hli⟩ := rules_facts i ri hi c t m hmi
      obtain ⟨hcj, hfj, _⟩ := rules_facts j r hj c t m1 hm1
      have hok := pairOK_all i hi25 j hj25 hgt
      simp only [pairOK, Bool.or_eq_true, Bool.and_eq_true, decide_eq_true_eq,
        List.all_eq_true, Bool.not_eq_true', List.contains_eq_any_beq] at hok
      rcases hok with (⟨hpos, hle⟩ | hdis) | ⟨hk, h10⟩
      · rw [hfj hpos]
        obtain ⟨_, hfi, _⟩ := rules_facts i ri hi c t m hmi
        rcases Nat.eq_zero_or_pos (fixedLength i) with h0 | hp
        · rw [h0] at hle
          simp only [Nat.max_zero] at hle
          omega
        · rw [hfi hp]
          have : max 1 (fixedLength i) = fixedLength i := Nat.max_eq_right hp
          omega
      · have := hdis (cls c) hci
        simp only [List.any_eq_false, beq_iff_eq] at this
        exact absurd rfl (this (cls c) hcj)
      · subst h10
        obtain ⟨kw, rfl⟩ := keywordRule_of_index i ri hi hk
        simp only [rules, List.get?, Option.some.injEq] at hj
        subst hj
        exact keyword_identifier_length kw _ m m1 hmi hm1

/-- The word `true` at a word boundary. -/
theorem next_keyword_true (r : List Char) (hr : wordBoundary r = true) (y : JSVal) (n : Nat) :
    next { _input := "true".data ++ r, yytext := y, yylineno := n, done := false } =
      .ok (some (.num 15),
        { _input := r, yytext := .str "true", yylineno := n, done := false }) := by
  show next { _input := 't' :: 'r' :: 'u' :: 'e' :: r, yytext := y, yylineno := n, done := false } = _
  have h0 : rule0 ('t' :: 'r' :: 'u' :: 'e' :: r) = none := rfl
  have h1 : rule1 ('t' :: 'r' :: 'u' :: 'e' :: r) = none := rfl
  have h2 : keywordRule "true" ('t' :: 'r' :: 'u' :: 'e' :: r) = some "true".data := by
    simp [keywordRule, List.isPrefixOf, hr]
  simp only [next, Bool.false_eq_true, ↓reduceIte, firstMatch, rules, h0, h1, h2,
    test_match, lexerAction, List.isEmpty_cons, Bool.false_and]
  rfl

/-- The word `false` at a word boundary. -/
theorem next_keyword_false (r : List Char) (hr : wordBoundary r = true) (y : JSVal) (n : Nat) :
    next { _input := "false".data ++ r, yytext := y, yylineno := n, done := false } =
      .ok (some (.num 16),
        { _input := r, yytext := .str "false", yylineno := n, done := false }) := by
  show next { _input := 'f' :: 'a' :: 'l' :: 's' :: 'e' :: r, yytext := y, yylineno := n, done := false } = _
  have h0 : rule0 ('f' :: 'a' :: 'l' :: 's' :: 'e' :: r) = none := rfl
  have h1 : rule1 ('f' :: 'a' :: 'l' :: 's' :: 'e' :: r) = none := rfl
  have h2 : keywordRule "true" ('f' :: 'a' :: 'l' :: 's' :: 'e' :: r) = none := rfl
  have h3 : keywordRule "false" ('f' :: 'a' :: 'l' :: 's' :: 'e' :: r) = some "false".data := by
    simp [keywordRule, List.isPrefixOf, hr]
  simp only [next, Bool.false_eq_true, ↓reduceIte, firstMatch, rules, h0, h1, h2, h3,
    test_match, lexerAction, List.isEmpty_cons, Bool.false_and]
  rfl

/-- The word `null` at a word boundary. -/
theorem next_keyword_null (r : List Char) (hr : wordBoundary r = true) (y : JSVal) (n : Nat) :
    next { _input := "null".data ++ r, yytext := y, yylineno := n, done := false } =
      .ok (some (.num 17),
        { _input := r, yytext := .str "null", yylineno := n, done := false }) := by
  show next { _input := 'n' :: 'u' :: 'l' :: 'l' :: r, yytext := y, yylineno := n, done := false } = _
  have h0 : rule0 ('n' :: 'u' :: 'l' :: 'l' :: r) = none := rfl
  have h1 : rule1 ('n' :: 'u' :: 'l' :: 'l' :: r) = none := rfl
  have h2 : keywordRule "true" ('n' :: 'u' :: 'l' :: 'l' :: r) = none := rfl
  have h3 : keywordRule "false" ('n' :: 'u' :: 'l' :: 'l' :: r) = none := rfl
  have h4 : keywordRule "null" ('n' :: 'u' :: 'l' :: 'l' :: r) = some "null".data := by
    simp [keywordRule, List.isPrefixOf, hr]
  simp only [next, Bool.false_eq_true, ↓reduceIte, firstMatch, rules, h0, h1, h2, h3, h4,
    test_match, lexerAction, List.isEmpty_cons, Bool.false_and]
  rfl

/-- The word `switch` at a word boundary. -/
theorem next_keyword_switch (r : List Char) (hr : wordBoundary r = true) (y : JSVal) (n : Nat) :
    next { _input := "switch".data ++ r, yytext := y, yylineno := n, done := false } =
      .ok (some (.num 50),
        { _input := r, yytext := .str "switch", yylineno := n, done := false }) := by
  show next { _input := 's' :: 'w' :: 'i' :: 't' :: 'c' :: 'h' :: r, yytext := y, yylineno := n, done := false } = _
  have h0 : rule0 ('s' :: 'w' :: 'i' :: 't' :: 'c' :: 'h' :: r) = none := rfl
  have h1 : rule1 ('s' :: 'w' :: 'i' :: 't' :: 'c' :: 'h' :: r) = none := rfl
  have h2 : keywordRule "true" ('s' :: 'w' :: 'i' :: 't' :: 'c' :: 'h' :: r) = none := rfl
  have h3 : keywordRule "false" ('s' :: 'w' :: 'i' :: 't' :: 'c' :: 'h' :: r) = none := rfl
  have h4 : keywordRule "null" ('s' :: 'w' :: 'i' :: 't' :: 'c' :: 'h' :: r) = none := rfl
  have h5 : textRule "@" ('s' :: 'w' :: 'i' :: 't' :: 'c' :: 'h' :: r) = none := rfl
  have h6 : keywordRule "switch" ('s' :: 'w' :: 'i' :: 't' :: 'c' :: 'h' :: r) = some "switch".data := by
    simp [keywordRule, List.isPrefixOf, hr]
  simp only [next, Bool.false_eq_true, ↓reduceIte, firstMatch, rules, h0, h1, h2, h3, h4, h5, h6,
    test_match, lexerAction, List.isEmpty_cons, Bool.false_and]
  rfl

/-- The word `if` at a word boundary. -/
theorem next_keyword_if (r : List Char) (hr : wordBoundary r = true) (y : JSVal) (n : Nat) :
    next { _input := "if".data ++ r, yytext := y, yylineno := n, done := false } =
      .ok (some (.num 52),
        { _input := r, yytext := .str "if", yylineno := n, done := false }) := by
  show next { _input := 'i' :: 'f' :: r, yytext := y, yylineno := n, done := false } = _
  have h0 : rule0 ('i' :: 'f' :: r) = none := rfl
  have h1 : rule1 ('i' :: 'f' :: r) = none := rfl
  have h2 : keywordRule "true" ('i' :: 'f' :: r) = none := rfl
  have h3 : keywordRule "false" ('i' :: 'f' :: r) = none := rfl
  have h4 : keywordRule "null" ('i' :: 'f' :: r) = none := rfl
  have h5 : textRule "@" ('i' :: 'f' :: r) = none := rfl
  have h6 : keywordRule "switch" ('i' :: 'f' :: r) = none := rfl
  have h7 : keywordRule "if" ('i' :: 'f' :: r) = some "if".data := by
    simp [keywordRule, List.isPrefixOf, hr]
  simp only [next, Bool.false_eq_true, ↓reduceIte, firstMatch, rules, h0, h1, h2, h3, h4, h5, h6, h7,
    test_match, lexerAction, List.isEmpty_cons, Bool.false_and]
  rfl

/-- The word `else` at a word boundary. -/
theorem next_keyword_else (r : List Char) (hr : wordBoundary r = true) (y : JSVal) (n : Nat) :
    next { _input := "else".data ++ r, yytext := y, yylineno := n, done := false } =
      .ok (some (.num 55),
        { _input := r, yytext := .str "else", yylineno := n, done := false }) := by
  show next { _input := 'e' :: 'l' :: 's' :: 'e' :: r, yytext := y, yylineno := n, done := false } = _
  have h0 : rule0 ('e' :: 'l' :: 's' :: 'e' :: r) = none := rfl
  have h1 : rule1 ('e' :: 'l' :: 's' :: 'e' :: r) = none := rfl
  have h2 : keywordRule "true" ('e' :: 'l' :: 's' :: 'e' :: r) = none := rfl
  have h3 : keywordRule "false" ('e' :: 'l' :: 's' :: 'e' :: r) = none := rfl
  have h4 : keywordRule "null" ('e' :: 'l' :: 's' :: 'e' :: r) = none := rfl
  have h5 : textRule "@" ('e' :: 'l' :: 's' :: 'e' :: r) = none := rfl
  have h6 : keywordRule "switch" ('e' :: 'l' :: 's' :: 'e' :: r) = none := rfl
  have h7 : keywordRule "if" ('e' :: 'l' :: 's' :: 'e' :: r) = none := rfl
  have h8 : keywordRule "else" ('e' :: 'l' :: 's' :: 'e' :: r) = some "else".data := by
    simp [keywordRule, List.isPrefixOf, hr]
  simp only [next, Bool.false_eq_true, ↓reduceIte, firstMatch, rules, h0, h1, h2, h3, h4, h5, h6, h7, h8,
    test_match, lexerAction, List.isEmpty_cons, Bool.false_and]
  rfl

/-- The word `return` at a word boundary. -/
theorem next_keyword_return (r : List Char) (hr : wordBoundary r = true) (y : JSVal) (n : Nat) :
    next { _input := "return".data ++ r, yytext := y, yylineno := n, done := false } =
      .ok (some (.num 54),
        { _input := r, yytext := .str "return", yylineno := n, done := false }) := by
  show next { _input := 'r' :: 'e' :: 't' :: 'u' :: 'r' :: 'n' :: r, yytext := y, yylineno := n, done := false } = _
  have h0 : rule0 ('r' :: 'e' :: 't' :: 'u' :: 'r' :: 'n' :: r) = none := rfl
  have h1 : rule1 ('r' :: 'e' :: 't' :: 'u' :: 'r' :: 'n' :: r) = none := rfl
  have h2 : keywordRule "true" ('r' :: 'e' :: 't' :: 'u' :: 'r' :: 'n' :: r) = none := rfl
  have h3 : keywordRule "false" ('r' :: 'e' :: 't' :: 'u' :: 'r' :: 'n' :: r) = none := rfl
  have h4 : keywordRule "null" ('r' :: 'e' :: 't' :: 'u' :: 'r' :: 'n' :: r) = none := rfl
  have h5 : textRule "@" ('r' :: 'e' :: 't' :: 'u' :: 'r' :: 'n' :: r) = none := rfl
  have h6 : keywordRule "switch" ('r' :: 'e' :: 't' :: 'u' :: 'r' :: 'n' :: r) = none := rfl
  have h7 : keywordRule "if" ('r' :: 'e' :: 't' :: 'u' :: 'r' :: 'n' :: r) = none := rfl
  have h8 : keywordRule "else" ('r' :: 'e' :: 't' :: 'u' :: 'r' :: 'n' :: r) = none := rfl
  have h9 : keywordRule "return" ('r' :: 'e' :: 't' :: 'u' :: 'r' :: 'n' :: r) = some "return".data := by
    simp [keywordRule, List.isPrefixOf, hr]
  simp only [next, Bool.false_eq_true, ↓reduceIte, firstMatch, rules, h0, h1, h2, h3, h4, h5, h6, h7, h8, h9,
    test_match, lexerAction, List.isEmpty_cons, Bool.false_and]
  rfl

/-- The operator `<-`, whatever follows. -/
theorem next_op_arrow (r : List Char) (y : JSVal) (n : Nat) :
    next { _input := "<-".data ++ r, yytext := y, yylineno := n, done := false } =
      .ok (some (.num 11),
        { _input := r, yytext := .str "<-", yylineno := n, done := false }) := by
  show next { _input := '<' :: '-' :: r, yytext := y, yylineno := n, done := false } = _
  have h0 : rule0 ('<' :: '-' :: r) = none := rfl
  have h1 : rule1 ('<' :: '-' :: r) = none := rfl
  have h2 : keywordRule "true" ('<' :: '-' :: r) = none := rfl
  have h3 : keywordRule "false" ('<' :: '-' :: r) = none := rfl
  have h4 : keywordRule "null" ('<' :: '-' :: r) = none := rfl
  have h5 : textRule "@" ('<' :: '-' :: r) = none := rfl
  have h6 : keywordRule "switch" ('<' :: '-' :: r) = none := rfl
  have h7 : keywordRule "if" ('<' :: '-' :: r) = none := rfl
  have h8 : keywordRule "else" ('<' :: '-' :: r) = none := rfl
  have h9 : keywordRule "return" ('<' :: '-' :: r) = none := rfl
  have h10 : rule10 ('<' :: '-' :: r) = none := rfl
  have h11 : rule11 ('<' :: '-' :: r) = none := rfl
  have h12 : rule12 ('<' :: '-' :: r) = none := rfl
  have h13 : rule13 ('<' :: '-' :: r) = none := rfl
  have h14 : textRule "<-" ('<' :: '-' :: r) = some "<-".data := by
    simp [textRule, List.isPrefixOf]
  simp only [next, Bool.false_eq_true, ↓reduceIte, firstMatch, rules, h0, h1, h2, h3, h4, h5, h6, h7, h8, h9, h10, h11, h12, h13, h14,
    test_match, lexerAction, List.isEmpty_cons, Bool.false_and]
  rfl

/-- The operator `||`, whatever follows. -/
theorem next_op_or (r : List Char) (y : JSVal) (n : Nat) :
    next { _input := "||".data ++ r, yytext := y, yylineno := n, done := false } =
      .ok (some (.num 41),
        { _input := r, yytext := .str "||", yylineno := n, done := false }) := by
  show next { _input := '|' :: '|' :: r, yytext := y, yylineno := n, done := false } = _
  have h0 : rule0 ('|' :: '|' :: r) = none := rfl
  have h1 : rule1 ('|' :: '|' :: r) = none := rfl
  have h2 : keywordRule "true" ('|' :: '|' :: r) = none := rfl
  have h3 : keywordRule "false" ('|' :: '|' :: r) = none := rfl
  have h4 : keywordRule "null" ('|' :: '|' :: r) = none := rfl
  have h5 : textRule "@" ('|' :: '|' :: r) = none := rfl
  have h6 : keywordRule "switch" ('|' :: '|' :: r) = none := rfl
  have h7 : keywordRule "if" ('|' :: '|' :: r) = none := rfl
  have h8 : keywordRule "else" ('|' :: '|' :: r) = none := rfl
  have h9 : keywordRule "return" ('|' :: '|' :: r) = none := rfl
  have h10 : rule10 ('|' :: '|' :: r) = none := rfl
  have h11 : rule11 ('|' :: '|' :: r) = none := rfl
  have h12 : rule12 ('|' :: '|' :: r) = none := rfl
  have h13 : rule13 ('|' :: '|' :: r) = none := rfl
  have h14 : textRule "<-" ('|' :: '|' :: r) = none := rfl
  have h15 : textRule "||" ('|' :: '|' :: r) = some "||".data := by
    simp [textRule, List.isPrefixOf]
  simp only [next, Bool.false_eq_true, ↓reduceIte, firstMatch, rules, h0, h1, h2, h3, h4, h5, h6, h7, h8, h9, h10, h11, h12, h13, h14, h15,
    test_match, lexerAction, List.isEmpty_cons, Bool.false_and]
  rfl

/-- The operator `&&`, whatever follows. -/
theorem next_op_and (r : List Char) (y : JSVal) (n : Nat) :
    next { _input := "&&".data ++ r, yytext := y, yylineno := n, done := false } =
      .ok (some (.num 43),
        { _input := r, yytext := .str "&&", yylineno := n, done := false }) := by
  show next { _input := '&' :: '&' :: r, yytext := y, yylineno := n, done := false } = _
  have h0 : rule0 ('&' :: '&' :: r) = none := rfl
  have h1 : rule1 ('&' :: '&' :: r) = none := rfl
  have h2 : keywordRule "true" ('&' :: '&' :: r) = none := rfl
  have h3 : keywordRule "false" ('&' :: '&' :: r) = none := rfl
  have h4 : keywordRule "null" ('&' :: '&' :: r) = none := rfl
  have h5 : textRule "@" ('&' :: '&' :: r) = none := rfl
  have h6 : keywordRule "switch" ('&' :: '&' :: r) = none := rfl
  have h7 : keywordRule "if" ('&' :: '&' :: r) = none := rfl
  have h8 : keywordRule "else" ('&' :: '&' :: r) = none := rfl
  have h9 : keywordRule "return" ('&' :: '&' :: r) = none := rfl
  have h10 : rule10 ('&' :: '&' :: r) = none := rfl
  have h11 : rule11 ('&' :: '&' :: r) = none := rfl
  have h12 : rule12 ('&' :: '&' :: r) = none := rfl
  have h13 : rule13 ('&' :: '&' :: r) = none := rfl
  have h14 : textRule "<-" ('&' :: '&' :: r) = none := rfl
  have h15 : textRule "||" ('&' :: '&' :: r) = none := rfl
  have h16 : textRule "&&" ('&' :: '&' :: r) = some "&&".data := by
    simp [textRule, List.isPrefixOf]
  simp only [next, Bool.false_eq_true, ↓reduceIte, firstMatch, rules, h0, h1, h2, h3, h4, h5, h6, h7, h8, h9, h10, h11, h12, h13, h14, h15, h16,
    test_match, lexerAction, List.isEmpty_cons, Bool.false_and]
  rfl

/-- The operator `??`, whatever follows. -/
theorem next_op_coalesce (r : List Char) (y : JSVal) (n : Nat) :
    next { _input := "??".data ++ r, yytext := y, yylineno := n, done := false } =
      .ok (some (.num 42),
        { _input := r, yytext := .str "??", yylineno := n, done := false }) := by
  show next { _input := '?' :: '?' :: r, yytext := y, yylineno := n, done := false } = _
  have h0 : rule0 ('?' :: '?' :: r) = none := rfl
  have h1 : rule1 ('?' :: '?' :: r) = none := rfl
  have h2 : keywordRule "true" ('?' :: '?' :: r) = none := rfl
  have h3 : keywordRule "false" ('?' :: '?' :: r) = none := rfl
  have h4 : keywordRule "null" ('?' :: '?' :: r) = none := rfl
  have h5 : textRule "@" ('?' :: '?' :: r) = none := rfl
  have h6 : keywordRule "switch" ('?' :: '?' :: r) = none := rfl
  have h7 : keywordRule "if" ('?' :: '?' :: r) = none := rfl
  have h8 : keywordRule "else" ('?' :: '?' :: r) = none := rfl
  have h9 : keywordRule "return" ('?' :: '?' :: r) = none := rfl
  have h10 : rule10 ('?' :: '?' :: r) = none := rfl
  have h11 : rule11 ('?' :: '?' :: r) = none := rfl
  have h12 : rule12 ('?' :: '?' :: r) = none := rfl
  have h13 : rule13 ('?' :: '?' :: r) = none := rfl
  have h14 : textRule "<-" ('?' :: '?' :: r) = none := rfl
  have h15 : textRule "||" ('?' :: '?' :: r) = none := rfl
  have h16 : textRule "&&" ('?' :: '?' :: r) = none := rfl
  have h17 : textRule "??" ('?' :: '?' :: r) = some "??".data := by
    simp [textRule, List.isPrefixOf]
  simp only [next, Bool.false_eq_true, ↓reduceIte, firstMatch, rules, h0, h1, h2, h3, h4, h5, h6, h7, h8, h9, h10, h11, h12, h13, h14, h15, h16, h17,
    test_match, lexerAction, List.isEmpty_cons, Bool.false_and]
  rfl

/-- The operator `==`, whatever follows. -/
theorem next_op_equals (r : List Char) (y : JSVal) (n : Nat) :
    next { _input := "==".data ++ r, yytext := y, yylineno := n, done := false } =
      .ok (some (.num 33),
        { _input := r, yytext := .str "==", yylineno := n, done := false }) := by
  show next { _input := '=' :: '=' :: r, yytext := y, yylineno := n, done := false } = _
  have h0 : rule0 ('=' :: '=' :: r) = none := rfl
  have h1 : rule1 ('=' :: '=' :: r) = none := rfl
  have h2 : keywordRule "true" ('=' :: '=' :: r) = none := rfl
  have h3 : keywordRule "false" ('=' :: '=' :: r) = none := rfl
  have h4 : keywordRule "null" ('=' :: '=' :: r) = none := rfl
  have h5 : textRule "@" ('=' :: '=' :: r) = none := rfl
  have h6 : keywordRule "switch" ('=' :: '=' :: r) = none := rfl
  have h7 : keywordRule "if" ('=' :: '=' :: r) = none := rfl
  have h8 : keywordRule "else" ('=' :: '=' :: r) = none := rfl
  have h9 : keywordRule "return" ('=' :: '=' :: r) = none := rfl
  have h10 : rule10 ('=' :: '=' :: r) = none := rfl
  have h11 : rule11 ('=' :: '=' :: r) = none := rfl
  have h12 : rule12 ('=' :: '=' :: r) = none := rfl
  have h13 : rule13 ('=' :: '=' :: r) = none := rfl
  have h14 : textRule "<-" ('=' :: '=' :: r) = none := rfl
  have h15 : textRule "||" ('=' :: '=' :: r) = none := rfl
  have h16 : textRule "&&" ('=' :: '=' :: r) = none := rfl
  have h17 : textRule "??" ('=' :: '=' :: r) = none := rfl
  have h18 : textRule "==" ('=' :: '=' :: r) = some "==".data := by
    simp [textRule, List.isPrefixOf]
  simp only [next, Bool.false_eq_true, ↓reduceIte, firstMatch, rules, h0, h1, h2, h3, h4, h5, h6, h7, h8, h9, h10, h11, h12, h13, h14, h15, h16, h17, h18,
    test_match, lexerAction, List.isEmpty_cons, Bool.false_and]
  rfl

/-- The operator `>=`, whatever follows. -/
theorem next_op_gte (r : List Char) (y : JSVal) (n : Nat) :
    next { _input := ">=".data ++ r, yytext := y, yylineno := n, done := false } =
      .ok (some (.num 36),
        { _input := r, yytext := .str ">=", yylineno := n, done := false }) := by
  show next { _input := '>' :: '=' :: r, yytext := y, yylineno := n, done := false } = _
  have h0 : rule0 ('>' :: '=' :: r) = none := rfl
  have h1 : rule1 ('>' :: '=' :: r) = none := rfl
  have h2 : keywordRule "true" ('>' :: '=' :: r) = none := rfl
  have h3 : keywordRule "false" ('>' :: '=' :: r) = none := rfl
  have h4 : keywordRule "null" ('>' :: '=' :: r) = none := rfl
  have h5 : textRule "@" ('>' :: '=' :: r) = none := rfl
  have h6 : keywordRule "switch" ('>' :: '=' :: r) = none := rfl
  have h7 : keywordRule "if" ('>' :: '=' :: r) = none := rfl
  have h8 : keywordRule "else" ('>' :: '=' :: r) = none := rfl
  have h9 : keywordRule "return" ('>' :: '=' :: r) = none := rfl
  have h10 : rule10 ('>' :: '=' :: r) = none := rfl
  have h11 : rule11 ('>' :: '=' :: r) = none := rfl
  have h12 : rule12 ('>' :: '=' :: r) = none := rfl
  have h13 : rule13 ('>' :: '=' :: r) = none := rfl
  have h14 : textRule "<-" ('>' :: '=' :: r) = none := rfl
  have h15 : textRule "||" ('>' :: '=' :: r) = none := rfl
  have h16 : textRule "&&" ('>' :: '=' :: r) = none := rfl
  have h17 : textRule "??" ('>' :: '=' :: r) = none := rfl
  have h18 : textRule "==" ('>' :: '=' :: r) = none := rfl
  have h19 : textRule ">=" ('>' :: '=' :: r) = some ">=".data := by
    simp [textRule, List.isPrefixOf]
  simp only [next, Bool.false_eq_true, ↓reduceIte, firstMatch, rules, h0, h1, h2, h3, h4, h5, h6, h7, h8, h9, h10, h11, h12, h13, h14, h15, h16, h17, h18, h19,
    test_match, lexerAction, List.isEmpty_cons, Bool.false_and]
  rfl

/-- The operator `<=`, whatever follows. -/
theorem next_op_lte (r : List Char) (y : JSVal) (n : Nat) :
    next { _input := "<=".data ++ r, yytext := y, yylineno := n, done := false } =
      .ok (some (.num 35),
        { _input := r, yytext := .str "<=", yylineno := n, done := false }) := by
  show next { _input := '<' :: '=' :: r, yytext := y, yylineno := n, done := false } = _
  have h0 : rule0 ('<' :: '=' :: r) = none := rfl
  have h1 : rule1 ('<' :: '=' :: r) = none := rfl
  have h2 : keywordRule "true" ('<' :: '=' :: r) = none := rfl
  have h3 : keywordRule "false" ('<' :: '=' :: r) = none := rfl
  have h4 : keywordRule "null" ('<' :: '=' :: r) = none := rfl
  have h5 : textRule "@" ('<' :: '=' :: r) = none := rfl
  have h6 : keywordRule "switch" ('<' :: '=' :: r) = none := rfl
  have h7 : keywordRule "if" ('<' :: '=' :: r) = none := rfl
  have h8 : keywordRule "else" ('<' :: '=' :: r) = none := rfl
  have h9 : keywordRule "return" ('<' :: '=' :: r) = none := rfl
  have h10 : rule10 ('<' :: '=' :: r) = none := rfl
  have h11 : rule11 ('<' :: '=' :: r) = none := rfl
  have h12 : rule12 ('<' :: '=' :: r) = none := rfl
  have h13 : rule13 ('<' :: '=' :: r) = none := rfl
  have h14 : textRule "<-" ('<' :: '=' :: r) = none := rfl
  have h15 : textRule "||" ('<' :: '=' :: r) = none := rfl
  have h16 : textRule "&&" ('<' :: '=' :: r) = none := rfl
  have h17 : textRule "??" ('<' :: '=' :: r) = none := rfl
  have h18 : textRule "==" ('<' :: '=' :: r) = none := rfl
  have h19 : textRule ">=" ('<' :: '=' :: r) = none := rfl
  have h20 : textRule "<=" ('<' :: '=' :: r) = some "<=".data := by
    simp [textRule, List.isPrefixOf]
  simp only [next, Bool.false_eq_true, ↓reduceIte, firstMatch, rules, h0, h1, h2, h3, h4, h5, h6, h7, h8, h9, h10, h11, h12, h13, h14, h15, h16, h17, h18, h19, h20,
    test_match, lexerAction, List.isEmpty_cons, Bool.false_and]
  rfl

/-- The operator `!=`, whatever follows. -/
theorem next_op_neq (r : List Char) (y : JSVal) (n : Nat) :
    next { _input := "!=".data ++ r, yytext := y, yylineno := n, done := false } =
      .ok (some (.num 34),
        { _input := r, yytext := .str "!=", yylineno := n, done := false }) := by
  show next { _input := '!' :: '=' :: r, yytext := y, yylineno := n, done := false } = _
  have h0 : rule0 ('!' :: '=' :: r) = none := rfl
  have h1 : rule1 ('!' :: '=' :: r) = none := rfl
  have h2 : keywordRule "true" ('!' :: '=' :: r) = none := rfl
  have h3 : keywordRule "false" ('!' :: '=' :: r) = none := rfl
  have h4 : keywordRule "null" ('!' :: '=' :: r) = none := rfl
  have h5 : textRule "@" ('!' :: '=' :: r) = none := rfl
  have h6 : keywordRule "switch" ('!' :: '=' :: r) = none := rfl
  have h7 : keywordRule "if" ('!' :: '=' :: r) = none := rfl
  have h8 : keywordRule "else" ('!' :: '=' :: r) = none := rfl
  have h9 : keywordRule "return" ('!' :: '=' :: r) = none := rfl
  have h10 : rule10 ('!' :: '=' :: r) = none := rfl
  have h11 : rule11 ('!' :: '=' :: r) = none := rfl
  have h12 : rule12 ('!' :: '=' :: r) = none := rfl
  have h13 : rule13 ('!' :: '=' :: r) = none := rfl
  have h14 : textRule "<-" ('!' :: '=' :: r) = none := rfl
  have h15 : textRule "||" ('!' :: '=' :: r) = none := rfl
  have h16 : textRule "&&" ('!' :: '=' :: r) = none := rfl
  have h17 : textRule "??" ('!' :: '=' :: r) = none := rfl
  have h18 : textRule "==" ('!' :: '=' :: r) = none := rfl
  have h19 : textRule ">=" ('!' :: '=' :: r) = none := rfl
  have h20 : textRule "<=" ('!' :: '=' :: r) = none := rfl
  have h21 : textRule "!=" ('!' :: '=' :: r) = some "!=".data := by
    simp [textRule, List.isPrefixOf]
  simp only [next, Bool.false_eq_true, ↓reduceIte, firstMatch, rules, h0, h1, h2, h3, h4, h5, h6, h7, h8, h9, h10, h11, h12, h13, h14, h15, h16, h17, h18, h19, h20, h21,
    test_match, lexerAction, List.isEmpty_cons, Bool.false_and]
  rfl

/-- The operator `=>`, whatever follows. -/
theorem next_op_then (r : List Char) (y : JSVal) (n : Nat) :
    next { _input := "=>".data ++ r, yytext := y, yylineno := n, done := false } =
      .ok (some (.num 57),
        { _input := r, yytext := .str "=>", yylineno := n, done := false }) := by
  show next { _input := '=' :: '>' :: r, yytext := y, yylineno := n, done := false } = _
  have h0 : rule0 ('=' :: '>' :: r) = none := rfl
  have h1 : rule1 ('=' :: '>' :: r) = none := rfl
  have h2 : keywordRule "true" ('=' :: '>' :: r) = none := rfl
  have h3 : keywordRule "false" ('=' :: '>' :: r) = none := rfl
  have h4 : keywordRule "null" ('=' :: '>' :: r) = none := rfl
  have h5 : textRule "@" ('=' :: '>' :: r) = none := rfl
  have h6 : keywordRule "switch" ('=' :: '>' :: r) = none := rfl
  have h7 : keywordRule "if" ('=' :: '>' :: r) = none := rfl
  have h8 : keywordRule "else" ('=' :: '>' :: r) = none := rfl
  have h9 : keywordRule "return" ('=' :: '>' :: r) = none := rfl
  have h10 : rule10 ('=' :: '>' :: r) = none := rfl
  have h11 : rule11 ('=' :: '>' :: r) = none := rfl
  have h12 : rule12 ('=' :: '>' :: r) = none := rfl
  have h13 : rule13 ('=' :: '>' :: r) = none := rfl
  have h14 : textRule "<-" ('=' :: '>' :: r) = none := rfl
  have h15 : textRule "||" ('=' :: '>' :: r) = none := rfl
  have h16 : textRule "&&" ('=' :: '>' :: r) = none := rfl
  have h17 : textRule "??" ('=' :: '>' :: r) = none := rfl
  have h18 : textRule "==" ('=' :: '>' :: r) = none := rfl
  have h19 : textRule ">=" ('=' :: '>' :: r) = none := rfl
  have h20 : textRule "<=" ('=' :: '>' :: r) = none := rfl
  have h21 : textRule "!=" ('=' :: '>' :: r) = none := rfl
  have h22 : textRule "=>" ('=' :: '>' :: r) = some "=>".data := by
    simp [textRule, List.isPrefixOf]
  simp only [next, Bool.false_eq_true, ↓reduceIte, firstMatch, rules, h0, h1, h2, h3, h4, h5, h6, h7, h8, h9, h10, h11, h12, h13, h14, h15, h16, h17, h18, h19, h20, h21, h22,
    test_match, lexerAction, List.isEmpty_cons, Bool.false_and]
  rfl

theorem next_word (w : String) (hw : isWord w = true) (r : List Char)
    (hr : wordBoundary r = true) (y : JSVal) (n : Nat) :
    next { _input := w.data ++ r, yytext := y, yylineno := n, done := false } =
      .ok (some (wordToken w), { _input := r, yytext := .str w, yylineno := n, done := false }) := by
  unfold wordToken
  split_ifs with h1 h2 h3 h4 h5 h6 h7
  · subst h1; exact next_keyword_true r hr y n
  · subst h2; exact next_keyword_false r hr y n
  · subst h3; exact next_keyword_null r hr y n
  · subst h4; exact next_keyword_switch r hr y n
  · subst h5; exact next_keyword_if r hr y n
  · subst h6; exact next_keyword_else r hr y n
  · subst h7; exact next_keyword_return r hr y n
  · have hid : isIdentifier w = true := by
      simp [isIdentifier, hw, reserved, h1, h2, h3, h4, h5, h6, h7]
    exact next_ident w hid r hr y n

theorem next_twoCharOp (op : String × Nat) (hop : op ∈ twoCharOps) (r : List Char) (y : JSVal)
    (n : Nat) :
    next { _input := op.1.data ++ r, yytext := y, yylineno := n, done := false } =
      .ok (some (.num op.2),
        { _input := r, yytext := .str op.1, yylineno := n, done := false }) := by
  simp only [twoCharOps, List.mem_cons, List.mem_singleton, List.not_mem_nil, or_false] at hop
  rcases hop with rfl | rfl | rfl | rfl | rfl | rfl | rfl | rfl | rfl
  · exact next_op_arrow r y n
  · exact next_op_or r y n
  · exact next_op_and r y n
  · exact next_op_coalesce r y n
  · exact next_op_equals r y n
  · exact next_op_gte r y n
  · exact next_op_lte r y n
  · exact next_op_neq r y n
  · exact next_op_then r y n

/-! ## Claim C23 -/

/-- C23: the rule the lexer selects at a position, the first in declaration order
that matches there, has a match at least as long as the match of every rule that
matches there. In particular a word `[a-zA-Z][a-zA-Z0-9_]*` at a word boundary is
one token, the token of the reserved word when it is exactly one of `true`,
`false`, `null`, `switch`, `if`, `else`, `return` and `IDENTIFIER` otherwise, and a
two-character operator is one token, whatever follows it. -/
theorem C23_longest_match :
    (∀ (s : List Char) (i : Nat) (m : List Char), firstMatch rules 0 s = some (i, m) →
      ∀ (j : Nat) (r : List Char → Option (List Char)) (m1 : List Char),
        rules.get? j = some r → r s = some m1 → m1.length ≤ m.length) ∧
    (∀ (w : String) (r : List Char) (y : JSVal) (n : Nat), isWord w = true →
      wordBoundary r = true →
      next { _input := w.data ++ r, yytext := y, yylineno := n, done := false } =
        .ok (some (wordToken w),
          { _input := r, yytext := .str w, yylineno := n, done := false })) ∧
    (∀ (op : String × Nat) (r : List Char) (y : JSVal) (n : Nat), op ∈ twoCharOps →
      next { _input := op.1.data ++ r, yytext := y, yylineno := n, done := false } =
        .ok (some (.num op.2),
          { _input := r, yytext := .str op.1, yylineno := n, done := false })) :=
  ⟨firstMatch_longest, fun w r y n hw hr => next_word w hw r hr y n,
    fun op r y n hop => next_twoCharOp op hop r y n⟩

/-- C23, witness: the claim at the input `+5;`, where rule 11 is selected with the
match `+5` and rule 24 matches `+`; at the words `iffy`, `returned`, `true_x` and
`if`; and at the operator `<=` before `=`. -/
theorem C23_longest_match_witness :
    firstMatch rules 0 ['+', '5', ';'] = some (11, ['+', '5']) ∧
    rules.get? 24 = some rule24 ∧ rule24 ['+', '5', ';'] = some ['+'] ∧
    ['+'].length ≤ ['+', '5'].length ∧
    isWord "iffy" = true ∧ wordBoundary [';'] = true ∧
    next { _input := "iffy".data ++ [';'], yytext := .str "", yylineno := 0, done := false } =
      .ok (some (wordToken "iffy"),
        { _input := [';'], yytext := .str "iffy", yylineno := 0, done := false }) ∧
    wordToken "iffy" = .num 8 ∧ wordToken "returned" = .num 8 ∧ wordToken "true_x" = .num 8 ∧
    wordToken "if" = .num 52 ∧
    ("<=", 35) ∈ twoCharOps ∧
    next { _input := ("<=", 35).1.data ++ ['='], yytext := .str "", yylineno := 0,
           done := false } =
      .ok (some (.num ("<=", 35).2),
        { _input := ['='], yytext := .str ("<=", 35).1, yylineno := 0, done := false }) :=
  ⟨by rfl, by rfl, by rfl,
    C23_longest_match.1 ['+', '5', ';'] 11 ['+', '5'] (by rfl) 24 rule24 ['+'] (by rfl) (by rfl),
    by decide, by decide,
    C23_longest_match.2.1 "iffy" [';'] (.str "") 0 (by decide) (by decide),
    by decide, by decide, by decide, by decide, by decide,
    C23_longest_match.2.2 ("<=", 35) ['='] (.str "") 0 (by decide)⟩

theorem takeWhile_length_le (p : Char → Bool) (u : List Char) :
    (u.takeWhile p).length ≤ u.length := by
  induction u with
  | nil => simp
  | cons c t ih =>
    rw [List.takeWhile_cons]
    split
    · simp only [List.length_cons]
      omega
    · simp

theorem takeWhile_append_barrier (p : Char → Bool) (u : List Char) (b : Char) (x : List Char)
    (hb : p b = false) : (u ++ b :: x).takeWhile p = u.takeWhile p := by
  induction u with
  | nil => simp [List.takeWhile, hb]
  | cons c t ih =>
    rw [List.cons_append, List.takeWhile_cons, List.takeWhile_cons, ih]

theorem takeWhile_append_inside (p : Char → Bool) (u x : List Char)
    (h : u.drop (u.takeWhile p).length ≠ []) : (u ++ x).takeWhile p = u.takeWhile p := by
  induction u with
  | nil => simp at h
  | cons c t ih =>
    rw [List.cons_append, List.takeWhile_cons, List.takeWhile_cons]
    by_cases hc : p c = true
    · rw [if_pos hc, if_pos hc]
      rw [List.takeWhile_cons, if_pos hc] at h
      simp only [List.length_cons, List.drop_succ_cons] at h
      rw [ih h]
    · rw [if_neg hc, if_neg hc]

theorem isPrefixOf_append (t : List Char) : ∀ (u : List Char) (b : Char) (x : List Char),
    t.length ≤ u.length ∨ b ∉ t → t.isPrefixOf (u ++ b :: x) = t.isPrefixOf u := by
  induction t with
  | nil => intro u b x _; simp [List.isPrefixOf]
  | cons a t ih =>
    intro u b x h
    cases u with
    | nil =>
      rcases h with h | h
      · simp at h
      · have : a ≠ b := fun hab => h (by simp [hab])
        simp [List.isPrefixOf, this]
    | cons c u =>
      rw [List.cons_append]
      show (a == c && t.isPrefixOf (u ++ b :: x)) = (a == c && t.isPrefixOf u)
      rw [ih u b x (by
        rcases h with h | h
        · left; simp only [List.length_cons] at h; omega
        · right; exact fun hb => h (List.mem_cons_of_mem _ hb))]

theorem isBarrier_cases {b : Char} (hb : isBarrier b = true) :
    b = '#' ∨ b = ';' ∨ b = ',' ∨ b = ')' := by
  simpa [isBarrier, or_assoc] using hb

theorem isBarrier_not_space {b : Char} (hb : isBarrier b = true) : isSpace b = false := by
  rcases isBarrier_cases hb with rfl | rfl | rfl | rfl <;> decide

theorem isBarrier_not_wordChar {b : Char} (hb : isBarrier b = true) : isWordChar b = false := by
  rcases isBarrier_cases hb with rfl | rfl | rfl | rfl <;> decide

theorem isBarrier_not_digit {b : Char} (hb : isBarrier b = true) : isDigit b = false := by
  rcases isBarrier_cases hb with rfl | rfl | rfl | rfl <;> decide

theorem isBarrier_not_letter {b : Char} (hb : isBarrier b = true) : isLetter b = false := by
  rcases isBarrier_cases hb with rfl | rfl | rfl | rfl <;> decide

/-! ### The rules that look at the first character only, or at a run of characters -/

theorem rule1_ext (u : List Char) (b : Char) (x : List Char) (hb : isBarrier b = true) :
    rule1 (u ++ b :: x) = rule1 u := by
  unfold rule1
  rw [takeWhile_append_barrier isSpace u b x (isBarrier_not_space hb)]

theorem rule10_ext (u : List Char) (hu : u ≠ []) (b : Char) (x : List Char)
    (hb : isBarrier b = true) : rule10 (u ++ b :: x) = rule10 u := by
  cases u with
  | nil => exact absurd rfl hu
  | cons c t =>
    simp only [List.cons_append, rule10]
    rw [takeWhile_append_barrier isWordChar t b x (isBarrier_not_wordChar hb)]

theorem rule24_ext (u : List Char) (hu : u ≠ []) (x : List Char) :
    rule24 (u ++ x) = rule24 u := by
  cases u with
  | nil => exact absurd rfl hu
  | cons c t => rfl

theorem wordBoundary_append (v : List Char) (b : Char) (x : List Char)
    (hb : isBarrier b = true) : wordBoundary (v ++ b :: x) = wordBoundary v := by
  cases v with
  | nil => simp [wordBoundary, isBarrier_not_wordChar hb]
  | cons c t => rfl

theorem keywordRule_ext (kw : String) (hkw : ∀ c ∈ kw.data, isWordChar c = true)
    (u : List Char) (b : Char) (x : List Char) (hb : isBarrier b = true) :
    keywordRule kw (u ++ b :: x) = keywordRule kw u := by
  have hnot : b ∉ kw.data := fun hm => by
    have := hkw b hm
    rw [isBarrier_not_wordChar hb] at this
    cases this
  unfold keywordRule
  rw [isPrefixOf_append kw.data u b x (Or.inr hnot)]
  by_cases hp : kw.data.isPrefixOf u = true
  · have hle : kw.data.length ≤ u.length :=
      (List.isPrefixOf_iff_prefix.mp hp).length_le
    rw [List.drop_append_of_le_length hle, wordBoundary_append _ b x hb]
  · simp only [Bool.not_eq_true] at hp
    simp [hp]

theorem textRule_ext (t : String) (u : List Char) (b : Char) (x : List Char)
    (h : t.data.length ≤ u.length ∨ b ∉ t.data) :
    textRule t (u ++ b :: x) = textRule t u := by
  unfold textRule
  rw [isPrefixOf_append t.data u b x h]

/-! ### Numbers -/

theorem signOf_ext (t : List Char) (b : Char) (x : List Char) (hb : isBarrier b = true) :
    signOf (t ++ b :: x) = signOf t := by
  cases t with
  | nil => rcases isBarrier_cases hb with rfl | rfl | rfl | rfl <;> rfl
  | cons c u => rfl

theorem signOf_length_le (s : List Char) : (signOf s).length ≤ s.length := by
  cases s with
  | nil => simp [signOf]
  | cons c t =>
    simp only [signOf]
    split <;> simp

theorem mantissaOf_ext (v : List Char) (b : Char) (x : List Char) (hb : isBarrier b = true) :
    mantissaOf (v ++ b :: x) = mantissaOf v := by
  have hne : b ≠ '.' := by rcases isBarrier_cases hb with rfl | rfl | rfl | rfl <;> decide
  unfold mantissaOf
  simp only
  rw [takeWhile_append_barrier isDigit v b x (isBarrier_not_digit hb),
    List.drop_append_of_le_length (takeWhile_length_le _ _)]
  cases hd : v.drop (v.takeWhile isDigit).length with
  | nil => simp [hne]
  | cons c t =>
    simp only [List.cons_append]
    rw [takeWhile_append_barrier isDigit t b x (isBarrier_not_digit hb)]

theorem mantissaOf_length_le (v m : List Char) (h : mantissaOf v = some m) :
    m.length ≤ v.length := by
  unfold mantissaOf at h
  simp only at h
  have hds : (v.takeWhile isDigit).length ≤ v.length := takeWhile_length_le _ _
  have hdig : ∀ m, (if (v.takeWhile isDigit).isEmpty = true then none
      else some (v.takeWhile isDigit)) = some m → m.length ≤ v.length := by
    intro m hm
    split at hm
    · cases hm
    · cases hm; exact hds
  split at h
  · rename_i c t hdrop
    split at h
    · split at h
      · exact hdig m h
      · rename_i fs hfs
        cases h
        have h1 : (t.takeWhile isDigit).length ≤ t.length := takeWhile_length_le _ _
        have h2 : (v.drop (v.takeWhile isDigit).length).length = (c :: t).length := by
          rw [hdrop]
        simp only [List.length_drop, List.length_cons] at h2
        simp only [List.length_append, List.length_cons]
        omega
    · exact hdig m h
  · exact hdig m h

theorem exponentOf_ext (w : List Char) (b : Char) (x : List Char) (hb : isBarrier b = true) :
    exponentOf (w ++ b :: x) = exponentOf w := by
  cases w with
  | nil => rcases isBarrier_cases hb with rfl | rfl | rfl | rfl <;> rfl
  | cons e t =>
    simp only [List.cons_append, exponentOf]
    rw [signOf_ext t b x hb, List.drop_append_of_le_length (signOf_length_le t),
      takeWhile_append_barrier isDigit _ b x (isBarrier_not_digit hb)]

theorem rule11_ext (u : List Char) (b : Char) (x : List Char) (hb : isBarrier b = true) :
    rule11 (u ++ b :: x) = rule11 u := by
  unfold rule11
  simp only
  rw [signOf_ext u b x hb, List.drop_append_of_le_length (signOf_length_le u),
    mantissaOf_ext _ b x hb]
  cases hm : mantissaOf (u.drop (signOf u).length) with
  | none => rfl
  | some m =>
    simp only
    have hle := mantissaOf_length_le _ _ hm
    simp only [List.length_drop] at hle
    have hs := signOf_length_le u
    rw [List.drop_append_of_le_length (by omega), exponentOf_ext _ b x hb]

/-! ### Comments and strings -/

theorem rule0_ext_some (u x m : List Char) (h : rule0 u = some m) : rule0 (u ++ x) = some m := by
  cases u with
  | nil => cases h
  | cons c t =>
    simp only [List.cons_append, rule0] at h ⊢
    split at h
    · rename_i hc
      rw [if_pos hc]
      cases hd : t.drop (t.takeWhile (fun d => !isLineTerminator d)).length with
      | nil => rw [hd] at h; cases h
      | cons d rest =>
        rw [hd] at h
        rw [takeWhile_append_inside _ t x (by rw [hd]; simp),
          List.drop_append_of_le_length (takeWhile_length_le _ _), hd]
        exact h
    · cases h

theorem rule0_ext_head (c : Char) (t x : List Char) (hc : c ≠ '#') :
    rule0 (c :: t ++ x) = rule0 (c :: t) := by
  simp [rule0, hc]

theorem takeWhile_eq_self (p : Char → Bool) (t : List Char)
    (h : t.drop (t.takeWhile p).length = []) : t.takeWhile p = t := by
  induction t with
  | nil => rfl
  | cons c u ih =>
    rw [List.takeWhile_cons] at h ⊢
    by_cases hc : p c = true
    · rw [if_pos hc] at h ⊢
      simp only [List.length_cons, List.drop_succ_cons] at h
      rw [ih h]
    · rw [if_neg hc] at h
      simp at h

theorem takeWhile_append_all_one (p : Char → Bool) (t : List Char) (c : Char)
    (ht : t.takeWhile p = t) (hc : p c = true) : (t ++ [c]).takeWhile p = t ++ [c] := by
  induction t with
  | nil => simp [List.takeWhile, hc]
  | cons d u ih =>
    rw [List.takeWhile_cons] at ht
    by_cases hd : p d = true
    · rw [if_pos hd] at ht
      rw [List.cons_append, List.takeWhile_cons, if_pos hd, ih (List.cons.inj ht).2]
    · rw [if_neg hd] at ht
      cases ht

theorem rule0_ext_semicolon (u : List Char) : rule0 (u ++ [';']) = rule0 u := by
  cases u with
  | nil => rfl
  | cons c t =>
    by_cases hc : c = '#'
    · simp only [List.cons_append, rule0, hc, ↓reduceIte]
      cases hd : t.drop (t.takeWhile (fun d => !isLineTerminator d)).length with
      | nil =>
        have h1 := takeWhile_eq_self _ t hd
        rw [takeWhile_append_all_one _ t ';' h1 (by decide)]
        simp
      | cons d rest =>
        rw [takeWhile_append_inside _ t [';'] (by rw [hd]; simp),
          List.drop_append_of_le_length (takeWhile_length_le _ _), hd]
        rfl
    · exact rule0_ext_head c t [';'] hc

theorem stringTail_ext_some (n : Nat) : ∀ (t x m : List Char), t.length ≤ n →
    stringTail t = some m → stringTail (t ++ x) = some m := by
  induction n using Nat.strong_induction_on with
  | _ n ih =>
    intro t x m hlen h
    rcases t with _ | ⟨c, _ | ⟨d, u⟩⟩
    · rw [stringTail.eq_def] at h
      cases h
    · rw [stringTail.eq_def] at h
      rw [List.singleton_append, stringTail.eq_def]
      simp only at h ⊢
      split at h
      · rename_i hc
        rw [if_pos hc]
        exact h
      · split at h
        · cases h
        · rw [stringTail.eq_def] at h
          simp at h
    · simp only [List.length_cons] at hlen
      rw [stringTail.eq_def] at h
      rw [List.cons_append, List.cons_append, stringTail.eq_def]
      simp only at h ⊢
      split at h
      · rename_i hc
        rw [if_pos hc]
        exact h
      · rename_i hc
        rw [if_neg hc]
        split at h
        · rename_i hb
          rw [if_pos hb]
          split at h
          · cases h
          · rename_i hl
            rw [if_neg hl]
            cases hu : stringTail u with
            | none => rw [hu] at h; cases h
            | some m1 =>
              rw [hu] at h
              rw [ih (n - 2) (by omega) u x m1 (by omega) hu]
              exact h
        · rename_i hb
          rw [if_neg hb]
          cases hu : stringTail (d :: u) with
          | none => rw [hu] at h; cases h
          | some m1 =>
            rw [hu] at h
            have := ih (n - 1) (by omega) (d :: u) x m1 (by simp only [List.length_cons]; omega) hu
            rw [List.cons_append] at this
            rw [this]
            exact h

theorem stringTail_ext_semicolon (n : Nat) : ∀ (t : List Char), t.length ≤ n →
    stringTail (t ++ [';']) = stringTail t := by
  induction n using Nat.strong_induction_on with
  | _ n ih =>
    intro t hlen
    rcases t with _ | ⟨c, _ | ⟨d, u⟩⟩
    · rfl
    · rw [List.singleton_append, stringTail.eq_def, stringTail.eq_def [c]]
      simp only
      by_cases hc : c = dquote
      · rw [if_pos hc, if_pos hc]
      · rw [if_neg hc, if_neg hc]
        by_cases hb : c = backslash
        · rw [if_pos hb, if_pos hb]
          rfl
        · rw [if_neg hb, if_neg hb]
          rfl
    · simp only [List.length_cons] at hlen
      rw [List.cons_append, List.cons_append, stringTail.eq_def, stringTail.eq_def (c :: d :: u)]
      simp only
      by_cases hc : c = dquote
      · rw [if_pos hc, if_pos hc]
      · rw [if_neg hc, if_neg hc]
        by_cases hb : c = backslash
        · rw [if_pos hb, if_pos hb, ih (n - 2) (by omega) u (by omega)]
        · rw [if_neg hb, if_neg hb]
          have := ih (n - 1) (by omega) (d :: u) (by simp only [List.length_cons]; omega)
          rw [List.cons_append] at this
          rw [this]

theorem rule12_ext_some (u x m : List Char) (h : rule12 u = some m) :
    rule12 (u ++ x) = some m := by
  cases u with
  | nil => cases h
  | cons c t =>
    simp only [List.cons_append, rule12] at h ⊢
    split at h
    · rename_i hc
      rw [if_pos hc]
      cases ht : stringTail t with
      | none => rw [ht] at h; cases h
      | some m1 =>
        rw [ht] at h
        rw [stringTail_ext_some t.length t x m1 (Nat.le_refl _) ht]
        exact h
    · cases h

theorem rule12_ext_head (c : Char) (t x : List Char) (hc : c ≠ dquote) :
    rule12 (c :: t ++ x) = rule12 (c :: t) := by
  simp [rule12, hc]

theorem rule12_ext_semicolon (u : List Char) : rule12 (u ++ [';']) = rule12 u := by
  cases u with
  | nil => rfl
  | cons c t =>
    simp only [List.cons_append, rule12]
    rw [stringTail_ext_semicolon t.length t (Nat.le_refl _)]

theorem rule13_ext_some (u x m : List Char) (h : rule13 u = some m) :
    rule13 (u ++ x) = some m := by
  cases u with
  | nil => cases h
  | cons c t =>
    simp only [List.cons_append, rule13] at h ⊢
    split at h
    · rename_i hc
      rw [if_pos hc]
      cases hd : t.drop (t.takeWhile (fun d => d != squote)).length with
      | nil => rw [hd] at h; cases h
      | cons d rest =>
        rw [hd] at h
        rw [takeWhile_append_inside _ t x (by rw [hd]; simp),
          List.drop_append_of_le_length (takeWhile_length_le _ _), hd]
        exact h
    · cases h

theorem rule13_ext_head (c : Char) (t x : List Char) (hc : c ≠ squote) :
    rule13 (c :: t ++ x) = rule13 (c :: t) := by
  simp [rule13, hc]

theorem rule13_ext_semicolon (u : List Char) : rule13 (u ++ [';']) = rule13 u := by
  cases u with
  | nil => rfl
  | cons c t =>
    by_cases hc : c = squote
    · simp only [List.cons_append, rule13, hc, ↓reduceIte]
      cases hd : t.drop (t.takeWhile (fun d => d != squote)).length with
      | nil =>
        have h1 := takeWhile_eq_self _ t hd
        rw [takeWhile_append_all_one _ t ';' h1 (by decide)]
        simp
      | cons d rest =>
        rw [takeWhile_append_inside _ t [';'] (by rw [hd]; simp),
          List.drop_append_of_le_length (takeWhile_length_le _ _), hd]
        rfl
    · exact rule13_ext_head c t [';'] hc

/-! ### The length of a match -/

theorem exponentOf_length_le (w : List Char) : (exponentOf w).length ≤ w.length := by
  cases w with
  | nil => simp [exponentOf]
  | cons e t =>
    simp only [exponentOf]
    split
    · split
      · simp
      · have h1 := takeWhile_length_le isDigit (t.drop (signOf t).length)
        have h2 := signOf_length_le t
        simp only [List.length_drop] at h1
        simp only [List.length_cons, List.length_append] at h1 ⊢
        omega
    · simp

theorem stringTail_length_le (n : Nat) : ∀ (t m : List Char), t.length ≤ n →
    stringTail t = some m → m.length ≤ t.length := by
  induction n using Nat.strong_induction_on with
  | _ n ih =>
    intro t m hlen h
    rcases t with _ | ⟨c, _ | ⟨d, u⟩⟩
    · rw [stringTail.eq_def] at h
      cases h
    · rw [stringTail.eq_def] at h
      simp only at h
      split at h
      · cases h; simp
      · split at h
        · cases h
        · rw [stringTail.eq_def] at h
          simp at h
    · simp only [List.length_cons] at hlen
      rw [stringTail.eq_def] at h
      simp only at h
      split at h
      · cases h; simp
      · split at h
        · split at h
          · cases h
          · cases hu : stringTail u with
            | none => rw [hu] at h; cases h
            | some m1 =>
              rw [hu] at h
              cases h
              have := ih (n - 2) (by omega) u m1 (by omega) hu
              simp only [List.length_cons]
              omega
        · cases hu : stringTail (d :: u) with
          | none => rw [hu] at h; cases h
          | some m1 =>
            rw [hu] at h
            cases h
            have := ih (n - 1) (by omega) (d :: u) m1 (by simp only [List.length_cons]; omega) hu
            simp only [List.length_cons] at this ⊢
            omega

theorem rule0_length_le (s m : List Char) (h : rule0 s = some m) : m.length ≤ s.length := by
  cases s with
  | nil => cases h
  | cons c t =>
    simp only [rule0] at h
    split at h
    · cases hd : t.drop (t.takeWhile (fun d => !isLineTerminator d)).length with
      | nil => rw [hd] at h; cases h
      | cons d rest =>
        rw [hd] at h
        simp only at h
        split at h
        · cases h
          have h2 : (t.drop (t.takeWhile (fun d => !isLineTerminator d)).length).length =
              (d :: rest).length := by rw [hd]
          simp only [List.length_drop, List.length_cons] at h2
          simp only [List.length_cons, List.length_append, List.length_nil]
          omega
        · cases h
    · cases h

theorem rule1_length_le (s m : List Char) (h : rule1 s = some m) : m.length ≤ s.length := by
  unfold rule1 at h
  split at h
  · cases h
  · cases h
    exact takeWhile_length_le _ _

theorem keywordRule_length_le (kw : String) (s m : List Char) (h : keywordRule kw s = some m) :
    m.length ≤ s.length := by
  obtain ⟨hp, _, rfl⟩ := keywordRule_some kw s m h
  exact (List.isPrefixOf_iff_prefix.mp hp).length_le

theorem textRule_length_le (t : String) (s m : List Char) (h : textRule t s = some m) :
    m.length ≤ s.length := by
  obtain ⟨hp, rfl⟩ := textRule_some t s m h
  exact (List.isPrefixOf_iff_prefix.mp hp).length_le

theorem rule10_length_le (s m : List Char) (h : rule10 s = some m) : m.length ≤ s.length := by
  cases s with
  | nil => cases h
  | cons c t =>
    obtain ⟨_, rfl⟩ := rule10_head c t m h
    have := takeWhile_length_le isWordChar t
    simp only [List.length_cons]
    omega

theorem rule11_length_le (s m : List Char) (h : rule11 s = some m) : m.length ≤ s.length := by
  unfold rule11 at h
  simp only at h
  cases hm : mantissaOf (s.drop (signOf s).length) with
  | none => rw [hm] at h; cases h
  | some m0 =>
    rw [hm] at h
    cases h
    have h1 := signOf_length_le s
    have h2 := mantissaOf_length_le _ _ hm
    have h3 := exponentOf_length_le (s.drop ((signOf s).length + m0.length))
    simp only [List.length_drop] at h2 h3
    simp only [List.length_append]
    omega

theorem rule12_length_le (s m : List Char) (h : rule12 s = some m) : m.length ≤ s.length := by
  cases s with
  | nil => cases h
  | cons c t =>
    simp only [rule12] at h
    split at h
    · cases ht : stringTail t with
      | none => rw [ht] at h; cases h
      | some m1 =>
        rw [ht] at h
        cases h
        have := stringTail_length_le t.length t m1 (Nat.le_refl _) ht
        simp only [List.length_cons]
        omega
    · cases h

theorem rule13_length_le (s m : List Char) (h : rule13 s = some m) : m.length ≤ s.length := by
  cases s with
  | nil => cases h
  | cons c t =>
    simp only [rule13] at h
    split at h
    · cases hd : t.drop (t.takeWhile (fun d => d != squote)).length with
      | nil => rw [hd] at h; cases h
      | cons d rest =>
        rw [hd] at h
        cases h
        have h2 : (t.drop (t.takeWhile (fun d => d != squote)).length).length =
            (d :: rest).length := by rw [hd]
        simp only [List.length_drop, List.length_cons] at h2
        simp only [List.length_cons, List.length_append, List.length_nil]
        omega
    · cases h

theorem rule24_length_le (s m : List Char) (h : rule24 s = some m) : m.length ≤ s.length := by
  cases s with
  | nil => cases h
  | cons c t =>
    obtain ⟨_, rfl⟩ := rule24_head c t m h
    simp

theorem rules_length_le : ∀ r ∈ rules, ∀ s m, r s = some m → m.length ≤ s.length := by
  intro r hr
  simp only [rules, List.mem_cons, List.mem_singleton, List.not_mem_nil, or_false] at hr
  rcases hr with h | h | h | h | h | h | h | h | h | h | h | h | h | h | h | h | h | h | h | h | h |
    h | h | h | h <;> subst h
  · exact rule0_length_le
  · exact rule1_length_le
  · exact keywordRule_length_le _
  · exact keywordRule_length_le _
  · exact keywordRule_length_le _
  · exact textRule_length_le _
  · exact keywordRule_length_le _
  · exact keywordRule_length_le _
  · exact keywordRule_length_le _
  · exact keywordRule_length_le _
  · exact rule10_length_le
  · exact rule11_length_le
  · exact rule12_length_le
  · exact rule13_length_le
  · exact textRule_length_le _
  · exact textRule_length_le _
  · exact textRule_length_le _
  · exact textRule_length_le _
  · exact textRule_length_le _
  · exact textRule_length_le _
  · exact textRule_length_le _
  · exact textRule_length_le _
  · exact textRule_length_le _
  · exact textRule_length_le _
  · exact rule24_length_le

theorem firstMatch_length_le (rs : List (List Char → Option (List Char)))
    (hrs : ∀ r ∈ rs, ∀ s m, r s = some m → m.length ≤ s.length) (i : Nat) (s : List Char)
    (j : Nat) (m : List Char) (h : firstMatch rs i s = some (j, m)) : m.length ≤ s.length := by
  induction rs generalizing i with
  | nil => simp [firstMatch] at h
  | cons r rest ih =>
    unfold firstMatch at h
    split at h
    · rename_i m1 hm
      cases h
      exact hrs r (List.mem_cons_self _ _) s m hm
    · exact ih (fun r1 hr1 => hrs r1 (List.mem_cons_of_mem _ hr1)) _ h

/-! ### The first matching rule -/

theorem firstMatch_hash (s : List Char) :
    firstMatch rules 0 ('#' :: s) = (rule0 ('#' :: s)).map (fun m => (0, m)) := by
  have h1 : rule1 ('#' :: s) = none := rfl
  have h2 : keywordRule "true" ('#' :: s) = none := rfl
  have h3 : keywordRule "false" ('#' :: s) = none := rfl
  have h4 : keywordRule "null" ('#' :: s) = none := rfl
  have h5 : textRule "@" ('#' :: s) = none := rfl
  have h6 : keywordRule "switch" ('#' :: s) = none := rfl
  have h7 : keywordRule "if" ('#' :: s) = none := rfl
  have h8 : keywordRule "else" ('#' :: s) = none := rfl
  have h9 : keywordRule "return" ('#' :: s) = none := rfl
  have h10 : rule10 ('#' :: s) = none := rfl
  have h11 : rule11 ('#' :: s) = none := rfl
  have h12 : rule12 ('#' :: s) = none := rfl
  have h13 : rule13 ('#' :: s) = none := rfl
  have h14 : textRule "<-" ('#' :: s) = none := rfl
  have h15 : textRule "||" ('#' :: s) = none := rfl
  have h16 : textRule "&&" ('#' :: s) = none := rfl
  have h17 : textRule "??" ('#' :: s) = none := rfl
  have h18 : textRule "==" ('#' :: s) = none := rfl
  have h19 : textRule ">=" ('#' :: s) = none := rfl
  have h20 : textRule "<=" ('#' :: s) = none := rfl
  have h21 : textRule "!=" ('#' :: s) = none := rfl
  have h22 : textRule "=>" ('#' :: s) = none := rfl
  have h23 : textRule ";" ('#' :: s) = none := rfl
  have h24 : rule24 ('#' :: s) = none := rfl
  simp only [firstMatch, rules, h1, h2, h3, h4, h5, h6, h7, h8, h9, h10, h11, h12, h13, h14, h15, h16, h17, h18, h19, h20, h21, h22, h23, h24]
  cases rule0 ('#' :: s) <;> rfl

theorem firstMatch_dquote (s : List Char) :
    firstMatch rules 0 (dquote :: s) = (rule12 (dquote :: s)).map (fun m => (12, m)) := by
  have h0 : rule0 (dquote :: s) = none := rfl
  have h1 : rule1 (dquote :: s) = none := rfl
  have h2 : keywordRule "true" (dquote :: s) = none := rfl
  have h3 : keywordRule "false" (dquote :: s) = none := rfl
  have h4 : keywordRule "null" (dquote :: s) = none := rfl
  have h5 : textRule "@" (dquote :: s) = none := rfl
  have h6 : keywordRule "switch" (dquote :: s) = none := rfl
  have h7 : keywordRule "if" (dquote :: s) = none := rfl
  have h8 : keywordRule "else" (dquote :: s) = none := rfl
  have h9 : keywordRule "return" (dquote :: s) = none := rfl
  have h10 : rule10 (dquote :: s) = none := rfl
  have h11 : rule11 (dquote :: s) = none := rfl
  have h13 : rule13 (dquote :: s) = none := rfl
  have h14 : textRule "<-" (dquote :: s) = none := rfl
  have h15 : textRule "||" (dquote :: s) = none := rfl
  have h16 : textRule "&&" (dquote :: s) = none := rfl
  have h17 : textRule "??" (dquote :: s) = none := rfl
  have h18 : textRule "==" (dquote :: s) = none := rfl
  have h19 : textRule ">=" (dquote :: s) = none := rfl
  have h20 : textRule "<=" (dquote :: s) = none := rfl
  have h21 : textRule "!=" (dquote :: s) = none := rfl
  have h22 : textRule "=>" (dquote :: s) = none := rfl
  have h23 : textRule ";" (dquote :: s) = none := rfl
  have h24 : rule24 (dquote :: s) = none := rfl
  simp only [firstMatch, rules, h0, h1, h2, h3, h4, h5, h6, h7, h8, h9, h10, h11, h13, h14, h15, h16, h17, h18, h19, h20, h21, h22, h23, h24]
  cases rule12 (dquote :: s) <;> rfl

theorem firstMatch_squote (s : List Char) :
    firstMatch rules 0 (squote :: s) = (rule13 (squote :: s)).map (fun m => (13, m)) := by
  have h0 : rule0 (squote :: s) = none := rfl
  have h1 : rule1 (squote :: s) = none := rfl
  have h2 : keywordRule "true" (squote :: s) = none := rfl
  have h3 : keywordRule "false" (squote :: s) = none := rfl
  have h4 : keywordRule "null" (squote :: s) = none := rfl
  have h5 : textRule "@" (squote :: s) = none := rfl
  have h6 : keywordRule "switch" (squote :: s) = none := rfl
  have h7 : keywordRule "if" (squote :: s) = none := rfl
  have h8 : keywordRule "else" (squote :: s) = none := rfl
  have h9 : keywordRule "return" (squote :: s) = none := rfl
  have h10 : rule10 (squote :: s) = none := rfl
  have h11 : rule11 (squote :: s) = none := rfl
  have h12 : rule12 (squote :: s) = none := rfl
  have h14 : textRule "<-" (squote :: s) = none := rfl
  have h15 : textRule "||" (squote :: s) = none := rfl
  have h16 : textRule "&&" (squote :: s) = none := rfl
  have h17 : textRule "??" (squote :: s) = none := rfl
  have h18 : textRule "==" (squote :: s) = none := rfl
  have h19 : textRule ">=" (squote :: s) = none := rfl
  have h20 : textRule "<=" (squote :: s) = none := rfl
  have h21 : textRule "!=" (squote :: s) = none := rfl
  have h22 : textRule "=>" (squote :: s) = none := rfl
  have h23 : textRule ";" (squote :: s) = none := rfl
  have h24 : rule24 (squote :: s) = none := rfl
  simp only [firstMatch, rules, h0, h1, h2, h3, h4, h5, h6, h7, h8, h9, h10, h11, h12, h14, h15, h16, h17, h18, h19, h20, h21, h22, h23, h24]
  cases rule13 (squote :: s) <;> rfl

theorem firstMatch_ext_semicolon (u : List Char) (hu : u ≠ []) :
    firstMatch rules 0 (u ++ [';']) = firstMatch rules 0 u := by
  have hb : isBarrier ';' = true := by decide
  have hlen : 1 ≤ u.length := List.length_pos.mpr hu
  simp only [firstMatch, rules, rule0_ext_semicolon u, rule1_ext u ';' [] hb,
    keywordRule_ext "true" (by decide) u ';' [] hb,
    keywordRule_ext "false" (by decide) u ';' [] hb,
    keywordRule_ext "null" (by decide) u ';' [] hb,
    textRule_ext "@" u ';' [] (Or.inr (by decide)),
    keywordRule_ext "switch" (by decide) u ';' [] hb,
    keywordRule_ext "if" (by decide) u ';' [] hb,
    keywordRule_ext "else" (by decide) u ';' [] hb,
    keywordRule_ext "return" (by decide) u ';' [] hb,
    rule10_ext u hu ';' [] hb, rule11_ext u ';' [] hb, rule12_ext_semicolon u,
    rule13_ext_semicolon u,
    textRule_ext "<-" u ';' [] (Or.inr (by decide)),
    textRule_ext "||" u ';' [] (Or.inr (by decide)),
    textRule_ext "&&" u ';' [] (Or.inr (by decide)),
    textRule_ext "??" u ';' [] (Or.inr (by decide)),
    textRule_ext "==" u ';' [] (Or.inr (by decide)),
    textRule_ext ">=" u ';' [] (Or.inr (by decide)),
    textRule_ext "<=" u ';' [] (Or.inr (by decide)),
    textRule_ext "!=" u ';' [] (Or.inr (by decide)),
    textRule_ext "=>" u ';' [] (Or.inr (by decide)),
    textRule_ext ";" u ';' [] (Or.inl hlen), rule24_ext u hu [';']]

theorem firstMatch_ext (u : List Char) (hu : u ≠ []) (b : Char) (x : List Char)
    (hb : isBarrier b = true) (h : firstMatch rules 0 u ≠ none) :
    firstMatch rules 0 (u ++ b :: x) = firstMatch rules 0 u := by
  cases u with
  | nil => exact absurd rfl hu
  | cons c t =>
    by_cases h0 : c = '#'
    · subst h0
      rw [firstMatch_hash] at h ⊢
      rw [List.cons_append, firstMatch_hash]
      cases hr : rule0 ('#' :: t) with
      | none => rw [hr] at h; exact absurd rfl h
      | some m =>
        have := rule0_ext_some ('#' :: t) (b :: x) m hr
        rw [List.cons_append] at this
        rw [this]
    · by_cases h12 : c = dquote
      · subst h12
        rw [firstMatch_dquote] at h ⊢
        rw [List.cons_append, firstMatch_dquote]
        cases hr : rule12 (dquote :: t) with
        | none => rw [hr] at h; exact absurd rfl h
        | some m =>
          have := rule12_ext_some (dquote :: t) (b :: x) m hr
          rw [List.cons_append] at this
          rw [this]
      · by_cases h13 : c = squote
        · subst h13
          rw [firstMatch_squote] at h ⊢
          rw [List.cons_append, firstMatch_squote]
          cases hr : rule13 (squote :: t) with
          | none => rw [hr] at h; exact absurd rfl h
          | some m =>
            have := rule13_ext_some (squote :: t) (b :: x) m hr
            rw [List.cons_append] at this
            rw [this]
        · have hlen : 1 ≤ (c :: t).length := by simp
          have hnot : ∀ (tx : String),
              (∀ d ∈ tx.data, d ≠ '#' ∧ d ≠ ';' ∧ d ≠ ',' ∧ d ≠ ')') → b ∉ tx.data := by
            intro tx htx hm
            rcases isBarrier_cases hb with rfl | rfl | rfl | rfl
            · exact (htx _ hm).1 rfl
            · exact (htx _ hm).2.1 rfl
            · exact (htx _ hm).2.2.1 rfl
            · exact (htx _ hm).2.2.2 rfl
          have e0 : rule0 ((c :: t) ++ b :: x) = rule0 (c :: t) := rule0_ext_head c t _ h0
          have e12 : rule12 ((c :: t) ++ b :: x) = rule12 (c :: t) := rule12_ext_head c t _ h12
          have e13 : rule13 ((c :: t) ++ b :: x) = rule13 (c :: t) := rule13_ext_head c t _ h13
          simp only [firstMatch, rules, e0, e12, e13, rule1_ext (c :: t) b x hb,
            keywordRule_ext "true" (by decide) (c :: t) b x hb,
            keywordRule_ext "false" (by decide) (c :: t) b x hb,
            keywordRule_ext "null" (by decide) (c :: t) b x hb,
            textRule_ext "@" (c :: t) b x (Or.inr (hnot "@" (by decide))),
            keywordRule_ext "switch" (by decide) (c :: t) b x hb,
            keywordRule_ext "if" (by decide) (c :: t) b x hb,
            keywordRule_ext "else" (by decide) (c :: t) b x hb,
            keywordRule_ext "return" (by decide) (c :: t) b x hb,
            rule10_ext (c :: t) hu b x hb, rule11_ext (c :: t) b x hb,
            textRule_ext "<-" (c :: t) b x (Or.inr (hnot "<-" (by decide))),
            textRule_ext "||" (c :: t) b x (Or.inr (hnot "||" (by decide))),
            textRule_ext "&&" (c :: t) b x (Or.inr (hnot "&&" (by decide))),
            textRule_ext "??" (c :: t) b x (Or.inr (hnot "??" (by decide))),
            textRule_ext "==" (c :: t) b x (Or.inr (hnot "==" (by decide))),
            textRule_ext ">=" (c :: t) b x (Or.inr (hnot ">=" (by decide))),
            textRule_ext "<=" (c :: t) b x (Or.inr (hnot "<=" (by decide))),
            textRule_ext "!=" (c :: t) b x (Or.inr (hnot "!=" (by decide))),
            textRule_ext "=>" (c :: t) b x (Or.inr (hnot "=>" (by decide))),
            textRule_ext ";" (c :: t) b x (Or.inl hlen), rule24_ext (c :: t) hu (b :: x)]

/-- `next` on an input that is not empty: the first matching rule decides. -/
theorem next_nonempty (u : List Char) (hu : u ≠ []) (y : JSVal) (n : Nat) :
    next { _input := u, yytext := y, yylineno := n, done := false } =
      match firstMatch rules 0 u with
      | some (i, m) =>
        .ok ((lexerAction i (String.mk m)).1,
          { _input := u.drop m.length, yytext := (lexerAction i (String.mk m)).2,
            yylineno := n + lineBreaks m, done := false })
      | none => .error (.lexError n) := by
  have he : u.isEmpty = false := by
    cases u with
    | nil => exact absurd rfl hu
    | cons c t => rfl
  unfold next
  simp only [Bool.false_eq_true, ↓reduceIte, he]
  cases firstMatch rules 0 u with
  | none => rfl
  | some im =>
    obtain ⟨i, m⟩ := im
    simp only [test_match, Bool.false_and]

theorem tokenize_nonempty (u : List Char) (hu : u ≠ []) (y : JSVal) (n : Nat) :
    tokenize { _input := u, yytext := y, yylineno := n, done := false } =
      match firstMatch rules 0 u with
      | some (i, m) =>
        match (lexerAction i (String.mk m)).1 with
        | some t => .cons t (lexerAction i (String.mk m)).2 (n + lineBreaks m)
            (tokenize { _input := u.drop m.length, yytext := .str "",
                        yylineno := n + lineBreaks m, done := false })
        | none => tokenize { _input := u.drop m.length, yytext := .str "",
                             yylineno := n + lineBreaks m, done := false }
      | none => .fail (.lexError n) := by
  have hn := next_nonempty u hu y n
  cases hf : firstMatch rules 0 u with
  | none =>
    rw [hf] at hn
    exact tokenize_of_lex_error _ _ (lex_of_next_error _ _ hn)
  | some im =>
    obtain ⟨i, m⟩ := im
    rw [hf] at hn
    simp only at hn ⊢
    cases ha : (lexerAction i (String.mk m)).1 with
    | none =>
      rw [ha] at hn
      simp only
      rw [tokenize_eq_of_lex_eq _ _ (lex_of_next_none _ _ hn)]
      exact tokenize_yytext _ _ _ _
    | some t =>
      rw [ha] at hn
      simp only
      have ht : t ≠ .num 1 := by
        intro h1
        have := lexerAction_ne_eof i (String.mk m)
        rw [ha, h1] at this
        exact this rfl
      rw [tokenize_of_lex _ _ t (lex_of_next_some _ _ _ hn) ht]
      exact congrArg _ (tokenize_yytext _ _ _ _)

theorem tokenize_empty (y : JSVal) (n : Nat) :
    tokenize { _input := [], yytext := y, yylineno := n, done := false } = .eof (.str "") n :=
  rfl

/-- The token stream of a text followed by `b :: x`, `b` one of `#`, `;`, `,` and `)`: the
stream of the text, then the stream of `b :: x`. The lexer is to fail on no part
of the text, or `b :: x` is to be `;`. -/
theorem tokenize_ext (b : Char) (x : List Char) (hb : isBarrier b = true) (N : Nat) :
    ∀ (u : List Char) (y : JSVal) (n : Nat), u.length ≤ N →
      ((tokenize { _input := u, yytext := y, yylineno := n, done := false }).endsEof = true ∨
        (b = ';' ∧ x = [])) →
      tokenize { _input := u ++ b :: x, yytext := y, yylineno := n, done := false } =
        (tokenize { _input := u, yytext := y, yylineno := n, done := false }).bindEof
          (fun n1 => tokenize { _input := b :: x, yytext := .str "", yylineno := n1,
                                done := false }) := by
  induction N using Nat.strong_induction_on with
  | _ N ih =>
    intro u y n hlen hcond
    by_cases hu : u = []
    · subst hu
      rw [tokenize_empty]
      exact tokenize_yytext _ _ _ _
    · have hne : u ++ b :: x ≠ [] := by simp
      rw [tokenize_nonempty u hu] at hcond ⊢
      rw [tokenize_nonempty (u ++ b :: x) hne]
      have hfm : firstMatch rules 0 (u ++ b :: x) = firstMatch rules 0 u := by
        by_cases hf : firstMatch rules 0 u = none
        · rcases hcond with hc | ⟨rfl, rfl⟩
          · rw [hf] at hc
            cases hc
          · exact firstMatch_ext_semicolon u hu
        · exact firstMatch_ext u hu b x hb hf
      rw [hfm]
      cases hf : firstMatch rules 0 u with
      | none => rfl
      | some im =>
        obtain ⟨i, m⟩ := im
        rw [hf] at hcond
        simp only at hcond ⊢
        have hle := firstMatch_length_le rules rules_length_le 0 u i m hf
        have hpos : 0 < m.length :=
          List.length_pos.mpr (firstMatch_ne_nil rules rules_ne_nil 0 u i m hf)
        have hulen : 0 < u.length := List.length_pos.mpr hu
        rw [List.drop_append_of_le_length hle]
        have hrec := ih (N - 1) (by omega) (u.drop m.length) (.str "") (n + lineBreaks m)
          (by simp only [List.length_drop]; omega)
        cases ha : (lexerAction i (String.mk m)).1 with
        | none =>
          rw [ha] at hcond
          simp only at hcond ⊢
          exact hrec hcond
        | some t =>
          rw [ha] at hcond
          simp only [TokStream.endsEof] at hcond
          simp only [TokStream.bindEof]
          rw [hrec hcond]

theorem eofTableOK_eq : eofTableOK = true := by decide

theorem finish_graft (f : Nat → TokStream) (y : JSVal) (n : Nat) (toks : TokStream)
    (r : Except ParseError (Outcome × Option Token × Nat)) :
    finish (Replay.mk y n (toks.bindEof f)) r = graftResult f (finish (Replay.mk y n toks) r) := by
  unfold finish
  split <;> rfl

/-- A turn that does not read the end of the stream is the same turn on the
stream with its end replaced. -/
theorem step_graft (f : Nat → TokStream) (p : Parser Replay)
    (h : p.symbol ≠ none ∨ p.lexer.toks.isEof = false ∨
      (∀ state rest, p.stack = state :: rest → defaultActions state ≠ none)) :
    step replay (graft f p) = graftResult f (step replay p) := by
  obtain ⟨stack, vstack, symbol, yylineno, ⟨y, n, toks⟩⟩ := p
  unfold step
  simp only [graft]
  cases stack with
  | nil => rfl
  | cons state rest =>
    simp only
    cases hd : defaultActions state with
    | some action => exact finish_graft f y n toks _
    | none =>
      simp only
      cases symbol with
      | some sym => exact finish_graft f y n toks _
      | none =>
        simp only
        rcases h with h | h | h
        · exact absurd rfl h
        · cases toks with
          | cons t y1 n1 rest1 => exact finish_graft f y1 n1 rest1 _
          | eof y1 n1 => cases h
          | fail e => rfl
          | stuck => rfl
        · exact absurd hd (h state rest rfl)

theorem step_eq_turn (p : Parser Replay) :
    step replay p =
      match turn p with
      | none => none
      | some (.error e) => some (.error e)
      | some (.ok (a, sym, lx)) =>
        finish lx (perform a p.stack p.vstack sym lx.yytext lx.yylineno p.yylineno) := by
  obtain ⟨stack, vstack, symbol, yylineno, lexer⟩ := p
  unfold step turn
  cases stack with
  | nil => rfl
  | cons state rest =>
    simp only
    cases defaultActions state with
    | some action => rfl
    | none =>
      simp only
      cases symbol with
      | some sym => rfl
      | none =>
        simp only [replay]
        cases lexer.lex with
        | none => rfl
        | some r =>
          cases r with
          | error e => rfl
          | ok tl => rfl

theorem lookup_mem (row : Row) (k : Nat) (e : Entry) (h : row.lookup k = some e) :
    (k, e) ∈ row := by
  induction row with
  | nil => cases h
  | cons xe rest ih =>
    obtain ⟨x, e1⟩ := xe
    rw [List.lookup_cons] at h
    by_cases hk : k == x
    · rw [hk] at h
      simp only [Option.some.injEq] at h
      rw [beq_iff_eq] at hk
      subst hk
      subst h
      exact List.mem_cons_self _ _
    · simp only [Bool.not_eq_true] at hk
      rw [hk] at h
      exact List.mem_cons_of_mem _ (ih h)

theorem tableEntry_mem (state symbol : Nat) (e : Entry) (h : tableEntry state symbol = some e) :
    ∃ row ∈ table, (symbol, e) ∈ row := by
  unfold tableEntry at h
  cases hr : table.get? state with
  | none => rw [hr] at h; cases h
  | some row =>
    rw [hr] at h
    exact ⟨row, List.get?_mem hr, lookup_mem row symbol e h⟩

theorem return_at_eof (state symbol : Nat) (e : Entry) (h : tableEntry state symbol = some e)
    (hr : isReturn e = true) : symbol = 1 := by
  obtain ⟨row, hrow, hmem⟩ := tableEntry_mem state symbol e h
  have hall := eofTableOK_eq
  simp only [eofTableOK, List.all_eq_true, Bool.and_eq_true, Bool.or_eq_true,
    Bool.not_eq_true', beq_iff_eq, bne_iff_ne] at hall
  rcases (hall row hrow (symbol, e) hmem).1 with h1 | h1
  · rw [hr] at h1
    cases h1
  · exact h1

theorem no_shift_at_eof (state : Nat) (e : Entry) (h : tableEntry state 1 = some e) :
    isShift e = false := by
  obtain ⟨row, hrow, hmem⟩ := tableEntry_mem state 1 e h
  have hall := eofTableOK_eq
  simp only [eofTableOK, List.all_eq_true, Bool.and_eq_true, Bool.or_eq_true,
    Bool.not_eq_true', beq_iff_eq, bne_iff_ne] at hall
  rcases (hall row hrow (1, e) hmem).2 with h1 | h1
  · exact h1
  · exact absurd rfl h1

theorem bind_set_none (x : Except ParseError JSVal) (v r : JSVal)
    (h : x.bind (fun r => (Except.ok (r, none) : Except ParseError (JSVal × Option JSVal))) =
      .ok (v, some r)) : False := by
  cases x with
  | error e => cases h
  | ok a => cases h

theorem performAction_ret (p : Nat) (vs : List JSVal) (v r : JSVal)
    (h : performAction p vs = .ok (v, some r)) : p = 1 :=
  match p, h with
  | 0, h => by cases h
  | 1, _ => rfl
  | 2, h => by cases h
  | 3, h => (bind_set_none _ _ _ h).elim
  | 4, h => by cases h
  | 5, h => by cases h
  | 6, h => by cases h
  | 7, h => by cases h
  | 8, h => by cases h
  | 9, h => by cases h
  | 10, h => by cases h
  | 11, h => by cases h
  | 12, h => by cases h
  | 13, h => by cases h
  | 14, h => by cases h
  | 15, h => by cases h
  | 16, h => (bind_set_none _ _ _ h).elim
  | 17, h => by cases h
  | 18, h => by cases h
  | 19, h => by cases h
  | 20, h => by cases h
  | 21, h => by cases h
  | 22, h => by cases h
  | 23, h => by cases h
  | 24, h => by cases h
  | 25, h => by cases h
  | 26, h => by cases h
  | 27, h => by cases h
  | 28, h => by cases h
  | 29, h => by cases h
  | 30, h => by cases h
  | 31, h => by cases h
  | 32, h => by cases h
  | 33, h => by cases h
  | 34, h => by cases h
  | 35, h => by cases h
  | 36, h => by cases h
  | 37, h => by cases h
  | 38, h => by cases h
  | 39, h => by cases h
  | 40, h => (bind_set_none _ _ _ h).elim
  | 41, h => (bind_set_none _ _ _ h).elim
  | 42, h => by cases h
  | 43, h => by cases h
  | 44, h => by cases h
  | 45, h => by cases h
  | 46, h => by cases h
  | 47, h => (bind_set_none _ _ _ h).elim
  | 48, h => by cases h
  | 49, h => (bind_set_none _ _ _ h).elim
  | 50, h => (bind_set_none _ _ _ h).elim
  | 51, h => by cases h
  | 52, h => by cases h
  | 53, h => (bind_set_none _ _ _ h).elim
  | 54, h => (bind_set_none _ _ _ h).elim
  | 55, h => (bind_set_none _ _ _ h).elim
  | 56, h => by cases h
  | 57, h => (bind_set_none _ _ _ h).elim
  | 58, h => by cases h
  | 59, h => (bind_set_none _ _ _ h).elim
  | 60, h => by cases h
  | 61, h => by cases h
  | 62, h => by cases h
  | 63, h => by cases h
  | 64, h => by cases h
  | 65, h => (bind_set_none _ _ _ h).elim
  | 66, h => by cases h
  | n + 67, h => by cases h

theorem reduce_ret (p : Nat) (stack : List Nat) (vstack : List JSVal) (r : JSVal)
    (h : reduce p stack vstack = .ok (.ret r)) : p = 1 := by
  unfold reduce at h
  split at h
  · cases h
  · split at h
    · cases h
    · rename_i hperf
      exact performAction_ret _ _ _ _ hperf
    · split at h
      · cases h
      · split at h
        · cases h
        · cases h

/-- A turn returns a value only by an action that ends the parse. -/
theorem perform_ret (a : Option Entry) (stack : List Nat) (vstack : List JSVal)
    (sym : Option Token) (y : JSVal) (l m : Nat) (r : JSVal) (s1 : Option Token) (m1 : Nat)
    (h : perform a stack vstack sym y l m = .ok (.ret r, s1, m1)) :
    ∃ e, a = some e ∧ isReturn e = true := by
  unfold perform at h
  split at h
  · split at h
    · cases h
    · cases h
  · rename_i rest
    split at h
    · rename_i p rest1
      cases hr : reduce p stack vstack with
      | error e => rw [hr] at h; cases h
      | ok out =>
        rw [hr] at h
        simp only [Except.map, Except.ok.injEq, Prod.mk.injEq] at h
        obtain ⟨h1, _, _⟩ := h
        subst h1
        have := reduce_ret p stack vstack r hr
        subst this
        exact ⟨_, rfl, rfl⟩
    · cases h
  · exact ⟨_, rfl, rfl⟩
  · cases h
  · cases h
  · cases h
  · cases h
  · cases h

theorem perform_symbol (a : Option Entry) (stack : List Nat) (vstack : List JSVal)
    (sym : Option Token) (y : JSVal) (l m : Nat) (out : Outcome) (s1 : Option Token) (m1 : Nat)
    (h : perform a stack vstack sym y l m = .ok (out, s1, m1)) : s1 = sym ∨ s1 = none := by
  unfold perform at h
  split at h
  · split at h
    · cases h; exact Or.inr rfl
    · cases h
  · split at h
    · rename_i p rest1
      cases hr : reduce p stack vstack with
      | error e => rw [hr] at h; cases h
      | ok out1 =>
        rw [hr] at h
        simp only [Except.map, Except.ok.injEq, Prod.mk.injEq] at h
        exact Or.inl h.2.1.symm
    · cases h
  · cases h; exact Or.inl rfl
  · cases h
  · cases h
  · cases h
  · cases h
  · cases h; exact Or.inl rfl

theorem defaultActions_not_return (state : Nat) (e : Entry) (h : defaultActions state = some e) :
    isReturn e = false := by
  unfold defaultActions at h
  split at h
  · cases h; rfl
  · cases h

/-- The lookahead of a turn that ends the parse is the end-of-input token. -/
theorem turn_return (p : Parser Replay) (e : Entry) (sym : Option Token) (lx : Replay)
    (h : turn p = some (.ok (some e, sym, lx))) (hr : isReturn e = true) :
    sym = some (.num 1) := by
  unfold turn at h
  split at h
  · cases h
  · rename_i state rest hstack
    split at h
    · rename_i action hd
      simp only [Option.some.injEq, Except.ok.injEq, Prod.mk.injEq] at h
      rw [← h.1, defaultActions_not_return state action hd] at hr
      cases hr
    · have key : ∀ t : Token, actionFor state t = some e → t = .num 1 := by
        intro t ht
        cases t with
        | name s => cases ht
        | num k =>
          have := return_at_eof state k e ht hr
          rw [this]
      split at h
      · rename_i symbol hsym
        simp only [Option.some.injEq, Except.ok.injEq, Prod.mk.injEq] at h
        rw [← h.2.1, key symbol h.1]
      · split at h
        · cases h
        · cases h
        · rename_i t lexer hlex
          simp only [Option.some.injEq, Except.ok.injEq, Prod.mk.injEq] at h
          rw [← h.2.1, key (resolve t) h.1]

theorem finish_ret (lx : Replay) (r : Except ParseError (Outcome × Option Token × Nat))
    (A : JSVal) (h : finish lx r = some (.ok (.inr A))) : ∃ s1 m1, r = .ok (.ret A, s1, m1) := by
  unfold finish at h
  split at h
  · cases h
  · cases h; exact ⟨_, _, rfl⟩
  · cases h

theorem finish_next (lx : Replay) (r : Except ParseError (Outcome × Option Token × Nat))
    (p1 : Parser Replay) (h : finish lx r = some (.ok (.inl p1))) :
    ∃ m1, r = .ok (.next p1.stack p1.vstack, p1.symbol, m1) ∧ p1.lexer = lx := by
  unfold finish at h
  split at h
  · cases h
  · cases h
  · cases h; exact ⟨_, rfl, rfl⟩

/-- A turn that ends the parse has the end-of-input token as lookahead. -/
theorem step_ret (p : Parser Replay) (A : JSVal) (h : step replay p = some (.ok (.inr A))) :
    ∃ a lx, turn p = some (.ok (a, some (.num 1), lx)) := by
  rw [step_eq_turn] at h
  cases ht : turn p with
  | none => rw [ht] at h; cases h
  | some r =>
    cases r with
    | error e => rw [ht] at h; cases h
    | ok x =>
      obtain ⟨a, sym, lx⟩ := x
      rw [ht] at h
      simp only at h
      obtain ⟨s1, m1, hp⟩ := finish_ret _ _ _ h
      obtain ⟨e, rfl, he⟩ := perform_ret _ _ _ _ _ _ _ _ _ _ hp
      have := turn_return p e sym lx ht he
      subst this
      exact ⟨_, _, rfl⟩

/-- A turn that goes on: the lexer is the one the turn left, and the lookahead is
the one of the turn, or none after a shift. -/
theorem step_next (p p1 : Parser Replay) (h : step replay p = some (.ok (.inl p1))) :
    ∃ a sym, turn p = some (.ok (a, sym, p1.lexer)) ∧ (p1.symbol = sym ∨ p1.symbol = none) := by
  rw [step_eq_turn] at h
  cases ht : turn p with
  | none => rw [ht] at h; cases h
  | some r =>
    cases r with
    | error e => rw [ht] at h; cases h
    | ok x =>
      obtain ⟨a, sym, lx⟩ := x
      rw [ht] at h
      simp only at h
      obtain ⟨m1, hp, hl⟩ := finish_next _ _ _ h
      rw [hl]
      exact ⟨a, sym, rfl, perform_symbol _ _ _ _ _ _ _ _ _ _ hp⟩

/-- The lexer and the lookahead of a turn: those of the state, or the next token
of the stream. -/
theorem turn_lexer (p : Parser Replay) (a : Option Entry) (sym : Option Token) (lx : Replay)
    (h : turn p = some (.ok (a, sym, lx))) :
    (lx = p.lexer ∧ sym = p.symbol) ∨
    (p.symbol = none ∧ ∃ t, p.lexer.lex = some (.ok (t, lx)) ∧ sym = some (resolve t)) := by
  unfold turn at h
  split at h
  · cases h
  · split at h
    · simp only [Option.some.injEq, Except.ok.injEq, Prod.mk.injEq] at h
      exact Or.inl ⟨h.2.2.symm, h.2.1.symm⟩
    · split at h
      · rename_i symbol hsym
        simp only [Option.some.injEq, Except.ok.injEq, Prod.mk.injEq] at h
        exact Or.inl ⟨h.2.2.symm, by rw [hsym, h.2.1]⟩
      · rename_i hsym
        split at h
        · cases h
        · cases h
        · rename_i t lexer hlex
          simp only [Option.some.injEq, Except.ok.injEq, Prod.mk.injEq] at h
          refine Or.inr ⟨hsym, t, ?_, h.2.1.symm⟩
          rw [hlex, h.2.2]

/-- What `lex` returns on a stream without end-of-input token before its end. -/
theorem replay_lex_cases (r lx : Replay) (t : Token) (h : r.lex = some (.ok (t, lx)))
    (hn : r.toks.noEofToken = true) :
    (resolve t ≠ .num 1 ∧ lx.toks.noEofToken = true ∧ lx.toks.endsEof = r.toks.endsEof ∧
      r.toks.isEof = false) ∨
    (resolve t = .num 1 ∧ r.toks.isEof = true ∧ lx.toks = r.toks) := by
  obtain ⟨y, n, toks⟩ := r
  cases toks with
  | cons t1 y1 n1 rest =>
    simp only [Replay.lex, Option.some.injEq, Except.ok.injEq, Prod.mk.injEq] at h
    obtain ⟨rfl, rfl⟩ := h
    simp only [TokStream.noEofToken, Bool.and_eq_true, bne_iff_ne, ne_eq] at hn
    exact Or.inl ⟨hn.1, hn.2, rfl, rfl⟩
  | eof y1 n1 =>
    simp only [Replay.lex, Option.some.injEq, Except.ok.injEq, Prod.mk.injEq] at h
    obtain ⟨rfl, rfl⟩ := h
    exact Or.inr ⟨rfl, rfl, rfl⟩
  | fail e => cases h
  | stuck => cases h

/-- A successful parse has read its token stream to the end. -/
theorem success_endsEof (fuel : Nat) : ∀ (p : Parser Replay) (A : JSVal),
    p.lexer.toks.noEofToken = true →
    (p.symbol = some (.num 1) → p.lexer.toks.isEof = true) →
    parseLoop replay fuel p = some (.ok A) → p.lexer.toks.endsEof = true := by
  induction fuel with
  | zero => intro p A _ _ h; cases h
  | succ n ih =>
    intro p A hno hsym h
    have isEof_ends : ∀ st : TokStream, st.isEof = true → st.endsEof = true := by
      intro st hst
      cases st <;> first | rfl | cases hst
    unfold parseLoop at h
    cases hs : step replay p with
    | none => rw [hs] at h; cases h
    | some r =>
      cases r with
      | error e => rw [hs] at h; cases h
      | ok x =>
        cases x with
        | inr B =>
          obtain ⟨a, lx, ht⟩ := step_ret p B hs
          rcases turn_lexer p a _ lx ht with ⟨_, hsy⟩ | ⟨_, t, hlex, hsy⟩
          · exact isEof_ends _ (hsym hsy.symm)
          · simp only [Option.some.injEq] at hsy
            rcases replay_lex_cases _ _ _ hlex hno with ⟨hne, _⟩ | ⟨_, he, _⟩
            · exact absurd hsy.symm hne
            · exact isEof_ends _ he
        | inl p1 =>
          rw [hs] at h
          simp only at h
          obtain ⟨a, sym, ht, hsy1⟩ := step_next p p1 hs
          rcases turn_lexer p a sym _ ht with ⟨hl, hsy⟩ | ⟨_, t, hlex, hsy⟩
          · rw [← hl]
            refine ih p1 A (by rw [hl]; exact hno) ?_ h
            intro h1
            rw [hl]
            rcases hsy1 with h2 | h2
            · exact hsym (by rw [← hsy, ← h2, h1])
            · rw [h2] at h1; cases h1
          · rcases replay_lex_cases _ _ _ hlex hno with ⟨hne, hno1, hends, _⟩ | ⟨_, he, htoks⟩
            · rw [← hends]
              refine ih p1 A hno1 ?_ h
              intro h1
              rcases hsy1 with h2 | h2
              · rw [h2, hsy] at h1
                simp only [Option.some.injEq] at h1
                exact absurd h1 hne
              · rw [h2] at h1; cases h1
            · exact isEof_ends _ he

/-! ## After the end of the stream -/

theorem perform_noshift (a : Option Entry) (hs : ∀ e, a = some e → isShift e = false)
    (stack : List Nat) (vstack : List JSVal) (sym : Option Token) (y1 y2 : JSVal)
    (l1 m1 l2 m2 : Nat) :
    outcomeOf (perform a stack vstack sym y1 l1 m1) =
      outcomeOf (perform a stack vstack sym y2 l2 m2) ∧
    ∀ out s1 n1, perform a stack vstack sym y1 l1 m1 = .ok (out, s1, n1) → s1 = sym := by
  unfold perform
  split
  · rename_i rest
    have := hs _ rfl
    cases this
  · split
    · rename_i p rest1
      cases reduce p stack vstack with
      | error e => exact ⟨rfl, fun _ _ _ h => by cases h⟩
      | ok out1 =>
        refine ⟨rfl, fun _ _ _ h => ?_⟩
        simp only [Except.map, Except.ok.injEq, Prod.mk.injEq] at h
        exact h.2.1.symm
    · exact ⟨rfl, fun _ _ _ h => by cases h⟩
  · exact ⟨rfl, fun _ _ _ h => by cases h; rfl⟩
  · exact ⟨rfl, fun _ _ _ h => by cases h⟩
  · exact ⟨rfl, fun _ _ _ h => by cases h⟩
  · exact ⟨rfl, fun _ _ _ h => by cases h⟩
  · exact ⟨rfl, fun _ _ _ h => by cases h⟩
  · exact ⟨rfl, fun _ _ _ h => by cases h; rfl⟩

theorem turn_known (p : Parser Replay) (sym : Token) (state : Nat) (rest : List Nat)
    (hstack : p.stack = state :: rest) (hsym : p.symbol = some sym) :
    turn p = some (.ok (actionAt p.stack sym, some sym, p.lexer)) := by
  unfold turn actionAt
  rw [hstack]
  simp only [hsym]
  cases defaultActions state <;> rfl

theorem step_known (p : Parser Replay) (sym : Token) (state : Nat) (rest : List Nat)
    (hstack : p.stack = state :: rest) (hsym : p.symbol = some sym) :
    step replay p = finish p.lexer (perform (actionAt p.stack sym) p.stack p.vstack (some sym)
      p.lexer.yytext p.lexer.yylineno p.yylineno) := by
  rw [step_eq_turn, turn_known p sym state rest hstack hsym]

theorem step_nil (p : Parser Replay) (hstack : p.stack = []) :
    step replay p = some (.error .unmodelled) := by
  unfold step
  rw [hstack]

theorem actionAt_eof_noshift (stack : List Nat) :
    ∀ e, actionAt stack (.num 1) = some e → isShift e = false := by
  intro e he
  unfold actionAt at he
  split at he
  · cases he
  · rename_i state rest
    split at he
    · rename_i action hd
      cases he
      unfold defaultActions at hd
      split at hd
      · cases hd; rfl
      · cases hd
    · exact no_shift_at_eof state e he

theorem finish_outcome (lx1 lx2 : Replay)
    (r1 r2 : Except ParseError (Outcome × Option Token × Nat))
    (h : outcomeOf r1 = outcomeOf r2) (A : JSVal) :
    (finish lx1 r1 = some (.ok (.inr A)) → finish lx2 r2 = some (.ok (.inr A))) ∧
    (∀ p1, finish lx1 r1 = some (.ok (.inl p1)) →
      ∃ p2, finish lx2 r2 = some (.ok (.inl p2)) ∧ p2.stack = p1.stack ∧
        p2.vstack = p1.vstack ∧ p2.symbol = p1.symbol ∧ p2.lexer = lx2) := by
  cases r1 with
  | error e1 =>
    exact ⟨fun h1 => (by cases h1), fun _ h1 => (by cases h1)⟩
  | ok x1 =>
    obtain ⟨out1, s1, n1⟩ := x1
    cases r2 with
    | error e2 => cases h
    | ok x2 =>
      obtain ⟨out2, s2, n2⟩ := x2
      simp only [outcomeOf, Option.some.injEq, Prod.mk.injEq] at h
      obtain ⟨rfl, rfl⟩ := h
      cases out1 with
      | ret r =>
        exact ⟨fun h1 => (by cases h1; rfl), fun _ h1 => (by cases h1)⟩
      | next st vs =>
        refine ⟨fun h1 => (by cases h1), fun p1 h1 => ?_⟩
        simp only [finish, Option.some.injEq, Except.ok.injEq, Sum.inl.injEq] at h1
        subst h1
        exact ⟨_, rfl, rfl, rfl, rfl, rfl⟩

/-- Two runs with the same stacks and the end of input as lookahead end with the
same value: the lexer is not read any more. -/
theorem parseLoop_at_eof (fuel : Nat) : ∀ (p1 p2 : Parser Replay) (A : JSVal),
    p1.stack = p2.stack → p1.vstack = p2.vstack → p1.symbol = some (.num 1) →
    p2.symbol = some (.num 1) → parseLoop replay fuel p1 = some (.ok A) →
    parseLoop replay fuel p2 = some (.ok A) := by
  induction fuel with
  | zero => intro p1 p2 A _ _ _ _ h; cases h
  | succ n ih =>
    intro p1 p2 A hst hvs hs1 hs2 h
    cases hstack : p1.stack with
    | nil =>
      unfold parseLoop at h
      rw [step_nil p1 hstack] at h
      cases h
    | cons state rest =>
      have hstack2 : p2.stack = state :: rest := by rw [← hst, hstack]
      unfold parseLoop at h ⊢
      rw [step_known p1 (.num 1) state rest hstack hs1] at h
      rw [step_known p2 (.num 1) state rest hstack2 hs2]
      have hp := perform_noshift (actionAt p1.stack (.num 1)) (actionAt_eof_noshift _) p1.stack
        p1.vstack (some (.num 1)) p1.lexer.yytext p2.lexer.yytext p1.lexer.yylineno p1.yylineno
        p2.lexer.yylineno p2.yylineno
      rw [← hst, ← hvs]
      have hf := finish_outcome p1.lexer p2.lexer _ _ hp.1
      cases hfin : finish p1.lexer (perform (actionAt p1.stack (.num 1)) p1.stack p1.vstack
          (some (.num 1)) p1.lexer.yytext p1.lexer.yylineno p1.yylineno) with
      | none => rw [hfin] at h; cases h
      | some r =>
        cases r with
        | error e => rw [hfin] at h; cases h
        | ok x =>
          cases x with
          | inr B =>
            rw [hfin] at h
            simp only [Option.some.injEq, Except.ok.injEq] at h
            subst h
            rw [(hf B).1 hfin]
          | inl q1 =>
            rw [hfin] at h
            simp only at h
            obtain ⟨q2, hq2, h1, h2, h3, _⟩ := (hf A).2 q1 hfin
            rw [hq2]
            simp only
            obtain ⟨m1, hperf, _⟩ := finish_next _ _ _ hfin
            have hsymq1 : q1.symbol = some (.num 1) := hp.2 _ _ _ hperf
            exact ih q1 q2 A h1.symm h2.symm hsymq1 (by rw [h3, hsymq1]) h

/-! ## Replacing the end of the token stream -/

theorem step_lex (p : Parser Replay) (state : Nat) (rest : List Nat)
    (hstack : p.stack = state :: rest) (hd : defaultActions state = none)
    (hsym : p.symbol = none) (t : Token) (lx : Replay)
    (hl : p.lexer.lex = some (.ok (t, lx))) :
    step replay p = step replay { p with symbol := some (resolve t), lexer := lx } := by
  rw [step_eq_turn, step_eq_turn]
  unfold turn
  simp only [hstack, hd, hsym, hl]

theorem step_lex_error (p : Parser Replay) (state : Nat) (rest : List Nat)
    (hstack : p.stack = state :: rest) (hd : defaultActions state = none)
    (hsym : p.symbol = none) (e : ParseError)
    (hl : p.lexer.lex = some (.error e)) :
    step replay p = some (.error e) := by
  rw [step_eq_turn]
  unfold turn
  simp only [hstack, hd, hsym, hl]

theorem parseLoop_lex (fuel : Nat) (p : Parser Replay) (state : Nat) (rest : List Nat)
    (hstack : p.stack = state :: rest) (hd : defaultActions state = none)
    (hsym : p.symbol = none) (t : Token) (lx : Replay)
    (hl : p.lexer.lex = some (.ok (t, lx))) :
    parseLoop replay fuel p =
      parseLoop replay fuel { p with symbol := some (resolve t), lexer := lx } := by
  cases fuel with
  | zero => rfl
  | succ n =>
    unfold parseLoop
    rw [step_lex p state rest hstack hd hsym t lx hl]

theorem turn_default (p : Parser Replay) (state : Nat) (rest : List Nat)
    (hstack : p.stack = state :: rest) (a : Entry) (hd : defaultActions state = some a) :
    turn p = some (.ok (some a, p.symbol, p.lexer)) := by
  unfold turn
  simp only [hstack, hd]

/-- A turn either does not read the end of the stream, or it is at the end of the
stream and has to read the lookahead. -/
theorem graft_cases (p : Parser Replay) :
    (p.symbol ≠ none ∨ p.lexer.toks.isEof = false ∨
      (∀ state rest, p.stack = state :: rest → defaultActions state ≠ none)) ∨
    (∃ state rest y n, p.stack = state :: rest ∧ defaultActions state = none ∧
      p.symbol = none ∧ p.lexer.toks = .eof y n) := by
  obtain ⟨stack, vstack, symbol, yylineno, ⟨y, n, toks⟩⟩ := p
  cases symbol with
  | some s => exact Or.inl (Or.inl (by simp))
  | none =>
    cases toks with
    | eof y1 n1 =>
      cases stack with
      | nil => exact Or.inl (Or.inr (Or.inr (fun _ _ h => by cases h)))
      | cons state rest =>
        cases hd : defaultActions state with
        | none => exact Or.inr ⟨state, rest, y1, n1, rfl, hd, rfl, rfl⟩
        | some a =>
          refine Or.inl (Or.inr (Or.inr (fun s r h => ?_)))
          cases h
          rw [hd]
          simp
    | cons t1 y1 n1 rest1 => exact Or.inl (Or.inr (Or.inl rfl))
    | fail e => exact Or.inl (Or.inr (Or.inl rfl))
    | stuck => exact Or.inl (Or.inr (Or.inl rfl))

theorem parseLoop_graft_succ (f : Nat → TokStream) (p : Parser Replay) (n : Nat)
    (hc : p.symbol ≠ none ∨ p.lexer.toks.isEof = false ∨
      (∀ state rest, p.stack = state :: rest → defaultActions state ≠ none)) :
    parseLoop replay (n + 1) (graft f p) =
      match step replay p with
      | none => none
      | some (.error e) => some (.error e)
      | some (.ok (.inr r)) => some (.ok r)
      | some (.ok (.inl p1)) => parseLoop replay n (graft f p1) := by
  rw [parseLoop, step_graft f p hc]
  cases step replay p with
  | none => rfl
  | some r =>
    cases r with
    | error e => rfl
    | ok x =>
      cases x with
      | inl p1 => rfl
      | inr B => rfl

/-- A parse that succeeds also succeeds, with the same value, when the end of the
token stream is replaced by another end. -/
theorem parseLoop_graft_eof (f : Nat → TokStream) (hf : ∀ n, (f n).isEof = true) (fuel : Nat) :
    ∀ (p : Parser Replay) (A : JSVal), parseLoop replay fuel p = some (.ok A) →
      parseLoop replay fuel (graft f p) = some (.ok A) := by
  induction fuel with
  | zero => intro p A h; cases h
  | succ n ih =>
    intro p A h
    rcases graft_cases p with hc | ⟨state, rest, y, m, hstack, hd, hsym, htoks⟩
    · rw [parseLoop_graft_succ f p n hc]
      rw [parseLoop] at h
      cases hs : step replay p with
      | none => rw [hs] at h; cases h
      | some r =>
        cases r with
        | error e => rw [hs] at h; cases h
        | ok x =>
          cases x with
          | inr B => rw [hs] at h; exact h
          | inl p1 =>
            rw [hs] at h
            exact ih p1 A h
    · have hl1 : p.lexer.lex = some (.ok (.num 1, { yytext := y, yylineno := m, toks := .eof y m })) := by
        unfold Replay.lex
        rw [htoks]
      obtain ⟨y2, m2, hf2⟩ : ∃ y2 m2, f m = .eof y2 m2 := by
        have := hf m
        cases hfm : f m with
        | eof y2 m2 => exact ⟨y2, m2, rfl⟩
        | cons _ _ _ _ => rw [hfm] at this; cases this
        | fail _ => rw [hfm] at this; cases this
        | stuck => rw [hfm] at this; cases this
      have hl2 : (graft f p).lexer.lex =
          some (.ok (.num 1, { yytext := y2, yylineno := m2, toks := .eof y2 m2 })) := by
        unfold Replay.lex graft
        simp only [htoks, TokStream.bindEof, hf2]
      rw [parseLoop_lex (n + 1) p state rest hstack hd hsym _ _ hl1] at h
      rw [parseLoop_lex (n + 1) (graft f p) state rest hstack hd hsym _ _ hl2]
      exact parseLoop_at_eof (n + 1)
        { p with symbol := some (resolve (.num 1)),
                 lexer := { yytext := y, yylineno := m, toks := .eof y m } } _ A rfl rfl rfl rfl h

/-- While the turns do not read the end of the stream, no turn returns, and the
stream has no end-of-input token before its end. -/
theorem lockstep_invariant (p : Parser Replay)
    (hc : p.symbol ≠ none ∨ p.lexer.toks.isEof = false ∨
      (∀ state rest, p.stack = state :: rest → defaultActions state ≠ none))
    (hno : p.lexer.toks.noEofToken = true) (hsym : p.symbol ≠ some (.num 1)) :
    (∀ B, step replay p ≠ some (.ok (.inr B))) ∧
    (∀ p1, step replay p = some (.ok (.inl p1)) →
      p1.lexer.toks.noEofToken = true ∧ p1.symbol ≠ some (.num 1)) := by
  have key : ∀ a sym lx, turn p = some (.ok (a, sym, lx)) →
      sym ≠ some (.num 1) ∧ lx.toks.noEofToken = true := by
    intro a sym lx ht
    rcases turn_lexer p a sym lx ht with ⟨hl, hsy⟩ | ⟨hnone, t, hlex, hsy⟩
    · rw [hl, hsy]
      exact ⟨hsym, hno⟩
    · rcases replay_lex_cases _ _ _ hlex hno with ⟨hne, hno1, _, _⟩ | ⟨_, he, _⟩
      · refine ⟨?_, hno1⟩
        rw [hsy]
        intro h1
        simp only [Option.some.injEq] at h1
        exact hne h1
      · rcases hc with h1 | h1 | h1
        · exact absurd hnone h1
        · rw [he] at h1
          cases h1
        · cases hstack : p.stack with
          | nil =>
            unfold turn at ht
            rw [hstack] at ht
            cases ht
          | cons state rest =>
            cases hd : defaultActions state with
            | none => exact absurd hd (h1 state rest hstack)
            | some a0 =>
              rw [turn_default p state rest hstack a0 hd] at ht
              simp only [Option.some.injEq, Except.ok.injEq, Prod.mk.injEq] at ht
              rw [← ht.2.1, hnone] at hsy
              cases hsy
  constructor
  · intro B hs
    obtain ⟨a, lx, ht⟩ := step_ret p B hs
    exact (key _ _ _ ht).1 rfl
  · intro p1 hs
    obtain ⟨a, sym, ht, hsy1⟩ := step_next p p1 hs
    have hk := key _ _ _ ht
    refine ⟨hk.2, ?_⟩
    rcases hsy1 with h2 | h2
    · rw [h2]
      exact hk.1
    · rw [h2]
      simp

/-- A parse that succeeds fails with the lexical error when the end of the token
stream is replaced by a lexical error. -/
theorem parseLoop_graft_fail (f : Nat → TokStream) (hf : ∀ n, f n = .fail (.lexError n))
    (fuel : Nat) :
    ∀ (p : Parser Replay) (A : JSVal), p.lexer.toks.noEofToken = true →
      p.symbol ≠ some (.num 1) → parseLoop replay fuel p = some (.ok A) →
      ∃ line, parseLoop replay fuel (graft f p) = some (.error (.lexError line)) := by
  induction fuel with
  | zero => intro p A _ _ h; cases h
  | succ n ih =>
    intro p A hno hsy h
    rcases graft_cases p with hc | ⟨state, rest, y, m, hstack, hd, hsym, htoks⟩
    · rw [parseLoop_graft_succ f p n hc]
      have hinv := lockstep_invariant p hc hno hsy
      rw [parseLoop] at h
      cases hs : step replay p with
      | none => rw [hs] at h; cases h
      | some r =>
        cases r with
        | error e => rw [hs] at h; cases h
        | ok x =>
          cases x with
          | inr B => exact absurd hs (hinv.1 B)
          | inl p1 =>
            rw [hs] at h
            obtain ⟨h1, h2⟩ := hinv.2 p1 hs
            exact ih p1 A h1 h2 h
    · have hl2 : (graft f p).lexer.lex = some (.error (.lexError m)) := by
        unfold Replay.lex graft
        simp only [htoks, TokStream.bindEof, hf]
      refine ⟨m, ?_⟩
      rw [parseLoop, step_lex_error (graft f p) state rest hstack hd hsym _ hl2]

/-! ## Comments at the end of a script -/

theorem symbols_ne_eof (s : String) : symbols_ s ≠ some 1 := by
  unfold symbols_
  simp only [List.lookup]
  repeat (split; · simp)
  simp

theorem lexerAction_resolve (rule : Nat) (text : String) (t : Token)
    (h : (lexerAction rule text).1 = some t) : resolve t ≠ .num 1 := by
  unfold lexerAction at h
  split at h <;> simp only [Option.some.injEq] at h <;> try (subst h; simp [resolve])
  all_goals try cases h
  have := symbols_ne_eof text
  cases hs : symbols_ text with
  | none => simp
  | some n =>
    simp only [Token.num.injEq]
    rintro rfl
    exact this hs

/-- The lexer returns the end-of-input token at the end of the text only. -/
theorem tokenize_noEofToken (N : Nat) : ∀ (u : List Char) (y : JSVal) (n : Nat), u.length ≤ N →
    (tokenize { _input := u, yytext := y, yylineno := n, done := false }).noEofToken = true := by
  induction N using Nat.strong_induction_on with
  | _ N ih =>
    intro u y n hlen
    by_cases hu : u = []
    · subst hu
      rfl
    · rw [tokenize_nonempty u hu]
      cases hf : firstMatch rules 0 u with
      | none => rfl
      | some im =>
        obtain ⟨i, m⟩ := im
        simp only
        have hpos : 0 < m.length :=
          List.length_pos.mpr (firstMatch_ne_nil rules rules_ne_nil 0 u i m hf)
        have hulen : 0 < u.length := List.length_pos.mpr hu
        have hrec := ih (N - 1) (by omega) (u.drop m.length) (.str "") (n + lineBreaks m)
          (by simp only [List.length_drop]; omega)
        cases ha : (lexerAction i (String.mk m)).1 with
        | none => exact hrec
        | some t =>
          simp only [TokStream.noEofToken, Bool.and_eq_true, bne_iff_ne, ne_eq]
          exact ⟨lexerAction_resolve i _ t ha, hrec⟩

theorem not_lineTerminator (c : Char) (h : isLineTerminator c = false) :
    c ≠ '\r' ∧ c ≠ '\n' := by
  constructor
  · rintro rfl
    cases h
  · rintro rfl
    cases h

theorem lineBreaks_line (u : List Char) (h : ∀ c ∈ u, isLineTerminator c = false) :
    lineBreaks (u ++ ['\n']) = 1 := by
  induction u with
  | nil => rfl
  | cons c t ih =>
    have hc := not_lineTerminator c (h c (List.mem_cons_self _ _))
    have ht := ih (fun x hx => h x (List.mem_cons_of_mem _ hx))
    cases t with
    | nil => simp [lineBreaks, hc.1, hc.2]
    | cons d r =>
      rw [List.cons_append]
      simp only [lineBreaks, hc.1, hc.2, false_and, Bool.false_and, decide_False,
        Bool.or_self, Bool.false_eq_true, ↓reduceIte]
      exact ht

theorem takeWhile_all (p : Char → Bool) (t : List Char) (h : ∀ c ∈ t, p c = true) :
    t.takeWhile p = t := by
  induction t with
  | nil => rfl
  | cons c u ih =>
    rw [List.takeWhile_cons, h c (List.mem_cons_self _ _),
      ih (fun x hx => h x (List.mem_cons_of_mem _ hx))]
    rfl

theorem comment_body (t : List Char) (b : Char) (x : List Char)
    (ht : ∀ c ∈ t, isLineTerminator c = false) (hb : isLineTerminator b = true) :
    (t ++ b :: x).takeWhile (fun d => !isLineTerminator d) = t := by
  rw [takeWhile_append_barrier _ t b x (by simp [hb])]
  exact takeWhile_all _ t (fun c hc => by simp [ht c hc])

/-- A comment closed by a line feed is skipped; the line count goes up by one. -/
theorem tokenize_comment_lf (t : List Char) (ht : ∀ c ∈ t, isLineTerminator c = false)
    (y : JSVal) (n : Nat) :
    tokenize { _input := '#' :: (t ++ ['\n']), yytext := y, yylineno := n, done := false } =
      .eof (.str "") (n + 1) := by
  have hr : rule0 ('#' :: (t ++ ['\n'])) = some ('#' :: t ++ ['\n']) := by
    simp only [rule0, ↓reduceIte]
    rw [comment_body t '\n' [] ht rfl]
    simp
  rw [tokenize_nonempty _ (by simp), firstMatch_hash, hr]
  simp only [Option.map_some']
  have ha : ∀ m : String, (lexerAction 0 m).1 = none := fun _ => rfl
  rw [ha]
  simp only
  have hl : lineBreaks ('#' :: t ++ ['\n']) = 1 :=
    lineBreaks_line ('#' :: t) (fun c hc => by
      rcases List.mem_cons.mp hc with h | h
      · rw [h]; rfl
      · exact ht c h)
  rw [hl]
  have hd : ('#' :: (t ++ ['\n'])).drop ('#' :: t ++ ['\n']).length = [] := by simp
  rw [hd]
  rfl

/-- A comment at the end of the input is a lexical error. -/
theorem tokenize_comment_end (t : List Char) (ht : ∀ c ∈ t, isLineTerminator c = false)
    (y : JSVal) (n : Nat) :
    tokenize { _input := '#' :: t, yytext := y, yylineno := n, done := false } =
      .fail (.lexError n) := by
  have hr : rule0 ('#' :: t) = none := by
    simp only [rule0, ↓reduceIte]
    rw [takeWhile_all _ t (fun c hc => by simp [ht c hc])]
    simp
  rw [tokenize_nonempty _ (by simp), firstMatch_hash, hr]
  rfl

/-- A comment closed by a carriage return and a line feed is a lexical error. -/
theorem tokenize_comment_crlf (t : List Char) (ht : ∀ c ∈ t, isLineTerminator c = false)
    (y : JSVal) (n : Nat) :
    tokenize { _input := '#' :: (t ++ ['\r', '\n']), yytext := y, yylineno := n, done := false } =
      .fail (.lexError n) := by
  have hr : rule0 ('#' :: (t ++ ['\r', '\n'])) = none := by
    simp only [rule0, ↓reduceIte]
    rw [comment_body t '\r' ['\n'] ht rfl]
    simp
  rw [tokenize_nonempty _ (by simp), firstMatch_hash, hr]
  rfl

/-- The parse of a text followed by a text that starts with `#`, when the text
parses: the run on the token stream of the text with its end replaced. -/
theorem parse_hash_ext (s : List Char) (x : List Char) (A : JSVal) (fuel : Nat)
    (hs : parseTokens fuel (tokenize (lexerAt s 0)) = some (.ok A)) :
    parseTokens fuel (tokenize (lexerAt (s ++ '#' :: x) 0)) =
      parseLoop replay fuel (graft (fun n1 => tokenize (lexerAt ('#' :: x) n1))
        (initial { yytext := .str "", yylineno := 0, toks := tokenize (lexerAt s 0) })) := by
  have hno := tokenize_noEofToken s.length s (.str "") 0 (Nat.le_refl _)
  have hends := success_endsEof fuel
    (initial { yytext := .str "", yylineno := 0, toks := tokenize (lexerAt s 0) }) A
    hno (fun h => (by cases h)) hs
  unfold lexerAt at hends ⊢
  rw [tokenize_ext '#' x rfl s.length s (.str "") 0 (Nat.le_refl _) (Or.inl hends)]
  rfl

/-- C28: for every script `s` that parses to `A` and every comment text `t` without
line terminator (line feed, carriage return, U+2028, U+2029), `s` followed by
`#t` and a line feed parses to `A` as well, with the same fuel, whereas `s`
followed by `#t` at the end of the input, and `s` followed by `#t`, a carriage
return and a line feed, fail with the lexical error. -/
theorem C28_comment_line_feed (s t : String) (A : JSVal) (fuel : Nat)
    (hs : parse fuel s = some (.ok A))
    (ht : ∀ c ∈ t.data, isLineTerminator c = false) :
    parse fuel (s ++ "#" ++ t ++ "\n") = some (.ok A) ∧
    (∃ line, parse fuel (s ++ "#" ++ t) = some (.error (.lexError line))) ∧
    (∃ line, parse fuel (s ++ "#" ++ t ++ "\r\n") = some (.error (.lexError line))) := by
  rw [parse_eq_parseTokens] at hs
  have hs1 : parseTokens fuel (tokenize (lexerAt s.data 0)) = some (.ok A) := hs
  have hno := tokenize_noEofToken s.data.length s.data (.str "") 0 (Nat.le_refl _)
  have d1 : setInput (s ++ "#" ++ t ++ "\n") = lexerAt (s.data ++ '#' :: (t.data ++ ['\n'])) 0 := by
    simp [setInput, lexerAt, String.data_append]
  have d2 : setInput (s ++ "#" ++ t) = lexerAt (s.data ++ '#' :: t.data) 0 := by
    simp [setInput, lexerAt, String.data_append]
  have d3 : setInput (s ++ "#" ++ t ++ "\r\n") =
      lexerAt (s.data ++ '#' :: (t.data ++ ['\r', '\n'])) 0 := by
    simp [setInput, lexerAt, String.data_append]
  refine ⟨?_, ?_, ?_⟩
  · rw [parse_eq_parseTokens, d1, parse_hash_ext s.data _ A fuel hs1]
    exact parseLoop_graft_eof _ (fun n => by
      show (tokenize (lexerAt ('#' :: (t.data ++ ['\n'])) n)).isEof = true
      unfold lexerAt
      rw [tokenize_comment_lf t.data ht]
      rfl) fuel _ A hs1
  · rw [parse_eq_parseTokens, d2, parse_hash_ext s.data _ A fuel hs1]
    exact parseLoop_graft_fail _ (fun n => tokenize_comment_end t.data ht _ n) fuel _ A hno
      (fun h => (by cases h)) hs1
  · rw [parse_eq_parseTokens, d3, parse_hash_ext s.data _ A fuel hs1]
    exact parseLoop_graft_fail _ (fun n => tokenize_comment_crlf t.data ht _ n) fuel _ A hno
      (fun h => (by cases h)) hs1

theorem C28_comment_line_feed_witness :
    parse 64 "x = 1;" = some (.ok (Ast.seq [Ast.set "x" (.num (.int 1))])) ∧
    (parse 64 ("x = 1;" ++ "#" ++ "note" ++ "\n") =
        some (.ok (Ast.seq [Ast.set "x" (.num (.int 1))])) ∧
      (∃ line, parse 64 ("x = 1;" ++ "#" ++ "note") = some (.error (.lexError line))) ∧
      (∃ line, parse 64 ("x = 1;" ++ "#" ++ "note" ++ "\r\n") =
        some (.error (.lexError line)))) :=
  ⟨by rfl, C28_comment_line_feed "x = 1;" "note" _ 64 (by rfl) (by decide)⟩

theorem semicolonTableOK_eq : semicolonTableOK = true := by decide

theorem isReduceBy_eq (e : Option Entry) (p : Nat) (h : isReduceBy e p = true) :
    e = some (.arr [2, p]) := by
  unfold isReduceBy at h
  split at h
  · rw [beq_iff_eq] at h
    rw [h]
  · cases h

theorem semicolon_entry (state : Nat) (e : Entry) (h : tableEntry state 7 = some e) :
    (∃ s, e = .arr [1, s] ∧ (tableEntry state 1 = none ∨
      (tableEntry state 1 = some (.arr [2, 4]) ∧ tableEntry s 1 = some (.arr [2, 5]) ∧
        defaultActions s = none))) ∨
    (∃ p, e = .arr [2, p] ∧ (tableEntry state 1 = none ∨
      tableEntry state 1 = some (.arr [2, p]))) := by
  unfold tableEntry at h ⊢
  cases hr : table.get? state with
  | none => rw [hr] at h; cases h
  | some row =>
    rw [hr] at h
    simp only at h ⊢
    have hall := semicolonTableOK_eq
    simp only [semicolonTableOK, List.all_eq_true] at hall
    have hrow := hall row (List.get?_mem hr)
    rw [h] at hrow
    split at hrow
    · rename_i heq; cases heq
    · rename_i s heq
      simp only [Option.some.injEq] at heq
      subst heq
      refine Or.inl ⟨s, rfl, ?_⟩
      simp only [Bool.or_eq_true, Option.isNone_iff_eq_none, Bool.and_eq_true, bne_iff_ne,
        ne_eq] at hrow
      rcases hrow with h1 | ⟨⟨h1, h2⟩, h3⟩
      · exact Or.inl h1
      · refine Or.inr ⟨isReduceBy_eq _ _ h1, ?_, ?_⟩
        · have := isReduceBy_eq _ _ h2
          unfold tableEntry at this
          exact this
        · unfold defaultActions
          rw [if_neg h3]
    · rename_i p heq
      simp only [Option.some.injEq] at heq
      subst heq
      refine Or.inr ⟨p, rfl, ?_⟩
      simp only [Bool.or_eq_true, Option.isNone_iff_eq_none] at hrow
      rcases hrow with h1 | h1
      · exact Or.inl h1
      · exact Or.inr (isReduceBy_eq _ _ h1)
    · cases hrow

theorem step_known_reduce (q : Parser Replay) (sym : Token) (state : Nat) (rest : List Nat)
    (hstack : q.stack = state :: rest) (hsym : q.symbol = some sym) (p : Nat)
    (ha : actionAt q.stack sym = some (.arr [2, p])) :
    step replay q =
      match reduce p q.stack q.vstack with
      | .error e => some (.error e)
      | .ok (.ret r) => some (.ok (.inr r))
      | .ok (.next st vs) =>
        some (.ok (.inl { stack := st, vstack := vs, symbol := some sym,
                          yylineno := q.yylineno, lexer := q.lexer })) := by
  rw [step_known q sym state rest hstack hsym, ha]
  show finish _ ((reduce p q.stack q.vstack).map _) = _
  cases reduce p q.stack q.vstack with
  | error e => rfl
  | ok out =>
    cases out with
    | ret r => rfl
    | next st vs => rfl

theorem step_known_none (q : Parser Replay) (sym : Token) (state : Nat) (rest : List Nat)
    (hstack : q.stack = state :: rest) (hsym : q.symbol = some sym)
    (ha : actionAt q.stack sym = none) :
    step replay q = some (.error (.syntaxError q.yylineno (some sym) q.lexer.yylineno
      (expected (q.stack.headD 0)))) := by
  rw [step_known q sym state rest hstack hsym, ha]
  rfl

theorem step_known_shift (q : Parser Replay) (k : Nat) (state : Nat) (rest : List Nat)
    (hstack : q.stack = state :: rest) (hsym : q.symbol = some (.num k)) (s : Nat)
    (ha : actionAt q.stack (.num k) = some (.arr [1, s])) :
    step replay q =
      some (.ok (.inl { stack := s :: k :: q.stack, vstack := q.lexer.yytext :: q.vstack,
                        symbol := none, yylineno := q.lexer.yylineno, lexer := q.lexer })) := by
  rw [step_known q (.num k) state rest hstack hsym, ha]
  rfl

theorem reduce_5_4 (s k : Nat) (stack : List Nat) (y : JSVal) (vstack : List JSVal) :
    reduce 5 (s :: k :: stack) (y :: vstack) = reduce 4 stack vstack := by
  unfold reduce
  have h5 : productions_.get? 5 = some (5, 2) := rfl
  have h4 : productions_.get? 4 = some (5, 1) := rfl
  have p5 : performAction 5 (y :: vstack) = .ok (vstack.getD 0 .undefined, none) := rfl
  have p4 : performAction 4 vstack = .ok (vstack.getD 0 .undefined, none) := rfl
  rw [h5, h4, p5, p4]
  rfl

theorem actionAt_table (state : Nat) (rest : List Nat) (sym : Token)
    (hd : defaultActions state = none) :
    actionAt (state :: rest) sym = actionFor state sym := by
  unfold actionAt
  simp only [hd]

theorem exprStatesOK_eq : exprStatesOK = true := by decide

theorem exprProductionsOK_eq : exprProductionsOK = true := by decide

theorem tableEntry_enum (state symbol : Nat) (e : Entry)
    (h : tableEntry state symbol = some e) :
    ∃ row, (state, row) ∈ table.enum ∧ (symbol, e) ∈ row := by
  unfold tableEntry at h
  cases hr : table.get? state with
  | none => rw [hr] at h; cases h
  | some row =>
    rw [hr] at h
    exact ⟨row, List.mk_mem_enum_iff_getElem?.mpr (by rw [← List.get?_eq_getElem?]; exact hr), lookup_mem row symbol e h⟩

theorem shift_not_exprState (state n ns : Nat) (tl : List Nat)
    (h : tableEntry state n = some (.arr (1 :: ns :: tl))) : isExprState ns = false := by
  obtain ⟨row, hrow, hmem⟩ := tableEntry_enum state n _ h
  have hall := exprStatesOK_eq
  simp only [exprStatesOK, List.all_eq_true] at hall
  have := hall (state, row) hrow (n, _) hmem
  simpa using this

theorem reduce_expr_state (state n p : Nat) (tl : List Nat)
    (h : tableEntry state n = some (.arr (2 :: p :: tl)))
    (hp : p = 8 ∨ p = 9 ∨ p = 10) : isExprState state = true := by
  obtain ⟨row, hrow, hmem⟩ := tableEntry_enum state n _ h
  have hall := exprStatesOK_eq
  simp only [exprStatesOK, List.all_eq_true] at hall
  have := hall (state, row) hrow (n, _) hmem
  simp only [Bool.and_eq_true, Bool.or_eq_true, bne_iff_ne, ne_eq, beq_iff_eq] at this
  obtain ⟨⟨h8, h9⟩, h10⟩ := this
  unfold isExprState
  simp only [Bool.or_eq_true, beq_iff_eq]
  rcases hp with rfl | rfl | rfl
  · rcases h8 with h | h
    · exact absurd rfl h
    · omega
  · rcases h9 with h | h
    · exact absurd rfl h
    · omega
  · rcases h10 with h | h
    · exact absurd rfl h
    · omega

theorem goto_exprState (below lhs g : Nat) (h : tableEntry below lhs = some (.num g))
    (hg : isExprState g = true) : lhs = 6 ∨ lhs = 12 ∨ lhs = 13 ∨ lhs = 14 := by
  obtain ⟨row, hrow, hmem⟩ := tableEntry_enum below lhs _ h
  have hall := exprStatesOK_eq
  simp only [exprStatesOK, List.all_eq_true] at hall
  have := hall (below, row) hrow (lhs, _) hmem
  simp only [Bool.and_eq_true, Bool.or_eq_true, bne_iff_ne, ne_eq, beq_iff_eq] at this
  unfold isExprState at hg
  simp only [Bool.or_eq_true, beq_iff_eq] at hg
  omega

theorem production_of_lhs (p lhs len : Nat) (h : productions_.get? p = some (lhs, len)) :
    (lhs = 12 → p = 58) ∧ (lhs = 13 → p = 59) ∧ (lhs = 14 → p = 60) ∧
      (lhs = 6 → p = 8 ∨ p = 9 ∨ p = 10) := by
  have hmem : (p, (lhs, len)) ∈ productions_.enum := List.mk_mem_enum_iff_getElem?.mpr (by rw [← List.get?_eq_getElem?]; exact h)
  have hall := exprProductionsOK_eq
  simp only [exprProductionsOK, List.all_eq_true] at hall
  have := hall _ hmem
  simp only [Bool.and_eq_true, Bool.or_eq_true, bne_iff_ne, ne_eq, beq_iff_eq] at this
  omega

/-- What a reduction that goes on leaves on the stacks. -/
theorem reduce_next (p : Nat) (stack : List Nat) (vstack : List JSVal) (st : List Nat)
    (vs : List JSVal) (h : reduce p stack vstack = .ok (.next st vs)) :
    ∃ lhs len yyval below rest g, productions_.get? p = some (lhs, len) ∧
      performAction p vstack = .ok (yyval, none) ∧ stack.drop (2 * len) = below :: rest ∧
      tableEntry below lhs = some (.num g) ∧ st = g :: lhs :: below :: rest ∧
      vs = yyval :: vstack.drop len := by
  unfold reduce at h
  split at h
  · cases h
  · rename_i lhs len hprod
    split at h
    · cases h
    · cases h
    · rename_i yyval hperf
      split at h
      · cases h
      · rename_i below rest hdrop
        split at h
        · rename_i g hgoto
          simp only [Except.ok.injEq, Outcome.next.injEq] at h
          exact ⟨lhs, len, yyval, below, rest, g, hprod, hperf, hdrop, hgoto, h.1.symm, h.2.symm⟩
        · cases h

/-- What a turn that goes on does to the stacks: a shift, a reduction, or nothing. -/
theorem perform_next_cases (a : Option Entry) (stack : List Nat) (vstack : List JSVal)
    (sym : Option Token) (y : JSVal) (l m : Nat) (st : List Nat) (vs : List JSVal)
    (s1 : Option Token) (m1 : Nat)
    (h : perform a stack vstack sym y l m = .ok (.next st vs, s1, m1)) :
    (∃ ns k tl, a = some (.arr (1 :: ns :: tl)) ∧ sym = some (.num k) ∧
      st = ns :: k :: stack ∧ vs = y :: vstack) ∨
    (∃ p tl, a = some (.arr (2 :: p :: tl)) ∧ reduce p stack vstack = .ok (.next st vs)) ∨
    (st = stack ∧ vs = vstack) := by
  unfold perform at h
  split at h
  · split at h
    · rename_i k ns tl
      simp only [Except.ok.injEq, Prod.mk.injEq, Outcome.next.injEq] at h
      exact Or.inl ⟨ns, k, tl, rfl, rfl, h.1.1.symm, h.1.2.symm⟩
    · cases h
  · split at h
    · rename_i p tl
      cases hr : reduce p stack vstack with
      | error e => rw [hr] at h; cases h
      | ok out =>
        rw [hr] at h
        simp only [Except.map, Except.ok.injEq, Prod.mk.injEq] at h
        exact Or.inr (Or.inl ⟨p, tl, rfl, by rw [hr, h.1]⟩)
    · cases h
  · cases h
  · cases h
  · cases h
  · cases h
  · cases h
  · simp only [Except.ok.injEq, Prod.mk.injEq, Outcome.next.injEq] at h
    exact Or.inr (Or.inr ⟨h.1.1.symm, h.1.2.symm⟩)

/-- The action of a turn: the default action of the state, or the table entry of
the state on a token. -/
theorem turn_action (p : Parser Replay) (a : Option Entry) (sym : Option Token) (lx : Replay)
    (h : turn p = some (.ok (a, sym, lx))) :
    ∃ state rest, p.stack = state :: rest ∧
      (a = some (.arr [2, 66]) ∨ ∃ t, a = actionFor state t) := by
  unfold turn at h
  split at h
  · cases h
  · rename_i state rest hstack
    refine ⟨state, rest, hstack, ?_⟩
    split at h
    · rename_i action hd
      simp only [Option.some.injEq, Except.ok.injEq, Prod.mk.injEq] at h
      unfold defaultActions at hd
      split at hd
      · cases hd
        exact Or.inl h.1.symm
      · cases hd
    · split at h
      · rename_i symbol hsym
        simp only [Option.some.injEq, Except.ok.injEq, Prod.mk.injEq] at h
        exact Or.inr ⟨symbol, h.1.symm⟩
      · split at h
        · cases h
        · cases h
        · rename_i t lexer hlex
          simp only [Option.some.injEq, Except.ok.injEq, Prod.mk.injEq] at h
          exact Or.inr ⟨resolve t, h.1.symm⟩

theorem actionFor_some (state : Nat) (t : Token) (e : Entry) (h : actionFor state t = some e) :
    ∃ n, tableEntry state n = some e := by
  unfold actionFor at h
  split at h
  · exact ⟨_, h⟩
  · cases h

theorem step_stacks (p p1 : Parser Replay) (h : step replay p = some (.ok (.inl p1))) :
    ∃ a sym lx s1 m1, turn p = some (.ok (a, sym, lx)) ∧
      perform a p.stack p.vstack sym lx.yytext lx.yylineno p.yylineno =
        .ok (.next p1.stack p1.vstack, s1, m1) := by
  rw [step_eq_turn] at h
  cases ht : turn p with
  | none => rw [ht] at h; cases h
  | some r =>
    cases r with
    | error e => rw [ht] at h; cases h
    | ok x =>
      obtain ⟨a, sym, lx⟩ := x
      rw [ht] at h
      simp only at h
      obtain ⟨m1, hp, _⟩ := finish_next _ _ _ h
      exact ⟨a, sym, lx, _, m1, rfl, hp⟩

theorem action59_node (v3 v1 v0 r : JSVal) (h : action59 v3 v1 v0 = .ok r) :
    opOf r = .str "cond" := by
  unfold action59 at h
  split at h
  · split at h
    · cases h; rfl
    · cases h; rfl
    · cases h
  · cases h

/-- The values of the productions of the expression statements. -/
theorem performAction_expr (p : Nat) (vs : List JSVal) (yyval : JSVal)
    (h : performAction p vs = .ok (yyval, none)) :
    ((p = 58 ∨ p = 59 ∨ p = 60) → IsExprNode yyval) ∧
    ((p = 8 ∨ p = 9 ∨ p = 10) → yyval = vs.getD 0 .undefined) := by
  constructor
  · rintro (rfl | rfl | rfl)
    · have h1 : performAction 58 vs =
          .ok (.obj [("op", .str "switch"), ("cases", vs.getD 1 .undefined)], none) := rfl
      rw [h1] at h
      cases h
      exact Or.inl rfl
    · have h1 : performAction 59 vs =
          (action59 (vs.getD 3 .undefined) (vs.getD 1 .undefined) (vs.getD 0 .undefined)).bind
            (fun r => .ok (r, none)) := rfl
      rw [h1] at h
      cases ha : action59 (vs.getD 3 .undefined) (vs.getD 1 .undefined) (vs.getD 0 .undefined) with
      | error e => rw [ha] at h; cases h
      | ok r =>
        rw [ha] at h
        cases h
        exact Or.inr (Or.inl (action59_node _ _ _ _ ha))
    · have h1 : performAction 60 vs =
          .ok (.obj [("op", .str "return"), ("value", vs.getD 0 .undefined)], none) := rfl
      rw [h1] at h
      cases h
      exact Or.inr (Or.inr rfl)
  · rintro (rfl | rfl | rfl)
    · have h1 : performAction 8 vs = .ok (vs.getD 0 .undefined, none) := rfl
      rw [h1] at h
      cases h
      rfl
    · have h1 : performAction 9 vs = .ok (vs.getD 0 .undefined, none) := rfl
      rw [h1] at h
      cases h
      rfl
    · have h1 : performAction 10 vs = .ok (vs.getD 0 .undefined, none) := rfl
      rw [h1] at h
      cases h
      rfl

/-- A turn keeps the node of an expression statement on top in the states of
`isExprState`. -/
theorem exprTop_step (p p1 : Parser Replay) (h : step replay p = some (.ok (.inl p1)))
    (hp : exprTop p) : exprTop p1 := by
  obtain ⟨a, sym, lx, s1, m1, ht, hperf⟩ := step_stacks p p1 h
  obtain ⟨state, rest, hstack, ha⟩ := turn_action p a sym lx ht
  intro s r1 hs1 hes
  rcases perform_next_cases _ _ _ _ _ _ _ _ _ _ _ hperf with
    ⟨ns, k, tl, ha1, _, hst, _⟩ | ⟨q, tl, ha1, hred⟩ | ⟨hst, hvs⟩
  · rcases ha with ha | ⟨t, ha⟩
    · rw [ha] at ha1
      cases ha1
    · rw [ha1] at ha
      obtain ⟨n, hn⟩ := actionFor_some state t _ ha.symm
      have := shift_not_exprState state n ns tl hn
      rw [hst] at hs1
      cases hs1
      rw [this] at hes
      cases hes
  · obtain ⟨lhs, len, yyval, below, rest2, g, hprod, hact, _, hgoto, hst, hvs⟩ :=
      reduce_next q p.stack p.vstack _ _ hred
    rw [hst] at hs1
    cases hs1
    rw [hvs]
    show IsExprNode yyval
    have hl := goto_exprState below lhs s hgoto hes
    have hq := production_of_lhs q lhs len hprod
    have hv := performAction_expr q p.vstack yyval hact
    rcases hl with rfl | rfl | rfl | rfl
    · have hq1 := hq.2.2.2 rfl
      rw [hv.2 hq1]
      rcases ha with ha | ⟨t, ha⟩
      · rw [ha] at ha1
        simp only [Option.some.injEq, Entry.arr.injEq, List.cons.injEq] at ha1
        omega
      · rw [ha1] at ha
        obtain ⟨n, hn⟩ := actionFor_some state t _ ha.symm
        exact hp state rest hstack (reduce_expr_state state n q tl hn hq1)
    · exact hv.1 (Or.inl (hq.1 rfl))
    · exact hv.1 (Or.inr (Or.inl (hq.2.1 rfl)))
    · exact hv.1 (Or.inr (Or.inr (hq.2.2.1 rfl)))
  · rw [hvs]
    rw [hst] at hs1
    exact hp s r1 hs1 hes

theorem finalSemicolonOK_eq : finalSemicolonOK = true := by decide

theorem statementGotosOK_eq : statementGotosOK = true := by decide

theorem semicolon_cases (state : Nat) (e : Entry) (h : tableEntry state 7 = some e) :
    (e = .arr [1, 12] ∧ state = 4 ∧ tableEntry state 1 = some (.arr [2, 4])) ∨
    (∃ s, e = .arr [1, s] ∧ (s = 60 ∨ s = 61 ∨ s = 94) ∧ tableEntry state 1 = none) ∨
    (∃ p, e = .arr [2, p] ∧ (state = 108 ∨ tableEntry state 1 = some (.arr [2, p]))) := by
  unfold tableEntry at h ⊢
  cases hr : table.get? state with
  | none => rw [hr] at h; cases h
  | some row =>
    rw [hr] at h
    simp only at h ⊢
    have hall := finalSemicolonOK_eq
    simp only [finalSemicolonOK, List.all_eq_true] at hall
    have hrow := hall (state, row)
      (List.mk_mem_enum_iff_getElem?.mpr (by rw [← List.get?_eq_getElem?]; exact hr))
    simp only at hrow
    rw [h] at hrow
    split at hrow
    · rename_i heq; cases heq
    · rename_i s heq
      simp only [Option.some.injEq] at heq
      subst heq
      simp only [Bool.or_eq_true, Bool.and_eq_true, beq_iff_eq, Option.isNone_iff_eq_none]
        at hrow
      rcases hrow with ⟨⟨h1, h2⟩, h3⟩ | ⟨h1, h2⟩
      · subst h3
        exact Or.inl ⟨rfl, h1, isReduceBy_eq _ _ h2⟩
      · exact Or.inr (Or.inl ⟨s, rfl, by omega, h1⟩)
    · rename_i p heq
      simp only [Option.some.injEq] at heq
      subst heq
      simp only [Bool.or_eq_true, beq_iff_eq] at hrow
      rcases hrow with h1 | h1
      · exact Or.inr (Or.inr ⟨p, rfl, Or.inl h1⟩)
      · exact Or.inr (Or.inr ⟨p, rfl, Or.inr (isReduceBy_eq _ _ h1)⟩)
    · cases hrow

theorem goto_rule (below g : Nat) (h : tableEntry below 5 = some (.num g)) : g = 3 := by
  obtain ⟨row, hrow, hmem⟩ := tableEntry_mem below 5 _ h
  have hall := statementGotosOK_eq
  simp only [statementGotosOK, List.all_eq_true] at hall
  have := hall row hrow (5, _) hmem
  simpa using this

theorem goto_rules_list (below g : Nat) (h : tableEntry below 4 = some (.num g)) :
    g = 2 ∨ g = 51 := by
  obtain ⟨row, hrow, hmem⟩ := tableEntry_mem below 4 _ h
  have hall := statementGotosOK_eq
  simp only [statementGotosOK, List.all_eq_true] at hall
  have := hall row hrow (4, _) hmem
  simpa using this

/-- After the last statement, with the end of input as lookahead: the statement
is appended to the list of the statements and the parse returns the `seq` node
of the list. -/
theorem parseLoop_tail (fuel : Nat) (q : Parser Replay) (g below : Nat) (rest : List Nat)
    (v : JSVal) (vs : List JSVal) (hq : q.stack = g :: 5 :: below :: rest)
    (hg : tableEntry below 5 = some (.num g)) (hv : q.vstack = v :: vs)
    (hs : q.symbol = some (.num 1)) (A : JSVal)
    (h : parseLoop replay fuel q = some (.ok A)) :
    ∃ l, A = Ast.seq (l ++ [v]) := by
  have hg3 := goto_rule below g hg
  subst hg3
  cases fuel with
  | zero => cases h
  | succ n =>
    rw [parseLoop, step_known_reduce q (.num 1) 3 _ hq hs 3 (by rw [hq]; rfl)] at h
    cases hr : reduce 3 q.stack q.vstack with
    | error e => rw [hr] at h; cases h
    | ok out =>
      cases out with
      | ret r =>
        have := reduce_ret _ _ _ _ hr
        cases this
      | next st vs1 =>
        rw [hr] at h
        simp only at h
        obtain ⟨lhs, len, yyval, below2, rest2, g2, hprod, hact, _, hgoto, hst, hvs⟩ :=
          reduce_next 3 q.stack q.vstack _ _ hr
        have hp3 : productions_.get? 3 = some (4, 2) := rfl
        rw [hp3] at hprod
        cases hprod
        rw [hv] at hact
        have ha3 : performAction 3 (v :: vs) =
            (push (vs.getD 0 .undefined) v).bind (fun r => .ok (r, none)) := rfl
        rw [ha3] at hact
        obtain ⟨items, hitems⟩ : ∃ items, yyval = .arr (items ++ [v]) := by
          unfold push at hact
          split at hact
          · rename_i items _
            cases hact
            exact ⟨items, rfl⟩
          · cases hact
        subst hitems
        cases n with
        | zero => cases h
        | succ m =>
          rcases goto_rules_list below2 g2 hgoto with rfl | rfl
          · rw [parseLoop, step_known_reduce _ (.num 1) 2 _ hst rfl 1 (by rw [hst]; rfl)] at h
            simp only at h
            rw [hst, hvs] at h
            have hr1 : reduce 1 (2 :: 4 :: below2 :: rest2)
                (JSVal.arr (items ++ [v]) :: List.drop 2 q.vstack) =
                .ok (.ret (Ast.seq (items ++ [v]))) := rfl
            rw [hr1] at h
            simp only [Option.some.injEq, Except.ok.injEq] at h
            exact ⟨items, h.symm⟩
          · rw [parseLoop, step_known_none _ (.num 1) 51 _ hst rfl (by rw [hst]; rfl)] at h
            cases h

/-- After the `;` of an assignment, with the end of input as lookahead: the
assignment is the last statement of the tree. -/
theorem parseLoop_after_assign (fuel : Nat) (q : Parser Replay) (s p : Nat) (st0 : List Nat)
    (hq : q.stack = s :: 7 :: st0) (hs : q.symbol = some (.num 1))
    (ha : actionAt (s :: 7 :: st0) (.num 1) = some (.arr [2, p])) (hp : p = 6 ∨ p = 7)
    (A : JSVal) (h : parseLoop replay fuel q = some (.ok A)) :
    ∃ l v, A = Ast.seq (l ++ [v]) ∧ opOf v = .str "set" := by
  cases fuel with
  | zero => cases h
  | succ n =>
    rw [parseLoop, step_known_reduce q (.num 1) s _ hq hs p (by rw [hq]; exact ha)] at h
    cases hr : reduce p q.stack q.vstack with
    | error e => rw [hr] at h; cases h
    | ok out =>
      cases out with
      | ret r =>
        have := reduce_ret _ _ _ _ hr
        omega
      | next st vs =>
        rw [hr] at h
        simp only at h
        obtain ⟨lhs, len, yyval, below, rest2, g, hprod, hact, _, hgoto, hst, hvs⟩ :=
          reduce_next p q.stack q.vstack _ _ hr
        have hl : lhs = 5 ∧ opOf yyval = .str "set" := by
          rcases hp with rfl | rfl
          · have hp6 : productions_.get? 6 = some (5, 4) := rfl
            rw [hp6] at hprod
            cases hprod
            have ha6 : performAction 6 q.vstack =
                .ok (.obj [("op", .str "set"), ("var", q.vstack.getD 3 .undefined),
                  ("value", q.vstack.getD 1 .undefined)], none) := rfl
            rw [ha6] at hact
            cases hact
            exact ⟨rfl, rfl⟩
          · have hp7 : productions_.get? 7 = some (5, 4) := rfl
            rw [hp7] at hprod
            cases hprod
            have ha7 : performAction 7 q.vstack =
                .ok (.obj [("op", .str "set"), ("var", q.vstack.getD 3 .undefined),
                  ("value", q.vstack.getD 1 .undefined)], none) := rfl
            rw [ha7] at hact
            cases hact
            exact ⟨rfl, rfl⟩
        obtain ⟨rfl, hop⟩ := hl
        obtain ⟨l, hA⟩ := parseLoop_tail n _ g below rest2 yyval _ hst hgoto hvs rfl A h
        exact ⟨l, yyval, hA, hop⟩

/-- Two runs with the same stacks, one with the end of input as lookahead and one
with `;` as lookahead and the end of input after it. When the second succeeds, the
last statement of its tree decides the first: after an assignment it stops at a
syntax error on the end of input, after an expression statement it succeeds with
the same tree. -/
theorem parseLoop_final_semicolon (fuel : Nat) : ∀ (q1 q2 : Parser Replay) (A : JSVal),
    q1.stack = q2.stack → q1.vstack = q2.vstack → q1.symbol = some (.num 1) →
    q2.symbol = some (.num 7) → q2.lexer.toks.isEof = true → exprTop q2 →
    parseLoop replay fuel q2 = some (.ok A) →
    FinalResult A (parseLoop replay fuel q1) := by
  induction fuel with
  | zero => intro _ _ _ _ _ _ _ _ _ h; cases h
  | succ n ih =>
    intro q1 q2 A hst hvs hs1 hs2 heof hex h
    cases hstack : q2.stack with
    | nil => rw [parseLoop, step_nil q2 hstack] at h; cases h
    | cons state rest =>
      have hstack1 : q1.stack = state :: rest := by rw [hst, hstack]
      have both : ∀ p, p ≠ 1 → actionAt q2.stack (.num 7) = some (.arr [2, p]) →
          actionAt q1.stack (.num 1) = some (.arr [2, p]) →
          FinalResult A (parseLoop replay (n + 1) q1) := by
        intro p hp1 ha2 ha1
        have hstep2 := step_known_reduce q2 _ state rest hstack hs2 p ha2
        rw [parseLoop, step_known_reduce q1 _ state rest hstack1 hs1 p ha1, hst, hvs]
        rw [parseLoop] at h
        cases hr : reduce p q2.stack q2.vstack with
        | error e => rw [hstep2, hr] at h; cases h
        | ok out =>
          cases out with
          | ret r => exact absurd (reduce_ret _ _ _ _ hr) hp1
          | next st vs =>
            rw [hr] at hstep2
            simp only at hstep2
            rw [hstep2] at h
            simp only at h ⊢
            exact ih
              { stack := st, vstack := vs, symbol := some (.num 1), yylineno := q1.yylineno,
                lexer := q1.lexer }
              { stack := st, vstack := vs, symbol := some (.num 7), yylineno := q2.yylineno,
                lexer := q2.lexer } A rfl rfl rfl rfl heof (exprTop_step q2 _ hstep2 hex) h
      cases hd : defaultActions state with
      | some a0 =>
        have ha0 : a0 = .arr [2, 66] := by
          unfold defaultActions at hd
          split at hd
          · cases hd; rfl
          · cases hd
        apply both 66 (by omega)
        · rw [hstack]
          unfold actionAt
          simp only [hd, ha0]
        · rw [hstack1]
          unfold actionAt
          simp only [hd, ha0]
      | none =>
        have a2 : actionAt q2.stack (.num 7) = tableEntry state 7 := by
          rw [hstack]
          exact actionAt_table state rest _ hd
        have a1 : actionAt q1.stack (.num 1) = tableEntry state 1 := by
          rw [hstack1]
          exact actionAt_table state rest _ hd
        cases he : tableEntry state 7 with
        | none =>
          rw [parseLoop, step_known_none q2 _ state rest hstack hs2 (by rw [a2, he])] at h
          cases h
        | some e =>
          obtain ⟨y, m, htoks⟩ : ∃ y m, q2.lexer.toks = .eof y m := by
            cases ht : q2.lexer.toks with
            | eof y m => exact ⟨y, m, rfl⟩
            | cons _ _ _ _ => rw [ht] at heof; cases heof
            | fail _ => rw [ht] at heof; cases heof
            | stuck => rw [ht] at heof; cases heof
          rcases semicolon_cases state e he with
            ⟨rfl, rfl, h1⟩ | ⟨s, rfl, hs60, h1⟩ | ⟨p, rfl, h1 | h1⟩
          · rw [parseLoop, step_known_shift q2 7 4 rest hstack hs2 12 (by rw [a2, he])] at h
            simp only at h
            cases n with
            | zero => cases h
            | succ k =>
              rw [parseLoop_lex (k + 1) _ 12 (7 :: q2.stack) rfl rfl rfl (.num 1)
                { yytext := y, yylineno := m, toks := .eof y m }
                (by unfold Replay.lex; simp only [htoks])] at h
              rw [parseLoop, step_known_reduce _ (.num 1) 12 (7 :: q2.stack) rfl rfl 5 (by rfl)] at h
              simp only at h
              rw [reduce_5_4] at h
              rw [parseLoop, step_known_reduce q1 _ 4 rest hstack1 hs1 4 (by rw [a1, h1]),
                hst, hvs]
              cases hr : reduce 4 q2.stack q2.vstack with
              | error e => rw [hr] at h; cases h
              | ok out =>
                cases out with
                | ret r =>
                  have := reduce_ret _ _ _ _ hr
                  omega
                | next st vs =>
                  rw [hr] at h
                  simp only at h ⊢
                  obtain ⟨lhs, len, yyval, below, rest2, g, hprod, hact, _, hgoto, hst2, hvs2⟩ :=
                    reduce_next 4 q2.stack q2.vstack _ _ hr
                  have hp4 : productions_.get? 4 = some (5, 1) := rfl
                  rw [hp4] at hprod
                  cases hprod
                  have ha4 : performAction 4 q2.vstack =
                      .ok (q2.vstack.getD 0 .undefined, none) := rfl
                  rw [ha4] at hact
                  cases hact
                  obtain ⟨l, hA⟩ := parseLoop_tail k _ g below rest2 _ _ hst2 hgoto hvs2 rfl A h
                  have h4 := parseLoop_at_eof k
                    { stack := st, vstack := vs, symbol := some (.num 1),
                      yylineno := q2.lexer.yylineno,
                      lexer := { yytext := y, yylineno := m, toks := .eof y m } }
                    { stack := st, vstack := vs, symbol := some (.num 1),
                      yylineno := q1.yylineno, lexer := q1.lexer } A rfl rfl rfl rfl h
                  exact ⟨l, _, hA, Or.inr ⟨hex 4 rest hstack rfl,
                    parseLoop_mono replay k 1 _ _ h4⟩⟩
          · rw [parseLoop, step_known_shift q2 7 state rest hstack hs2 s (by rw [a2, he])] at h
            simp only at h
            have herr : ∃ m ln ex, parseLoop replay (n + 1) q1 =
                some (.error (.syntaxError m (some (.num 1)) ln ex)) := by
              refine ⟨q1.yylineno, q1.lexer.yylineno, expected (q1.stack.headD 0), ?_⟩
              rw [parseLoop, step_known_none q1 _ state rest hstack1 hs1 (by rw [a1, h1])]
            have hds : defaultActions s = none := by
              rcases hs60 with rfl | rfl | rfl <;> rfl
            rw [parseLoop_lex n _ s (7 :: q2.stack) rfl hds rfl (.num 1)
              { yytext := y, yylineno := m, toks := .eof y m }
              (by unfold Replay.lex; simp only [htoks])] at h
            rcases hs60 with rfl | rfl | rfl
            · obtain ⟨l, v, hA, hop⟩ := parseLoop_after_assign n _ 60 6 q2.stack rfl rfl rfl
                (Or.inl rfl) A h
              exact ⟨l, v, hA, Or.inl ⟨hop, herr⟩⟩
            · obtain ⟨l, v, hA, hop⟩ := parseLoop_after_assign n _ 61 7 q2.stack rfl rfl rfl
                (Or.inr rfl) A h
              exact ⟨l, v, hA, Or.inl ⟨hop, herr⟩⟩
            · cases n with
              | zero => cases h
              | succ k =>
                rw [parseLoop, step_known_none _ (.num 1) 94 (7 :: q2.stack) rfl rfl (by rfl)] at h
                cases h
          · subst h1
            cases hd
          · refine both p ?_ (by rw [a2, he]) (by rw [a1, h1])
            rintro rfl
            have := return_at_eof state 7 _ he rfl
            omega

/-- The parse of a token stream from the parse of the stream with a final `;`
appended. -/
theorem parseLoop_graft_final (f : Nat → TokStream)
    (hf : ∀ n, f n = .cons (.num 7) (.str ";") n (.eof (.str "") n)) (fuel : Nat) :
    ∀ (p : Parser Replay) (A : JSVal), p.lexer.toks.noEofToken = true →
      p.symbol ≠ some (.num 1) → exprTop p →
      parseLoop replay fuel (graft f p) = some (.ok A) →
      FinalResult A (parseLoop replay fuel p) := by
  induction fuel with
  | zero => intro p A _ _ _ h; cases h
  | succ n ih =>
    intro p A hno hsy hex h
    rcases graft_cases p with hc | ⟨state, rest, y, m, hstack, hd, hsym, htoks⟩
    · rw [parseLoop_graft_succ f p n hc] at h
      have hinv := lockstep_invariant p hc hno hsy
      rw [parseLoop]
      cases hs : step replay p with
      | none => rw [hs] at h; cases h
      | some r =>
        cases r with
        | error e => rw [hs] at h; cases h
        | ok x =>
          cases x with
          | inr B => exact absurd hs (hinv.1 B)
          | inl p1 =>
            rw [hs] at h
            obtain ⟨h1, h2⟩ := hinv.2 p1 hs
            exact ih p1 A h1 h2 (exprTop_step p p1 hs hex) h
    · have hl1 : p.lexer.lex =
          some (.ok (.num 1, { yytext := y, yylineno := m, toks := .eof y m })) := by
        unfold Replay.lex
        rw [htoks]
      have hl2 : (graft f p).lexer.lex =
          some (.ok (.num 7, { yytext := .str ";", yylineno := m,
                               toks := .eof (.str "") m })) := by
        unfold Replay.lex graft
        simp only [htoks, TokStream.bindEof, hf]
      rw [parseLoop_lex (n + 1) (graft f p) state rest hstack hd hsym _ _ hl2] at h
      rw [parseLoop_lex (n + 1) p state rest hstack hd hsym _ _ hl1]
      exact parseLoop_final_semicolon (n + 1)
        { p with symbol := some (.num 1),
                 lexer := { yytext := y, yylineno := m, toks := .eof y m } }
        { graft f p with symbol := some (.num 7),
                         lexer := { yytext := .str ";", yylineno := m,
                                    toks := .eof (.str "") m } } A rfl rfl rfl rfl rfl
        (fun s r h1 h2 => hex s r h1 h2) h

theorem tokenize_semicolon_end (n : Nat) :
    tokenize (lexerAt [';'] n) = .cons (.num 7) (.str ";") n (.eof (.str "") n) := by
  unfold lexerAt
  rw [tokenize_nonempty _ (by simp)]
  rfl

/-- The parse of a text followed by `;`: the run on the token stream of the text
with `;` before its end. -/
theorem parse_semicolon_ext (s : List Char) (fuel : Nat) :
    parseTokens fuel (tokenize (lexerAt (s ++ [';']) 0)) =
      parseLoop replay fuel (graft (fun n1 => tokenize (lexerAt [';'] n1))
        (initial { yytext := .str "", yylineno := 0, toks := tokenize (lexerAt s 0) })) := by
  unfold lexerAt
  rw [tokenize_ext ';' [] rfl s.length s (.str "") 0 (Nat.le_refl _) (Or.inr ⟨rfl, rfl⟩)]
  rfl

/-- C10, counterexample: `x = 5;` parses, its last token is the `;` that ends the
assignment, and `x = 5` does not parse with any fuel: it stops at a syntax error
on the end of input. -/
theorem C10_counterexample :
    parse 64 "x = 5;" = some (.ok (Ast.seq [Ast.set "x" (.num (.int 5))])) ∧
    parse 64 "x = 5" = some (.error (.syntaxError 0 (some (.num 1)) 0
      [7, 18, 29, 30, 31, 32, 33, 34, 35, 36, 37, 38, 39, 41, 42, 43])) ∧
    ∀ fuel A, parse fuel "x = 5" ≠ some (.ok A) := by
  have h : parse 64 "x = 5" = some (.error (.syntaxError 0 (some (.num 1)) 0
      [7, 18, 29, 30, 31, 32, 33, 34, 35, 36, 37, 38, 39, 41, 42, 43])) := by rfl
  refine ⟨by rfl, h, ?_⟩
  intro fuel A hA
  have h1 := parse_mono fuel 64 _ _ hA
  have h2 := parse_mono 64 fuel _ _ h
  rw [Nat.add_comm, h2] at h1
  cases h1

/-- C10, amended: for every text `T`, when `T` followed by `;` parses to `A`, the
tree `A` is a sequence with a last statement `v`, and `v` decides what the final
`;` is to the script. When `v` is the node of an expression statement (its `op`
is `switch`, `cond` or `return`), the `;` is optional: `T` without it parses to
the same tree `A`, with the same fuel. When `v` is an assignment (its `op` is
`set`), the `;` is required: `T` without it stops at a syntax error on the end of
input (token 1). -/
theorem C10_final_terminator (T : String) (A : JSVal) (fuel : Nat)
    (h : parse fuel (T ++ ";") = some (.ok A)) :
    ∃ sts v, A = Ast.seq (sts ++ [v]) ∧
      ((opOf v = .str "set" ∧
          ∃ m ln ex, parse fuel T = some (.error (.syntaxError m (some (.num 1)) ln ex))) ∨
        ((opOf v = .str "switch" ∨ opOf v = .str "cond" ∨ opOf v = .str "return") ∧
          parse fuel T = some (.ok A))) := by
  have d : setInput (T ++ ";") = lexerAt (T.data ++ [';']) 0 := by
    simp [setInput, lexerAt, String.data_append]
  rw [parse_eq_parseTokens, d, parse_semicolon_ext] at h
  rw [parse_eq_parseTokens]
  have hno := tokenize_noEofToken T.data.length T.data (.str "") 0 (Nat.le_refl _)
  exact parseLoop_graft_final _ tokenize_semicolon_end fuel
    (initial { yytext := .str "", yylineno := 0, toks := tokenize (lexerAt T.data 0) }) A hno
    (fun h1 => (by cases h1)) (fun s r h1 h2 => (by cases h1; cases h2)) h

theorem C10_final_terminator_witness :
    parse 64 ("return x" ++ ";") = some (.ok (Ast.seq [Ast.unary "return" (Ast.get "x")])) ∧
    ∃ sts v, Ast.seq [Ast.unary "return" (Ast.get "x")] = Ast.seq (sts ++ [v]) ∧
      ((opOf v = .str "set" ∧
          ∃ m ln ex, parse 64 "return x" =
            some (.error (.syntaxError m (some (.num 1)) ln ex))) ∨
        ((opOf v = .str "switch" ∨ opOf v = .str "cond" ∨ opOf v = .str "return") ∧
          parse 64 "return x" = some (.ok (Ast.seq [Ast.unary "return" (Ast.get "x")])))) :=
  ⟨by rfl, C10_final_terminator "return x" _ 64 (by rfl)⟩

theorem good_arr_items (items : List JSVal) (h : Good (.arr items)) : ∀ x ∈ items, Good x :=
  fun x hx n hn => h n (AstNode.item n items x hx hn)

theorem perform_shift (ns k : Nat) (tl st : List Nat) (vs : List JSVal) (y : JSVal) (l m : Nat) :
    perform (some (.arr (1 :: ns :: tl))) st vs (some (.num k)) y l m =
      .ok (.next (ns :: k :: st) (y :: vs), none, l) := rfl

theorem restText_ne_nil (rest : List Arg) : restText rest ≠ [] := by
  cases rest <;> simp [restText]

end PlanOut
